import Mathlib

/-!
# Transmit path of the mcp25xxfd CAN-FD driver

Shallow embedding of `drivers/net/can/spi/mcp25xxfd/mcp25xxfd_can_tx.c`.

* `u32` values are natural numbers, truncated with `% 2 ^ 32` where the C code
  stores into a 32 bit object; `BIT` is the 64 bit `1UL << n`, the shift count
  taken modulo 64; the `unsigned long` statistics counters wrap modulo `2 ^ 64`.
* The driver state `mcp25xxfd_can_priv` is passed explicitly.  Pointers to
  `struct mcp25xxfd_tx_spi_message` are indices into `tx_queue.message`.
* Everything the driver does to its surroundings (queue wake and stop, log
  lines, bus transactions, echo frames) is appended to `trace` in program order.
* The SPI bus is simulated: every bus call consumes the next scripted reply
  (`spi_replies`), accepted asynchronous messages wait in `spi_pending` until
  their completion callback is delivered.
* Spinlocks are not modelled; each function of the source is one atomic step.
-/

namespace Mcp25xxfd

/-! ## Machine integers -/

/-- Kernel macro BIT(n), that is 1UL << n on a 64 bit unsigned long.  A shift
count of 64 or more is undefined in C; the shift instruction of the 64 bit
targets of the driver uses the count modulo 64, which is what is modelled. -/
def BIT (n : Nat) : Nat := (1 <<< (n % 64)) % 2 ^ 64

/-- C operator ~ applied to an unsigned long. -/
def not_ul (x : Nat) : Nat := (2 ^ 64 - 1) ^^^ (x % 2 ^ 64)

/-- Scan of the bits i, i+1, .. of x, at most n of them, for the first set one;
the answer is one plus its index, or 0 when none of them is set. -/
def ffs_scan (x : Nat) : Nat → Nat → Nat
  | 0, _ => 0
  | n + 1, i => if x.testBit i then i + 1 else ffs_scan x n (i + 1)

/-- Modelled from the spec: the kernel helper ffs (find first set) is not under
src/.  It returns one plus the index of the least significant set bit of a
32 bit word and 0 for the word 0; first_idle of the spec is the lowest index. -/
def ffs (x : Nat) : Nat := ffs_scan (x % 2 ^ 32) 32 0

/-- Kernel macro FIELD_GET(mask, reg): the bits of reg selected by mask, shifted
down by the position of the lowest bit of mask. -/
def FIELD_GET (mask reg : Nat) : Nat := (reg &&& mask) >>> (ffs mask - 1)

/-- Little endian bytes of a 32 bit word (cpu_to_le32 followed by a byte copy). -/
def le32_bytes (x : Nat) : List Nat :=
  [x % 256, (x / 2 ^ 8) % 256, (x / 2 ^ 16) % 256, (x / 2 ^ 24) % 256]

/-- C memcpy(dst, src, n) on byte lists: the first n bytes of dst are replaced
by the first n bytes of src. -/
def memcpy (dst src : List Nat) (n : Nat) : List Nat :=
  (List.range n).map (fun i => src.getD i 0) ++ dst.drop n

/-! ## CAN core helpers (not part of the driver file) -/

/-- Flag bit of can_id marking an extended (29 bit) identifier. -/
def CAN_EFF_FLAG : Nat := 0x80000000

/-- Flag bit of can_id marking a remote transmission request. -/
def CAN_RTR_FLAG : Nat := 0x40000000

/-- Bit rate switch flag of a CAN FD frame. -/
def CANFD_BRS : Nat := 0x01

/-- Error state indicator flag of a CAN FD frame. -/
def CANFD_ESI : Nat := 0x02

/-- Size of struct can_frame, the length of a classic CAN skb. -/
def CAN_MTU : Nat := 16

/-- Size of struct canfd_frame, the length of a CAN FD skb. -/
def CANFD_MTU : Nat := 72

/-- Protocol number of classic CAN frames. -/
def ETH_P_CAN : Nat := 0x000C

/-- Protocol number of CAN FD frames. -/
def ETH_P_CANFD : Nat := 0x000D

/-- Modelled from the spec: can_dlc2len of the CAN core is not under src/; it maps
a data-length code (lowest four bits) to the payload length in bytes. -/
def can_dlc2len (dlc : Nat) : Nat :=
  [0, 1, 2, 3, 4, 5, 6, 7, 8, 12, 16, 20, 24, 32, 48, 64].getD (dlc % 16) 0

/-- Modelled from the spec: can_len2dlc of the CAN core is not under src/; it maps
a payload length to the smallest data-length code that can carry it. -/
def can_len2dlc (len : Nat) : Nat :=
  if len ≤ 8 then len
  else if len ≤ 12 then 9
  else if len ≤ 16 then 10
  else if len ≤ 20 then 11
  else if len ≤ 24 then 12
  else if len ≤ 32 then 13
  else if len ≤ 48 then 14
  else 15

/-- Frame as laid out in skb->data.  struct can_frame and struct canfd_frame
share this layout: byte 4 is can_dlc for a classic frame and len for an FD
frame, byte 5 is the FD flags byte. -/
structure canfd_frame where
  can_id : Nat
  len : Nat
  flags : Nat
  data : List Nat
deriving DecidableEq, Repr, Inhabited

/-- Socket buffer handed down by the network stack. -/
structure sk_buff where
  protocol : Nat
  len : Nat
  data : canfd_frame
deriving DecidableEq, Repr, Inhabited

/-- Modelled from the spec: can_dropped_invalid_skb of the CAN core is not under
src/.  A frame is valid when it is a classic frame of CAN_MTU bytes with at
most 8 payload bytes or an FD frame of CANFD_MTU bytes with at most 64. -/
def can_dropped_invalid_skb (skb : sk_buff) : Bool :=
  if skb.protocol = ETH_P_CAN then
    decide (skb.len ≠ CAN_MTU ∨ skb.data.len > 8)
  else if skb.protocol = ETH_P_CANFD then
    decide (skb.len ≠ CANFD_MTU ∨ skb.data.len > 64)
  else true

/-- Test of the CAN core whether the skb carries an FD frame. -/
def can_is_canfd_skb (skb : sk_buff) : Bool := decide (skb.len = CANFD_MTU)

/-! ## Register layout and frame encoding (headers that are not under src/) -/

/-- Flow-control state of the transmit queue.  Modelled from the spec: the
enumerators live in mcp25xxfd_can_tx.h, which is not under src/; the spec
names the four states Stopped, Started, Runnable and Restarting. -/
inductive tx_queue_state where
  | MCP25XXFD_CAN_TX_QUEUE_STATE_STOPPED
  | MCP25XXFD_CAN_TX_QUEUE_STATE_STARTED
  | MCP25XXFD_CAN_TX_QUEUE_STATE_RUNABLE
  | MCP25XXFD_CAN_TX_QUEUE_STATE_RESTART
deriving DecidableEq, Repr, Inhabited

export tx_queue_state (MCP25XXFD_CAN_TX_QUEUE_STATE_STOPPED
  MCP25XXFD_CAN_TX_QUEUE_STATE_STARTED MCP25XXFD_CAN_TX_QUEUE_STATE_RUNABLE
  MCP25XXFD_CAN_TX_QUEUE_STATE_RESTART)

/-- Constants, macros and helpers of mcp25xxfd_regs.h, mcp25xxfd_cmd.h,
mcp25xxfd_can_id.h and mcp25xxfd_can_tx.h.  None of these headers is under
src/, so the driver functions take them as a parameter. -/
structure Layout where
  /-- Identifier packing mcp25xxfd_can_id_to_mcp25xxfd: can_id to (id, flags). -/
  can_id_to_mcp25xxfd : Nat → Nat × Nat
  /-- Command bytes mcp25xxfd_cmd_calc(instruction, address). -/
  cmd_calc : Nat → Nat → List Nat
  /-- Index of the first byte of a register touched by a mask. -/
  cmd_first_byte : Nat → Nat
  /-- Size in bytes of the cmd member of a message buffer. -/
  sizeof_cmd : Nat
  /-- Size in bytes of the data member of the trigger buffer. -/
  sizeof_trigger_data : Nat
  INSTRUCTION_WRITE : Nat
  SRAM_ADDR : Nat → Nat
  CAN_FIFOCON : Nat → Nat
  CAN_FIFOSTA : Nat → Nat
  CAN_FIFOCON_TXREQ : Nat
  CAN_FIFOCON_UINC : Nat
  CAN_FIFOSTA_TXABT : Nat
  CAN_FIFOSTA_TXLARB : Nat
  CAN_FIFOSTA_TXERR : Nat
  CAN_FIFOSTA_TXATIF : Nat
  CAN_TEFCON : Nat
  CAN_TEFCON_UINC : Nat
  CAN_TEFSTA : Nat
  CAN_TEFSTA_TEFNEIF : Nat
  CAN_INT_TEFIF : Nat
  CAN_OBJ_FLAGS_SEQ_SHIFT : Nat
  CAN_OBJ_FLAGS_SEQ_MASK : Nat
  CAN_OBJ_FLAGS_DLC_SHIFT : Nat
  CAN_OBJ_FLAGS_DLC_MASK : Nat
  CAN_OBJ_FLAGS_IDE : Nat
  CAN_OBJ_FLAGS_RTR : Nat
  CAN_OBJ_FLAGS_BRS : Nat
  CAN_OBJ_FLAGS_ESI : Nat
  CAN_OBJ_FLAGS_FDF : Nat
  /-- State stored by the zero bytes of kzalloc (the enumerator with value 0). -/
  TX_QUEUE_STATE_zero : tx_queue_state

/-- Size of struct mcp25xxfd_can_obj_tx without payload: identifier and flags,
4 bytes each (slot image format of the spec). -/
def sizeof_can_obj_tx : Nat := 8

/-- Size of struct mcp25xxfd_can_obj_tef: identifier, flags and timestamp. -/
def sizeof_can_obj_tef : Nat := 12

/-! ## Data model -/

/-- Transmit object (slot image) in device memory: identifier, flags, payload. -/
structure mcp25xxfd_can_obj_tx where
  id : Nat
  flags : Nat
  data : List Nat
deriving DecidableEq, Repr, Inhabited

/-- Transmit-event record in device memory. -/
structure mcp25xxfd_can_obj_tef where
  id : Nat
  flags : Nat
  ts : Nat
deriving DecidableEq, Repr, Inhabited

/-- Per-slot pair of pre-built bus transactions (struct mcp25xxfd_tx_spi_message).
fill_fifo_header holds the members header and data of fill_fifo.data, which
are adjacent in memory and written as one region. -/
structure mcp25xxfd_tx_spi_message where
  fifo : Nat
  fill_fifo_xfer_len : Nat
  fill_fifo_cmd : List Nat
  fill_fifo_header : List Nat
  trigger_fifo_xfer_len : Nat
  trigger_fifo_cmd : List Nat
  trigger_fifo_data : Nat
deriving DecidableEq, Repr, Inhabited

/-- Transmit queue (struct mcp25xxfd_tx_spi_message_queue): the five ownership
bitmasks, the flow-control state, the map from slot to message (an index into
message, none for a NULL pointer) and the messages themselves. -/
structure mcp25xxfd_tx_spi_message_queue where
  idle : Nat
  in_fill_fifo_transfer : Nat
  in_trigger_fifo_transfer : Nat
  in_can_transfer : Nat
  transferred : Nat
  state : tx_queue_state
  fifo2message : List (Option Nat)
  message : List mcp25xxfd_tx_spi_message
deriving DecidableEq, Repr, Inhabited

/-- One of the two bus transactions of a message. -/
inductive spi_message_ref where
  | fill_fifo (msg : Nat)
  | trigger_fifo (msg : Nat)
deriving DecidableEq, Repr, Inhabited

/-- Reply of the simulated bus to one call: return code and the words read. -/
structure spi_reply where
  ret : Int
  data : List Nat
deriving DecidableEq, Repr, Inhabited

/-- Observable actions of the driver, in program order. -/
inductive Event where
  | netif_wake_queue
  | netif_stop_queue
  | netdev_err_unsupported_state (state : tx_queue_state)
  | netdev_err_async_failed (fifo : Nat) (ret : Int)
  | netdev_err_tef_not_pending (fifo id flags ts : Nat)
  | netdev_warn_no_finished_fifo
  | spi_async (m : spi_message_ref) (ret : Int)
  | cmd_read_regs (addr len : Nat) (ret : Int)
  | cmd_read (reg : Nat) (ret : Int)
  | cmd_read_mask (reg mask : Nat) (ret : Int)
  | cmd_write_mask (reg val mask : Nat) (ret : Int)
  | can_put_echo_skb (idx : Nat)
  | can_get_echo_skb (idx : Nat)
  | can_queue_frame (fifo ts : Nat) (is_rx : Bool)
deriving DecidableEq, Repr, Inhabited

/-- Driver state (struct mcp25xxfd_can_priv) together with the simulated bus.
Device memory is kept per object: sram_tx and sram_tef map a byte offset to
the object stored there.  The statistics counters are unsigned long in C:
every increment is taken modulo 2^64. -/
structure mcp25xxfd_can_priv where
  tx_start : Nat
  tx_count : Nat
  info_offset : List Nat
  tef_index : Nat
  tef_size : Nat
  tef_count : Nat
  tx_queue : mcp25xxfd_tx_spi_message_queue
  sram_tx : List (Nat × mcp25xxfd_can_obj_tx)
  sram_tef : List (Nat × mcp25xxfd_can_obj_tef)
  status_intf : Nat
  status_txreq : Nat
  status_txatif : Nat
  status_txif : Nat
  stats_tx_packets : Nat
  stats_tx_bytes : Nat
  stats_tx_aborted_errors : Nat
  stats_tx_dropped : Nat
  echo_skb : List (Nat × sk_buff)
  queued_frames : List (Nat × Nat × Bool)
  spi_replies : List spi_reply
  spi_pending : List spi_message_ref
  trace : List Event
deriving DecidableEq, Repr, Inhabited

/-- Return value of the transmit entry point. -/
inductive netdev_tx_t where
  | NETDEV_TX_OK
  | NETDEV_TX_BUSY
deriving DecidableEq, Repr, Inhabited

export netdev_tx_t (NETDEV_TX_OK NETDEV_TX_BUSY)

/-! ## Surroundings: network stack, CAN core, bus driver -/

/-- Append one event to the trace. -/
def emit (e : Event) (cpriv : mcp25xxfd_can_priv) : mcp25xxfd_can_priv :=
  { cpriv with trace := cpriv.trace ++ [e] }

/-- Lookup in an offset-indexed object store; absent objects read as zero. -/
def slot_map_get {α : Type} [Inhabited α] (m : List (Nat × α)) (off : Nat) : α :=
  match m.find? (fun p => p.1 == off) with
  | some p => p.2
  | none => default

/-- Store an object at an offset, replacing what was there. -/
def slot_map_put {α : Type} (m : List (Nat × α)) (off : Nat) (v : α) : List (Nat × α) :=
  (off, v) :: m.filter (fun p => !(p.1 == off))

/-- Next reply of the simulated bus; once the script is used up every call
succeeds and reads zeros. -/
def spi_next_reply (cpriv : mcp25xxfd_can_priv) : spi_reply × mcp25xxfd_can_priv :=
  match cpriv.spi_replies with
  | [] => ({ ret := 0, data := [] }, cpriv)
  | r :: rs => (r, { cpriv with spi_replies := rs })

/-- Modelled from the spec: spi_async of the bus driver is not under src/
(submit_async of the spec: fire-and-forget, accepted or error, the completion
callback of an accepted transaction is invoked exactly once).  An accepted
message is appended to spi_pending. -/
def spi_async (m : spi_message_ref) (cpriv : mcp25xxfd_can_priv) :
    Int × mcp25xxfd_can_priv :=
  let (r, c) := spi_next_reply cpriv
  let c := emit (Event.spi_async m r.ret) c
  if r.ret ≠ 0 then (r.ret, c)
  else (0, { c with spi_pending := c.spi_pending ++ [m] })

/-- Modelled from the spec: mcp25xxfd_cmd_read_regs (mcp25xxfd_cmd.h, not under
src/) reads len bytes at an address; read(address, length) of the spec. -/
def mcp25xxfd_cmd_read_regs (addr len : Nat) (cpriv : mcp25xxfd_can_priv) :
    spi_reply × mcp25xxfd_can_priv :=
  let (r, c) := spi_next_reply cpriv
  (r, emit (Event.cmd_read_regs addr len r.ret) c)

/-- Modelled from the spec: mcp25xxfd_cmd_read (not under src/) reads one 32 bit
register. -/
def mcp25xxfd_cmd_read (reg : Nat) (cpriv : mcp25xxfd_can_priv) :
    (Int × Nat) × mcp25xxfd_can_priv :=
  let (r, c) := spi_next_reply cpriv
  ((r.ret, r.data.getD 0 0 % 2 ^ 32), emit (Event.cmd_read reg r.ret) c)

/-- Modelled from the spec: mcp25xxfd_cmd_read_mask (not under src/) reads one
register and keeps the bits of mask. -/
def mcp25xxfd_cmd_read_mask (reg mask : Nat) (cpriv : mcp25xxfd_can_priv) :
    (Int × Nat) × mcp25xxfd_can_priv :=
  let (r, c) := spi_next_reply cpriv
  ((r.ret, (r.data.getD 0 0 % 2 ^ 32) &&& mask), emit (Event.cmd_read_mask reg mask r.ret) c)

/-- Modelled from the spec: mcp25xxfd_cmd_write_mask (not under src/) writes the
bits of mask of one register; write(address, bytes) of the spec. -/
def mcp25xxfd_cmd_write_mask (reg val mask : Nat) (cpriv : mcp25xxfd_can_priv) :
    Int × mcp25xxfd_can_priv :=
  let (r, c) := spi_next_reply cpriv
  (r.ret, emit (Event.cmd_write_mask reg val mask r.ret) c)

/-- Modelled from the spec: netif_wake_queue of the network stack (start signal
to the upstream transport). -/
def netif_wake_queue (cpriv : mcp25xxfd_can_priv) : mcp25xxfd_can_priv :=
  emit Event.netif_wake_queue cpriv

/-- Modelled from the spec: netif_stop_queue of the network stack (pause signal
to the upstream transport). -/
def netif_stop_queue (cpriv : mcp25xxfd_can_priv) : mcp25xxfd_can_priv :=
  emit Event.netif_stop_queue cpriv

/-- Modelled from the spec: can_put_echo_skb of the CAN core is not under src/;
the frame handed down is kept at the given index until the slot is released. -/
def can_put_echo_skb (skb : sk_buff) (idx : Nat) (cpriv : mcp25xxfd_can_priv) :
    mcp25xxfd_can_priv :=
  emit (Event.can_put_echo_skb idx) { cpriv with echo_skb := slot_map_put cpriv.echo_skb idx skb }

/-- Modelled from the spec: can_get_echo_skb of the CAN core is not under src/;
the frame kept at the index is handed back to the transport and the index is
emptied. -/
def can_get_echo_skb (idx : Nat) (cpriv : mcp25xxfd_can_priv) : mcp25xxfd_can_priv :=
  emit (Event.can_get_echo_skb idx)
    { cpriv with echo_skb := cpriv.echo_skb.filter (fun p => !(p.1 == idx)) }

/-- Modelled from the spec: mcp25xxfd_can_queue_frame (mcp25xxfd_can.h, not under
src/) schedules a finished slot, with its timestamp, for submission back to
the network stack. -/
def mcp25xxfd_can_queue_frame (fifo ts : Nat) (is_rx : Bool) (cpriv : mcp25xxfd_can_priv) :
    mcp25xxfd_can_priv :=
  emit (Event.can_queue_frame fifo ts is_rx)
    { cpriv with queued_frames := cpriv.queued_frames ++ [(fifo, ts, is_rx)] }

/-! ## The driver: slot ownership tracker -/

/-- Message behind a message pointer. -/
def msg_at (q : mcp25xxfd_tx_spi_message_queue) (i : Nat) : mcp25xxfd_tx_spi_message :=
  q.message.getD i default

/-- Lines 27-37: the message of the lowest slot set in the bitmap, or NULL. -/
def mcp25xxfd_can_tx_queue_first_spi_message (queue : mcp25xxfd_tx_spi_message_queue)
    (bitmap : Nat) : Option Nat :=
  let first := ffs bitmap
  if first = 0 then none
  else queue.fifo2message.getD (first - 1) none

/-- Lines 39-42: clear the bit of a slot in a 32 bit bitmap. -/
def mcp25xxfd_can_tx_queue_remove_spi_message (bitmap fifo : Nat) : Nat :=
  (bitmap &&& not_ul (BIT fifo)) % 2 ^ 32

/-- Lines 44-47: set the bit of a slot in a 32 bit bitmap. -/
def mcp25xxfd_can_tx_queue_add_spi_message (bitmap fifo : Nat) : Nat :=
  (bitmap ||| BIT fifo) % 2 ^ 32

/-- Lines 49-54: move a slot from src to dest; the result is (src, dest). -/
def mcp25xxfd_can_tx_queue_move_spi_message (src dest fifo : Nat) : Nat × Nat :=
  (mcp25xxfd_can_tx_queue_remove_spi_message src fifo,
   mcp25xxfd_can_tx_queue_add_spi_message dest fifo)

/-- Lines 56-75: completion callback of the fill transaction of message context. -/
def mcp25xxfd_can_tx_spi_message_fill_fifo_complete (L : Layout) (context : Nat)
    (cpriv : mcp25xxfd_can_priv) : mcp25xxfd_can_priv :=
  let q := cpriv.tx_queue
  let msg := msg_at q context
  let msg := { msg with fill_fifo_xfer_len := L.sizeof_cmd + sizeof_can_obj_tx }
  let mv := mcp25xxfd_can_tx_queue_move_spi_message q.in_fill_fifo_transfer
    q.in_trigger_fifo_transfer msg.fifo
  { cpriv with tx_queue :=
      { q with message := q.message.set context msg
               in_fill_fifo_transfer := mv.1
               in_trigger_fifo_transfer := mv.2 } }

/-- Lines 77-92: completion callback of the trigger transaction of message context. -/
def mcp25xxfd_can_tx_spi_message_trigger_fifo_complete (context : Nat)
    (cpriv : mcp25xxfd_can_priv) : mcp25xxfd_can_priv :=
  let q := cpriv.tx_queue
  let msg := msg_at q context
  let mv := mcp25xxfd_can_tx_queue_move_spi_message q.in_trigger_fifo_transfer
    q.in_can_transfer msg.fifo
  { cpriv with tx_queue :=
      { q with in_trigger_fifo_transfer := mv.1
               in_can_transfer := mv.2 } }

/-- Lines 94-141: build the two transaction templates of message index i for
slot fifo and add the slot to idle. -/
def mcp25xxfd_can_tx_message_init (L : Layout) (cpriv : mcp25xxfd_can_priv)
    (i fifo : Nat) : mcp25xxfd_can_priv :=
  let trigger := (L.CAN_FIFOCON_TXREQ ||| L.CAN_FIFOCON_UINC) % 2 ^ 32
  let first_byte := L.cmd_first_byte trigger
  let q := cpriv.tx_queue
  let msg := msg_at q i
  let addr := L.SRAM_ADDR (cpriv.info_offset.getD fifo 0)
  let msg := { msg with
    fifo := fifo
    fill_fifo_xfer_len := L.sizeof_cmd + sizeof_can_obj_tx
    fill_fifo_cmd := L.cmd_calc L.INSTRUCTION_WRITE addr
    trigger_fifo_xfer_len := L.sizeof_cmd + L.sizeof_trigger_data
    trigger_fifo_cmd := L.cmd_calc L.INSTRUCTION_WRITE (L.CAN_FIFOCON fifo + first_byte)
    trigger_fifo_data := (trigger >>> (8 * first_byte)) % 2 ^ 8 }
  { cpriv with tx_queue :=
      { q with message := q.message.set i msg
               idle := mcp25xxfd_can_tx_queue_add_spi_message q.idle fifo } }

/-! ## The driver: flow-control state machine -/

/-- Lines 143-186: start or stop the upstream queue as the requested state asks. -/
def mcp25xxfd_can_tx_queue_manage_nolock (cpriv : mcp25xxfd_can_priv)
    (state : tx_queue_state) : mcp25xxfd_can_priv :=
  if state = cpriv.tx_queue.state then cpriv
  else
    match cpriv.tx_queue.state with
    | MCP25XXFD_CAN_TX_QUEUE_STATE_RUNABLE =>
      match state with
      | MCP25XXFD_CAN_TX_QUEUE_STATE_RESTART
      | MCP25XXFD_CAN_TX_QUEUE_STATE_STARTED =>
        let c := netif_wake_queue cpriv
        { c with tx_queue := { c.tx_queue with state := MCP25XXFD_CAN_TX_QUEUE_STATE_STARTED } }
      | _ => cpriv
    | MCP25XXFD_CAN_TX_QUEUE_STATE_STOPPED =>
      match state with
      | MCP25XXFD_CAN_TX_QUEUE_STATE_STARTED =>
        let c := netif_wake_queue cpriv
        { c with tx_queue := { c.tx_queue with state := state } }
      | _ => cpriv
    | MCP25XXFD_CAN_TX_QUEUE_STATE_STARTED =>
      match state with
      | MCP25XXFD_CAN_TX_QUEUE_STATE_RUNABLE
      | MCP25XXFD_CAN_TX_QUEUE_STATE_STOPPED =>
        let c := netif_stop_queue cpriv
        { c with tx_queue := { c.tx_queue with state := state } }
      | _ => cpriv
    | _ => emit (Event.netdev_err_unsupported_state cpriv.tx_queue.state) cpriv

/-- Lines 188-197: the locked wrapper. -/
def mcp25xxfd_can_tx_queue_manage (cpriv : mcp25xxfd_can_priv) (state : tx_queue_state) :
    mcp25xxfd_can_priv :=
  mcp25xxfd_can_tx_queue_manage_nolock cpriv state

/-- Lines 199-223: move everything from transferred to idle and enable the queue,
but only when nothing is idle or pending. -/
def mcp25xxfd_can_tx_queue_restart (cpriv : mcp25xxfd_can_priv) : mcp25xxfd_can_priv :=
  let state := MCP25XXFD_CAN_TX_QUEUE_STATE_RESTART
  let q := cpriv.tx_queue
  let mask := q.idle ||| q.in_fill_fifo_transfer ||| q.in_trigger_fifo_transfer |||
    q.in_can_transfer
  if mask ≠ 0 then cpriv
  else
    let c := { cpriv with tx_queue :=
      { q with idle := q.idle ||| q.transferred, transferred := 0 } }
    mcp25xxfd_can_tx_queue_manage_nolock c state

/-! ## The driver: completion processor -/

/-- Lines 225-264: read one transmit-event record, schedule the slot it names
for release, advance the read cursor and acknowledge the record. -/
def mcp25xxfd_can_tx_handle_int_tefif_fifo (L : Layout) (cpriv : mcp25xxfd_can_priv) :
    Int × mcp25xxfd_can_priv :=
  let tef_offset := (cpriv.tef_index * cpriv.tef_size) % 2 ^ 32
  let (r, c) := mcp25xxfd_cmd_read_regs (L.SRAM_ADDR tef_offset) sizeof_can_obj_tef cpriv
  if r.ret ≠ 0 then (r.ret, c)
  else
    let tef : mcp25xxfd_can_obj_tef :=
      { id := r.data.getD 0 0 % 2 ^ 32
        flags := r.data.getD 1 0 % 2 ^ 32
        ts := r.data.getD 2 0 % 2 ^ 32 }
    let c := { c with sram_tef := slot_map_put c.sram_tef tef_offset tef }
    let fifo := FIELD_GET L.CAN_OBJ_FLAGS_SEQ_MASK tef.flags
    let c :=
      if c.tx_queue.in_can_transfer &&& BIT fifo = 0 then
        emit (Event.netdev_err_tef_not_pending fifo tef.id tef.flags tef.ts) c
      else c
    let c := mcp25xxfd_can_queue_frame fifo tef.ts false c
    let c := { c with tef_index := (c.tef_index + 1) % 2 ^ 32 }
    let c := if c.tef_index ≥ c.tef_count then { c with tef_index := 0 } else c
    mcp25xxfd_cmd_write_mask L.CAN_TEFCON L.CAN_TEFCON_UINC L.CAN_TEFCON_UINC c

/-- Loop of lines 286-298, entered with the flag word just read.  Every
iteration costs one unit of fuel; none means the fuel ran out. -/
def tefif_conservative_loop (L : Layout) :
    Nat → Nat → mcp25xxfd_can_priv → Option (Int × mcp25xxfd_can_priv)
  | 0, _, _ => none
  | fuel + 1, tefsta, cpriv =>
    if tefsta &&& L.CAN_TEFSTA_TEFNEIF = 0 then some (0, cpriv)
    else
      let (ret, c) := mcp25xxfd_can_tx_handle_int_tefif_fifo L cpriv
      if ret ≠ 0 then some (ret, c)
      else
        let (rv, c) := mcp25xxfd_cmd_read_mask L.CAN_TEFSTA L.CAN_TEFSTA_TEFNEIF c
        if rv.1 ≠ 0 then some (rv.1, c)
        else tefif_conservative_loop L fuel rv.2 c

/-- Lines 273-301: poll the event-available flag and release one event per
iteration until the flag clears. -/
def mcp25xxfd_can_tx_handle_int_tefif_conservative (L : Layout) (fuel : Nat)
    (cpriv : mcp25xxfd_can_priv) : Option (Int × mcp25xxfd_can_priv) :=
  let (rv, c) := mcp25xxfd_cmd_read_mask L.CAN_TEFSTA L.CAN_TEFSTA_TEFNEIF cpriv
  if rv.1 ≠ 0 then some (rv.1, c)
  else tefif_conservative_loop L fuel rv.2 c

/-- Loop of lines 310-317 with n iterations left and the loop variable at fifo. -/
def tefif_optimized_loop (L : Layout) (finished : Nat) :
    Nat → Nat → mcp25xxfd_can_priv → Int × mcp25xxfd_can_priv
  | 0, _, cpriv => (0, cpriv)
  | n + 1, fifo, cpriv =>
    if finished &&& BIT fifo ≠ 0 then
      let (ret, c) := mcp25xxfd_can_tx_handle_int_tefif_fifo L cpriv
      if ret ≠ 0 then (ret, c)
      else tefif_optimized_loop L finished n (fifo + 1) c
    else tefif_optimized_loop L finished n (fifo + 1) cpriv

/-- Lines 303-320: process one event per finished slot of the slot range. -/
def mcp25xxfd_can_tx_handle_int_tefif_optimized (L : Layout) (cpriv : mcp25xxfd_can_priv)
    (finished : Nat) : Int × mcp25xxfd_can_priv :=
  tefif_optimized_loop L finished cpriv.tx_count cpriv.tx_start cpriv

/-- Lines 322-347: transmit-event interrupt; the optimized strategy when a
finished slot can be computed, the conservative one otherwise. -/
def mcp25xxfd_can_tx_handle_int_tefif (L : Layout) (fuel : Nat)
    (cpriv : mcp25xxfd_can_priv) : Option (Int × mcp25xxfd_can_priv) :=
  if cpriv.status_intf &&& L.CAN_INT_TEFIF = 0 then some (0, cpriv)
  else
    let finished := (cpriv.tx_queue.in_can_transfer ^^^ cpriv.status_txreq) &&&
      cpriv.tx_queue.in_can_transfer
    if finished ≠ 0 then
      some (mcp25xxfd_can_tx_handle_int_tefif_optimized L cpriv finished)
    else
      mcp25xxfd_can_tx_handle_int_tefif_conservative L fuel
        (emit Event.netdev_warn_no_finished_fifo cpriv)

/-! ## The driver: submission path -/

/-- Padding loop of lines 370-371: zero bytes after the payload until the length
is a multiple of 4 (at most three rounds). -/
def fill_fifo_zero_pad : Nat → List Nat → Nat → List Nat × Nat
  | 0, header, len => (header, len)
  | n + 1, header, len =>
    if len &&& 3 ≠ 0 then fill_fifo_zero_pad n (header.set (sizeof_can_obj_tx + len) 0) (len + 1)
    else (header, len)

/-- Lines 349-379: record the slot as sequence number, keep the payload in the
slot image, serialise header and payload into the fill buffer (little endian,
zero padded to 4 bytes) and set the transfer length. -/
def mcp25xxfd_can_tx_fill_fifo_common (L : Layout) (smsg : mcp25xxfd_tx_spi_message)
    (tx : mcp25xxfd_can_obj_tx) (dlc : Nat) (data : List Nat) :
    mcp25xxfd_tx_spi_message × mcp25xxfd_can_obj_tx :=
  let len := can_dlc2len dlc
  let tx := { tx with flags :=
    (tx.flags ||| (smsg.fifo <<< L.CAN_OBJ_FLAGS_SEQ_SHIFT) % 2 ^ 32) % 2 ^ 32 }
  let tx := { tx with data := memcpy tx.data data len }
  let image := le32_bytes tx.id ++ le32_bytes tx.flags ++ tx.data
  let header := memcpy smsg.fill_fifo_header image (sizeof_can_obj_tx + len)
  let padded := fill_fifo_zero_pad 3 header len
  ({ smsg with fill_fifo_header := padded.1
               fill_fifo_xfer_len := L.sizeof_cmd + sizeof_can_obj_tx + padded.2 }, tx)

/-- Lines 381-407: serialise a CAN FD frame. -/
def mcp25xxfd_can_tx_fill_fifo_fd (L : Layout) (frame : canfd_frame)
    (smsg : mcp25xxfd_tx_spi_message) (tx : mcp25xxfd_can_obj_tx) :
    mcp25xxfd_tx_spi_message × mcp25xxfd_can_obj_tx :=
  let dlc := can_len2dlc frame.len
  let idf := L.can_id_to_mcp25xxfd frame.can_id
  let tx := { tx with id := idf.1 % 2 ^ 32, flags := idf.2 % 2 ^ 32 }
  let tx := { tx with flags := (tx.flags ||| dlc <<< L.CAN_OBJ_FLAGS_DLC_SHIFT) % 2 ^ 32 }
  let tx := { tx with flags := (tx.flags |||
    (if frame.can_id &&& CAN_EFF_FLAG ≠ 0 then L.CAN_OBJ_FLAGS_IDE else 0)) % 2 ^ 32 }
  let tx := { tx with flags := (tx.flags |||
    (if frame.can_id &&& CAN_RTR_FLAG ≠ 0 then L.CAN_OBJ_FLAGS_RTR else 0)) % 2 ^ 32 }
  let tx := if frame.flags &&& CANFD_BRS ≠ 0 then
      { tx with flags := (tx.flags ||| L.CAN_OBJ_FLAGS_BRS) % 2 ^ 32 }
    else tx
  let tx := { tx with flags := (tx.flags |||
    (if frame.flags &&& CANFD_ESI ≠ 0 then L.CAN_OBJ_FLAGS_ESI else 0)) % 2 ^ 32 }
  let tx := { tx with flags := (tx.flags ||| L.CAN_OBJ_FLAGS_FDF) % 2 ^ 32 }
  mcp25xxfd_can_tx_fill_fifo_common L smsg tx dlc frame.data

/-- Lines 409-432: serialise a classic CAN frame; the frame comes back with its
can_dlc (field len of the shared layout) clamped to 8. -/
def mcp25xxfd_can_tx_fill_fifo (L : Layout) (frame : canfd_frame)
    (smsg : mcp25xxfd_tx_spi_message) (tx : mcp25xxfd_can_obj_tx) :
    canfd_frame × mcp25xxfd_tx_spi_message × mcp25xxfd_can_obj_tx :=
  let frame := if frame.len > 8 then { frame with len := 8 } else frame
  let idf := L.can_id_to_mcp25xxfd frame.can_id
  let tx := { tx with id := idf.1 % 2 ^ 32, flags := idf.2 % 2 ^ 32 }
  let tx := { tx with flags := (tx.flags ||| frame.len <<< L.CAN_OBJ_FLAGS_DLC_SHIFT) % 2 ^ 32 }
  let tx := { tx with flags := (tx.flags |||
    (if frame.can_id &&& CAN_EFF_FLAG ≠ 0 then L.CAN_OBJ_FLAGS_IDE else 0)) % 2 ^ 32 }
  let tx := { tx with flags := (tx.flags |||
    (if frame.can_id &&& CAN_RTR_FLAG ≠ 0 then L.CAN_OBJ_FLAGS_RTR else 0)) % 2 ^ 32 }
  (frame, mcp25xxfd_can_tx_fill_fifo_common L smsg tx frame.len frame.data)

/-- Lines 434-461: claim the lowest idle slot (idle to in_fill_fifo_transfer) and
stop the network queue when that was the last one; NULL when none is idle. -/
def mcp25xxfd_can_tx_queue_get_next_fifo (cpriv : mcp25xxfd_can_priv) :
    Option Nat × mcp25xxfd_can_priv :=
  let state := MCP25XXFD_CAN_TX_QUEUE_STATE_RUNABLE
  let q := cpriv.tx_queue
  match mcp25xxfd_can_tx_queue_first_spi_message q q.idle with
  | none => (none, cpriv)
  | some smsg =>
    let mv := mcp25xxfd_can_tx_queue_move_spi_message q.idle q.in_fill_fifo_transfer
      (msg_at q smsg).fifo
    let c := { cpriv with tx_queue :=
      { q with idle := mv.1, in_fill_fifo_transfer := mv.2 } }
    let c := if c.tx_queue.idle = 0 then mcp25xxfd_can_tx_queue_manage_nolock c state else c
    (some smsg, c)

/-- Lines 488-500 of mcp25xxfd_can_tx_start_xmit: locate the slot image of the
claimed message and serialise the frame into it and into the fill buffer
(CAN FD or classic); the skb comes back as the serialisation left it. -/
def start_xmit_fill (L : Layout) (skb : sk_buff) (smsg : Nat) (cpriv : mcp25xxfd_can_priv) :
    sk_buff × mcp25xxfd_can_priv :=
  let msg := msg_at cpriv.tx_queue smsg
  let off := cpriv.info_offset.getD msg.fifo 0
  let tx := slot_map_get cpriv.sram_tx off
  let filled :=
    if can_is_canfd_skb skb then
      (skb.data, mcp25xxfd_can_tx_fill_fifo_fd L skb.data msg tx)
    else mcp25xxfd_can_tx_fill_fifo L skb.data msg tx
  ({ skb with data := filled.1 },
   { cpriv with
      sram_tx := slot_map_put cpriv.sram_tx off filled.2.2
      tx_queue := { cpriv.tx_queue with
        message := cpriv.tx_queue.message.set smsg filled.2.1 } })

/-- Lines 514-537 of mcp25xxfd_can_tx_start_xmit: issue the fill and then the
trigger transaction and keep the echo frame; when a submission is refused,
log it, request the stopped state and report busy. -/
def start_xmit_submit (skb : sk_buff) (smsg : Nat) (cpriv : mcp25xxfd_can_priv) :
    netdev_tx_t × mcp25xxfd_can_priv :=
  let state := MCP25XXFD_CAN_TX_QUEUE_STATE_STOPPED
  let fifo := (msg_at cpriv.tx_queue smsg).fifo
  let (ret, c) := spi_async (spi_message_ref.fill_fifo smsg) cpriv
  if ret ≠ 0 then
    (NETDEV_TX_BUSY, mcp25xxfd_can_tx_queue_manage_nolock
      (emit (Event.netdev_err_async_failed fifo ret) c) state)
  else
    let (ret, c) := spi_async (spi_message_ref.trigger_fifo smsg) c
    if ret ≠ 0 then
      (NETDEV_TX_BUSY, mcp25xxfd_can_tx_queue_manage_nolock
        (emit (Event.netdev_err_async_failed fifo ret) c) state)
    else (NETDEV_TX_OK, can_put_echo_skb skb fifo c)

/-- Lines 463-537: submit one frame: claim a slot, serialise the frame, issue the
fill and the trigger transaction, keep the frame as echo frame. -/
def mcp25xxfd_can_tx_start_xmit (L : Layout) (skb : sk_buff) (cpriv : mcp25xxfd_can_priv) :
    netdev_tx_t × mcp25xxfd_can_priv :=
  let state := MCP25XXFD_CAN_TX_QUEUE_STATE_STOPPED
  if can_dropped_invalid_skb skb then
    (NETDEV_TX_OK, { cpriv with stats_tx_dropped := (cpriv.stats_tx_dropped + 1) % 2 ^ 64 })
  else
    match mcp25xxfd_can_tx_queue_get_next_fifo cpriv with
    | (none, c) => (NETDEV_TX_BUSY, mcp25xxfd_can_tx_queue_manage_nolock c state)
    | (some smsg, c) =>
      let filled := start_xmit_fill L skb smsg c
      start_xmit_submit filled.1 smsg filled.2

/-! ## The driver: release, abort processor, allocation -/

/-- Lines 539-565: hand a finished slot back to the network stack: count it,
release the echo frame, move the slot from in_can_transfer to transferred. -/
def mcp25xxfd_can_tx_submit_frame (L : Layout) (cpriv : mcp25xxfd_can_priv) (fifo : Nat) :
    Int × mcp25xxfd_can_priv :=
  let q := cpriv.tx_queue
  let tx := slot_map_get cpriv.sram_tx (cpriv.info_offset.getD fifo 0)
  let dlc := (tx.flags &&& L.CAN_OBJ_FLAGS_DLC_MASK) >>> L.CAN_OBJ_FLAGS_DLC_SHIFT
  let c := { cpriv with
    stats_tx_packets := (cpriv.stats_tx_packets + 1) % 2 ^ 64
    stats_tx_bytes := (cpriv.stats_tx_bytes + can_dlc2len dlc) % 2 ^ 64 }
  let c := can_get_echo_skb fifo c
  let mv := mcp25xxfd_can_tx_queue_move_spi_message q.in_can_transfer q.transferred fifo
  (0, { c with tx_queue := { c.tx_queue with in_can_transfer := mv.1, transferred := mv.2 } })

/-- Lines 567-602: handle the abort interrupt of one slot. -/
def mcp25xxfd_can_tx_handle_int_txatif_fifo (L : Layout) (cpriv : mcp25xxfd_can_priv)
    (fifo : Nat) : Int × mcp25xxfd_can_priv :=
  let (rv, c) := mcp25xxfd_cmd_read (L.CAN_FIFOSTA fifo) cpriv
  if rv.1 ≠ 0 then (rv.1, c)
  else
    let (ret, c) := mcp25xxfd_cmd_write_mask (L.CAN_FIFOSTA fifo) 0
      (L.CAN_FIFOSTA_TXABT ||| L.CAN_FIFOSTA_TXLARB ||| L.CAN_FIFOSTA_TXERR |||
        L.CAN_FIFOSTA_TXATIF) c
    if ret ≠ 0 then (ret, c)
    else
      let c := can_get_echo_skb fifo c
      let q := c.tx_queue
      let mv := mcp25xxfd_can_tx_queue_move_spi_message q.in_can_transfer q.transferred fifo
      let c := { c with tx_queue := { q with in_can_transfer := mv.1, transferred := mv.2 } }
      let c := { c with status_txif := (c.status_txif &&& not_ul (BIT fifo)) % 2 ^ 32 }
      (0, { c with stats_tx_aborted_errors := (c.stats_tx_aborted_errors + 1) % 2 ^ 64 })

/-- Loop of lines 612-619 with n iterations left and the loop variable at f. -/
def txatif_loop (L : Layout) : Nat → Nat → mcp25xxfd_can_priv → Int × mcp25xxfd_can_priv
  | 0, _, cpriv => (0, cpriv)
  | n + 1, f, cpriv =>
    if cpriv.status_txatif &&& BIT f ≠ 0 then
      let (ret, c) := mcp25xxfd_can_tx_handle_int_txatif_fifo L cpriv f
      if ret ≠ 0 then (ret, c)
      else txatif_loop L n (f + 1) c
    else txatif_loop L n (f + 1) cpriv

/-- Lines 604-622: abort interrupt; handle every flagged slot of the slot range. -/
def mcp25xxfd_can_tx_handle_int_txatif (L : Layout) (cpriv : mcp25xxfd_can_priv) :
    Int × mcp25xxfd_can_priv :=
  if cpriv.status_txatif = 0 then (0, cpriv)
  else txatif_loop L cpriv.tx_count cpriv.tx_start cpriv

/-- Error code for a failed allocation. -/
def ENOMEM : Int := 12

/-- Zero-filled message as kzalloc leaves it. -/
def zeroed_message (L : Layout) : mcp25xxfd_tx_spi_message :=
  { fifo := 0
    fill_fifo_xfer_len := 0
    fill_fifo_cmd := List.replicate L.sizeof_cmd 0
    fill_fifo_header := List.replicate (sizeof_can_obj_tx + 64) 0
    trigger_fifo_xfer_len := 0
    trigger_fifo_cmd := List.replicate L.sizeof_cmd 0
    trigger_fifo_data := 0 }

/-- Zero-filled queue with count messages as kzalloc leaves it. -/
def zeroed_queue (L : Layout) (count : Nat) : mcp25xxfd_tx_spi_message_queue :=
  { idle := 0
    in_fill_fifo_transfer := 0
    in_trigger_fifo_transfer := 0
    in_can_transfer := 0
    transferred := 0
    state := L.TX_QUEUE_STATE_zero
    fifo2message := List.replicate 32 none
    message := List.replicate count (zeroed_message L) }

/-- Loop of lines 639-644 with n iterations left, at message i and slot f. -/
def tx_queue_alloc_loop (L : Layout) : Nat → Nat → Nat → mcp25xxfd_can_priv → mcp25xxfd_can_priv
  | 0, _, _, cpriv => cpriv
  | n + 1, i, f, cpriv =>
    let c := { cpriv with tx_queue :=
      { cpriv.tx_queue with fifo2message := cpriv.tx_queue.fifo2message.set f (some i) } }
    tx_queue_alloc_loop L n (i + 1) (f + 1) (mcp25xxfd_can_tx_message_init L c i f)

/-- Lines 624-647: allocate the queue and initialise one message per slot;
kzalloc_ok tells whether the allocation succeeds. -/
def mcp25xxfd_can_tx_queue_alloc (L : Layout) (kzalloc_ok : Bool) (cpriv : mcp25xxfd_can_priv) :
    Int × Option mcp25xxfd_can_priv :=
  if !kzalloc_ok then (-ENOMEM, none)
  else
    let c := { cpriv with tx_queue := zeroed_queue L cpriv.tx_count }
    (0, some (tx_queue_alloc_loop L cpriv.tx_count 0 cpriv.tx_start c))

/-! ## Interleavings -/

/-- Modelled from the spec: the bus driver invokes the completion callback of
every accepted transaction exactly once and serialises the transactions; this
delivers the callback of the oldest pending transaction. -/
def spi_complete_next (L : Layout) (cpriv : mcp25xxfd_can_priv) : mcp25xxfd_can_priv :=
  match cpriv.spi_pending with
  | [] => cpriv
  | spi_message_ref.fill_fifo i :: rest =>
    mcp25xxfd_can_tx_spi_message_fill_fifo_complete L i { cpriv with spi_pending := rest }
  | spi_message_ref.trigger_fifo i :: rest =>
    mcp25xxfd_can_tx_spi_message_trigger_fifo_complete i { cpriv with spi_pending := rest }

/-- Steps of the three execution contexts: the submission path, the bus
completion context, interrupt processing (release of a slot named by a
transmit event, abort handling of a flagged slot), restart; and the bus itself
choosing how it answers the next calls. -/
inductive Action where
  | start_xmit (skb : sk_buff)
  | spi_complete
  | submit_frame (fifo : Nat)
  | handle_int_txatif_fifo (fifo : Nat)
  | queue_restart
  | bus (replies : List spi_reply)
deriving DecidableEq, Repr

/-- Effect of one step on the driver state. -/
def step (L : Layout) (a : Action) (cpriv : mcp25xxfd_can_priv) : mcp25xxfd_can_priv :=
  match a with
  | Action.start_xmit skb => (mcp25xxfd_can_tx_start_xmit L skb cpriv).2
  | Action.spi_complete => spi_complete_next L cpriv
  | Action.submit_frame fifo => (mcp25xxfd_can_tx_submit_frame L cpriv fifo).2
  | Action.handle_int_txatif_fifo fifo => (mcp25xxfd_can_tx_handle_int_txatif_fifo L cpriv fifo).2
  | Action.queue_restart => mcp25xxfd_can_tx_queue_restart cpriv
  | Action.bus replies => { cpriv with spi_replies := replies }

/-- State after a sequence of steps. -/
def run (L : Layout) : List Action → mcp25xxfd_can_priv → mcp25xxfd_can_priv
  | [], cpriv => cpriv
  | a :: as, cpriv => run L as (step L a cpriv)

/-- Caller guarantee of the release and the abort step: the slot is in
in_can_transfer when the step is taken. -/
def Action.in_flight (a : Action) (cpriv : mcp25xxfd_can_priv) : Prop :=
  match a with
  | Action.submit_frame fifo => cpriv.tx_queue.in_can_transfer.testBit fifo = true
  | Action.handle_int_txatif_fifo fifo => cpriv.tx_queue.in_can_transfer.testBit fifo = true
  | _ => True

/-- Every release and abort step of the sequence is taken on a slot that is in
in_can_transfer at that moment. -/
def tracked (L : Layout) : List Action → mcp25xxfd_can_priv → Prop
  | [], _ => True
  | a :: as, cpriv => a.in_flight cpriv ∧ tracked L as (step L a cpriv)

/-- State built by a successful mcp25xxfd_can_tx_queue_alloc for a slot range
inside the 32 bit bitmaps, with no bus transaction pending. -/
def allocated (L : Layout) (cpriv : mcp25xxfd_can_priv) : Prop :=
  ∃ base : mcp25xxfd_can_priv, base.tx_start + base.tx_count ≤ 32 ∧
    base.spi_pending = [] ∧ (mcp25xxfd_can_tx_queue_alloc L true base).2 = some cpriv

/-- States reachable from an allocated state by any interleaving of steps. -/
def reachable (L : Layout) (cpriv : mcp25xxfd_can_priv) : Prop :=
  ∃ c0 as, allocated L c0 ∧ run L as c0 = cpriv

/-- States reachable by an interleaving that keeps the caller guarantee of the
release and abort steps. -/
def reachable_tracked (L : Layout) (cpriv : mcp25xxfd_can_priv) : Prop :=
  ∃ c0 as, allocated L c0 ∧ tracked L as c0 ∧ run L as c0 = cpriv

/-- Bitmask of the slot range start .. start + count - 1. -/
def slot_set (start count : Nat) : Nat := (2 ^ count - 1) <<< start

/-- The five ownership bitmasks are pairwise disjoint. -/
def pairwise_disjoint (q : mcp25xxfd_tx_spi_message_queue) : Prop :=
  q.idle &&& q.in_fill_fifo_transfer = 0 ∧
  q.idle &&& q.in_trigger_fifo_transfer = 0 ∧
  q.idle &&& q.in_can_transfer = 0 ∧
  q.idle &&& q.transferred = 0 ∧
  q.in_fill_fifo_transfer &&& q.in_trigger_fifo_transfer = 0 ∧
  q.in_fill_fifo_transfer &&& q.in_can_transfer = 0 ∧
  q.in_fill_fifo_transfer &&& q.transferred = 0 ∧
  q.in_trigger_fifo_transfer &&& q.in_can_transfer = 0 ∧
  q.in_trigger_fifo_transfer &&& q.transferred = 0 ∧
  q.in_can_transfer &&& q.transferred = 0

/-- Partition invariant: the five ownership bitmasks are pairwise disjoint and
their union is the full slot set. -/
def partition_invariant (cpriv : mcp25xxfd_can_priv) : Prop :=
  pairwise_disjoint cpriv.tx_queue ∧
  cpriv.tx_queue.idle ||| cpriv.tx_queue.in_fill_fifo_transfer |||
    cpriv.tx_queue.in_trigger_fifo_transfer ||| cpriv.tx_queue.in_can_transfer |||
    cpriv.tx_queue.transferred = slot_set cpriv.tx_start cpriv.tx_count

/-- Slot of a message pointer. -/
def fifo_of (cpriv : mcp25xxfd_can_priv) (i : Nat) : Nat := (msg_at cpriv.tx_queue i).fifo

/-- Events that are bus transactions (asynchronous submissions and synchronous
register or memory accesses). -/
def Event.is_bus : Event → Bool
  | Event.spi_async _ _ => true
  | Event.cmd_read_regs _ _ _ => true
  | Event.cmd_read _ _ => true
  | Event.cmd_read_mask _ _ _ => true
  | Event.cmd_write_mask _ _ _ _ => true
  | _ => false

/-- Bus transactions of a trace, in order. -/
def bus_events (t : List Event) : List Event := t.filter Event.is_bus

/-- Events that are signals to the upstream transport queue. -/
def Event.is_netif : Event → Bool
  | Event.netif_wake_queue => true
  | Event.netif_stop_queue => true
  | _ => false

/-- Wake and stop signals of a trace, in order. -/
def netif_events (t : List Event) : List Event := t.filter Event.is_netif

/-- Echo frame kept at an index, if any. -/
def echo_lookup (m : List (Nat × sk_buff)) (idx : Nat) : Option sk_buff :=
  (m.find? (fun p => p.1 == idx)).map (fun p => p.2)

/-- The message pointer of every slot of the bitmap leads to a message whose
fifo field is that slot, as mcp25xxfd_can_tx_queue_alloc sets it up. -/
def slots_linked (q : mcp25xxfd_tx_spi_message_queue) (bitmap : Nat) : Prop :=
  ∀ f, f < 32 → bitmap.testBit f = true →
    (q.fifo2message.getD f none).map (fun i => (msg_at q i).fifo) = some f

instance (q : mcp25xxfd_tx_spi_message_queue) (bitmap : Nat) :
    Decidable (slots_linked q bitmap) := by
  unfold slots_linked
  infer_instance

/-- Stored flow-control state after a request, as a table over the current and
the requested state (the switch of mcp25xxfd_can_tx_queue_manage_nolock). -/
def flow_next (cur req : tx_queue_state) : tx_queue_state :=
  match cur, req with
  | MCP25XXFD_CAN_TX_QUEUE_STATE_RUNABLE, MCP25XXFD_CAN_TX_QUEUE_STATE_RESTART =>
    MCP25XXFD_CAN_TX_QUEUE_STATE_STARTED
  | MCP25XXFD_CAN_TX_QUEUE_STATE_RUNABLE, MCP25XXFD_CAN_TX_QUEUE_STATE_STARTED =>
    MCP25XXFD_CAN_TX_QUEUE_STATE_STARTED
  | MCP25XXFD_CAN_TX_QUEUE_STATE_STOPPED, MCP25XXFD_CAN_TX_QUEUE_STATE_STARTED =>
    MCP25XXFD_CAN_TX_QUEUE_STATE_STARTED
  | MCP25XXFD_CAN_TX_QUEUE_STATE_STARTED, MCP25XXFD_CAN_TX_QUEUE_STATE_RUNABLE =>
    MCP25XXFD_CAN_TX_QUEUE_STATE_RUNABLE
  | MCP25XXFD_CAN_TX_QUEUE_STATE_STARTED, MCP25XXFD_CAN_TX_QUEUE_STATE_STOPPED =>
    MCP25XXFD_CAN_TX_QUEUE_STATE_STOPPED
  | cur, _ => cur

/-- Events of a request, as a table over the current and the requested state. -/
def flow_events (cur req : tx_queue_state) : List Event :=
  match cur, req with
  | MCP25XXFD_CAN_TX_QUEUE_STATE_RUNABLE, MCP25XXFD_CAN_TX_QUEUE_STATE_RESTART =>
    [Event.netif_wake_queue]
  | MCP25XXFD_CAN_TX_QUEUE_STATE_RUNABLE, MCP25XXFD_CAN_TX_QUEUE_STATE_STARTED =>
    [Event.netif_wake_queue]
  | MCP25XXFD_CAN_TX_QUEUE_STATE_STOPPED, MCP25XXFD_CAN_TX_QUEUE_STATE_STARTED =>
    [Event.netif_wake_queue]
  | MCP25XXFD_CAN_TX_QUEUE_STATE_STARTED, MCP25XXFD_CAN_TX_QUEUE_STATE_RUNABLE =>
    [Event.netif_stop_queue]
  | MCP25XXFD_CAN_TX_QUEUE_STATE_STARTED, MCP25XXFD_CAN_TX_QUEUE_STATE_STOPPED =>
    [Event.netif_stop_queue]
  | MCP25XXFD_CAN_TX_QUEUE_STATE_RESTART, MCP25XXFD_CAN_TX_QUEUE_STATE_RESTART => []
  | MCP25XXFD_CAN_TX_QUEUE_STATE_RESTART, _ =>
    [Event.netdev_err_unsupported_state MCP25XXFD_CAN_TX_QUEUE_STATE_RESTART]
  | _, _ => []

/-- State after lines 449-456 of mcp25xxfd_can_tx_queue_get_next_fifo have claimed
the slot of message i: the slot moved from idle to in_fill_fifo_transfer and
the runnable state requested when idle became empty. -/
def claimed (cpriv : mcp25xxfd_can_priv) (i : Nat) : mcp25xxfd_can_priv :=
  { cpriv with
    tx_queue := { cpriv.tx_queue with
      idle := mcp25xxfd_can_tx_queue_remove_spi_message cpriv.tx_queue.idle (fifo_of cpriv i)
      in_fill_fifo_transfer :=
        mcp25xxfd_can_tx_queue_add_spi_message cpriv.tx_queue.in_fill_fifo_transfer
          (fifo_of cpriv i)
      state :=
        if mcp25xxfd_can_tx_queue_remove_spi_message cpriv.tx_queue.idle (fifo_of cpriv i) = 0
        then flow_next cpriv.tx_queue.state MCP25XXFD_CAN_TX_QUEUE_STATE_RUNABLE
        else cpriv.tx_queue.state }
    trace := cpriv.trace ++
      (if mcp25xxfd_can_tx_queue_remove_spi_message cpriv.tx_queue.idle (fifo_of cpriv i) = 0
       then flow_events cpriv.tx_queue.state MCP25XXFD_CAN_TX_QUEUE_STATE_RUNABLE
       else []) }

/-- Return code the simulated bus gives to the n-th of the next calls. -/
def spi_ret (replies : List spi_reply) (n : Nat) : Int :=
  (replies.getD n { ret := 0, data := [] }).ret

/-- Example register layout, with the bit positions of the MCP2517FD data sheet,
used to evaluate the driver on concrete inputs. -/
def example_layout : Layout :=
  { can_id_to_mcp25xxfd := fun can_id => (can_id % 2 ^ 11, 0)
    cmd_calc := fun instr addr => [((instr ||| addr % 2 ^ 12) / 2 ^ 8) % 256, addr % 256]
    cmd_first_byte := fun mask =>
      if mask % 2 ^ 8 ≠ 0 then 0 else if mask % 2 ^ 16 ≠ 0 then 1
      else if mask % 2 ^ 24 ≠ 0 then 2 else 3
    sizeof_cmd := 2
    sizeof_trigger_data := 1
    INSTRUCTION_WRITE := 0x2000
    SRAM_ADDR := fun x => 0x400 + x
    CAN_FIFOCON := fun x => 0x050 + 12 * x
    CAN_FIFOSTA := fun x => 0x054 + 12 * x
    CAN_FIFOCON_TXREQ := 2 ^ 9
    CAN_FIFOCON_UINC := 2 ^ 8
    CAN_FIFOSTA_TXABT := 2 ^ 7
    CAN_FIFOSTA_TXLARB := 2 ^ 6
    CAN_FIFOSTA_TXERR := 2 ^ 5
    CAN_FIFOSTA_TXATIF := 2 ^ 4
    CAN_TEFCON := 0x040
    CAN_TEFCON_UINC := 2 ^ 8
    CAN_TEFSTA := 0x044
    CAN_TEFSTA_TEFNEIF := 2 ^ 0
    CAN_INT_TEFIF := 2 ^ 4
    CAN_OBJ_FLAGS_SEQ_SHIFT := 9
    CAN_OBJ_FLAGS_SEQ_MASK := 0xFE00
    CAN_OBJ_FLAGS_DLC_SHIFT := 0
    CAN_OBJ_FLAGS_DLC_MASK := 0xF
    CAN_OBJ_FLAGS_IDE := 2 ^ 4
    CAN_OBJ_FLAGS_RTR := 2 ^ 5
    CAN_OBJ_FLAGS_BRS := 2 ^ 6
    CAN_OBJ_FLAGS_ESI := 2 ^ 8
    CAN_OBJ_FLAGS_FDF := 2 ^ 7
    TX_QUEUE_STATE_zero := MCP25XXFD_CAN_TX_QUEUE_STATE_STOPPED }

/-- Driver state before allocation with the given slot range: no queue, empty
device memory, nothing pending. -/
def blank_priv (start count : Nat) : mcp25xxfd_can_priv :=
  { tx_start := start
    tx_count := count
    info_offset := (List.range 32).map (fun f => 80 * f)
    tef_index := 0
    tef_size := sizeof_can_obj_tef
    tef_count := count
    tx_queue := default
    sram_tx := []
    sram_tef := []
    status_intf := 0
    status_txreq := 0
    status_txatif := 0
    status_txif := 0
    stats_tx_packets := 0
    stats_tx_bytes := 0
    stats_tx_aborted_errors := 0
    stats_tx_dropped := 0
    echo_skb := []
    queued_frames := []
    spi_replies := []
    spi_pending := []
    trace := [] }

/-- Allocated state for the slot range of the example layout, flow-control
state as given. -/
def example_priv (start count : Nat) (state : tx_queue_state) : mcp25xxfd_can_priv :=
  match (mcp25xxfd_can_tx_queue_alloc example_layout true (blank_priv start count)).2 with
  | some c => { c with tx_queue := { c.tx_queue with state := state } }
  | none => blank_priv start count

/-- Valid classic CAN frame with the given identifier and payload. -/
def example_skb (can_id : Nat) (payload : List Nat) : sk_buff :=
  { protocol := ETH_P_CAN
    len := CAN_MTU
    data := { can_id := can_id, len := payload.length, flags := 0,
              data := memcpy (List.replicate 8 0) payload payload.length } }

/-- Bit j of a bitmask as a number, 1 when slot j is in the set. -/
def bit (m j : Nat) : Nat := (m.testBit j).toNat

/-- Number of the four claimable sets idle, in_fill_fifo_transfer,
in_trigger_fifo_transfer and in_can_transfer that hold slot j. -/
def claim_count (q : mcp25xxfd_tx_spi_message_queue) (j : Nat) : Nat :=
  bit q.idle j + bit q.in_fill_fifo_transfer j + bit q.in_trigger_fifo_transfer j +
    bit q.in_can_transfer j

/-- Number of the five ownership sets that hold slot j. -/
def owner_count (q : mcp25xxfd_tx_spi_message_queue) (j : Nat) : Nat :=
  claim_count q j + bit q.transferred j

/-- The five bitmasks fit into 32 bits. -/
def masks_u32 (q : mcp25xxfd_tx_spi_message_queue) : Prop :=
  q.idle < 2 ^ 32 ∧ q.in_fill_fifo_transfer < 2 ^ 32 ∧ q.in_trigger_fifo_transfer < 2 ^ 32 ∧
    q.in_can_transfer < 2 ^ 32 ∧ q.transferred < 2 ^ 32

/-- Every message pointer in fifo2message leads to a message of that slot. -/
def pointers_linked (cpriv : mcp25xxfd_can_priv) : Prop :=
  ∀ f i, f < 32 → cpriv.tx_queue.fifo2message.getD f none = some i → fifo_of cpriv i = f

/-- The pending completion callbacks can be delivered in order, each one
finding its slot in the set it moves the slot out of. -/
def pend_ok (fifo : Nat → Nat) : List spi_message_ref → Nat → Nat → Prop
  | [], _, _ => True
  | spi_message_ref.fill_fifo i :: rest, fill, trig =>
    fill.testBit (fifo i) = true ∧
      pend_ok fifo rest (mcp25xxfd_can_tx_queue_remove_spi_message fill (fifo i))
        (mcp25xxfd_can_tx_queue_add_spi_message trig (fifo i))
  | spi_message_ref.trigger_fifo i :: rest, fill, trig =>
    trig.testBit (fifo i) = true ∧
      pend_ok fifo rest fill (mcp25xxfd_can_tx_queue_remove_spi_message trig (fifo i))

/-- Invariant of every interleaving: 32 bit masks, linked pointers, no slot in
two of the four claimable sets, deliverable callbacks. -/
def claim_invariant (cpriv : mcp25xxfd_can_priv) : Prop :=
  masks_u32 cpriv.tx_queue ∧ pointers_linked cpriv ∧
    (∀ j, claim_count cpriv.tx_queue j ≤ 1) ∧
    pend_ok (fifo_of cpriv) cpriv.spi_pending cpriv.tx_queue.in_fill_fifo_transfer
      cpriv.tx_queue.in_trigger_fifo_transfer

/-- Invariant of the interleavings that keep the caller guarantee: every slot of
the slot range is in exactly one of the five sets, no other slot is in any. -/
def owner_invariant (cpriv : mcp25xxfd_can_priv) : Prop :=
  cpriv.tx_start + cpriv.tx_count ≤ 32 ∧
    ∀ j, owner_count cpriv.tx_queue j =
      if cpriv.tx_start ≤ j ∧ j < cpriv.tx_start + cpriv.tx_count then 1 else 0

/-- What one step may do to the five bitmasks: nothing, one of the four moves of
a slot out of a set that holds it, a release of a slot (with the caller
guarantee when guarded holds, without it otherwise), or the merge of restart. -/
inductive mask_step (guarded : Prop) (q q2 : mcp25xxfd_tx_spi_message_queue) : Prop where
  | same :
    q2.idle = q.idle → q2.in_fill_fifo_transfer = q.in_fill_fifo_transfer →
    q2.in_trigger_fifo_transfer = q.in_trigger_fifo_transfer →
    q2.in_can_transfer = q.in_can_transfer → q2.transferred = q.transferred →
    mask_step guarded q q2
  | claim (k : Nat) :
    bit q.idle k = 1 →
    q2.idle = mcp25xxfd_can_tx_queue_remove_spi_message q.idle k →
    q2.in_fill_fifo_transfer =
      mcp25xxfd_can_tx_queue_add_spi_message q.in_fill_fifo_transfer k →
    q2.in_trigger_fifo_transfer = q.in_trigger_fifo_transfer →
    q2.in_can_transfer = q.in_can_transfer → q2.transferred = q.transferred →
    mask_step guarded q q2
  | filled (k : Nat) :
    bit q.in_fill_fifo_transfer k = 1 →
    q2.idle = q.idle →
    q2.in_fill_fifo_transfer =
      mcp25xxfd_can_tx_queue_remove_spi_message q.in_fill_fifo_transfer k →
    q2.in_trigger_fifo_transfer =
      mcp25xxfd_can_tx_queue_add_spi_message q.in_trigger_fifo_transfer k →
    q2.in_can_transfer = q.in_can_transfer → q2.transferred = q.transferred →
    mask_step guarded q q2
  | triggered (k : Nat) :
    bit q.in_trigger_fifo_transfer k = 1 →
    q2.idle = q.idle → q2.in_fill_fifo_transfer = q.in_fill_fifo_transfer →
    q2.in_trigger_fifo_transfer =
      mcp25xxfd_can_tx_queue_remove_spi_message q.in_trigger_fifo_transfer k →
    q2.in_can_transfer = mcp25xxfd_can_tx_queue_add_spi_message q.in_can_transfer k →
    q2.transferred = q.transferred →
    mask_step guarded q q2
  | released (k : Nat) :
    (guarded → bit q.in_can_transfer k = 1) →
    q2.idle = q.idle → q2.in_fill_fifo_transfer = q.in_fill_fifo_transfer →
    q2.in_trigger_fifo_transfer = q.in_trigger_fifo_transfer →
    q2.in_can_transfer = mcp25xxfd_can_tx_queue_remove_spi_message q.in_can_transfer k →
    q2.transferred = mcp25xxfd_can_tx_queue_add_spi_message q.transferred k →
    mask_step guarded q q2
  | restarted :
    q.idle = 0 → q.in_fill_fifo_transfer = 0 → q.in_trigger_fifo_transfer = 0 →
    q.in_can_transfer = 0 →
    q2.idle = q.idle ||| q.transferred → q2.in_fill_fifo_transfer = q.in_fill_fifo_transfer →
    q2.in_trigger_fifo_transfer = q.in_trigger_fifo_transfer →
    q2.in_can_transfer = q.in_can_transfer → q2.transferred = 0 →
    mask_step guarded q q2

instance (q : mcp25xxfd_tx_spi_message_queue) : Decidable (pairwise_disjoint q) := by
  unfold pairwise_disjoint
  infer_instance

instance (cpriv : mcp25xxfd_can_priv) : Decidable (partition_invariant cpriv) := by
  unfold partition_invariant
  infer_instance

/-- Queue of two slots 0 and 1 exactly as mcp25xxfd_can_tx_queue_alloc leaves it. -/
def example_allocated : mcp25xxfd_can_priv :=
  match (mcp25xxfd_can_tx_queue_alloc example_layout true (blank_priv 0 2)).2 with
  | some c => c
  | none => blank_priv 0 2

/-- Both slots are submitted and reach in_can_transfer; a transmit event that
names slot 3, outside the slot range, is released, then the events of slots 0
and 1; restart merges slots 0, 1 and 3 into idle, and two further submissions
claim slots 0 and 1. -/
def example_unlinked_run : List Action :=
  [Action.start_xmit (example_skb 5 [1, 2, 3]), Action.start_xmit (example_skb 6 [4]),
    Action.spi_complete, Action.spi_complete, Action.spi_complete, Action.spi_complete,
    Action.submit_frame 3, Action.submit_frame 0, Action.submit_frame 1,
    Action.queue_restart,
    Action.start_xmit (example_skb 5 [1, 2, 3]), Action.start_xmit (example_skb 6 [4])]

/-- State after example_unlinked_run: idle holds slot 3 only, for which
mcp25xxfd_can_tx_queue_alloc has set up no message. -/
def example_unlinked : mcp25xxfd_can_priv :=
  run example_layout example_unlinked_run example_allocated

/-- Slot 0 is submitted and both its callbacks are delivered; then a transmit
event names slot 1, which is idle, and slot 1 is released. -/
def example_mismatch_run : List Action :=
  [Action.start_xmit (example_skb 5 [1, 2, 3]), Action.spi_complete, Action.spi_complete,
    Action.submit_frame 1]

/-- Slot 0 is submitted, both its callbacks are delivered, and its transmit
event releases it. -/
def example_tracked_run : List Action :=
  [Action.start_xmit (example_skb 5 [1, 2, 3]), Action.spi_complete, Action.spi_complete,
    Action.submit_frame 0]

/-- Freshly allocated queue of two slots 0 and 1, flow control started. -/
def example_two_idle : mcp25xxfd_can_priv :=
  example_priv 0 2 MCP25XXFD_CAN_TX_QUEUE_STATE_STARTED

/-- Freshly allocated queue of the single slot 0, flow control started. -/
def example_one_idle : mcp25xxfd_can_priv :=
  example_priv 0 1 MCP25XXFD_CAN_TX_QUEUE_STATE_STARTED

/-- Single-slot queue whose bus refuses the next submission with -EIO. -/
def example_one_idle_bus_down : mcp25xxfd_can_priv :=
  { example_one_idle with spi_replies := [{ ret := -5, data := [] }] }

/-- Classic frame with identifier 5 and three payload bytes. -/
def example_frame : sk_buff := example_skb 5 [1, 2, 3]

/-- Single-slot queue after its slot has been claimed by one submission. -/
def example_one_claimed : mcp25xxfd_can_priv :=
  (mcp25xxfd_can_tx_start_xmit example_layout example_frame example_one_idle).2

/-- Single-slot queue, flow control stopped, whose slot has been submitted,
moved through both callbacks and released: everything is in transferred. -/
def example_all_done_stopped : mcp25xxfd_can_priv :=
  run example_layout
    [Action.start_xmit (example_skb 5 [1, 2, 3]), Action.spi_complete, Action.spi_complete,
      Action.submit_frame 0]
    (example_priv 0 1 MCP25XXFD_CAN_TX_QUEUE_STATE_STOPPED)

/-- Single-slot queue whose slot has been claimed by a submission, so that the
stored flow-control state is Runnable. -/
def example_runnable : mcp25xxfd_can_priv := example_one_claimed

/-- Lines 333-335 of mcp25xxfd_can_tx_handle_int_tefif: the slots that are in
in_can_transfer and that the cached pending-transmission register no longer
reports as requested. -/
def tefif_finished (cpriv : mcp25xxfd_can_priv) : Nat :=
  (cpriv.tx_queue.in_can_transfer ^^^ cpriv.status_txreq) &&& cpriv.tx_queue.in_can_transfer

/-- Two-slot queue with both slots in flight, the device still transmitting
slot 1 (status.txreq = 0b10) and the transmit-event interrupt asserted. -/
def example_in_flight : mcp25xxfd_can_priv :=
  { run example_layout
      [Action.start_xmit (example_skb 5 [1, 2, 3]), Action.start_xmit (example_skb 6 [4]),
        Action.spi_complete, Action.spi_complete, Action.spi_complete, Action.spi_complete]
      example_two_idle with
    status_txreq := 2
    status_intf := example_layout.CAN_INT_TEFIF }

/-- Words the simulated bus returns to the n-th of the next calls. -/
def spi_data (replies : List spi_reply) (n : Nat) : List Nat :=
  (replies.getD n { ret := 0, data := [] }).data

/-- Transmit-event record made of the three words of a read. -/
def tef_record (data : List Nat) : mcp25xxfd_can_obj_tef :=
  { id := data.getD 0 0 % 2 ^ 32
    flags := data.getD 1 0 % 2 ^ 32
    ts := data.getD 2 0 % 2 ^ 32 }

/-- Slot named by the sequence field of a transmit-event record (line 242). -/
def tef_fifo (L : Layout) (data : List Nat) : Nat :=
  FIELD_GET L.CAN_OBJ_FLAGS_SEQ_MASK (tef_record data).flags

/-- Lines 256-258: the read cursor after one record, with wraparound. -/
def tef_advance (count index : Nat) : Nat :=
  if (index + 1) % 2 ^ 32 ≥ count then 0 else (index + 1) % 2 ^ 32

/-- Byte offset of the record under the read cursor (line 228). -/
def tef_offset (cpriv : mcp25xxfd_can_priv) : Nat :=
  (cpriv.tef_index * cpriv.tef_size) % 2 ^ 32

/-- Events of one successful record read: the bus read, the error line when the
slot is not in in_can_transfer, the hand-over to the release path, the
acknowledge write with its return code. -/
def tefif_fifo_events (L : Layout) (cpriv : mcp25xxfd_can_priv) : List Event :=
  [Event.cmd_read_regs (L.SRAM_ADDR (tef_offset cpriv)) sizeof_can_obj_tef 0] ++
    (if cpriv.tx_queue.in_can_transfer &&& BIT (tef_fifo L (spi_data cpriv.spi_replies 0)) = 0
     then [Event.netdev_err_tef_not_pending (tef_fifo L (spi_data cpriv.spi_replies 0))
       (tef_record (spi_data cpriv.spi_replies 0)).id
       (tef_record (spi_data cpriv.spi_replies 0)).flags
       (tef_record (spi_data cpriv.spi_replies 0)).ts]
     else []) ++
    [Event.can_queue_frame (tef_fifo L (spi_data cpriv.spi_replies 0))
        (tef_record (spi_data cpriv.spi_replies 0)).ts false,
      Event.cmd_write_mask L.CAN_TEFCON L.CAN_TEFCON_UINC L.CAN_TEFCON_UINC
        (spi_ret cpriv.spi_replies 1)]

/-- Driver state after one successful record read (the acknowledge write may
still have failed). -/
def tefif_fifo_done (L : Layout) (cpriv : mcp25xxfd_can_priv) : mcp25xxfd_can_priv :=
  { cpriv with
    spi_replies := cpriv.spi_replies.tail.tail
    sram_tef := slot_map_put cpriv.sram_tef (tef_offset cpriv)
      (tef_record (spi_data cpriv.spi_replies 0))
    queued_frames := cpriv.queued_frames ++
      [(tef_fifo L (spi_data cpriv.spi_replies 0),
        (tef_record (spi_data cpriv.spi_replies 0)).ts, false)]
    tef_index := tef_advance cpriv.tef_count cpriv.tef_index
    trace := cpriv.trace ++ tefif_fifo_events L cpriv }

/-- State of example_in_flight at the moment the device holds one transmit-event
record with the given sequence number, identifier 5 and time stamp 77, the
read cursor at index. -/
def example_event_record (seq index : Nat) : mcp25xxfd_can_priv :=
  { example_in_flight with
    tef_index := index
    spi_replies := [{ ret := 0, data := [5, seq <<< 9, 77] }] }

/-- Events that only the conservative strategy produces: the warning about an
empty finished set and the polls of the event-available flag. -/
def Event.is_fallback : Event → Bool
  | Event.netdev_warn_no_finished_fifo => true
  | Event.cmd_read_mask _ _ _ => true
  | _ => false

/-- Reads of an event record from device memory. -/
def Event.is_record_read : Event → Bool
  | Event.cmd_read_regs _ _ _ => true
  | _ => false

/-- Reads of a flag register under a mask. -/
def Event.is_flag_read : Event → Bool
  | Event.cmd_read_mask _ _ _ => true
  | _ => false

/-- Hand-overs of a slot to the release path. -/
def Event.is_release : Event → Bool
  | Event.can_queue_frame _ _ _ => true
  | _ => false

/-- Masked register writes (the acknowledge of an event record is one). -/
def Event.is_ack : Event → Bool
  | Event.cmd_write_mask _ _ _ _ => true
  | _ => false

/-- Replies of a device that answers each poll of the event-available flag with
the given flag word and then delivers the given record (whose acknowledge
succeeds), and answers the poll after the last record with the word last.
Every bus operation succeeds. -/
def conservative_script : List (Nat × List Nat) → Nat → List spi_reply
  | [], last => [{ ret := 0, data := [last] }]
  | (flag, record) :: more, last =>
    { ret := 0, data := [flag] } :: { ret := 0, data := record } :: { ret := 0, data := [] } ::
      conservative_script more last

/-- Two event records, of slot 1 (time stamp 40) and of slot 0 (time stamp 41),
each announced by a flag word with the event-available bit set. -/
def example_records : List (Nat × List Nat) := [(1, [6, 1 <<< 9, 40]), (1, [5, 0, 41])]

/-- Two-slot queue with both slots in flight, the interrupt asserted, and a
request word that still shows both slots pending, so that no finished slot can
be computed; the device holds the two event records of slots 1 and 0. -/
def example_drift : mcp25xxfd_can_priv :=
  { example_in_flight with
    status_txreq := 3
    spi_replies := conservative_script example_records 0 }

/-- Number of slots, among the n slots from f on, whose bit of the abort-pending
word is set: the number of times the loop of lines 612-619 calls the per-slot
handler when no call fails. -/
def txatif_flagged (txatif : Nat) : Nat → Nat → Nat
  | 0, _ => 0
  | n + 1, f => (if txatif &&& BIT f ≠ 0 then 1 else 0) + txatif_flagged txatif n (f + 1)

/-- Two-slot queue with both slots in flight and the abort interrupt pending for
both of them. -/
def example_two_aborts : mcp25xxfd_can_priv :=
  { example_in_flight with status_txatif := 3 }

/-- Two-slot queue with both slots in flight and the abort interrupt pending for
slot 1 only. -/
def example_one_abort : mcp25xxfd_can_priv :=
  { example_in_flight with status_txatif := 2 }

/-- State of example_two_idle after a frame with three payload bytes has been
submitted: slot 0 is in in_fill_fifo_transfer and its fill transaction carries
header and payload. -/
def example_submitted : mcp25xxfd_can_priv :=
  (mcp25xxfd_can_tx_start_xmit example_layout example_frame example_two_idle).2

/-- Error lines of the unsupported-state branch of
mcp25xxfd_can_tx_queue_manage_nolock (lines 181-185). -/
def Event.is_unsupported : Event → Bool
  | Event.netdev_err_unsupported_state _ => true
  | _ => false

/-- Error lines of the unsupported-state branch in a trace. -/
def unsupported_events (t : List Event) : List Event := t.filter Event.is_unsupported

/-- Events that the flow-control state machine produces: wake and stop signals
and the error line of the unsupported-state branch. -/
def Event.is_flow (e : Event) : Bool := e.is_netif || e.is_unsupported

/-- Flow-control events of a trace, in order. -/
def flow_trace (t : List Event) : List Event := t.filter Event.is_flow

/-- Stored state and events of a sequence of requests, by the tables flow_next
and flow_events. -/
def flow_run : tx_queue_state → List tx_queue_state → tx_queue_state × List Event
  | cur, [] => (cur, [])
  | cur, req :: rest =>
    ((flow_run (flow_next cur req) rest).1,
      flow_events cur req ++ (flow_run (flow_next cur req) rest).2)

/-- A sequence of calls of mcp25xxfd_can_tx_queue_manage_nolock with the given
requested states. -/
def manage_seq : List tx_queue_state → mcp25xxfd_can_priv → mcp25xxfd_can_priv
  | [], cpriv => cpriv
  | req :: rest, cpriv => manage_seq rest (mcp25xxfd_can_tx_queue_manage_nolock cpriv req)

/-- No two consecutive signals to the upstream transport are equal. -/
def alternating (signals : List Event) : Prop := List.Chain' (fun a b => a ≠ b) signals

instance (signals : List Event) : Decidable (alternating signals) := by
  unfold alternating
  infer_instance

/-- The last signal to the upstream transport in the trace was a wake. -/
def wake_last (t : List Event) : Prop :=
  (netif_events t).getLast? = some Event.netif_wake_queue

instance (t : List Event) : Decidable (wake_last t) := by
  unfold wake_last
  infer_instance

/-- The stored state agrees with the signals sent so far: the signals alternate
and the last one was a wake exactly when the stored state is Started. -/
def flow_agrees (cpriv : mcp25xxfd_can_priv) : Prop :=
  alternating (netif_events cpriv.trace) ∧
    (wake_last cpriv.trace ↔ cpriv.tx_queue.state = MCP25XXFD_CAN_TX_QUEUE_STATE_STARTED)

instance (cpriv : mcp25xxfd_can_priv) : Decidable (flow_agrees cpriv) := by
  unfold flow_agrees
  infer_instance

/-- Message whose fill buffer is full of the byte 255, as after an earlier frame
of 64 such bytes. -/
def example_stale_message : mcp25xxfd_tx_spi_message :=
  { zeroed_message example_layout with fill_fifo_header := List.replicate 72 255 }

/-- Two-slot queue with both slots in flight and flagged for abort; the bus
serves the status read and the clearing write of slot 0 and then refuses the
status read of slot 1 with -EIO. -/
def example_abort_bus_down : mcp25xxfd_can_priv :=
  { example_two_aborts with
    spi_replies := [{ ret := 0, data := [0] }, { ret := 0, data := [] },
      { ret := -5, data := [] }] }

/-- The five ownership bitmasks in the order idle, in_fill_fifo_transfer,
in_trigger_fifo_transfer, in_can_transfer, transferred. -/
def queue_masks (cpriv : mcp25xxfd_can_priv) : Nat × Nat × Nat × Nat × Nat :=
  (cpriv.tx_queue.idle, cpriv.tx_queue.in_fill_fifo_transfer,
    cpriv.tx_queue.in_trigger_fifo_transfer, cpriv.tx_queue.in_can_transfer,
    cpriv.tx_queue.transferred)

/-- Summary of a state of a run that started in c0: the five bitmasks, the
flow-control state and the pending callbacks are as given, the slot pointers
and the slots of the messages are those of c0, and every reply left in the bus
script is a success. -/
def scenario_state (c0 cpriv : mcp25xxfd_can_priv) (masks : Nat × Nat × Nat × Nat × Nat)
    (state : tx_queue_state) (pending : List spi_message_ref) : Prop :=
  queue_masks cpriv = masks ∧ cpriv.tx_queue.state = state ∧ cpriv.spi_pending = pending ∧
    cpriv.tx_queue.fifo2message = c0.tx_queue.fifo2message ∧
    (∀ j, fifo_of cpriv j = fifo_of c0 j) ∧
    (∀ r ∈ cpriv.spi_replies, r.ret = 0)

/-- The four-slot scenario as a sequence of steps: four submissions, the eight
completion callbacks, a fifth submission, the release of slot 2 by its
transmit event, a further submission, a restart, the releases of slots 0, 1
and 3, and a restart. -/
def scenario (a b c d e g : sk_buff) : List Action :=
  [Action.start_xmit a, Action.start_xmit b, Action.start_xmit c, Action.start_xmit d] ++
    List.replicate 8 Action.spi_complete ++
    [Action.start_xmit e, Action.submit_frame 2, Action.start_xmit g, Action.queue_restart,
      Action.submit_frame 0, Action.submit_frame 1, Action.submit_frame 3,
      Action.queue_restart]

/-! ## Lock skeleton of the driver -/

/-- The two spinlocks of the transmit queue: tx_queue->lock, which guards the
five ownership bitmasks, and the coarser tx_queue->spi_lock of the submission
path. -/
inductive lock_id where
  | queue_lock
  | spi_lock
deriving DecidableEq, Repr, Inhabited

export lock_id (queue_lock spi_lock)

/-- Statements of the driver as far as locking is concerned: taking and
releasing a spinlock, the first and the second of the two stores to the
ownership bitmasks that make up a move of a slot (or the merge of restart), the
asynchronous submission of the fill and of the trigger transaction, and any
other statement. -/
inductive LockOp where
  | spin_lock (l : lock_id)
  | spin_unlock (l : lock_id)
  | store_first
  | store_second
  | async_fill
  | async_trigger
  | other
deriving DecidableEq, Repr, Inhabited

/-- Lines 49-54: a move is a store to the source bitmask followed by a store to
the destination bitmask. -/
def move_ops : List LockOp := [LockOp.store_first, LockOp.store_second]

/-- Lines 56-75: the transfer length is reset, then the move is made between
spin_lock_irqsave (line 67) and spin_unlock_irqrestore (line 74) of the queue
lock. -/
def fill_fifo_complete_ops : List LockOp :=
  [LockOp.other, LockOp.spin_lock queue_lock] ++ move_ops ++ [LockOp.spin_unlock queue_lock]

/-- Lines 77-92: the move between lines 84 and 91. -/
def trigger_fifo_complete_ops : List LockOp :=
  [LockOp.spin_lock queue_lock] ++ move_ops ++ [LockOp.spin_unlock queue_lock]

/-- Lines 143-186: the flow-control switch stores to state only. -/
def manage_nolock_ops : List LockOp := [LockOp.other]

/-- Lines 188-197: the locked wrapper. -/
def manage_ops : List LockOp :=
  [LockOp.spin_lock queue_lock] ++ manage_nolock_ops ++ [LockOp.spin_unlock queue_lock]

/-- Lines 199-223: the test of the pending slots and, when none is pending, the
two stores of the merge (lines 216-217) and the flow-control request, all
between lines 205 and 222. -/
def restart_ops (pending : Bool) : List LockOp :=
  [LockOp.spin_lock queue_lock, LockOp.other] ++
    (if pending then [] else [LockOp.store_first, LockOp.store_second] ++ manage_nolock_ops) ++
    [LockOp.spin_unlock queue_lock]

/-- Lines 225-264: the record read; then the membership test inside the queue
lock (lines 245-250), the hand-over, the cursor and the acknowledge. -/
def tefif_fifo_ops (read_failed : Bool) : List LockOp :=
  [LockOp.other] ++
    (if read_failed then []
     else [LockOp.other, LockOp.spin_lock queue_lock, LockOp.other,
       LockOp.spin_unlock queue_lock, LockOp.other, LockOp.other, LockOp.other])

/-- Lines 322-338: the guard and the computation of the finished set inside the
queue lock (lines 330-337). -/
def tefif_finished_ops (asserted : Bool) : List LockOp :=
  [LockOp.other] ++
    (if asserted then
      [LockOp.spin_lock queue_lock, LockOp.other, LockOp.spin_unlock queue_lock]
     else [])

/-- Lines 434-461: the claim of the lowest idle slot between lines 442 and 458;
no store when no slot is idle, the flow-control request when the last idle slot
was claimed. -/
def get_next_fifo_ops (none_idle last : Bool) : List LockOp :=
  [LockOp.spin_lock queue_lock, LockOp.other] ++
    (if none_idle then []
     else move_ops ++ (if last then manage_nolock_ops else [])) ++
    [LockOp.spin_unlock queue_lock]

/-- Lines 463-537: the test of the frame; then, inside spi_lock (line 481), the
claim, the serialisation and the two submissions; the lock is released at line
522 on success and at line 534 on the busy and the failure path. -/
def start_xmit_ops (invalid none_idle last fill_failed trigger_failed : Bool) :
    List LockOp :=
  [LockOp.other] ++
    (if invalid then []
     else
      [LockOp.spin_lock spi_lock] ++ get_next_fifo_ops none_idle last ++
        (if none_idle then manage_nolock_ops ++ [LockOp.spin_unlock spi_lock]
         else
          [LockOp.other, LockOp.async_fill] ++
            (if fill_failed then
              [LockOp.other] ++ manage_nolock_ops ++ [LockOp.spin_unlock spi_lock]
             else
              [LockOp.async_trigger] ++
                (if trigger_failed then
                  [LockOp.other] ++ manage_nolock_ops ++ [LockOp.spin_unlock spi_lock]
                 else [LockOp.spin_unlock spi_lock, LockOp.other]))))

/-- Lines 539-565: the counters; then the echo frame and the move between lines
553 and 562. -/
def submit_frame_ops : List LockOp :=
  [LockOp.other, LockOp.other, LockOp.spin_lock queue_lock, LockOp.other] ++ move_ops ++
    [LockOp.spin_unlock queue_lock]

/-- Lines 567-602: the status read and the clearing write; then the echo frame
and the move between lines 590 and 596, the cached flag and the counter. -/
def txatif_fifo_ops (read_failed write_failed : Bool) : List LockOp :=
  [LockOp.other] ++
    (if read_failed then []
     else
      [LockOp.other] ++
        (if write_failed then []
         else
          [LockOp.spin_lock queue_lock, LockOp.other] ++ move_ops ++
            [LockOp.spin_unlock queue_lock, LockOp.other, LockOp.other]))

/-- Every path through every function of the file that runs after
initialisation and takes a lock or stores to an ownership bitmask. -/
def driver_paths : List (List LockOp) :=
  [fill_fifo_complete_ops, trigger_fifo_complete_ops, manage_ops, submit_frame_ops] ++
    [true, false].map restart_ops ++ [true, false].map tefif_fifo_ops ++
    [true, false].map tefif_finished_ops ++
    [true, false].flatMap (fun a => [true, false].map (txatif_fifo_ops a)) ++
    [true, false].flatMap (fun a => [true, false].flatMap (fun b => [true, false].flatMap (fun c =>
      [true, false].flatMap (fun d => [true, false].map (start_xmit_ops a b c d)))))

/-- What a statement is to a given lock: taking it, releasing it, the first or
the second of the two statements the lock is meant to keep together, or
nothing. -/
inductive lock_role where
  | acquire
  | release
  | first
  | second
  | neutral
deriving DecidableEq, Repr, Inhabited

/-- Role of a statement for a lock: the stores to the ownership bitmasks belong
to the queue lock, the asynchronous submissions to spi_lock. -/
def op_role (l : lock_id) : LockOp → lock_role
  | LockOp.spin_lock l2 => if l2 = l then lock_role.acquire else lock_role.neutral
  | LockOp.spin_unlock l2 => if l2 = l then lock_role.release else lock_role.neutral
  | LockOp.store_first => if l = queue_lock then lock_role.first else lock_role.neutral
  | LockOp.store_second => if l = queue_lock then lock_role.second else lock_role.neutral
  | LockOp.async_fill => if l = spi_lock then lock_role.first else lock_role.neutral
  | LockOp.async_trigger => if l = spi_lock then lock_role.second else lock_role.neutral
  | LockOp.other => lock_role.neutral

/-- Where a thread is with respect to a lock: outside its critical section,
inside, or inside after the first of the two guarded statements. -/
inductive lock_phase where
  | outside
  | inside
  | half
deriving DecidableEq, Repr, Inhabited

/-- Lock discipline as an automaton: a lock is taken outside and released
inside, a guarded statement is executed inside only, the second one only after
the first; none is a violation. -/
def phase_step (l : lock_id) (ph : Option lock_phase) (op : LockOp) : Option lock_phase :=
  match ph, op_role l op with
  | some p, lock_role.neutral => some p
  | some lock_phase.outside, lock_role.acquire => some lock_phase.inside
  | some lock_phase.inside, lock_role.release => some lock_phase.outside
  | some lock_phase.half, lock_role.release => some lock_phase.outside
  | some lock_phase.inside, lock_role.first => some lock_phase.half
  | some lock_phase.half, lock_role.second => some lock_phase.inside
  | _, _ => none

/-- Phase a thread is in after the statements it has executed. -/
def phase_of (l : lock_id) (executed : List LockOp) : Option lock_phase :=
  executed.foldl (phase_step l) (some lock_phase.outside)

/-- A path keeps the discipline of a lock: it starts and ends outside the
critical section and never violates the automaton. -/
def lock_discipline (l : lock_id) (path : List LockOp) : Prop :=
  phase_of l path = some lock_phase.outside

instance (l : lock_id) (path : List LockOp) : Decidable (lock_discipline l path) := by
  unfold lock_discipline
  infer_instance

/-- Threads that run statements of the driver concurrently: who holds each
lock, what every thread has executed and has still to execute, and for each
lock the guarded statements in the order in which they took effect (the thread
and whether it was the second statement of a pair). -/
structure lock_system where
  holder : lock_id → Option Nat
  executed : Nat → List LockOp
  todo : Nat → List LockOp
  log : lock_id → List (Nat × Bool)

/-- All threads at the start of their programs, no lock held. -/
def lock_system_start (programs : Nat → List LockOp) : lock_system :=
  { holder := fun _ => none
    executed := fun _ => []
    todo := programs
    log := fun _ => [] }

/-- Thread t has executed the statement op and goes on with rest. -/
def lock_system.advance (s : lock_system) (t : Nat) (op : LockOp) (rest : List LockOp) :
    lock_system :=
  { s with executed := Function.update s.executed t (s.executed t ++ [op])
           todo := Function.update s.todo t rest }

/-- One step of thread t: its next statement takes effect, unless the thread has
finished or spins on a lock that is held. -/
def lock_system.step (s : lock_system) (t : Nat) : lock_system :=
  match s.todo t with
  | [] => s
  | LockOp.spin_lock l :: rest =>
    if s.holder l = none then
      { s.advance t (LockOp.spin_lock l) rest with holder := Function.update s.holder l (some t) }
    else s
  | LockOp.spin_unlock l :: rest =>
    { s.advance t (LockOp.spin_unlock l) rest with holder := Function.update s.holder l none }
  | LockOp.store_first :: rest =>
    { s.advance t LockOp.store_first rest with
      log := Function.update s.log queue_lock (s.log queue_lock ++ [(t, false)]) }
  | LockOp.store_second :: rest =>
    { s.advance t LockOp.store_second rest with
      log := Function.update s.log queue_lock (s.log queue_lock ++ [(t, true)]) }
  | LockOp.async_fill :: rest =>
    { s.advance t LockOp.async_fill rest with
      log := Function.update s.log spi_lock (s.log spi_lock ++ [(t, false)]) }
  | LockOp.async_trigger :: rest =>
    { s.advance t LockOp.async_trigger rest with
      log := Function.update s.log spi_lock (s.log spi_lock ++ [(t, true)]) }
  | LockOp.other :: rest => s.advance t LockOp.other rest

/-- The system after the threads were scheduled in the given order. -/
def lock_system.run (s : lock_system) : List Nat → lock_system
  | [] => s
  | t :: schedule => (s.step t).run schedule

/-- Pairs are kept together: every second statement of a pair comes directly
after the first statement of the same thread. -/
def pairs_adjacent (log : List (Nat × Bool)) : Prop :=
  ∀ before t after, log = before ++ (t, true) :: after → before.getLast? = some (t, false)

/-- Programs in which thread 0 and thread 1 each submit a frame that is accepted
(thread 0 claims the last idle slot) and every other thread runs the trigger
completion callback. -/
def example_programs (t : Nat) : List LockOp :=
  if t = 0 then start_xmit_ops false false true false false
  else if t = 1 then start_xmit_ops false false false false false
  else trigger_fifo_complete_ops

/-- Invariant of one lock over the concurrent system: what every thread has
still to execute keeps the discipline from the phase the thread is in; the
lock is held by exactly the thread that is inside its critical section; a
thread that has executed the first statement of a pair was the last to use the
guarded resource; and the pairs are adjacent so far. -/
def lock_invariant (l : lock_id) (s : lock_system) : Prop :=
  (∀ t, (s.todo t).foldl (phase_step l) (phase_of l (s.executed t)) =
    some lock_phase.outside) ∧
  (∀ t, s.holder l = some t ↔
    (phase_of l (s.executed t) = some lock_phase.inside ∨
      phase_of l (s.executed t) = some lock_phase.half)) ∧
  (∀ t, phase_of l (s.executed t) = some lock_phase.half →
    (s.log l).getLast? = some (t, false)) ∧
  pairs_adjacent (s.log l)

/-- A round-robin schedule of the threads 0, 1 and 2. -/
def example_schedule : List Nat := (List.range 72).map (fun k => k % 3)

/-- State of example_in_flight when the read of the event record fails on the
bus with error -5. -/
def example_record_read_down : mcp25xxfd_can_priv :=
  { example_in_flight with spi_replies := [{ ret := -5, data := [] }] }

/-- State of example_in_flight when the device holds the event record of slot 1
(identifier 5, time stamp 77) and the acknowledge write fails on the bus with
error -5. -/
def example_ack_down : mcp25xxfd_can_priv :=
  { example_in_flight with
    spi_replies := [{ ret := 0, data := [5, 1 <<< 9, 77] }, { ret := -5, data := [] }] }

/-- Number of slots, among the n slots from f on, whose bit is set in the
finished mask; the bit of a slot is the one BIT(slot) selects, bit slot for
every slot below 64. -/
def finished_count (finished : Nat) : Nat → Nat → Nat
  | 0, _ => 0
  | n + 1, f =>
    (if finished.testBit (f % 64) then 1 else 0) + finished_count finished n (f + 1)

/-- Successive calls of mcp25xxfd_can_tx_handle_int_tefif_fifo, k of them unless
one returns an error, which ends the sequence with that error. -/
def tefif_fifo_times (L : Layout) : Nat → mcp25xxfd_can_priv → Int × mcp25xxfd_can_priv
  | 0, c => (0, c)
  | k + 1, c =>
    if (mcp25xxfd_can_tx_handle_int_tefif_fifo L c).1 ≠ 0 then
      mcp25xxfd_can_tx_handle_int_tefif_fifo L c
    else tefif_fifo_times L k (mcp25xxfd_can_tx_handle_int_tefif_fifo L c).2

/-- Entry of the release list made for the j-th event record of a bus script in
which every record read is followed by its acknowledge write: the slot named by
the sequence field of the record and the time stamp of the record. -/
def tef_release (L : Layout) (replies : List spi_reply) (j : Nat) : Nat × Nat × Bool :=
  (tef_fifo L (spi_data replies (2 * j)), (tef_record (spi_data replies (2 * j))).ts, false)

/-- State of example_in_flight when the device holds the event record of slot 1
(time stamp 40) followed by the one of slot 0 (time stamp 41); every bus
operation succeeds. -/
def example_two_events : mcp25xxfd_can_priv :=
  { example_in_flight with
    spi_replies := [{ ret := 0, data := [6, 1 <<< 9, 40] }, { ret := 0, data := [] },
      { ret := 0, data := [5, 0, 41] }, { ret := 0, data := [] }] }

/-- Layout of the flag word of a transmit object as far as the driver relies on
it; mcp25xxfd_regs.h and mcp25xxfd_can_id.h are not under src/.  The
data-length code is a 4 bit field at DLC_SHIFT inside the 32 bit word; IDE and
RTR are non-empty flags of the word, outside that field and apart from each
other; the sequence number of a slot below 32 keeps clear of the field and of
both flags; the flags computed by mcp25xxfd_can_id_to_mcp25xxfd keep clear of
the field and carry IDE or RTR only for an identifier with the extended or the
remote flag. -/
def flags_layout (L : Layout) : Prop :=
  L.CAN_OBJ_FLAGS_DLC_MASK = 15 <<< L.CAN_OBJ_FLAGS_DLC_SHIFT ∧
  L.CAN_OBJ_FLAGS_DLC_SHIFT + 4 ≤ 32 ∧
  L.CAN_OBJ_FLAGS_IDE ≠ 0 ∧ L.CAN_OBJ_FLAGS_IDE < 2 ^ 32 ∧
  L.CAN_OBJ_FLAGS_RTR ≠ 0 ∧ L.CAN_OBJ_FLAGS_RTR < 2 ^ 32 ∧
  L.CAN_OBJ_FLAGS_IDE &&& L.CAN_OBJ_FLAGS_DLC_MASK = 0 ∧
  L.CAN_OBJ_FLAGS_RTR &&& L.CAN_OBJ_FLAGS_DLC_MASK = 0 ∧
  L.CAN_OBJ_FLAGS_IDE &&& L.CAN_OBJ_FLAGS_RTR = 0 ∧
  (∀ f, f < 32 →
    (f <<< L.CAN_OBJ_FLAGS_SEQ_SHIFT) &&& L.CAN_OBJ_FLAGS_DLC_MASK = 0 ∧
    (f <<< L.CAN_OBJ_FLAGS_SEQ_SHIFT) &&& L.CAN_OBJ_FLAGS_IDE = 0 ∧
    (f <<< L.CAN_OBJ_FLAGS_SEQ_SHIFT) &&& L.CAN_OBJ_FLAGS_RTR = 0) ∧
  (∀ can_id,
    (L.can_id_to_mcp25xxfd can_id).2 &&& L.CAN_OBJ_FLAGS_DLC_MASK = 0 ∧
    ((L.can_id_to_mcp25xxfd can_id).2 &&& L.CAN_OBJ_FLAGS_IDE ≠ 0 →
      can_id &&& CAN_EFF_FLAG ≠ 0) ∧
    ((L.can_id_to_mcp25xxfd can_id).2 &&& L.CAN_OBJ_FLAGS_RTR ≠ 0 →
      can_id &&& CAN_RTR_FLAG ≠ 0))

/-- Flag word that lines 418-424 and line 358 leave in the slot image of a
classic frame: the flags of the identifier conversion, the data-length code,
IDE and RTR as the identifier asks, and the slot as sequence number. -/
def classic_flags (L : Layout) (can_id dlc fifo : Nat) : Nat :=
  ((((((L.can_id_to_mcp25xxfd can_id).2 % 2 ^ 32 |||
      dlc <<< L.CAN_OBJ_FLAGS_DLC_SHIFT) % 2 ^ 32 |||
    (if can_id &&& CAN_EFF_FLAG ≠ 0 then L.CAN_OBJ_FLAGS_IDE else 0)) % 2 ^ 32 |||
    (if can_id &&& CAN_RTR_FLAG ≠ 0 then L.CAN_OBJ_FLAGS_RTR else 0)) % 2 ^ 32) |||
    (fifo <<< L.CAN_OBJ_FLAGS_SEQ_SHIFT) % 2 ^ 32) % 2 ^ 32

/-- Classic frame with an extended identifier and the invalid length code 11,
carrying eleven bytes. -/
def example_long_frame : canfd_frame :=
  { can_id := CAN_EFF_FLAG ||| 5
    len := 11
    flags := 0
    data := [1, 2, 3, 4, 5, 6, 7, 8, 9, 10, 11] }

/-- Message of slot 1 as allocation leaves it in the example layout. -/
def example_message : mcp25xxfd_tx_spi_message :=
  { zeroed_message example_layout with fifo := 1 }

/-- Slot image whose payload area holds the byte 255 sixteen times. -/
def example_stale_image : mcp25xxfd_can_obj_tx :=
  { id := 0, flags := 0, data := List.replicate 16 255 }

end Mcp25xxfd

/-! ## Bit-level facts -/

namespace Mcp25xxfd

theorem testBit_BIT (k j : Nat) : (BIT k).testBit j = decide (k % 64 = j) := by
  unfold BIT
  rw [Nat.one_shiftLeft, Nat.testBit_mod_two_pow, Nat.testBit_two_pow]
  have hk : k % 64 < 64 := Nat.mod_lt _ (by decide)
  by_cases h : k % 64 = j
  · have hj : j < 64 := by omega
    simp [h, hj]
  · simp [h]

theorem testBit_not_ul (x j : Nat) :
    (not_ul x).testBit j = (decide (j < 64) && !x.testBit j) := by
  unfold not_ul
  rw [Nat.testBit_xor, Nat.testBit_two_pow_sub_one, Nat.testBit_mod_two_pow]
  by_cases h : j < 64 <;> simp [h]

theorem testBit_remove (b k j : Nat) :
    (mcp25xxfd_can_tx_queue_remove_spi_message b k).testBit j =
      (decide (j < 32) && (b.testBit j && decide (j ≠ k % 64))) := by
  unfold mcp25xxfd_can_tx_queue_remove_spi_message
  rw [Nat.testBit_mod_two_pow, Nat.testBit_and, testBit_not_ul, testBit_BIT]
  by_cases h : j < 32
  · have h64 : j < 64 := by omega
    by_cases hk : k % 64 = j
    · subst hk
      simp [h, h64]
    · have hk2 : ¬ j = k % 64 := fun e => hk e.symm
      simp [h, h64, hk, hk2]
  · simp [h]

theorem testBit_add (b k j : Nat) :
    (mcp25xxfd_can_tx_queue_add_spi_message b k).testBit j =
      (decide (j < 32) && (b.testBit j || decide (j = k % 64))) := by
  unfold mcp25xxfd_can_tx_queue_add_spi_message
  rw [Nat.testBit_mod_two_pow, Nat.testBit_or, testBit_BIT]
  by_cases h : j < 32
  · by_cases hk : k % 64 = j
    · subst hk
      simp [h]
    · have hk2 : ¬ j = k % 64 := fun e => hk e.symm
      simp [h, hk, hk2]
  · simp [h]

theorem BIT_mod (k : Nat) : BIT (k % 64) = BIT k := by
  unfold BIT
  rw [Nat.mod_mod]

theorem remove_mod (b k : Nat) :
    mcp25xxfd_can_tx_queue_remove_spi_message b (k % 64) =
      mcp25xxfd_can_tx_queue_remove_spi_message b k := by
  unfold mcp25xxfd_can_tx_queue_remove_spi_message
  rw [BIT_mod]

theorem add_mod (b k : Nat) :
    mcp25xxfd_can_tx_queue_add_spi_message b (k % 64) =
      mcp25xxfd_can_tx_queue_add_spi_message b k := by
  unfold mcp25xxfd_can_tx_queue_add_spi_message
  rw [BIT_mod]

theorem testBit_remove_lt (b k j : Nat) (hk : k < 64) :
    (mcp25xxfd_can_tx_queue_remove_spi_message b k).testBit j =
      (decide (j < 32) && (b.testBit j && decide (j ≠ k))) := by
  rw [testBit_remove, Nat.mod_eq_of_lt hk]

theorem testBit_add_lt (b k j : Nat) (hk : k < 64) :
    (mcp25xxfd_can_tx_queue_add_spi_message b k).testBit j =
      (decide (j < 32) && (b.testBit j || decide (j = k))) := by
  rw [testBit_add, Nat.mod_eq_of_lt hk]

theorem testBit_lt_of_lt_two_pow {b n j : Nat} (hb : b < 2 ^ n) (hj : b.testBit j = true) :
    j < n := by
  by_contra hcon
  have hle : n ≤ j := by omega
  have h2 : b < 2 ^ j := lt_of_lt_of_le hb (Nat.pow_le_pow_right (by decide) hle)
  rw [Nat.testBit_lt_two_pow h2] at hj
  exact absurd hj (by decide)

theorem eq_zero_iff_testBit (x : Nat) : x = 0 ↔ ∀ j, x.testBit j = false := by
  constructor
  · intro h j; subst h; exact Nat.zero_testBit j
  · intro h
    apply Nat.eq_of_testBit_eq
    intro j
    rw [h j, Nat.zero_testBit]

theorem ffs_scan_spec (x : Nat) : ∀ n i : Nat,
    (ffs_scan x n i = 0 ∧ ∀ j, i ≤ j → j < i + n → x.testBit j = false) ∨
    (∃ r, ffs_scan x n i = r + 1 ∧ i ≤ r ∧ r < i + n ∧ x.testBit r = true ∧
      ∀ j, i ≤ j → j < r → x.testBit j = false) := by
  intro n
  induction n with
  | zero =>
    intro i
    left
    refine ⟨rfl, ?_⟩
    intro j h1 h2
    omega
  | succ n ih =>
    intro i
    by_cases hb : x.testBit i = true
    · right
      refine ⟨i, ?_, le_refl i, by omega, hb, ?_⟩
      · simp [ffs_scan, hb]
      · intro j h1 h2; omega
    · have hb2 : x.testBit i = false := by simpa using hb
      have hstep : ffs_scan x (n + 1) i = ffs_scan x n (i + 1) := by
        simp [ffs_scan, hb2]
      rcases ih (i + 1) with ⟨h0, hall⟩ | ⟨r, hr, hle, hlt, hbit, hall⟩
      · left
        refine ⟨by rw [hstep, h0], ?_⟩
        intro j h1 h2
        by_cases hji : j = i
        · subst hji; exact hb2
        · exact hall j (by omega) (by omega)
      · right
        refine ⟨r, by rw [hstep, hr], by omega, by omega, hbit, ?_⟩
        intro j h1 h2
        by_cases hji : j = i
        · subst hji; exact hb2
        · exact hall j (by omega) h2

theorem ffs_eq_zero_iff (x : Nat) : ffs x = 0 ↔ x % 2 ^ 32 = 0 := by
  unfold ffs
  rw [eq_zero_iff_testBit (x % 2 ^ 32)]
  constructor
  · intro h j
    rcases ffs_scan_spec (x % 2 ^ 32) 32 0 with ⟨_, hall⟩ | ⟨r, hr, _⟩
    · by_cases hj : j < 32
      · exact hall j (Nat.zero_le j) (by omega)
      · rw [Nat.testBit_mod_two_pow]; simp [hj]
    · rw [hr] at h; omega
  · intro h
    rcases ffs_scan_spec (x % 2 ^ 32) 32 0 with ⟨h0, _⟩ | ⟨r, _, _, _, hbit, _⟩
    · exact h0
    · rw [h r] at hbit; exact absurd hbit (by decide)

theorem ffs_spec (x : Nat) (hx : x % 2 ^ 32 ≠ 0) :
    ∃ r, ffs x = r + 1 ∧ r < 32 ∧ x.testBit r = true ∧ ∀ j, j < r → x.testBit j = false := by
  have hne : ffs x ≠ 0 := fun h => hx ((ffs_eq_zero_iff x).1 h)
  unfold ffs at hne ⊢
  rcases ffs_scan_spec (x % 2 ^ 32) 32 0 with ⟨h0, _⟩ | ⟨r, hr, _, hlt, hbit, hall⟩
  · exact absurd h0 hne
  · refine ⟨r, hr, by omega, ?_, ?_⟩
    · rw [Nat.testBit_mod_two_pow] at hbit
      simp at hbit
      exact hbit.2
    · intro j hj
      have := hall j (Nat.zero_le j) hj
      rw [Nat.testBit_mod_two_pow] at this
      have hj32 : j < 32 := by omega
      simpa [hj32] using this

end Mcp25xxfd
/-! ## Ownership tracker -/

namespace Mcp25xxfd

/-- Bitwise effect of a move on 32 bit bitmaps. -/
theorem move_spi_message_bits (src dest fifo : Nat) (hsrc : src < 2 ^ 32)
    (hdest : dest < 2 ^ 32) (hfifo : fifo < 32) :
    (mcp25xxfd_can_tx_queue_move_spi_message src dest fifo).1.testBit fifo = false ∧
    (mcp25xxfd_can_tx_queue_move_spi_message src dest fifo).2.testBit fifo = true ∧
    ∀ j, j ≠ fifo →
      (mcp25xxfd_can_tx_queue_move_spi_message src dest fifo).1.testBit j = src.testBit j ∧
      (mcp25xxfd_can_tx_queue_move_spi_message src dest fifo).2.testBit j = dest.testBit j := by
  unfold mcp25xxfd_can_tx_queue_move_spi_message
  have hmod : fifo % 64 = fifo := Nat.mod_eq_of_lt (by omega)
  refine ⟨?_, ?_, ?_⟩
  · simp [testBit_remove, hmod]
  · simp [testBit_add, hfifo, hmod]
  · intro j hj
    simp only [testBit_remove, testBit_add, hmod]
    by_cases h32 : j < 32
    · simp [h32, hj]
    · have h1 : src.testBit j = false := by
        by_contra hc
        exact h32 (testBit_lt_of_lt_two_pow hsrc (by simpa using hc))
      have h2 : dest.testBit j = false := by
        by_contra hc
        exact h32 (testBit_lt_of_lt_two_pow hdest (by simpa using hc))
      simp [h32, h1, h2]

/-- C2: for 32 bit bitmaps src and dest and a slot index fifo < 32, the move
leaves bit fifo clear in src and set in dest and changes no other bit of
either bitmap, whether or not fifo was set in src before. -/
theorem C2_move_clears_src_sets_dest (src dest fifo : Nat) (hsrc : src < 2 ^ 32)
    (hdest : dest < 2 ^ 32) (hfifo : fifo < 32) :
    (mcp25xxfd_can_tx_queue_move_spi_message src dest fifo).1.testBit fifo = false ∧
    (mcp25xxfd_can_tx_queue_move_spi_message src dest fifo).2.testBit fifo = true ∧
    ∀ j, j ≠ fifo →
      (mcp25xxfd_can_tx_queue_move_spi_message src dest fifo).1.testBit j = src.testBit j ∧
      (mcp25xxfd_can_tx_queue_move_spi_message src dest fifo).2.testBit j = dest.testBit j :=
  move_spi_message_bits src dest fifo hsrc hdest hfifo

/-- Instance of C2 with slot 3 absent from src = 0b0101 and moved into dest = 0b0010. -/
theorem C2_move_clears_src_sets_dest_witness :
    (mcp25xxfd_can_tx_queue_move_spi_message 5 2 3).1.testBit 3 = false ∧
    (mcp25xxfd_can_tx_queue_move_spi_message 5 2 3).2.testBit 3 = true ∧
    ∀ j, j ≠ 3 →
      (mcp25xxfd_can_tx_queue_move_spi_message 5 2 3).1.testBit j = Nat.testBit 5 j ∧
      (mcp25xxfd_can_tx_queue_move_spi_message 5 2 3).2.testBit j = Nat.testBit 2 j :=
  C2_move_clears_src_sets_dest 5 2 3 (by decide) (by decide) (by decide)

theorem first_spi_message_of_zero (q : mcp25xxfd_tx_spi_message_queue) (bitmap : Nat)
    (h : bitmap % 2 ^ 32 = 0) : mcp25xxfd_can_tx_queue_first_spi_message q bitmap = none := by
  unfold mcp25xxfd_can_tx_queue_first_spi_message
  simp [(ffs_eq_zero_iff bitmap).2 h]

theorem first_spi_message_of_ne_zero (q : mcp25xxfd_tx_spi_message_queue) (bitmap : Nat)
    (h : bitmap % 2 ^ 32 ≠ 0) :
    ∃ r, r < 32 ∧ bitmap.testBit r = true ∧ (∀ j, j < r → bitmap.testBit j = false) ∧
      mcp25xxfd_can_tx_queue_first_spi_message q bitmap = q.fifo2message.getD r none := by
  obtain ⟨r, hr, hlt, hbit, hall⟩ := ffs_spec bitmap h
  refine ⟨r, hlt, hbit, hall, ?_⟩
  unfold mcp25xxfd_can_tx_queue_first_spi_message
  simp [hr]

/-- The message returned for a bitmap belongs to the lowest set slot, when the
pointers of the set slots are linked. -/
theorem first_spi_message_some (q : mcp25xxfd_tx_spi_message_queue) (bitmap i : Nat)
    (hlink : slots_linked q bitmap)
    (h : mcp25xxfd_can_tx_queue_first_spi_message q bitmap = some i) :
    (msg_at q i).fifo < 32 ∧ bitmap.testBit (msg_at q i).fifo = true ∧
      ∀ j, j < (msg_at q i).fifo → bitmap.testBit j = false := by
  by_cases hz : bitmap % 2 ^ 32 = 0
  · rw [first_spi_message_of_zero q bitmap hz] at h
    exact absurd h (by simp)
  · obtain ⟨r, hlt, hbit, hall, heq⟩ := first_spi_message_of_ne_zero q bitmap hz
    have hl := hlink r hlt hbit
    rw [h] at heq
    rw [← heq] at hl
    simp only [Option.map_some', Option.some.injEq] at hl
    rw [hl]
    exact ⟨hlt, hbit, hall⟩

theorem first_spi_message_linked_ne_none (q : mcp25xxfd_tx_spi_message_queue) (bitmap : Nat)
    (hlink : slots_linked q bitmap) (h : bitmap % 2 ^ 32 ≠ 0) :
    ∃ i, mcp25xxfd_can_tx_queue_first_spi_message q bitmap = some i := by
  obtain ⟨r, hlt, hbit, _, heq⟩ := first_spi_message_of_ne_zero q bitmap h
  have hl := hlink r hlt hbit
  rw [heq]
  cases hg : q.fifo2message.getD r none with
  | none => rw [hg] at hl; simp at hl
  | some i => exact ⟨i, rfl⟩

/-- C3: with the slot pointers linked as alloc sets them up, the first message
of idle is NULL exactly when idle is 0, and otherwise it is the message of the
lowest slot whose bit is set in idle. -/
theorem C3_first_idle_lowest (q : mcp25xxfd_tx_spi_message_queue) (hidle : q.idle < 2 ^ 32)
    (hlink : slots_linked q q.idle) :
    (mcp25xxfd_can_tx_queue_first_spi_message q q.idle = none ↔ q.idle = 0) ∧
    ∀ i, mcp25xxfd_can_tx_queue_first_spi_message q q.idle = some i →
      q.idle.testBit (msg_at q i).fifo = true ∧
      ∀ j, j < (msg_at q i).fifo → q.idle.testBit j = false := by
  have hmod : q.idle % 2 ^ 32 = q.idle := Nat.mod_eq_of_lt hidle
  refine ⟨⟨?_, ?_⟩, ?_⟩
  · intro hnone
    by_contra hne
    have hne2 : q.idle % 2 ^ 32 ≠ 0 := by rw [hmod]; exact hne
    obtain ⟨i, hi⟩ := first_spi_message_linked_ne_none q q.idle hlink hne2
    rw [hnone] at hi
    exact absurd hi (by simp)
  · intro hz
    exact first_spi_message_of_zero q q.idle (by rw [hz]; rfl)
  · intro i hi
    exact (first_spi_message_some q q.idle i hlink hi).2

/-- Instance of C3 on a freshly allocated queue of four slots starting at slot 1. -/
theorem C3_first_idle_lowest_witness :
    ((example_priv 1 4 MCP25XXFD_CAN_TX_QUEUE_STATE_STARTED).tx_queue.idle < 2 ^ 32 ∧
      slots_linked (example_priv 1 4 MCP25XXFD_CAN_TX_QUEUE_STATE_STARTED).tx_queue
        (example_priv 1 4 MCP25XXFD_CAN_TX_QUEUE_STATE_STARTED).tx_queue.idle) ∧
    ((mcp25xxfd_can_tx_queue_first_spi_message
        (example_priv 1 4 MCP25XXFD_CAN_TX_QUEUE_STATE_STARTED).tx_queue
        (example_priv 1 4 MCP25XXFD_CAN_TX_QUEUE_STATE_STARTED).tx_queue.idle = none ↔
      (example_priv 1 4 MCP25XXFD_CAN_TX_QUEUE_STATE_STARTED).tx_queue.idle = 0) ∧
    ∀ i, mcp25xxfd_can_tx_queue_first_spi_message
        (example_priv 1 4 MCP25XXFD_CAN_TX_QUEUE_STATE_STARTED).tx_queue
        (example_priv 1 4 MCP25XXFD_CAN_TX_QUEUE_STATE_STARTED).tx_queue.idle = some i →
      (example_priv 1 4 MCP25XXFD_CAN_TX_QUEUE_STATE_STARTED).tx_queue.idle.testBit
        (msg_at (example_priv 1 4 MCP25XXFD_CAN_TX_QUEUE_STATE_STARTED).tx_queue i).fifo = true ∧
      ∀ j, j < (msg_at (example_priv 1 4 MCP25XXFD_CAN_TX_QUEUE_STATE_STARTED).tx_queue i).fifo →
        (example_priv 1 4 MCP25XXFD_CAN_TX_QUEUE_STATE_STARTED).tx_queue.idle.testBit j = false) :=
  ⟨⟨by decide, by decide⟩,
    C3_first_idle_lowest (example_priv 1 4 MCP25XXFD_CAN_TX_QUEUE_STATE_STARTED).tx_queue
      (by decide) (by decide)⟩

end Mcp25xxfd
/-! ## Flow control, restart and the busy path of submission -/

namespace Mcp25xxfd

theorem manage_nolock_eq (c : mcp25xxfd_can_priv) (st : tx_queue_state) :
    mcp25xxfd_can_tx_queue_manage_nolock c st =
      { c with tx_queue := { c.tx_queue with state := flow_next c.tx_queue.state st }
               trace := c.trace ++ flow_events c.tx_queue.state st } := by
  obtain ⟨s1, s2, s3, s4, s5, s6, ⟨q1, q2, q3, q4, q5, qs, q7, q8⟩, s8, s9, s10, s11, s12,
    s13, s14, s15, s16, s17, s18, s19, s20, s21, s22⟩ := c
  unfold mcp25xxfd_can_tx_queue_manage_nolock
  cases qs <;> cases st <;>
    simp [netif_wake_queue, netif_stop_queue, emit, flow_next, flow_events]

theorem flow_events_not_bus (cur req : tx_queue_state) :
    bus_events (flow_events cur req) = [] := by
  cases cur <;> cases req <;> simp [flow_events, bus_events, Event.is_bus]

theorem bus_events_append (t u : List Event) :
    bus_events (t ++ u) = bus_events t ++ bus_events u := by
  simp [bus_events]

/-- C10: while idle, in_fill_fifo_transfer, in_trigger_fifo_transfer or
in_can_transfer holds any slot, restart changes nothing: the whole driver
state, with the five bitmasks, the flow-control state and the trace of wake
and stop signals, is the one before the call. -/
theorem C10_restart_noop_when_pending (cpriv : mcp25xxfd_can_priv)
    (h : cpriv.tx_queue.idle ||| cpriv.tx_queue.in_fill_fifo_transfer |||
      cpriv.tx_queue.in_trigger_fifo_transfer ||| cpriv.tx_queue.in_can_transfer ≠ 0) :
    mcp25xxfd_can_tx_queue_restart cpriv = cpriv := by
  unfold mcp25xxfd_can_tx_queue_restart
  simp [h]

/-- Instance of C10: one slot in flight and one completed, queue stopped. -/
theorem C10_restart_noop_when_pending_witness :
    (run example_layout [Action.start_xmit (example_skb 1 []), Action.start_xmit (example_skb 2 []),
        Action.spi_complete, Action.spi_complete, Action.spi_complete, Action.spi_complete,
        Action.submit_frame 0]
      (example_priv 0 2 MCP25XXFD_CAN_TX_QUEUE_STATE_STARTED)).tx_queue.in_can_transfer = 2 ∧
    mcp25xxfd_can_tx_queue_restart
      (run example_layout [Action.start_xmit (example_skb 1 []), Action.start_xmit (example_skb 2 []),
        Action.spi_complete, Action.spi_complete, Action.spi_complete, Action.spi_complete,
        Action.submit_frame 0]
      (example_priv 0 2 MCP25XXFD_CAN_TX_QUEUE_STATE_STARTED)) =
    run example_layout [Action.start_xmit (example_skb 1 []), Action.start_xmit (example_skb 2 []),
        Action.spi_complete, Action.spi_complete, Action.spi_complete, Action.spi_complete,
        Action.submit_frame 0]
      (example_priv 0 2 MCP25XXFD_CAN_TX_QUEUE_STATE_STARTED) :=
  ⟨by decide, C10_restart_noop_when_pending _ (by decide)⟩

theorem get_next_fifo_none (c : mcp25xxfd_can_priv)
    (h : mcp25xxfd_can_tx_queue_first_spi_message c.tx_queue c.tx_queue.idle = none) :
    mcp25xxfd_can_tx_queue_get_next_fifo c = (none, c) := by
  unfold mcp25xxfd_can_tx_queue_get_next_fifo
  simp [h]

theorem start_xmit_busy (L : Layout) (skb : sk_buff) (c : mcp25xxfd_can_priv)
    (hvalid : can_dropped_invalid_skb skb = false)
    (h : mcp25xxfd_can_tx_queue_first_spi_message c.tx_queue c.tx_queue.idle = none) :
    mcp25xxfd_can_tx_start_xmit L skb c =
      (NETDEV_TX_BUSY, mcp25xxfd_can_tx_queue_manage_nolock c
        MCP25XXFD_CAN_TX_QUEUE_STATE_STOPPED) := by
  unfold mcp25xxfd_can_tx_start_xmit
  simp [hvalid, get_next_fifo_none c h]

theorem start_xmit_idle_empty (L : Layout) (skb : sk_buff) (c : mcp25xxfd_can_priv)
    (hvalid : can_dropped_invalid_skb skb = false) (hidle : c.tx_queue.idle = 0) :
    mcp25xxfd_can_tx_start_xmit L skb c =
      (NETDEV_TX_BUSY, mcp25xxfd_can_tx_queue_manage_nolock c
        MCP25XXFD_CAN_TX_QUEUE_STATE_STOPPED) :=
  start_xmit_busy L skb c hvalid
    (first_spi_message_of_zero c.tx_queue c.tx_queue.idle (by rw [hidle]; rfl))

/-- C7: with idle empty, submitting a valid frame returns Busy and leaves the five
ownership bitmasks, the pending and issued bus transactions, the bus script,
the echo frames, the slot images and the transaction templates as they were. -/
theorem C7_busy_leaves_untouched (L : Layout) (skb : sk_buff) (cpriv : mcp25xxfd_can_priv)
    (hvalid : can_dropped_invalid_skb skb = false) (hidle : cpriv.tx_queue.idle = 0) :
    (mcp25xxfd_can_tx_start_xmit L skb cpriv).1 = NETDEV_TX_BUSY ∧
    (mcp25xxfd_can_tx_start_xmit L skb cpriv).2.tx_queue.idle = cpriv.tx_queue.idle ∧
    (mcp25xxfd_can_tx_start_xmit L skb cpriv).2.tx_queue.in_fill_fifo_transfer =
      cpriv.tx_queue.in_fill_fifo_transfer ∧
    (mcp25xxfd_can_tx_start_xmit L skb cpriv).2.tx_queue.in_trigger_fifo_transfer =
      cpriv.tx_queue.in_trigger_fifo_transfer ∧
    (mcp25xxfd_can_tx_start_xmit L skb cpriv).2.tx_queue.in_can_transfer =
      cpriv.tx_queue.in_can_transfer ∧
    (mcp25xxfd_can_tx_start_xmit L skb cpriv).2.tx_queue.transferred =
      cpriv.tx_queue.transferred ∧
    bus_events (mcp25xxfd_can_tx_start_xmit L skb cpriv).2.trace = bus_events cpriv.trace ∧
    (mcp25xxfd_can_tx_start_xmit L skb cpriv).2.spi_pending = cpriv.spi_pending ∧
    (mcp25xxfd_can_tx_start_xmit L skb cpriv).2.spi_replies = cpriv.spi_replies ∧
    (mcp25xxfd_can_tx_start_xmit L skb cpriv).2.echo_skb = cpriv.echo_skb ∧
    (mcp25xxfd_can_tx_start_xmit L skb cpriv).2.sram_tx = cpriv.sram_tx ∧
    (mcp25xxfd_can_tx_start_xmit L skb cpriv).2.tx_queue.message = cpriv.tx_queue.message ∧
    (mcp25xxfd_can_tx_start_xmit L skb cpriv).2.tx_queue.fifo2message =
      cpriv.tx_queue.fifo2message := by
  rw [start_xmit_idle_empty L skb cpriv hvalid hidle, manage_nolock_eq]
  simp [bus_events_append, flow_events_not_bus]

/-- Instance of C7: a single-slot queue whose slot has just been claimed. -/
theorem C7_busy_leaves_untouched_witness :
    (can_dropped_invalid_skb example_frame = false ∧ example_one_claimed.tx_queue.idle = 0) ∧
    ((mcp25xxfd_can_tx_start_xmit example_layout example_frame example_one_claimed).1 =
        NETDEV_TX_BUSY ∧
      (mcp25xxfd_can_tx_start_xmit example_layout example_frame
        example_one_claimed).2.tx_queue.idle = example_one_claimed.tx_queue.idle ∧
      (mcp25xxfd_can_tx_start_xmit example_layout example_frame
        example_one_claimed).2.tx_queue.in_fill_fifo_transfer =
        example_one_claimed.tx_queue.in_fill_fifo_transfer ∧
      (mcp25xxfd_can_tx_start_xmit example_layout example_frame
        example_one_claimed).2.tx_queue.in_trigger_fifo_transfer =
        example_one_claimed.tx_queue.in_trigger_fifo_transfer ∧
      (mcp25xxfd_can_tx_start_xmit example_layout example_frame
        example_one_claimed).2.tx_queue.in_can_transfer =
        example_one_claimed.tx_queue.in_can_transfer ∧
      (mcp25xxfd_can_tx_start_xmit example_layout example_frame
        example_one_claimed).2.tx_queue.transferred =
        example_one_claimed.tx_queue.transferred ∧
      bus_events (mcp25xxfd_can_tx_start_xmit example_layout example_frame
        example_one_claimed).2.trace = bus_events example_one_claimed.trace ∧
      (mcp25xxfd_can_tx_start_xmit example_layout example_frame
        example_one_claimed).2.spi_pending = example_one_claimed.spi_pending ∧
      (mcp25xxfd_can_tx_start_xmit example_layout example_frame
        example_one_claimed).2.spi_replies = example_one_claimed.spi_replies ∧
      (mcp25xxfd_can_tx_start_xmit example_layout example_frame
        example_one_claimed).2.echo_skb = example_one_claimed.echo_skb ∧
      (mcp25xxfd_can_tx_start_xmit example_layout example_frame
        example_one_claimed).2.sram_tx = example_one_claimed.sram_tx ∧
      (mcp25xxfd_can_tx_start_xmit example_layout example_frame
        example_one_claimed).2.tx_queue.message = example_one_claimed.tx_queue.message ∧
      (mcp25xxfd_can_tx_start_xmit example_layout example_frame
        example_one_claimed).2.tx_queue.fifo2message =
        example_one_claimed.tx_queue.fifo2message) :=
  ⟨⟨by decide, by decide⟩,
    C7_busy_leaves_untouched example_layout example_frame example_one_claimed (by decide)
      (by decide)⟩

end Mcp25xxfd
/-! ## The claiming path of submission -/

namespace Mcp25xxfd

theorem get_next_fifo_some (c : mcp25xxfd_can_priv) (i : Nat)
    (h : mcp25xxfd_can_tx_queue_first_spi_message c.tx_queue c.tx_queue.idle = some i) :
    mcp25xxfd_can_tx_queue_get_next_fifo c = (some i, claimed c i) := by
  unfold mcp25xxfd_can_tx_queue_get_next_fifo claimed
  simp only [h, mcp25xxfd_can_tx_queue_move_spi_message, manage_nolock_eq, fifo_of]
  split <;> simp

theorem start_xmit_claim (L : Layout) (skb : sk_buff) (c : mcp25xxfd_can_priv) (i : Nat)
    (hvalid : can_dropped_invalid_skb skb = false)
    (h : mcp25xxfd_can_tx_queue_first_spi_message c.tx_queue c.tx_queue.idle = some i) :
    mcp25xxfd_can_tx_start_xmit L skb c =
      start_xmit_submit (start_xmit_fill L skb i (claimed c i)).1 i
        (start_xmit_fill L skb i (claimed c i)).2 := by
  unfold mcp25xxfd_can_tx_start_xmit
  simp only [hvalid, get_next_fifo_some c i h]
  simp

theorem spi_next_reply_ret (c : mcp25xxfd_can_priv) :
    (spi_next_reply c).1.ret = spi_ret c.spi_replies 0 := by
  unfold spi_next_reply spi_ret
  cases h : c.spi_replies <;> simp

theorem spi_next_reply_state (c : mcp25xxfd_can_priv) :
    (spi_next_reply c).2 = { c with spi_replies := c.spi_replies.tail } := by
  obtain ⟨s1, s2, s3, s4, s5, s6, q, s8, s9, s10, s11, s12,
    s13, s14, s15, s16, s17, s18, s19, s20, s21, s22⟩ := c
  unfold spi_next_reply
  cases s20 <;> simp

theorem spi_ret_tail (l : List spi_reply) (n : Nat) : spi_ret l.tail n = spi_ret l (n + 1) := by
  unfold spi_ret
  cases l <;> simp

theorem spi_async_rejected (m : spi_message_ref) (c : mcp25xxfd_can_priv)
    (h : spi_ret c.spi_replies 0 ≠ 0) :
    spi_async m c = (spi_ret c.spi_replies 0,
      { c with spi_replies := c.spi_replies.tail
               trace := c.trace ++ [Event.spi_async m (spi_ret c.spi_replies 0)] }) := by
  unfold spi_async
  simp only [spi_next_reply_ret, spi_next_reply_state, emit]
  simp [h]

theorem spi_async_accepted (m : spi_message_ref) (c : mcp25xxfd_can_priv)
    (h : spi_ret c.spi_replies 0 = 0) :
    spi_async m c = (0,
      { c with spi_replies := c.spi_replies.tail
               trace := c.trace ++ [Event.spi_async m 0]
               spi_pending := c.spi_pending ++ [m] }) := by
  unfold spi_async
  simp only [spi_next_reply_ret, spi_next_reply_state, emit, h]
  simp

theorem start_xmit_submit_fill_rejected (skb : sk_buff) (i : Nat) (c : mcp25xxfd_can_priv)
    (h : spi_ret c.spi_replies 0 ≠ 0) :
    start_xmit_submit skb i c = (NETDEV_TX_BUSY,
      { c with
        spi_replies := c.spi_replies.tail
        tx_queue := { c.tx_queue with
          state := flow_next c.tx_queue.state MCP25XXFD_CAN_TX_QUEUE_STATE_STOPPED }
        trace := c.trace ++ [Event.spi_async (spi_message_ref.fill_fifo i) (spi_ret c.spi_replies 0),
          Event.netdev_err_async_failed (fifo_of c i) (spi_ret c.spi_replies 0)] ++
          flow_events c.tx_queue.state MCP25XXFD_CAN_TX_QUEUE_STATE_STOPPED }) := by
  unfold start_xmit_submit
  simp only [spi_async_rejected _ c h, manage_nolock_eq, emit, fifo_of]
  simp [h]

theorem start_xmit_submit_trigger_rejected (skb : sk_buff) (i : Nat) (c : mcp25xxfd_can_priv)
    (h0 : spi_ret c.spi_replies 0 = 0) (h1 : spi_ret c.spi_replies 1 ≠ 0) :
    start_xmit_submit skb i c = (NETDEV_TX_BUSY,
      { c with
        spi_replies := c.spi_replies.tail.tail
        spi_pending := c.spi_pending ++ [spi_message_ref.fill_fifo i]
        tx_queue := { c.tx_queue with
          state := flow_next c.tx_queue.state MCP25XXFD_CAN_TX_QUEUE_STATE_STOPPED }
        trace := c.trace ++ [Event.spi_async (spi_message_ref.fill_fifo i) 0,
          Event.spi_async (spi_message_ref.trigger_fifo i) (spi_ret c.spi_replies 1),
          Event.netdev_err_async_failed (fifo_of c i) (spi_ret c.spi_replies 1)] ++
          flow_events c.tx_queue.state MCP25XXFD_CAN_TX_QUEUE_STATE_STOPPED }) := by
  unfold start_xmit_submit
  have h1t : spi_ret c.spi_replies.tail 0 ≠ 0 := by rw [spi_ret_tail]; exact h1
  simp only [spi_async_accepted _ c h0]
  rw [spi_async_rejected _ _ (by simpa using h1t)]
  simp only [manage_nolock_eq, emit, fifo_of, spi_ret_tail]
  simp [h1]

theorem start_xmit_submit_accepted (skb : sk_buff) (i : Nat) (c : mcp25xxfd_can_priv)
    (h0 : spi_ret c.spi_replies 0 = 0) (h1 : spi_ret c.spi_replies 1 = 0) :
    start_xmit_submit skb i c = (NETDEV_TX_OK,
      { c with
        spi_replies := c.spi_replies.tail.tail
        spi_pending := c.spi_pending ++
          [spi_message_ref.fill_fifo i, spi_message_ref.trigger_fifo i]
        echo_skb := slot_map_put c.echo_skb (fifo_of c i) skb
        trace := c.trace ++ [Event.spi_async (spi_message_ref.fill_fifo i) 0,
          Event.spi_async (spi_message_ref.trigger_fifo i) 0,
          Event.can_put_echo_skb (fifo_of c i)] }) := by
  unfold start_xmit_submit
  have h1t : spi_ret c.spi_replies.tail 0 = 0 := by rw [spi_ret_tail]; exact h1
  simp only [spi_async_accepted _ c h0]
  rw [spi_async_accepted _ _ (by simpa using h1t)]
  simp [can_put_echo_skb, emit, fifo_of]

theorem fill_fifo_common_fifo (L : Layout) (smsg : mcp25xxfd_tx_spi_message)
    (tx : mcp25xxfd_can_obj_tx) (dlc : Nat) (data : List Nat) :
    (mcp25xxfd_can_tx_fill_fifo_common L smsg tx dlc data).1.fifo = smsg.fifo := rfl

theorem start_xmit_fill_state (L : Layout) (skb : sk_buff) (i : Nat) (c : mcp25xxfd_can_priv) :
    (start_xmit_fill L skb i c).2 =
      { c with
        sram_tx := (start_xmit_fill L skb i c).2.sram_tx
        tx_queue := { c.tx_queue with
          message := (start_xmit_fill L skb i c).2.tx_queue.message } } := rfl

theorem start_xmit_fill_message (L : Layout) (skb : sk_buff) (i : Nat) (c : mcp25xxfd_can_priv) :
    ∃ m : mcp25xxfd_tx_spi_message, m.fifo = fifo_of c i ∧
      (start_xmit_fill L skb i c).2.tx_queue.message = c.tx_queue.message.set i m := by
  unfold start_xmit_fill
  refine ⟨_, ?_, rfl⟩
  dsimp only
  split <;> rfl

theorem msg_at_set_fifo (q : mcp25xxfd_tx_spi_message_queue) (i j : Nat)
    (m : mcp25xxfd_tx_spi_message) (hm : m.fifo = (msg_at q i).fifo) :
    (msg_at { q with message := q.message.set i m } j).fifo = (msg_at q j).fifo := by
  unfold msg_at at hm ⊢
  simp only [List.getD_eq_getElem?_getD] at hm ⊢
  by_cases hij : i = j
  · subst hij
    by_cases hlt : i < q.message.length
    · simp [List.getElem?_set, hlt, hm]
    · rw [List.set_eq_of_length_le (by omega)]
  · rw [List.getElem?_set_ne hij]

theorem start_xmit_fill_fifo_of (L : Layout) (skb : sk_buff) (i : Nat) (c : mcp25xxfd_can_priv)
    (j : Nat) : fifo_of (start_xmit_fill L skb i c).2 j = fifo_of c j := by
  obtain ⟨m, hm, hset⟩ := start_xmit_fill_message L skb i c
  rw [start_xmit_fill_state]
  unfold fifo_of
  simp only [hset]
  exact msg_at_set_fifo c.tx_queue i j m hm

theorem start_xmit_fill_skb (L : Layout) (skb : sk_buff) (i : Nat) (c : mcp25xxfd_can_priv)
    (hvalid : can_dropped_invalid_skb skb = false) : (start_xmit_fill L skb i c).1 = skb := by
  unfold start_xmit_fill
  by_cases hfd : can_is_canfd_skb skb = true
  · simp only [hfd, if_true]
  · have hlen : ¬ skb.data.len > 8 := by
      unfold can_dropped_invalid_skb at hvalid
      unfold can_is_canfd_skb at hfd
      by_cases hp : skb.protocol = ETH_P_CAN
      · simp only [hp, if_true, decide_eq_false_iff_not, not_or] at hvalid
        exact hvalid.2
      · by_cases hp2 : skb.protocol = ETH_P_CANFD
        · have hne : ¬ (ETH_P_CANFD = ETH_P_CAN) := by decide
          simp only [hp2, hne, if_false, if_true, decide_eq_false_iff_not, not_or] at hvalid
          exact absurd (by simpa using hvalid.1) (by simpa using hfd)
        · simp [hp, hp2] at hvalid
    simp only [hfd, mcp25xxfd_can_tx_fill_fifo, hlen]
    rfl

theorem claimed_fifo_of (c : mcp25xxfd_can_priv) (i j : Nat) :
    fifo_of (claimed c i) j = fifo_of c j := rfl

theorem echo_lookup_put (m : List (Nat × sk_buff)) (k : Nat) (skb : sk_buff) :
    echo_lookup (slot_map_put m k skb) k = some skb := by
  simp [echo_lookup, slot_map_put]

/-- C8 (amended): with an idle slot available, the pointers of the idle slots
linked to their messages (as mcp25xxfd_can_tx_queue_alloc links the slots of
the range) and the bus accepting both submissions, submitting a valid frame
returns NETDEV_TX_OK; the lowest idle slot k leaves idle and enters
in_fill_fifo_transfer and no other membership changes; exactly two bus
transactions are issued, the fill message of slot k and then its trigger
message; and the frame is kept as echo frame at index k. -/
theorem C8_accepted_path (L : Layout) (skb : sk_buff) (cpriv : mcp25xxfd_can_priv)
    (hvalid : can_dropped_invalid_skb skb = false)
    (hidle : cpriv.tx_queue.idle < 2 ^ 32) (hne : cpriv.tx_queue.idle ≠ 0)
    (hfill : cpriv.tx_queue.in_fill_fifo_transfer < 2 ^ 32)
    (hlink : slots_linked cpriv.tx_queue cpriv.tx_queue.idle)
    (h0 : spi_ret cpriv.spi_replies 0 = 0) (h1 : spi_ret cpriv.spi_replies 1 = 0) :
    (mcp25xxfd_can_tx_start_xmit L skb cpriv).1 = NETDEV_TX_OK ∧
    ∃ i k, mcp25xxfd_can_tx_queue_first_spi_message cpriv.tx_queue cpriv.tx_queue.idle = some i ∧
      fifo_of cpriv i = k ∧
      cpriv.tx_queue.idle.testBit k = true ∧
      (∀ j, j < k → cpriv.tx_queue.idle.testBit j = false) ∧
      (mcp25xxfd_can_tx_start_xmit L skb cpriv).2.tx_queue.idle.testBit k = false ∧
      (mcp25xxfd_can_tx_start_xmit L skb cpriv).2.tx_queue.in_fill_fifo_transfer.testBit k = true ∧
      (∀ j, j ≠ k →
        (mcp25xxfd_can_tx_start_xmit L skb cpriv).2.tx_queue.idle.testBit j =
          cpriv.tx_queue.idle.testBit j ∧
        (mcp25xxfd_can_tx_start_xmit L skb cpriv).2.tx_queue.in_fill_fifo_transfer.testBit j =
          cpriv.tx_queue.in_fill_fifo_transfer.testBit j) ∧
      (mcp25xxfd_can_tx_start_xmit L skb cpriv).2.tx_queue.in_trigger_fifo_transfer =
        cpriv.tx_queue.in_trigger_fifo_transfer ∧
      (mcp25xxfd_can_tx_start_xmit L skb cpriv).2.tx_queue.in_can_transfer =
        cpriv.tx_queue.in_can_transfer ∧
      (mcp25xxfd_can_tx_start_xmit L skb cpriv).2.tx_queue.transferred =
        cpriv.tx_queue.transferred ∧
      bus_events (mcp25xxfd_can_tx_start_xmit L skb cpriv).2.trace =
        bus_events cpriv.trace ++ [Event.spi_async (spi_message_ref.fill_fifo i) 0,
          Event.spi_async (spi_message_ref.trigger_fifo i) 0] ∧
      (mcp25xxfd_can_tx_start_xmit L skb cpriv).2.spi_pending =
        cpriv.spi_pending ++ [spi_message_ref.fill_fifo i, spi_message_ref.trigger_fifo i] ∧
      echo_lookup (mcp25xxfd_can_tx_start_xmit L skb cpriv).2.echo_skb k = some skb := by
  have hmod : cpriv.tx_queue.idle % 2 ^ 32 ≠ 0 := by
    rw [Nat.mod_eq_of_lt hidle]; exact hne
  obtain ⟨i, hi⟩ := first_spi_message_linked_ne_none cpriv.tx_queue _ hlink hmod
  obtain ⟨hk32, hkbit, hklow⟩ := first_spi_message_some cpriv.tx_queue _ i hlink hi
  have hmv := move_spi_message_bits cpriv.tx_queue.idle
    cpriv.tx_queue.in_fill_fifo_transfer (fifo_of cpriv i) hidle hfill hk32
  unfold mcp25xxfd_can_tx_queue_move_spi_message at hmv
  rw [start_xmit_claim L skb cpriv i hvalid hi,
    start_xmit_submit_accepted _ i _ (by exact h0) (by exact h1),
    start_xmit_fill_skb L skb i _ hvalid]
  refine ⟨rfl, i, fifo_of cpriv i, hi, rfl, hkbit, hklow, hmv.1, hmv.2.1, hmv.2.2, rfl, rfl, rfl,
    ?_, rfl, ?_⟩
  · show bus_events ((cpriv.trace ++ _) ++ _) = _
    rw [bus_events_append, bus_events_append]
    have : bus_events (if mcp25xxfd_can_tx_queue_remove_spi_message cpriv.tx_queue.idle
        (fifo_of cpriv i) = 0
        then flow_events cpriv.tx_queue.state MCP25XXFD_CAN_TX_QUEUE_STATE_RUNABLE
        else []) = [] := by
      split
      · exact flow_events_not_bus _ _
      · rfl
    rw [this]
    simp [bus_events, Event.is_bus]
  · show echo_lookup (slot_map_put _ _ skb) _ = some skb
    rw [start_xmit_fill_fifo_of, claimed_fifo_of]
    exact echo_lookup_put _ _ _

/-- Instance of C8: first submission on a fresh two-slot queue. -/
theorem C8_accepted_path_witness :
    (can_dropped_invalid_skb example_frame = false ∧
      example_two_idle.tx_queue.idle < 2 ^ 32 ∧ example_two_idle.tx_queue.idle ≠ 0 ∧
      example_two_idle.tx_queue.in_fill_fifo_transfer < 2 ^ 32 ∧
      slots_linked example_two_idle.tx_queue example_two_idle.tx_queue.idle ∧
      spi_ret example_two_idle.spi_replies 0 = 0 ∧ spi_ret example_two_idle.spi_replies 1 = 0) ∧
    ((mcp25xxfd_can_tx_start_xmit example_layout example_frame example_two_idle).1 =
        NETDEV_TX_OK ∧
      ∃ i k, mcp25xxfd_can_tx_queue_first_spi_message example_two_idle.tx_queue
          example_two_idle.tx_queue.idle = some i ∧
        fifo_of example_two_idle i = k ∧
        example_two_idle.tx_queue.idle.testBit k = true ∧
        (∀ j, j < k → example_two_idle.tx_queue.idle.testBit j = false) ∧
        (mcp25xxfd_can_tx_start_xmit example_layout example_frame
          example_two_idle).2.tx_queue.idle.testBit k = false ∧
        (mcp25xxfd_can_tx_start_xmit example_layout example_frame
          example_two_idle).2.tx_queue.in_fill_fifo_transfer.testBit k = true ∧
        (∀ j, j ≠ k →
          (mcp25xxfd_can_tx_start_xmit example_layout example_frame
            example_two_idle).2.tx_queue.idle.testBit j =
            example_two_idle.tx_queue.idle.testBit j ∧
          (mcp25xxfd_can_tx_start_xmit example_layout example_frame
            example_two_idle).2.tx_queue.in_fill_fifo_transfer.testBit j =
            example_two_idle.tx_queue.in_fill_fifo_transfer.testBit j) ∧
        (mcp25xxfd_can_tx_start_xmit example_layout example_frame
          example_two_idle).2.tx_queue.in_trigger_fifo_transfer =
          example_two_idle.tx_queue.in_trigger_fifo_transfer ∧
        (mcp25xxfd_can_tx_start_xmit example_layout example_frame
          example_two_idle).2.tx_queue.in_can_transfer =
          example_two_idle.tx_queue.in_can_transfer ∧
        (mcp25xxfd_can_tx_start_xmit example_layout example_frame
          example_two_idle).2.tx_queue.transferred =
          example_two_idle.tx_queue.transferred ∧
        bus_events (mcp25xxfd_can_tx_start_xmit example_layout example_frame
          example_two_idle).2.trace =
          bus_events example_two_idle.trace ++
            [Event.spi_async (spi_message_ref.fill_fifo i) 0,
              Event.spi_async (spi_message_ref.trigger_fifo i) 0] ∧
        (mcp25xxfd_can_tx_start_xmit example_layout example_frame
          example_two_idle).2.spi_pending =
          example_two_idle.spi_pending ++
            [spi_message_ref.fill_fifo i, spi_message_ref.trigger_fifo i] ∧
        echo_lookup (mcp25xxfd_can_tx_start_xmit example_layout example_frame
          example_two_idle).2.echo_skb k = some example_frame) :=
  ⟨⟨by decide, by decide, by decide, by decide, by decide, by decide, by decide⟩,
    C8_accepted_path example_layout example_frame example_two_idle (by decide) (by decide)
      (by decide) (by decide) (by decide) (by decide) (by decide)⟩

/-- C6, as stated, fails: on a single-slot queue whose slot has just been claimed
(idle empty, state Runnable) a further valid submission is refused with Busy
but the flow-control state stays Runnable instead of becoming Stopped. -/
theorem C6_counterexample :
    can_dropped_invalid_skb example_frame = false ∧
    example_one_claimed.tx_queue.idle = 0 ∧
    example_one_claimed.tx_queue.state = MCP25XXFD_CAN_TX_QUEUE_STATE_RUNABLE ∧
    (mcp25xxfd_can_tx_start_xmit example_layout example_frame example_one_claimed).1 =
      NETDEV_TX_BUSY ∧
    (mcp25xxfd_can_tx_start_xmit example_layout example_frame
      example_one_claimed).2.tx_queue.state ≠ MCP25XXFD_CAN_TX_QUEUE_STATE_STOPPED := by
  decide

/-- C6, amended: with idle empty a valid submission reports Busy; the
flow-control state afterwards is Stopped when it was Started or Stopped before,
and stays Runnable when it was Runnable. -/
theorem C6_busy_flow_state (L : Layout) (skb : sk_buff) (cpriv : mcp25xxfd_can_priv)
    (hvalid : can_dropped_invalid_skb skb = false) (hidle : cpriv.tx_queue.idle = 0) :
    (mcp25xxfd_can_tx_start_xmit L skb cpriv).1 = NETDEV_TX_BUSY ∧
    (cpriv.tx_queue.state = MCP25XXFD_CAN_TX_QUEUE_STATE_STARTED ∨
      cpriv.tx_queue.state = MCP25XXFD_CAN_TX_QUEUE_STATE_STOPPED →
      (mcp25xxfd_can_tx_start_xmit L skb cpriv).2.tx_queue.state =
        MCP25XXFD_CAN_TX_QUEUE_STATE_STOPPED) ∧
    (cpriv.tx_queue.state = MCP25XXFD_CAN_TX_QUEUE_STATE_RUNABLE →
      (mcp25xxfd_can_tx_start_xmit L skb cpriv).2.tx_queue.state =
        MCP25XXFD_CAN_TX_QUEUE_STATE_RUNABLE) := by
  rw [start_xmit_idle_empty L skb cpriv hvalid hidle, manage_nolock_eq]
  refine ⟨rfl, ?_, ?_⟩
  · rintro (h | h) <;> simp [h, flow_next]
  · intro h
    simp [h, flow_next]

/-- Instance of the amended C6 on the single-slot queue with its slot claimed. -/
theorem C6_busy_flow_state_witness :
    (can_dropped_invalid_skb example_frame = false ∧ example_one_claimed.tx_queue.idle = 0) ∧
    ((mcp25xxfd_can_tx_start_xmit example_layout example_frame example_one_claimed).1 =
        NETDEV_TX_BUSY ∧
      (example_one_claimed.tx_queue.state = MCP25XXFD_CAN_TX_QUEUE_STATE_STARTED ∨
        example_one_claimed.tx_queue.state = MCP25XXFD_CAN_TX_QUEUE_STATE_STOPPED →
        (mcp25xxfd_can_tx_start_xmit example_layout example_frame
          example_one_claimed).2.tx_queue.state = MCP25XXFD_CAN_TX_QUEUE_STATE_STOPPED) ∧
      (example_one_claimed.tx_queue.state = MCP25XXFD_CAN_TX_QUEUE_STATE_RUNABLE →
        (mcp25xxfd_can_tx_start_xmit example_layout example_frame
          example_one_claimed).2.tx_queue.state = MCP25XXFD_CAN_TX_QUEUE_STATE_RUNABLE)) :=
  ⟨⟨by decide, by decide⟩,
    C6_busy_flow_state example_layout example_frame example_one_claimed (by decide)
      (by decide)⟩

/-- Effect of a submission that claims the slot of message i, whatever the bus
answers: the queue after the call is the claimed queue up to the flow-control
state and the serialised message. -/
theorem start_xmit_claim_effect (L : Layout) (skb : sk_buff) (c : mcp25xxfd_can_priv) (i : Nat)
    (hvalid : can_dropped_invalid_skb skb = false)
    (h : mcp25xxfd_can_tx_queue_first_spi_message c.tx_queue c.tx_queue.idle = some i)
    (c2 : mcp25xxfd_can_priv) (hc2 : c2 = (mcp25xxfd_can_tx_start_xmit L skb c).2) :
    c2.tx_queue.idle = mcp25xxfd_can_tx_queue_remove_spi_message c.tx_queue.idle (fifo_of c i) ∧
    c2.tx_queue.in_fill_fifo_transfer =
      mcp25xxfd_can_tx_queue_add_spi_message c.tx_queue.in_fill_fifo_transfer (fifo_of c i) ∧
    c2.tx_queue.in_trigger_fifo_transfer = c.tx_queue.in_trigger_fifo_transfer ∧
    c2.tx_queue.in_can_transfer = c.tx_queue.in_can_transfer ∧
    c2.tx_queue.transferred = c.tx_queue.transferred ∧
    c2.tx_queue.fifo2message = c.tx_queue.fifo2message ∧
    c2.tx_start = c.tx_start ∧ c2.tx_count = c.tx_count ∧
    (∀ j, fifo_of c2 j = fifo_of c j) ∧
    (c2.spi_pending = c.spi_pending ∨
      c2.spi_pending = c.spi_pending ++ [spi_message_ref.fill_fifo i] ∨
      c2.spi_pending = c.spi_pending ++
        [spi_message_ref.fill_fifo i, spi_message_ref.trigger_fifo i]) ∧
    (c2.tx_queue.state = (claimed c i).tx_queue.state ∨
      c2.tx_queue.state = flow_next (claimed c i).tx_queue.state
        MCP25XXFD_CAN_TX_QUEUE_STATE_STOPPED) ∧
    ∃ rest, c2.trace = (claimed c i).trace ++ rest := by
  have hf : ∀ j, fifo_of (start_xmit_fill L skb i (claimed c i)).2 j = fifo_of c j := by
    intro j
    rw [start_xmit_fill_fifo_of, claimed_fifo_of]
  rw [start_xmit_claim L skb c i hvalid h] at hc2
  by_cases h0 : spi_ret (start_xmit_fill L skb i (claimed c i)).2.spi_replies 0 = 0
  · by_cases h1 : spi_ret (start_xmit_fill L skb i (claimed c i)).2.spi_replies 1 = 0
    · rw [start_xmit_submit_accepted _ i _ h0 h1] at hc2
      subst hc2
      exact ⟨rfl, rfl, rfl, rfl, rfl, rfl, rfl, rfl, hf, Or.inr (Or.inr rfl), Or.inl rfl,
        ⟨_, rfl⟩⟩
    · rw [start_xmit_submit_trigger_rejected _ i _ h0 h1] at hc2
      subst hc2
      exact ⟨rfl, rfl, rfl, rfl, rfl, rfl, rfl, rfl, hf, Or.inr (Or.inl rfl), Or.inr rfl,
        ⟨_, List.append_assoc _ _ _⟩⟩
  · rw [start_xmit_submit_fill_rejected _ i _ h0] at hc2
    subst hc2
    exact ⟨rfl, rfl, rfl, rfl, rfl, rfl, rfl, rfl, hf, Or.inl rfl, Or.inr rfl,
      ⟨_, List.append_assoc _ _ _⟩⟩

/-- C5, as stated, fails: the submission that claims the only idle slot of a
started single-slot queue empties idle, yet the stored flow-control state
becomes Runnable, not Stopped. -/
theorem C5_counterexample :
    can_dropped_invalid_skb example_frame = false ∧
    example_one_idle.tx_queue.idle = 1 ∧
    example_one_idle.tx_queue.state = MCP25XXFD_CAN_TX_QUEUE_STATE_STARTED ∧
    (mcp25xxfd_can_tx_start_xmit example_layout example_frame example_one_idle).1 =
      NETDEV_TX_OK ∧
    (mcp25xxfd_can_tx_start_xmit example_layout example_frame
      example_one_idle).2.tx_queue.idle = 0 ∧
    (mcp25xxfd_can_tx_start_xmit example_layout example_frame
      example_one_idle).2.tx_queue.state ≠ MCP25XXFD_CAN_TX_QUEUE_STATE_STOPPED := by
  decide

/-- C5, amended: when a submission claims the last idle slot so that idle becomes
empty, a Started queue is paused at that moment (netif_stop_queue is the first
action after the claim) and its stored state becomes Runnable, while a
Runnable or Stopped state is kept; and every submission made while idle is
empty returns Busy. -/
theorem C5_backpressure_on_last_slot (L : Layout) (skb : sk_buff) (cpriv : mcp25xxfd_can_priv)
    (hvalid : can_dropped_invalid_skb skb = false)
    (hidle : cpriv.tx_queue.idle < 2 ^ 32) (hne : cpriv.tx_queue.idle ≠ 0)
    (hlink : slots_linked cpriv.tx_queue cpriv.tx_queue.idle)
    (hlast : (mcp25xxfd_can_tx_start_xmit L skb cpriv).2.tx_queue.idle = 0) :
    (cpriv.tx_queue.state = MCP25XXFD_CAN_TX_QUEUE_STATE_STARTED →
      (mcp25xxfd_can_tx_start_xmit L skb cpriv).2.tx_queue.state =
        MCP25XXFD_CAN_TX_QUEUE_STATE_RUNABLE ∧
      ∃ rest, (mcp25xxfd_can_tx_start_xmit L skb cpriv).2.trace =
        cpriv.trace ++ Event.netif_stop_queue :: rest) ∧
    (cpriv.tx_queue.state = MCP25XXFD_CAN_TX_QUEUE_STATE_RUNABLE →
      (mcp25xxfd_can_tx_start_xmit L skb cpriv).2.tx_queue.state =
        MCP25XXFD_CAN_TX_QUEUE_STATE_RUNABLE) ∧
    (cpriv.tx_queue.state = MCP25XXFD_CAN_TX_QUEUE_STATE_STOPPED →
      (mcp25xxfd_can_tx_start_xmit L skb cpriv).2.tx_queue.state =
        MCP25XXFD_CAN_TX_QUEUE_STATE_STOPPED) ∧
    ∀ (skb2 : sk_buff) (later : mcp25xxfd_can_priv),
      can_dropped_invalid_skb skb2 = false → later.tx_queue.idle = 0 →
      (mcp25xxfd_can_tx_start_xmit L skb2 later).1 = NETDEV_TX_BUSY := by
  have hmod : cpriv.tx_queue.idle % 2 ^ 32 ≠ 0 := by
    rw [Nat.mod_eq_of_lt hidle]; exact hne
  obtain ⟨i, hi⟩ := first_spi_message_linked_ne_none cpriv.tx_queue _ hlink hmod
  obtain ⟨hidle2, _, _, _, _, _, _, _, _, _, hstate, rest, htrace⟩ :=
    start_xmit_claim_effect L skb cpriv i hvalid hi _ rfl
  rw [hidle2] at hlast
  have hcs : (claimed cpriv i).tx_queue.state =
      flow_next cpriv.tx_queue.state MCP25XXFD_CAN_TX_QUEUE_STATE_RUNABLE := by
    show (if _ then _ else _) = _
    rw [if_pos hlast]
  have hct : (claimed cpriv i).trace = cpriv.trace ++
      flow_events cpriv.tx_queue.state MCP25XXFD_CAN_TX_QUEUE_STATE_RUNABLE := by
    show _ ++ (if _ then _ else _) = _
    rw [if_pos hlast]
  rw [hcs] at hstate
  rw [hct] at htrace
  refine ⟨?_, ?_, ?_, ?_⟩
  · intro hst
    rw [hst] at hstate htrace
    refine ⟨?_, rest, ?_⟩
    · rcases hstate with h | h <;> rw [h] <;> rfl
    · rw [htrace]
      simp [flow_events]
  · intro hst
    rw [hst] at hstate
    rcases hstate with h | h <;> rw [h] <;> rfl
  · intro hst
    rw [hst] at hstate
    rcases hstate with h | h <;> rw [h] <;> rfl
  · intro skb2 later hv2 hl
    rw [start_xmit_idle_empty L skb2 later hv2 hl]

/-- Instance of the amended C5: the only slot of a started queue is claimed. -/
theorem C5_backpressure_on_last_slot_witness :
    (can_dropped_invalid_skb example_frame = false ∧
      example_one_idle.tx_queue.idle < 2 ^ 32 ∧ example_one_idle.tx_queue.idle ≠ 0 ∧
      slots_linked example_one_idle.tx_queue example_one_idle.tx_queue.idle ∧
      (mcp25xxfd_can_tx_start_xmit example_layout example_frame
        example_one_idle).2.tx_queue.idle = 0) ∧
    ((example_one_idle.tx_queue.state = MCP25XXFD_CAN_TX_QUEUE_STATE_STARTED →
        (mcp25xxfd_can_tx_start_xmit example_layout example_frame
          example_one_idle).2.tx_queue.state = MCP25XXFD_CAN_TX_QUEUE_STATE_RUNABLE ∧
        ∃ rest, (mcp25xxfd_can_tx_start_xmit example_layout example_frame
          example_one_idle).2.trace =
          example_one_idle.trace ++ Event.netif_stop_queue :: rest) ∧
      (example_one_idle.tx_queue.state = MCP25XXFD_CAN_TX_QUEUE_STATE_RUNABLE →
        (mcp25xxfd_can_tx_start_xmit example_layout example_frame
          example_one_idle).2.tx_queue.state = MCP25XXFD_CAN_TX_QUEUE_STATE_RUNABLE) ∧
      (example_one_idle.tx_queue.state = MCP25XXFD_CAN_TX_QUEUE_STATE_STOPPED →
        (mcp25xxfd_can_tx_start_xmit example_layout example_frame
          example_one_idle).2.tx_queue.state = MCP25XXFD_CAN_TX_QUEUE_STATE_STOPPED) ∧
      ∀ (skb2 : sk_buff) (later : mcp25xxfd_can_priv),
        can_dropped_invalid_skb skb2 = false → later.tx_queue.idle = 0 →
        (mcp25xxfd_can_tx_start_xmit example_layout skb2 later).1 = NETDEV_TX_BUSY) :=
  ⟨⟨by decide, by decide, by decide, by decide, by decide⟩,
    C5_backpressure_on_last_slot example_layout example_frame example_one_idle (by decide)
      (by decide) (by decide) (by decide) (by decide)⟩

/-- C9, as stated, fails: when the bus refuses the fill submission of the only
slot, the call returns Busy with no transaction pending, and the claimed slot
is still in in_fill_fifo_transfer. -/
theorem C9_counterexample :
    can_dropped_invalid_skb example_frame = false ∧
    spi_ret example_one_idle_bus_down.spi_replies 0 ≠ 0 ∧
    example_one_idle_bus_down.tx_queue.idle.testBit 0 = true ∧
    (mcp25xxfd_can_tx_start_xmit example_layout example_frame example_one_idle_bus_down).1 =
      NETDEV_TX_BUSY ∧
    (mcp25xxfd_can_tx_start_xmit example_layout example_frame
      example_one_idle_bus_down).2.spi_pending = [] ∧
    (mcp25xxfd_can_tx_start_xmit example_layout example_frame
      example_one_idle_bus_down).2.tx_queue.idle.testBit 0 = false ∧
    (mcp25xxfd_can_tx_start_xmit example_layout example_frame
      example_one_idle_bus_down).2.tx_queue.in_fill_fifo_transfer.testBit 0 = true := by
  decide

/-- C9, amended: when a submission is refused by the bus (the fill transaction,
or the trigger transaction after an accepted fill), start_xmit returns Busy
and the claimed slot k stays in in_fill_fifo_transfer and out of idle; the
other three bitmasks and the echo frames are unchanged; no transaction is left
pending when the fill was refused, and only the fill transaction when the
trigger was refused. -/
theorem C9_refused_submission_keeps_claim (L : Layout) (skb : sk_buff)
    (cpriv : mcp25xxfd_can_priv)
    (hvalid : can_dropped_invalid_skb skb = false)
    (hidle : cpriv.tx_queue.idle < 2 ^ 32) (hne : cpriv.tx_queue.idle ≠ 0)
    (hfill : cpriv.tx_queue.in_fill_fifo_transfer < 2 ^ 32)
    (hlink : slots_linked cpriv.tx_queue cpriv.tx_queue.idle)
    (hfail : spi_ret cpriv.spi_replies 0 ≠ 0 ∨ spi_ret cpriv.spi_replies 1 ≠ 0) :
    (mcp25xxfd_can_tx_start_xmit L skb cpriv).1 = NETDEV_TX_BUSY ∧
    ∃ i k, mcp25xxfd_can_tx_queue_first_spi_message cpriv.tx_queue cpriv.tx_queue.idle = some i ∧
      fifo_of cpriv i = k ∧
      cpriv.tx_queue.idle.testBit k = true ∧
      (mcp25xxfd_can_tx_start_xmit L skb cpriv).2.tx_queue.idle.testBit k = false ∧
      (mcp25xxfd_can_tx_start_xmit L skb cpriv).2.tx_queue.in_fill_fifo_transfer.testBit k = true ∧
      (mcp25xxfd_can_tx_start_xmit L skb cpriv).2.tx_queue.in_trigger_fifo_transfer =
        cpriv.tx_queue.in_trigger_fifo_transfer ∧
      (mcp25xxfd_can_tx_start_xmit L skb cpriv).2.tx_queue.in_can_transfer =
        cpriv.tx_queue.in_can_transfer ∧
      (mcp25xxfd_can_tx_start_xmit L skb cpriv).2.tx_queue.transferred =
        cpriv.tx_queue.transferred ∧
      (mcp25xxfd_can_tx_start_xmit L skb cpriv).2.echo_skb = cpriv.echo_skb ∧
      (spi_ret cpriv.spi_replies 0 ≠ 0 →
        (mcp25xxfd_can_tx_start_xmit L skb cpriv).2.spi_pending = cpriv.spi_pending) ∧
      (spi_ret cpriv.spi_replies 0 = 0 →
        (mcp25xxfd_can_tx_start_xmit L skb cpriv).2.spi_pending =
          cpriv.spi_pending ++ [spi_message_ref.fill_fifo i]) := by
  have hmod : cpriv.tx_queue.idle % 2 ^ 32 ≠ 0 := by
    rw [Nat.mod_eq_of_lt hidle]; exact hne
  obtain ⟨i, hi⟩ := first_spi_message_linked_ne_none cpriv.tx_queue _ hlink hmod
  obtain ⟨hk32, hkbit, _⟩ := first_spi_message_some cpriv.tx_queue _ i hlink hi
  have hmv := move_spi_message_bits cpriv.tx_queue.idle
    cpriv.tx_queue.in_fill_fifo_transfer (fifo_of cpriv i) hidle hfill hk32
  unfold mcp25xxfd_can_tx_queue_move_spi_message at hmv
  rw [start_xmit_claim L skb cpriv i hvalid hi]
  by_cases h0 : spi_ret cpriv.spi_replies 0 = 0
  · have h1 : spi_ret cpriv.spi_replies 1 ≠ 0 := by
      rcases hfail with h | h
      · exact absurd h0 h
      · exact h
    rw [start_xmit_submit_trigger_rejected _ i _ (by exact h0) (by exact h1)]
    exact ⟨rfl, i, fifo_of cpriv i, hi, rfl, hkbit, hmv.1, hmv.2.1, rfl, rfl, rfl, rfl,
      fun h => absurd h0 h, fun _ => rfl⟩
  · rw [start_xmit_submit_fill_rejected _ i _ (by exact h0)]
    exact ⟨rfl, i, fifo_of cpriv i, hi, rfl, hkbit, hmv.1, hmv.2.1, rfl, rfl, rfl, rfl,
      fun _ => rfl, fun h => absurd h h0⟩

/-- Instance of the amended C9: the bus refuses the fill submission. -/
theorem C9_refused_submission_keeps_claim_witness :
    (can_dropped_invalid_skb example_frame = false ∧
      example_one_idle_bus_down.tx_queue.idle < 2 ^ 32 ∧
      example_one_idle_bus_down.tx_queue.idle ≠ 0 ∧
      example_one_idle_bus_down.tx_queue.in_fill_fifo_transfer < 2 ^ 32 ∧
      slots_linked example_one_idle_bus_down.tx_queue example_one_idle_bus_down.tx_queue.idle ∧
      (spi_ret example_one_idle_bus_down.spi_replies 0 ≠ 0 ∨
        spi_ret example_one_idle_bus_down.spi_replies 1 ≠ 0)) ∧
    ((mcp25xxfd_can_tx_start_xmit example_layout example_frame example_one_idle_bus_down).1 =
        NETDEV_TX_BUSY ∧
      ∃ i k, mcp25xxfd_can_tx_queue_first_spi_message example_one_idle_bus_down.tx_queue
          example_one_idle_bus_down.tx_queue.idle = some i ∧
        fifo_of example_one_idle_bus_down i = k ∧
        example_one_idle_bus_down.tx_queue.idle.testBit k = true ∧
        (mcp25xxfd_can_tx_start_xmit example_layout example_frame
          example_one_idle_bus_down).2.tx_queue.idle.testBit k = false ∧
        (mcp25xxfd_can_tx_start_xmit example_layout example_frame
          example_one_idle_bus_down).2.tx_queue.in_fill_fifo_transfer.testBit k = true ∧
        (mcp25xxfd_can_tx_start_xmit example_layout example_frame
          example_one_idle_bus_down).2.tx_queue.in_trigger_fifo_transfer =
          example_one_idle_bus_down.tx_queue.in_trigger_fifo_transfer ∧
        (mcp25xxfd_can_tx_start_xmit example_layout example_frame
          example_one_idle_bus_down).2.tx_queue.in_can_transfer =
          example_one_idle_bus_down.tx_queue.in_can_transfer ∧
        (mcp25xxfd_can_tx_start_xmit example_layout example_frame
          example_one_idle_bus_down).2.tx_queue.transferred =
          example_one_idle_bus_down.tx_queue.transferred ∧
        (mcp25xxfd_can_tx_start_xmit example_layout example_frame
          example_one_idle_bus_down).2.echo_skb = example_one_idle_bus_down.echo_skb ∧
        (spi_ret example_one_idle_bus_down.spi_replies 0 ≠ 0 →
          (mcp25xxfd_can_tx_start_xmit example_layout example_frame
            example_one_idle_bus_down).2.spi_pending = example_one_idle_bus_down.spi_pending) ∧
        (spi_ret example_one_idle_bus_down.spi_replies 0 = 0 →
          (mcp25xxfd_can_tx_start_xmit example_layout example_frame
            example_one_idle_bus_down).2.spi_pending =
            example_one_idle_bus_down.spi_pending ++ [spi_message_ref.fill_fifo i])) :=
  ⟨⟨by decide, by decide, by decide, by decide, by decide, by decide⟩,
    C9_refused_submission_keeps_claim example_layout example_frame example_one_idle_bus_down
      (by decide) (by decide) (by decide) (by decide) (by decide) (by decide)⟩

/-! ## Invariants of the ownership tracker -/

theorem bit_le_one (m j : Nat) : bit m j ≤ 1 := by
  unfold bit
  cases m.testBit j <;> simp

theorem bit_eq_one_iff (m j : Nat) : bit m j = 1 ↔ m.testBit j = true := by
  unfold bit
  cases m.testBit j <;> simp

theorem bit_eq_zero_iff (m j : Nat) : bit m j = 0 ↔ m.testBit j = false := by
  unfold bit
  cases m.testBit j <;> simp

theorem bit_eq_zero_of_lt {m : Nat} (hm : m < 2 ^ 32) {j : Nat} (hj : 32 ≤ j) : bit m j = 0 := by
  rw [bit_eq_zero_iff]
  by_contra hc
  have := testBit_lt_of_lt_two_pow hm (by simpa using hc)
  omega

theorem bit_zero_left (j : Nat) : bit 0 j = 0 := by
  unfold bit
  simp

theorem bit_remove (b k j : Nat) :
    bit (mcp25xxfd_can_tx_queue_remove_spi_message b k) j =
      if j < 32 ∧ j ≠ k % 64 then bit b j else 0 := by
  unfold bit
  rw [testBit_remove]
  by_cases h1 : j < 32
  · by_cases h2 : j = k % 64
    · simp [h1, h2]
    · simp [h1, h2]
  · simp [h1]

theorem bit_add (b k j : Nat) :
    bit (mcp25xxfd_can_tx_queue_add_spi_message b k) j =
      if j < 32 then (if j = k % 64 then 1 else bit b j) else 0 := by
  unfold bit
  rw [testBit_add]
  by_cases h1 : j < 32
  · by_cases h2 : j = k % 64
    · subst h2
      simp [h1]
    · simp [h1, h2]
  · simp [h1]

theorem bit_or (a b j : Nat) : bit (a ||| b) j = max (bit a j) (bit b j) := by
  unfold bit
  rw [Nat.testBit_or]
  cases a.testBit j <;> cases b.testBit j <;> simp

theorem remove_lt (b k : Nat) : mcp25xxfd_can_tx_queue_remove_spi_message b k < 2 ^ 32 :=
  Nat.mod_lt _ (by decide)

theorem add_lt (b k : Nat) : mcp25xxfd_can_tx_queue_add_spi_message b k < 2 ^ 32 :=
  Nat.mod_lt _ (by decide)

theorem remove_add_comm (b k l : Nat) (h : k % 64 ≠ l % 64) :
    mcp25xxfd_can_tx_queue_remove_spi_message (mcp25xxfd_can_tx_queue_add_spi_message b k) l =
      mcp25xxfd_can_tx_queue_add_spi_message (mcp25xxfd_can_tx_queue_remove_spi_message b l) k := by
  apply Nat.eq_of_testBit_eq
  intro j
  simp only [testBit_remove, testBit_add]
  by_cases h1 : j < 32
  · have hs : ¬ l % 64 = k % 64 := fun e => h e.symm
    by_cases h2 : j = k % 64
    · have h3 : ¬ j = l % 64 := fun e => h (h2.symm.trans e)
      simp [h1, h2, h3, h]
    · by_cases h3 : j = l % 64
      · simp [h1, h2, h3, hs]
      · simp [h1, h2, h3]
  · simp [h1]

theorem bit_remove_lt (b k j : Nat) (hk : k < 64) :
    bit (mcp25xxfd_can_tx_queue_remove_spi_message b k) j =
      if j < 32 ∧ j ≠ k then bit b j else 0 := by
  rw [bit_remove, Nat.mod_eq_of_lt hk]

theorem bit_add_lt (b k j : Nat) (hk : k < 64) :
    bit (mcp25xxfd_can_tx_queue_add_spi_message b k) j =
      if j < 32 then (if j = k then 1 else bit b j) else 0 := by
  rw [bit_add, Nat.mod_eq_of_lt hk]

theorem remove_add_comm_lt (b k l : Nat) (hk : k < 64) (hl : l < 64) (h : k ≠ l) :
    mcp25xxfd_can_tx_queue_remove_spi_message (mcp25xxfd_can_tx_queue_add_spi_message b k) l =
      mcp25xxfd_can_tx_queue_add_spi_message (mcp25xxfd_can_tx_queue_remove_spi_message b l) k :=
  remove_add_comm b k l (by rw [Nat.mod_eq_of_lt hk, Nat.mod_eq_of_lt hl]; exact h)

theorem move_sum (src dst k j : Nat) (hs : src < 2 ^ 32) (hd : dst < 2 ^ 32)
    (hk : bit src k = 1) (hdk : bit dst k = 0) :
    bit (mcp25xxfd_can_tx_queue_remove_spi_message src k) j +
      bit (mcp25xxfd_can_tx_queue_add_spi_message dst k) j = bit src j + bit dst j := by
  have hk32 : k < 32 := testBit_lt_of_lt_two_pow hs ((bit_eq_one_iff src k).1 hk)
  have hmod : k % 64 = k := Nat.mod_eq_of_lt (by omega)
  rw [bit_remove, bit_add, hmod]
  by_cases h1 : j < 32
  · by_cases h2 : j = k
    · subst h2
      simp [h1, hk, hdk]
    · simp [h1, h2]
  · have h32 : 32 ≤ j := by omega
    simp [h1, bit_eq_zero_of_lt hs h32, bit_eq_zero_of_lt hd h32]

theorem bit_remove_le (src k j : Nat) :
    bit (mcp25xxfd_can_tx_queue_remove_spi_message src k) j ≤ bit src j := by
  rw [bit_remove]
  split
  · exact le_refl _
  · exact Nat.zero_le _

theorem mask_step_u32 {g : Prop} {q q2 : mcp25xxfd_tx_spi_message_queue}
    (hu : masks_u32 q) (h : mask_step g q q2) : masks_u32 q2 := by
  obtain ⟨h1, h2, h3, h4, h5⟩ := hu
  unfold masks_u32
  cases h with
  | same e1 e2 e3 e4 e5 => rw [e1, e2, e3, e4, e5]; exact ⟨h1, h2, h3, h4, h5⟩
  | claim k hk e1 e2 e3 e4 e5 =>
    rw [e1, e2, e3, e4, e5]; exact ⟨remove_lt _ _, add_lt _ _, h3, h4, h5⟩
  | filled k hk e1 e2 e3 e4 e5 =>
    rw [e1, e2, e3, e4, e5]; exact ⟨h1, remove_lt _ _, add_lt _ _, h4, h5⟩
  | triggered k hk e1 e2 e3 e4 e5 =>
    rw [e1, e2, e3, e4, e5]; exact ⟨h1, h2, remove_lt _ _, add_lt _ _, h5⟩
  | released k hk e1 e2 e3 e4 e5 =>
    rw [e1, e2, e3, e4, e5]; exact ⟨h1, h2, h3, remove_lt _ _, add_lt _ _⟩
  | restarted z1 z2 z3 z4 e1 e2 e3 e4 e5 =>
    rw [e1, e2, e3, e4, e5]
    exact ⟨Nat.or_lt_two_pow h1 h5, h2, h3, h4, by decide⟩

theorem mask_step_claim_count {g : Prop} {q q2 : mcp25xxfd_tx_spi_message_queue}
    (hu : masks_u32 q) (hc : ∀ j, claim_count q j ≤ 1) (h : mask_step g q q2) :
    ∀ j, claim_count q2 j ≤ 1 := by
  obtain ⟨h1, h2, h3, h4, h5⟩ := hu
  intro j
  have hj := hc j
  unfold claim_count at hj ⊢
  cases h with
  | same e1 e2 e3 e4 e5 => rw [e1, e2, e3, e4]; exact hj
  | claim k hk e1 e2 e3 e4 e5 =>
    have hkk := hc k
    unfold claim_count at hkk
    have := move_sum q.idle q.in_fill_fifo_transfer k j h1 h2 hk (by omega)
    rw [e1, e2, e3, e4]
    omega
  | filled k hk e1 e2 e3 e4 e5 =>
    have hkk := hc k
    unfold claim_count at hkk
    have := move_sum q.in_fill_fifo_transfer q.in_trigger_fifo_transfer k j h2 h3 hk (by omega)
    rw [e1, e2, e3, e4]
    omega
  | triggered k hk e1 e2 e3 e4 e5 =>
    have hkk := hc k
    unfold claim_count at hkk
    have := move_sum q.in_trigger_fifo_transfer q.in_can_transfer k j h3 h4 hk (by omega)
    rw [e1, e2, e3, e4]
    omega
  | released k hk e1 e2 e3 e4 e5 =>
    have := bit_remove_le q.in_can_transfer k j
    rw [e1, e2, e3, e4]
    omega
  | restarted z1 z2 z3 z4 e1 e2 e3 e4 e5 =>
    rw [e1, e2, e3, e4, z1, z2, z3, z4, bit_or]
    have := bit_le_one q.transferred j
    simp only [bit_zero_left]
    omega

theorem mask_step_owner_count {q q2 : mcp25xxfd_tx_spi_message_queue}
    (hu : masks_u32 q) (hc : ∀ j, owner_count q j ≤ 1) (h : mask_step True q q2) :
    ∀ j, owner_count q2 j = owner_count q j := by
  obtain ⟨h1, h2, h3, h4, h5⟩ := hu
  intro j
  have hj := hc j
  unfold owner_count claim_count at hj ⊢
  cases h with
  | same e1 e2 e3 e4 e5 => rw [e1, e2, e3, e4, e5]
  | claim k hk e1 e2 e3 e4 e5 =>
    have hkk := hc k
    unfold owner_count claim_count at hkk
    have := move_sum q.idle q.in_fill_fifo_transfer k j h1 h2 hk (by omega)
    rw [e1, e2, e3, e4, e5]
    omega
  | filled k hk e1 e2 e3 e4 e5 =>
    have hkk := hc k
    unfold owner_count claim_count at hkk
    have := move_sum q.in_fill_fifo_transfer q.in_trigger_fifo_transfer k j h2 h3 hk (by omega)
    rw [e1, e2, e3, e4, e5]
    omega
  | triggered k hk e1 e2 e3 e4 e5 =>
    have hkk := hc k
    unfold owner_count claim_count at hkk
    have := move_sum q.in_trigger_fifo_transfer q.in_can_transfer k j h3 h4 hk (by omega)
    rw [e1, e2, e3, e4, e5]
    omega
  | released k hk e1 e2 e3 e4 e5 =>
    have hkk := hc k
    unfold owner_count claim_count at hkk
    have hk1 := hk trivial
    have := move_sum q.in_can_transfer q.transferred k j h4 h5 hk1 (by omega)
    rw [e1, e2, e3, e4, e5]
    omega
  | restarted z1 z2 z3 z4 e1 e2 e3 e4 e5 =>
    rw [e1, e2, e3, e4, e5, z1, z2, z3, z4, bit_or]
    have := bit_le_one q.transferred j
    simp only [bit_zero_left]
    omega

theorem first_some_lowest (c : mcp25xxfd_can_priv) (i : Nat) (hl : pointers_linked c)
    (h : mcp25xxfd_can_tx_queue_first_spi_message c.tx_queue c.tx_queue.idle = some i) :
    fifo_of c i < 32 ∧ c.tx_queue.idle.testBit (fifo_of c i) = true ∧
      ∀ j, j < fifo_of c i → c.tx_queue.idle.testBit j = false := by
  by_cases hz : c.tx_queue.idle % 2 ^ 32 = 0
  · rw [first_spi_message_of_zero c.tx_queue _ hz] at h
    exact absurd h (by simp)
  · obtain ⟨r, hlt, hbit, hall, heq⟩ := first_spi_message_of_ne_zero c.tx_queue _ hz
    rw [h] at heq
    have hr := hl r i hlt heq.symm
    rw [hr]
    exact ⟨hlt, hbit, hall⟩

theorem cmd_read_state (reg : Nat) (c : mcp25xxfd_can_priv) :
    (mcp25xxfd_cmd_read reg c).2 =
      { c with spi_replies := c.spi_replies.tail
               trace := c.trace ++ [Event.cmd_read reg (spi_ret c.spi_replies 0)] } := by
  unfold mcp25xxfd_cmd_read
  simp only [emit, spi_next_reply_state, spi_next_reply_ret]

theorem cmd_write_mask_state (reg val mask : Nat) (c : mcp25xxfd_can_priv) :
    (mcp25xxfd_cmd_write_mask reg val mask c).2 =
      { c with spi_replies := c.spi_replies.tail
               trace := c.trace ++
                 [Event.cmd_write_mask reg val mask (spi_ret c.spi_replies 0)] } := by
  unfold mcp25xxfd_cmd_write_mask
  simp only [emit, spi_next_reply_state, spi_next_reply_ret]

theorem txatif_fifo_queue (L : Layout) (c : mcp25xxfd_can_priv) (fifo : Nat) :
    ((mcp25xxfd_can_tx_handle_int_txatif_fifo L c fifo).2.tx_queue = c.tx_queue ∨
      (mcp25xxfd_can_tx_handle_int_txatif_fifo L c fifo).2.tx_queue =
        { c.tx_queue with
          in_can_transfer :=
            mcp25xxfd_can_tx_queue_remove_spi_message c.tx_queue.in_can_transfer fifo
          transferred := mcp25xxfd_can_tx_queue_add_spi_message c.tx_queue.transferred fifo }) ∧
    (mcp25xxfd_can_tx_handle_int_txatif_fifo L c fifo).2.spi_pending = c.spi_pending ∧
    (mcp25xxfd_can_tx_handle_int_txatif_fifo L c fifo).2.tx_start = c.tx_start ∧
    (mcp25xxfd_can_tx_handle_int_txatif_fifo L c fifo).2.tx_count = c.tx_count := by
  unfold mcp25xxfd_can_tx_handle_int_txatif_fifo
  dsimp only
  split
  · rw [cmd_read_state]
    exact ⟨Or.inl rfl, rfl, rfl, rfl⟩
  · split
    · rw [cmd_write_mask_state, cmd_read_state]
      exact ⟨Or.inl rfl, rfl, rfl, rfl⟩
    · rw [cmd_write_mask_state, cmd_read_state]
      exact ⟨Or.inr rfl, rfl, rfl, rfl⟩

theorem submit_frame_state (L : Layout) (c : mcp25xxfd_can_priv) (fifo : Nat) :
    (mcp25xxfd_can_tx_submit_frame L c fifo).2.tx_queue =
        { c.tx_queue with
          in_can_transfer :=
            mcp25xxfd_can_tx_queue_remove_spi_message c.tx_queue.in_can_transfer fifo
          transferred := mcp25xxfd_can_tx_queue_add_spi_message c.tx_queue.transferred fifo } ∧
    (mcp25xxfd_can_tx_submit_frame L c fifo).2.spi_pending = c.spi_pending ∧
    (mcp25xxfd_can_tx_submit_frame L c fifo).2.tx_start = c.tx_start ∧
    (mcp25xxfd_can_tx_submit_frame L c fifo).2.tx_count = c.tx_count :=
  ⟨rfl, rfl, rfl, rfl⟩

theorem or4_eq_zero {a b c d : Nat} (h : a ||| b ||| c ||| d = 0) :
    a = 0 ∧ b = 0 ∧ c = 0 ∧ d = 0 := by
  have key : ∀ j, (a.testBit j || b.testBit j || c.testBit j || d.testBit j) = false := by
    intro j
    have := (eq_zero_iff_testBit _).1 h j
    simpa [Nat.testBit_or] using this
  refine ⟨?_, ?_, ?_, ?_⟩ <;>
    · rw [eq_zero_iff_testBit]
      intro j
      have := key j
      simp only [Bool.or_eq_false_iff] at this
      simp [this]

theorem restart_state (c : mcp25xxfd_can_priv) :
    mcp25xxfd_can_tx_queue_restart c = c ∨
    (c.tx_queue.idle = 0 ∧ c.tx_queue.in_fill_fifo_transfer = 0 ∧
      c.tx_queue.in_trigger_fifo_transfer = 0 ∧ c.tx_queue.in_can_transfer = 0 ∧
      mcp25xxfd_can_tx_queue_restart c =
        { c with
          tx_queue := { c.tx_queue with
            idle := c.tx_queue.idle ||| c.tx_queue.transferred
            transferred := 0
            state := flow_next c.tx_queue.state MCP25XXFD_CAN_TX_QUEUE_STATE_RESTART }
          trace := c.trace ++
            flow_events c.tx_queue.state MCP25XXFD_CAN_TX_QUEUE_STATE_RESTART }) := by
  by_cases h : c.tx_queue.idle ||| c.tx_queue.in_fill_fifo_transfer |||
      c.tx_queue.in_trigger_fifo_transfer ||| c.tx_queue.in_can_transfer = 0
  · right
    obtain ⟨z1, z2, z3, z4⟩ := or4_eq_zero h
    refine ⟨z1, z2, z3, z4, ?_⟩
    unfold mcp25xxfd_can_tx_queue_restart
    simp only [h, manage_nolock_eq]
    simp
  · left
    unfold mcp25xxfd_can_tx_queue_restart
    simp [h]


theorem pend_ok_claim (fifo : Nat → Nat) (k : Nat) (hk64 : k < 64)
    (extra : List spi_message_ref)
    (hex : ∀ f t, pend_ok fifo extra (mcp25xxfd_can_tx_queue_add_spi_message f k) t) :
    ∀ (p : List spi_message_ref) (fill trig : Nat), fill < 2 ^ 32 → trig < 2 ^ 32 →
      pend_ok fifo p fill trig → bit fill k = 0 → bit trig k = 0 →
      pend_ok fifo (p ++ extra) (mcp25xxfd_can_tx_queue_add_spi_message fill k) trig := by
  intro p
  induction p with
  | nil =>
    intro fill trig _ _ _ _ _
    exact hex fill trig
  | cons m rest ih =>
    intro fill trig hf ht hp hfk htk
    cases m with
    | fill_fifo i2 =>
      obtain ⟨hbit, hrest⟩ := hp
      have hk2 : fifo i2 < 32 := testBit_lt_of_lt_two_pow hf hbit
      have hne : k ≠ fifo i2 := by
        intro e
        rw [e, bit_eq_zero_iff, hbit] at hfk
        exact absurd hfk (by decide)
      have hne2 : ¬ fifo i2 = k := fun e => hne e.symm
      refine ⟨?_, ?_⟩
      · rw [testBit_add_lt _ _ _ hk64]
        simp [hk2, hbit]
      · rw [remove_add_comm_lt _ _ _ hk64 (by omega) hne]
        apply ih _ _ (remove_lt _ _) (add_lt _ _) hrest
        · have := bit_remove_le fill (fifo i2) k
          omega
        · rw [bit_add_lt _ _ _ (by omega)]
          simp [hne, htk]
    | trigger_fifo i2 =>
      obtain ⟨hbit, hrest⟩ := hp
      refine ⟨hbit, ?_⟩
      apply ih _ _ hf (remove_lt _ _) hrest hfk
      have := bit_remove_le trig (fifo i2) k
      omega

theorem pend_ok_congr (f g : Nat → Nat) (h : ∀ j, f j = g j) (p : List spi_message_ref)
    (a b : Nat) (hp : pend_ok g p a b) : pend_ok f p a b := by
  have : f = g := funext h
  rw [this]
  exact hp

theorem fill_fifo_complete_state (L : Layout) (i : Nat) (c : mcp25xxfd_can_priv) :
    (mcp25xxfd_can_tx_spi_message_fill_fifo_complete L i c).tx_queue.idle = c.tx_queue.idle ∧
    (mcp25xxfd_can_tx_spi_message_fill_fifo_complete L i c).tx_queue.in_fill_fifo_transfer =
      mcp25xxfd_can_tx_queue_remove_spi_message c.tx_queue.in_fill_fifo_transfer (fifo_of c i) ∧
    (mcp25xxfd_can_tx_spi_message_fill_fifo_complete L i c).tx_queue.in_trigger_fifo_transfer =
      mcp25xxfd_can_tx_queue_add_spi_message c.tx_queue.in_trigger_fifo_transfer (fifo_of c i) ∧
    (mcp25xxfd_can_tx_spi_message_fill_fifo_complete L i c).tx_queue.in_can_transfer =
      c.tx_queue.in_can_transfer ∧
    (mcp25xxfd_can_tx_spi_message_fill_fifo_complete L i c).tx_queue.transferred =
      c.tx_queue.transferred ∧
    (mcp25xxfd_can_tx_spi_message_fill_fifo_complete L i c).tx_queue.fifo2message =
      c.tx_queue.fifo2message ∧
    (mcp25xxfd_can_tx_spi_message_fill_fifo_complete L i c).spi_pending = c.spi_pending ∧
    (mcp25xxfd_can_tx_spi_message_fill_fifo_complete L i c).tx_start = c.tx_start ∧
    (mcp25xxfd_can_tx_spi_message_fill_fifo_complete L i c).tx_count = c.tx_count ∧
    ∀ j, fifo_of (mcp25xxfd_can_tx_spi_message_fill_fifo_complete L i c) j = fifo_of c j := by
  refine ⟨rfl, rfl, rfl, rfl, rfl, rfl, rfl, rfl, rfl, ?_⟩
  intro j
  exact msg_at_set_fifo c.tx_queue i j _ rfl

theorem trigger_fifo_complete_state (i : Nat) (c : mcp25xxfd_can_priv) :
    (mcp25xxfd_can_tx_spi_message_trigger_fifo_complete i c).tx_queue.idle = c.tx_queue.idle ∧
    (mcp25xxfd_can_tx_spi_message_trigger_fifo_complete i c).tx_queue.in_fill_fifo_transfer =
      c.tx_queue.in_fill_fifo_transfer ∧
    (mcp25xxfd_can_tx_spi_message_trigger_fifo_complete i c).tx_queue.in_trigger_fifo_transfer =
      mcp25xxfd_can_tx_queue_remove_spi_message c.tx_queue.in_trigger_fifo_transfer
        (fifo_of c i) ∧
    (mcp25xxfd_can_tx_spi_message_trigger_fifo_complete i c).tx_queue.in_can_transfer =
      mcp25xxfd_can_tx_queue_add_spi_message c.tx_queue.in_can_transfer (fifo_of c i) ∧
    (mcp25xxfd_can_tx_spi_message_trigger_fifo_complete i c).tx_queue.transferred =
      c.tx_queue.transferred ∧
    (mcp25xxfd_can_tx_spi_message_trigger_fifo_complete i c).tx_queue.fifo2message =
      c.tx_queue.fifo2message ∧
    (mcp25xxfd_can_tx_spi_message_trigger_fifo_complete i c).spi_pending = c.spi_pending ∧
    (mcp25xxfd_can_tx_spi_message_trigger_fifo_complete i c).tx_start = c.tx_start ∧
    (mcp25xxfd_can_tx_spi_message_trigger_fifo_complete i c).tx_count = c.tx_count ∧
    ∀ j, fifo_of (mcp25xxfd_can_tx_spi_message_trigger_fifo_complete i c) j = fifo_of c j :=
  ⟨rfl, rfl, rfl, rfl, rfl, rfl, rfl, rfl, rfl, fun _ => rfl⟩

/-- A submission either leaves the queue bitmasks, pointers and pending
transactions alone (dropped frame, or no message for idle) or claims the slot
of the first idle message. -/
theorem start_xmit_cases (L : Layout) (skb : sk_buff) (c : mcp25xxfd_can_priv) :
    ((mcp25xxfd_can_tx_start_xmit L skb c).2.tx_queue.idle = c.tx_queue.idle ∧
      (mcp25xxfd_can_tx_start_xmit L skb c).2.tx_queue.in_fill_fifo_transfer =
        c.tx_queue.in_fill_fifo_transfer ∧
      (mcp25xxfd_can_tx_start_xmit L skb c).2.tx_queue.in_trigger_fifo_transfer =
        c.tx_queue.in_trigger_fifo_transfer ∧
      (mcp25xxfd_can_tx_start_xmit L skb c).2.tx_queue.in_can_transfer =
        c.tx_queue.in_can_transfer ∧
      (mcp25xxfd_can_tx_start_xmit L skb c).2.tx_queue.transferred = c.tx_queue.transferred ∧
      (mcp25xxfd_can_tx_start_xmit L skb c).2.tx_queue.fifo2message =
        c.tx_queue.fifo2message ∧
      (mcp25xxfd_can_tx_start_xmit L skb c).2.tx_start = c.tx_start ∧
      (mcp25xxfd_can_tx_start_xmit L skb c).2.tx_count = c.tx_count ∧
      (∀ j, fifo_of (mcp25xxfd_can_tx_start_xmit L skb c).2 j = fifo_of c j) ∧
      (mcp25xxfd_can_tx_start_xmit L skb c).2.spi_pending = c.spi_pending) ∨
    (can_dropped_invalid_skb skb = false ∧
      ∃ i, mcp25xxfd_can_tx_queue_first_spi_message c.tx_queue c.tx_queue.idle = some i) := by
  by_cases hv : can_dropped_invalid_skb skb = true
  · left
    have heq : mcp25xxfd_can_tx_start_xmit L skb c =
        (NETDEV_TX_OK, { c with stats_tx_dropped := (c.stats_tx_dropped + 1) % 2 ^ 64 }) := by
      unfold mcp25xxfd_can_tx_start_xmit
      simp only [hv, if_true]
    rw [heq]
    exact ⟨rfl, rfl, rfl, rfl, rfl, rfl, rfl, rfl, fun _ => rfl, rfl⟩
  · have hv2 : can_dropped_invalid_skb skb = false := by simpa using hv
    cases hfirst : mcp25xxfd_can_tx_queue_first_spi_message c.tx_queue c.tx_queue.idle with
    | none =>
      left
      rw [start_xmit_busy L skb c hv2 hfirst, manage_nolock_eq]
      exact ⟨rfl, rfl, rfl, rfl, rfl, rfl, rfl, rfl, fun _ => rfl, rfl⟩
    | some i =>
      right
      exact ⟨hv2, i, rfl⟩


theorem spi_complete_next_nil (L : Layout) (c : mcp25xxfd_can_priv) (h : c.spi_pending = []) :
    spi_complete_next L c = c := by
  simp only [spi_complete_next, h]

theorem spi_complete_next_fill (L : Layout) (c : mcp25xxfd_can_priv) (i : Nat)
    (rest : List spi_message_ref) (h : c.spi_pending = spi_message_ref.fill_fifo i :: rest) :
    spi_complete_next L c =
      mcp25xxfd_can_tx_spi_message_fill_fifo_complete L i { c with spi_pending := rest } := by
  simp only [spi_complete_next, h]

theorem spi_complete_next_trigger (L : Layout) (c : mcp25xxfd_can_priv) (i : Nat)
    (rest : List spi_message_ref) (h : c.spi_pending = spi_message_ref.trigger_fifo i :: rest) :
    spi_complete_next L c =
      mcp25xxfd_can_tx_spi_message_trigger_fifo_complete i { c with spi_pending := rest } := by
  simp only [spi_complete_next, h]

theorem claim_invariant_of {g : Prop} (c c2 : mcp25xxfd_can_priv) (hinv : claim_invariant c)
    (hm : mask_step g c.tx_queue c2.tx_queue)
    (hf2m : c2.tx_queue.fifo2message = c.tx_queue.fifo2message)
    (hfifo : ∀ j, fifo_of c2 j = fifo_of c j)
    (hp : pend_ok (fifo_of c) c2.spi_pending c2.tx_queue.in_fill_fifo_transfer
      c2.tx_queue.in_trigger_fifo_transfer) : claim_invariant c2 := by
  obtain ⟨hu, hl, hcnt, _⟩ := hinv
  refine ⟨mask_step_u32 hu hm, ?_, mask_step_claim_count hu hcnt hm, ?_⟩
  · intro f i hf h
    rw [hf2m] at h
    rw [hfifo]
    exact hl f i hf h
  · exact pend_ok_congr _ _ hfifo _ _ _ hp

/-- One step keeps the claim invariant and changes the bitmasks by a mask step;
with the caller guarantee the release is a guarded one. -/
theorem step_claim_invariant (L : Layout) (g : Prop) (a : Action) (c : mcp25xxfd_can_priv)
    (hinv : claim_invariant c) (hg : g → a.in_flight c) :
    claim_invariant (step L a c) ∧ mask_step g c.tx_queue (step L a c).tx_queue ∧
      (step L a c).tx_start = c.tx_start ∧ (step L a c).tx_count = c.tx_count := by
  have hinv0 := hinv
  obtain ⟨hu, hl, hcnt, hp⟩ := hinv
  obtain ⟨hu1, hu2, hu3, hu4, hu5⟩ := hu
  cases a with
  | start_xmit skb =>
    show claim_invariant (mcp25xxfd_can_tx_start_xmit L skb c).2 ∧
      mask_step g c.tx_queue (mcp25xxfd_can_tx_start_xmit L skb c).2.tx_queue ∧
      (mcp25xxfd_can_tx_start_xmit L skb c).2.tx_start = c.tx_start ∧
      (mcp25xxfd_can_tx_start_xmit L skb c).2.tx_count = c.tx_count
    rcases start_xmit_cases L skb c with ⟨e1, e2, e3, e4, e5, e6, e7, e8, e9, e10⟩ | ⟨hv, i, hi⟩
    · have hm : mask_step g c.tx_queue (mcp25xxfd_can_tx_start_xmit L skb c).2.tx_queue :=
        mask_step.same e1 e2 e3 e4 e5
      refine ⟨claim_invariant_of c _ hinv0 hm e6 e9 ?_, hm, e7, e8⟩
      rw [e10, e2, e3]
      exact hp
    · obtain ⟨e1, e2, e3, e4, e5, e6, e7, e8, e9, hpend, _, _⟩ :=
        start_xmit_claim_effect L skb c i hv hi _ rfl
      obtain ⟨hk32, hbit, _⟩ := first_some_lowest c i hl hi
      have hb1 : bit c.tx_queue.idle (fifo_of c i) = 1 := (bit_eq_one_iff _ _).2 hbit
      have hck := hcnt (fifo_of c i)
      unfold claim_count at hck
      have hm : mask_step g c.tx_queue (mcp25xxfd_can_tx_start_xmit L skb c).2.tx_queue :=
        mask_step.claim (fifo_of c i) hb1 e1 e2 e3 e4 e5
      refine ⟨claim_invariant_of c _ hinv0 hm e6 e9 ?_, hm, e7, e8⟩
      rw [e2, e3]
      have hadd : ∀ f, (mcp25xxfd_can_tx_queue_add_spi_message f (fifo_of c i)).testBit
          (fifo_of c i) = true := by
        intro f
        rw [testBit_add_lt _ _ _ (by omega)]
        simp [hk32]
      rcases hpend with h | h | h
      · rw [h]
        have := pend_ok_claim (fifo_of c) (fifo_of c i) (by omega) []
          (fun _ _ => trivial) c.spi_pending
          _ _ hu2 hu3 hp (by omega) (by omega)
        rw [List.append_nil] at this
        exact this
      · rw [h]
        exact pend_ok_claim (fifo_of c) (fifo_of c i) (by omega) [spi_message_ref.fill_fifo i]
          (fun f _ => ⟨hadd f, trivial⟩) c.spi_pending _ _ hu2 hu3 hp (by omega) (by omega)
      · rw [h]
        exact pend_ok_claim (fifo_of c) (fifo_of c i) (by omega)
          [spi_message_ref.fill_fifo i, spi_message_ref.trigger_fifo i]
          (fun f t => ⟨hadd f, hadd t, trivial⟩) c.spi_pending _ _ hu2 hu3 hp
          (by omega) (by omega)
  | spi_complete =>
    show claim_invariant (spi_complete_next L c) ∧
      mask_step g c.tx_queue (spi_complete_next L c).tx_queue ∧
      (spi_complete_next L c).tx_start = c.tx_start ∧
      (spi_complete_next L c).tx_count = c.tx_count
    cases hpd : c.spi_pending with
    | nil =>
      rw [spi_complete_next_nil L c hpd]
      exact ⟨hinv0, mask_step.same rfl rfl rfl rfl rfl, rfl, rfl⟩
    | cons m rest =>
      rw [hpd] at hp
      cases m with
      | fill_fifo i =>
        rw [spi_complete_next_fill L c i rest hpd]
        obtain ⟨hbit, hrest⟩ := hp
        obtain ⟨e1, e2, e3, e4, e5, e6, e7, e8, e9, e10⟩ :=
          fill_fifo_complete_state L i { c with spi_pending := rest }
        have hm : mask_step g c.tx_queue (mcp25xxfd_can_tx_spi_message_fill_fifo_complete L i
            { c with spi_pending := rest }).tx_queue :=
          mask_step.filled (fifo_of c i) ((bit_eq_one_iff _ _).2 hbit) e1 e2 e3 e4 e5
        refine ⟨claim_invariant_of c _ hinv0 hm e6 e10 ?_, hm, e8, e9⟩
        rw [e7, e2, e3]
        exact hrest
      | trigger_fifo i =>
        rw [spi_complete_next_trigger L c i rest hpd]
        obtain ⟨hbit, hrest⟩ := hp
        obtain ⟨e1, e2, e3, e4, e5, e6, e7, e8, e9, e10⟩ :=
          trigger_fifo_complete_state i { c with spi_pending := rest }
        have hm : mask_step g c.tx_queue (mcp25xxfd_can_tx_spi_message_trigger_fifo_complete i
            { c with spi_pending := rest }).tx_queue :=
          mask_step.triggered (fifo_of c i) ((bit_eq_one_iff _ _).2 hbit) e1 e2 e3 e4 e5
        refine ⟨claim_invariant_of c _ hinv0 hm e6 e10 ?_, hm, e8, e9⟩
        rw [e7, e2, e3]
        exact hrest
  | submit_frame fifo =>
    show claim_invariant (mcp25xxfd_can_tx_submit_frame L c fifo).2 ∧
      mask_step g c.tx_queue (mcp25xxfd_can_tx_submit_frame L c fifo).2.tx_queue ∧
      (mcp25xxfd_can_tx_submit_frame L c fifo).2.tx_start = c.tx_start ∧
      (mcp25xxfd_can_tx_submit_frame L c fifo).2.tx_count = c.tx_count
    have hm : mask_step g c.tx_queue (mcp25xxfd_can_tx_submit_frame L c fifo).2.tx_queue :=
      mask_step.released fifo (fun hgg => (bit_eq_one_iff _ _).2 (hg hgg)) rfl rfl rfl rfl rfl
    exact ⟨claim_invariant_of c _ hinv0 hm rfl (fun _ => rfl) hp, hm, rfl, rfl⟩
  | handle_int_txatif_fifo fifo =>
    show claim_invariant (mcp25xxfd_can_tx_handle_int_txatif_fifo L c fifo).2 ∧
      mask_step g c.tx_queue (mcp25xxfd_can_tx_handle_int_txatif_fifo L c fifo).2.tx_queue ∧
      (mcp25xxfd_can_tx_handle_int_txatif_fifo L c fifo).2.tx_start = c.tx_start ∧
      (mcp25xxfd_can_tx_handle_int_txatif_fifo L c fifo).2.tx_count = c.tx_count
    obtain ⟨hq, hpend, hs, hcn⟩ := txatif_fifo_queue L c fifo
    have hfifo : ∀ j, fifo_of (mcp25xxfd_can_tx_handle_int_txatif_fifo L c fifo).2 j =
        fifo_of c j := by
      intro j
      unfold fifo_of
      rcases hq with h | h
      · rw [h]
      · rw [h]; rfl
    have hf2m : (mcp25xxfd_can_tx_handle_int_txatif_fifo L c fifo).2.tx_queue.fifo2message =
        c.tx_queue.fifo2message := by
      rcases hq with h | h <;> rw [h]
    have hm : mask_step g c.tx_queue
        (mcp25xxfd_can_tx_handle_int_txatif_fifo L c fifo).2.tx_queue := by
      rcases hq with h | h
      · rw [h]
        exact mask_step.same rfl rfl rfl rfl rfl
      · rw [h]
        exact mask_step.released fifo (fun hgg => (bit_eq_one_iff _ _).2 (hg hgg))
          rfl rfl rfl rfl rfl
    refine ⟨claim_invariant_of c _ hinv0 hm hf2m hfifo ?_, hm, hs, hcn⟩
    rw [hpend]
    rcases hq with h | h <;> (rw [h]; exact hp)
  | queue_restart =>
    show claim_invariant (mcp25xxfd_can_tx_queue_restart c) ∧
      mask_step g c.tx_queue (mcp25xxfd_can_tx_queue_restart c).tx_queue ∧
      (mcp25xxfd_can_tx_queue_restart c).tx_start = c.tx_start ∧
      (mcp25xxfd_can_tx_queue_restart c).tx_count = c.tx_count
    rcases restart_state c with h | ⟨z1, z2, z3, z4, h⟩
    · rw [h]
      exact ⟨hinv0, mask_step.same rfl rfl rfl rfl rfl, rfl, rfl⟩
    · rw [h]
      have hm : mask_step g c.tx_queue
          { c.tx_queue with
            idle := c.tx_queue.idle ||| c.tx_queue.transferred
            transferred := 0
            state := flow_next c.tx_queue.state MCP25XXFD_CAN_TX_QUEUE_STATE_RESTART } :=
        mask_step.restarted z1 z2 z3 z4 rfl rfl rfl rfl rfl
      exact ⟨claim_invariant_of c _ hinv0 hm rfl (fun _ => rfl) hp, hm, rfl, rfl⟩
  | bus replies =>
    show claim_invariant { c with spi_replies := replies } ∧
      mask_step g c.tx_queue c.tx_queue ∧ c.tx_start = c.tx_start ∧ c.tx_count = c.tx_count
    exact ⟨hinv0, mask_step.same rfl rfl rfl rfl rfl, rfl, rfl⟩

theorem owner_count_le_one (c : mcp25xxfd_can_priv) (h : owner_invariant c) (j : Nat) :
    owner_count c.tx_queue j ≤ 1 := by
  rw [h.2 j]
  split <;> omega

theorem step_owner_invariant (L : Layout) (a : Action) (c : mcp25xxfd_can_priv)
    (hinv : claim_invariant c) (ho : owner_invariant c) (hg : a.in_flight c) :
    owner_invariant (step L a c) := by
  obtain ⟨_, hm, hs, hcn⟩ := step_claim_invariant L True a c hinv (fun _ => hg)
  refine ⟨by rw [hs, hcn]; exact ho.1, ?_⟩
  intro j
  rw [mask_step_owner_count hinv.1 (owner_count_le_one c ho) hm j, hs, hcn]
  exact ho.2 j

theorem run_claim_invariant (L : Layout) :
    ∀ (as : List Action) (c : mcp25xxfd_can_priv), claim_invariant c →
      claim_invariant (run L as c) := by
  intro as
  induction as with
  | nil => intro c h; exact h
  | cons a rest ih =>
    intro c h
    exact ih _ (step_claim_invariant L False a c h (fun hf => hf.elim)).1

theorem run_owner_invariant (L : Layout) :
    ∀ (as : List Action) (c : mcp25xxfd_can_priv), claim_invariant c → owner_invariant c →
      tracked L as c → owner_invariant (run L as c) := by
  intro as
  induction as with
  | nil => intro c _ h _; exact h
  | cons a rest ih =>
    intro c h ho ht
    exact ih _ (step_claim_invariant L False a c h (fun hf => hf.elim)).1
      (step_owner_invariant L a c h ho ht.1) ht.2


theorem message_init_state (L : Layout) (c : mcp25xxfd_can_priv) (i f : Nat) :
    (mcp25xxfd_can_tx_message_init L c i f).tx_queue.idle =
      mcp25xxfd_can_tx_queue_add_spi_message c.tx_queue.idle f ∧
    (mcp25xxfd_can_tx_message_init L c i f).tx_queue.in_fill_fifo_transfer =
      c.tx_queue.in_fill_fifo_transfer ∧
    (mcp25xxfd_can_tx_message_init L c i f).tx_queue.in_trigger_fifo_transfer =
      c.tx_queue.in_trigger_fifo_transfer ∧
    (mcp25xxfd_can_tx_message_init L c i f).tx_queue.in_can_transfer =
      c.tx_queue.in_can_transfer ∧
    (mcp25xxfd_can_tx_message_init L c i f).tx_queue.transferred = c.tx_queue.transferred ∧
    (mcp25xxfd_can_tx_message_init L c i f).tx_queue.fifo2message = c.tx_queue.fifo2message ∧
    (mcp25xxfd_can_tx_message_init L c i f).tx_start = c.tx_start ∧
    (mcp25xxfd_can_tx_message_init L c i f).tx_count = c.tx_count ∧
    (mcp25xxfd_can_tx_message_init L c i f).spi_pending = c.spi_pending ∧
    (mcp25xxfd_can_tx_message_init L c i f).tx_queue.message.length =
      c.tx_queue.message.length ∧
    (i < c.tx_queue.message.length → fifo_of (mcp25xxfd_can_tx_message_init L c i f) i = f) ∧
    ∀ j, j ≠ i → fifo_of (mcp25xxfd_can_tx_message_init L c i f) j = fifo_of c j := by
  refine ⟨rfl, rfl, rfl, rfl, rfl, rfl, rfl, rfl, rfl, ?_, ?_, ?_⟩
  · simp [mcp25xxfd_can_tx_message_init]
  · intro hi
    simp [fifo_of, msg_at, mcp25xxfd_can_tx_message_init, List.getD_eq_getElem?_getD, hi]
  · intro j hj
    have hij : ¬ i = j := fun e => hj e.symm
    simp [fifo_of, msg_at, mcp25xxfd_can_tx_message_init, List.getD_eq_getElem?_getD,
      List.getElem?_set_ne hij]

theorem getD_set_some (l : List (Option Nat)) (f g i j : Nat)
    (h : (l.set f (some i)).getD g none = some j) :
    (g = f ∧ j = i) ∨ (g ≠ f ∧ l.getD g none = some j) := by
  by_cases hgf : g = f
  · subst hgf
    left
    refine ⟨rfl, ?_⟩
    by_cases hlt : g < l.length
    · simp [List.getD_eq_getElem?_getD, List.getElem?_set, hlt] at h
      exact h.symm
    · rw [List.set_eq_of_length_le (by omega)] at h
      have hnone : l.getD g none = none := by
        simp [List.getD_eq_getElem?_getD, List.getElem?_eq_none (by omega : l.length ≤ g)]
      rw [hnone] at h
      exact absurd h (by simp)
  · right
    refine ⟨hgf, ?_⟩
    have hfg : ¬ f = g := fun e => hgf e.symm
    simpa [List.getD_eq_getElem?_getD, List.getElem?_set_ne hfg] using h

theorem alloc_loop_spec (L : Layout) :
    ∀ (n i f : Nat) (c : mcp25xxfd_can_priv), f + n ≤ 64 →
      c.tx_queue.idle < 2 ^ 32 → i + n ≤ c.tx_queue.message.length →
      (∀ g j, g < 32 → c.tx_queue.fifo2message.getD g none = some j →
        j < i ∧ fifo_of c j = g) →
      (tx_queue_alloc_loop L n i f c).tx_queue.in_fill_fifo_transfer =
        c.tx_queue.in_fill_fifo_transfer ∧
      (tx_queue_alloc_loop L n i f c).tx_queue.in_trigger_fifo_transfer =
        c.tx_queue.in_trigger_fifo_transfer ∧
      (tx_queue_alloc_loop L n i f c).tx_queue.in_can_transfer = c.tx_queue.in_can_transfer ∧
      (tx_queue_alloc_loop L n i f c).tx_queue.transferred = c.tx_queue.transferred ∧
      (tx_queue_alloc_loop L n i f c).tx_start = c.tx_start ∧
      (tx_queue_alloc_loop L n i f c).tx_count = c.tx_count ∧
      (tx_queue_alloc_loop L n i f c).spi_pending = c.spi_pending ∧
      (tx_queue_alloc_loop L n i f c).tx_queue.idle < 2 ^ 32 ∧
      (∀ j, bit (tx_queue_alloc_loop L n i f c).tx_queue.idle j =
        if j < 32 ∧ f ≤ j ∧ j < f + n then 1 else bit c.tx_queue.idle j) ∧
      pointers_linked (tx_queue_alloc_loop L n i f c) := by
  intro n
  induction n with
  | zero =>
    intro i f c _ hidle _ hlink
    refine ⟨rfl, rfl, rfl, rfl, rfl, rfl, rfl, hidle, ?_, ?_⟩
    · intro j
      have : ¬ (j < 32 ∧ f ≤ j ∧ j < f + 0) := by omega
      simp only [this, if_false]
      rfl
    · intro g j hg h
      exact (hlink g j hg h).2
  | succ n ih =>
    intro i f c hf64 hidle hlen hlink
    obtain ⟨e1, e2, e3, e4, e5, e6, e7, e8, e9, e10, e11, e12⟩ :=
      message_init_state L
        { c with tx_queue :=
          { c.tx_queue with fifo2message := c.tx_queue.fifo2message.set f (some i) } } i f
    have hstep : tx_queue_alloc_loop L (n + 1) i f c =
        tx_queue_alloc_loop L n (i + 1) (f + 1)
          (mcp25xxfd_can_tx_message_init L
            { c with tx_queue :=
              { c.tx_queue with fifo2message := c.tx_queue.fifo2message.set f (some i) } }
            i f) := rfl
    have hlink1 : ∀ g j, g < 32 →
        (mcp25xxfd_can_tx_message_init L
            { c with tx_queue :=
              { c.tx_queue with fifo2message := c.tx_queue.fifo2message.set f (some i) } }
            i f).tx_queue.fifo2message.getD g none = some j →
        j < i + 1 ∧ fifo_of (mcp25xxfd_can_tx_message_init L
            { c with tx_queue :=
              { c.tx_queue with fifo2message := c.tx_queue.fifo2message.set f (some i) } }
            i f) j = g := by
      intro g j hg h
      rw [e6] at h
      rcases getD_set_some _ _ _ _ _ h with ⟨hgf, hji⟩ | ⟨_, hold⟩
      · subst hgf hji
        exact ⟨by omega, e11 (by show j < c.tx_queue.message.length; omega)⟩
      · obtain ⟨hlt, hfo⟩ := hlink g j hg hold
        refine ⟨by omega, ?_⟩
        rw [e12 j (by omega)]
        exact hfo
    obtain ⟨r1, r2, r3, r4, r5, r6, r7, r8, r9, r10⟩ :=
      ih (i + 1) (f + 1) _ (by omega) (by rw [e1]; exact add_lt _ _)
        (by rw [e10]; show i + 1 + n ≤ c.tx_queue.message.length; omega) hlink1
    rw [hstep]
    refine ⟨by rw [r1, e2], by rw [r2, e3], by rw [r3, e4], by rw [r4, e5], by rw [r5, e7],
      by rw [r6, e8], by rw [r7, e9], r8, ?_, r10⟩
    intro j
    rw [r9 j, e1, bit_add_lt _ _ _ (by omega)]
    show _ = if j < 32 ∧ f ≤ j ∧ j < f + (n + 1) then 1 else bit c.tx_queue.idle j
    by_cases h32 : j < 32
    · by_cases hjf : j = f
      · subst hjf
        have h1 : ¬ (j < 32 ∧ j + 1 ≤ j ∧ j < j + 1 + n) := by omega
        have h2 : j < 32 ∧ j ≤ j ∧ j < j + (n + 1) := by omega
        rw [if_neg h1, if_pos h2, if_pos h32, if_pos rfl]
      · by_cases hr : f + 1 ≤ j ∧ j < f + 1 + n
        · have h1 : j < 32 ∧ f + 1 ≤ j ∧ j < f + 1 + n := ⟨h32, hr⟩
          have h2 : j < 32 ∧ f ≤ j ∧ j < f + (n + 1) := by omega
          rw [if_pos h1, if_pos h2]
        · have h1 : ¬ (j < 32 ∧ f + 1 ≤ j ∧ j < f + 1 + n) := fun h => hr h.2
          have h2 : ¬ (j < 32 ∧ f ≤ j ∧ j < f + (n + 1)) := by omega
          rw [if_neg h1, if_neg h2, if_pos h32, if_neg hjf]
    · have h1 : ¬ (j < 32 ∧ f + 1 ≤ j ∧ j < f + 1 + n) := fun h => h32 h.1
      have h2 : ¬ (j < 32 ∧ f ≤ j ∧ j < f + (n + 1)) := fun h => h32 h.1
      rw [if_neg h1, if_neg h2, if_neg h32]
      exact (bit_eq_zero_of_lt hidle (by omega)).symm

theorem allocated_invariants (L : Layout) (c : mcp25xxfd_can_priv) (h : allocated L c) :
    claim_invariant c ∧ owner_invariant c := by
  obtain ⟨base, hrange, hpend, halloc⟩ := h
  have hc : c = tx_queue_alloc_loop L base.tx_count 0 base.tx_start
      { base with tx_queue := zeroed_queue L base.tx_count } := by
    have : (mcp25xxfd_can_tx_queue_alloc L true base).2 =
        some (tx_queue_alloc_loop L base.tx_count 0 base.tx_start
          { base with tx_queue := zeroed_queue L base.tx_count }) := rfl
    rw [this] at halloc
    exact (Option.some.inj halloc).symm
  obtain ⟨r1, r2, r3, r4, r5, r6, r7, r8, r9, r10⟩ :=
    alloc_loop_spec L base.tx_count 0 base.tx_start
      { base with tx_queue := zeroed_queue L base.tx_count }
      (by omega)
      (by show (0 : Nat) < 2 ^ 32; decide)
      (by show 0 + base.tx_count ≤ (List.replicate base.tx_count (zeroed_message L)).length
          simp)
      (by
        intro g j hg hh
        have hnone : (List.replicate 32 (none : Option Nat)).getD g none = none := by
          rw [List.getD_eq_getElem?_getD]
          exact List.getElem?_getD_replicate_default_eq (none : Option Nat) 32 g
        have hh2 : (List.replicate 32 (none : Option Nat)).getD g none = some j := hh
        rw [hnone] at hh2
        exact absurd hh2 (by simp))
  rw [← hc] at r1 r2 r3 r4 r5 r6 r7 r8 r9 r10
  have z2 : c.tx_queue.in_fill_fifo_transfer = 0 := r1
  have z3 : c.tx_queue.in_trigger_fifo_transfer = 0 := r2
  have z4 : c.tx_queue.in_can_transfer = 0 := r3
  have z5 : c.tx_queue.transferred = 0 := r4
  have hs : c.tx_start = base.tx_start := r5
  have hn : c.tx_count = base.tx_count := r6
  have hp : c.spi_pending = [] := by rw [r7]; exact hpend
  have hbit : ∀ j, bit c.tx_queue.idle j =
      if j < 32 ∧ base.tx_start ≤ j ∧ j < base.tx_start + base.tx_count then 1 else 0 := by
    intro j
    rw [r9 j]
    split
    · rfl
    · exact bit_zero_left j
  refine ⟨⟨⟨r8, ?_, ?_, ?_, ?_⟩, r10, ?_, ?_⟩, ?_, ?_⟩
  · rw [z2]; decide
  · rw [z3]; decide
  · rw [z4]; decide
  · rw [z5]; decide
  · intro j
    unfold claim_count
    rw [z2, z3, z4]
    simp only [bit_zero_left]
    have := bit_le_one c.tx_queue.idle j
    omega
  · rw [hp]
    trivial
  · rw [hs, hn]; exact hrange
  · intro j
    unfold owner_count claim_count
    rw [z2, z3, z4, z5, hbit j, hs, hn]
    simp only [bit_zero_left]
    by_cases hr : base.tx_start ≤ j ∧ j < base.tx_start + base.tx_count
    · have h1 : j < 32 ∧ base.tx_start ≤ j ∧ j < base.tx_start + base.tx_count := by omega
      simp [h1, hr]
    · have h1 : ¬ (j < 32 ∧ base.tx_start ≤ j ∧ j < base.tx_start + base.tx_count) :=
        fun h => hr h.2
      simp [h1, hr]


theorem and_eq_zero_of_bits (a b : Nat) (h : ∀ j, bit a j + bit b j ≤ 1) : a &&& b = 0 := by
  rw [eq_zero_iff_testBit]
  intro j
  have hj := h j
  unfold bit at hj
  rw [Nat.testBit_and]
  cases ha : a.testBit j <;> cases hb : b.testBit j <;> simp [ha, hb] at hj ⊢

theorem testBit_slot_set (start count j : Nat) :
    (slot_set start count).testBit j = decide (start ≤ j ∧ j < start + count) := by
  unfold slot_set
  rw [Nat.testBit_shiftLeft, Nat.testBit_two_pow_sub_one]
  by_cases h1 : start ≤ j
  · by_cases h2 : j < start + count
    · have h3 : j - start < count := by omega
      simp [h1, h2, h3]
    · have h3 : ¬ j - start < count := by omega
      simp [h1, h2, h3]
  · have h1b : ¬ j ≥ start := h1
    simp [h1, h1b]

/-- The count form of the invariant gives the bitmask form. -/
theorem owner_invariant_partition (c : mcp25xxfd_can_priv) (h : owner_invariant c) :
    partition_invariant c := by
  have hle := owner_count_le_one c h
  unfold owner_count claim_count at hle
  have b1 := fun j => bit_le_one c.tx_queue.idle j
  have b2 := fun j => bit_le_one c.tx_queue.in_fill_fifo_transfer j
  have b3 := fun j => bit_le_one c.tx_queue.in_trigger_fifo_transfer j
  have b4 := fun j => bit_le_one c.tx_queue.in_can_transfer j
  have b5 := fun j => bit_le_one c.tx_queue.transferred j
  refine ⟨⟨?_, ?_, ?_, ?_, ?_, ?_, ?_, ?_, ?_, ?_⟩, ?_⟩
  all_goals try
    (apply and_eq_zero_of_bits
     intro j
     have := hle j
     have := b1 j
     have := b2 j
     have := b3 j
     have := b4 j
     have := b5 j
     omega)
  apply Nat.eq_of_testBit_eq
  intro j
  have hj := h.2 j
  unfold owner_count claim_count bit at hj
  rw [testBit_slot_set]
  simp only [Nat.testBit_or]
  by_cases hr : c.tx_start ≤ j ∧ j < c.tx_start + c.tx_count
  · rw [if_pos hr] at hj
    rw [decide_eq_true hr]
    revert hj
    cases c.tx_queue.idle.testBit j <;> cases c.tx_queue.in_fill_fifo_transfer.testBit j <;>
      cases c.tx_queue.in_trigger_fifo_transfer.testBit j <;>
      cases c.tx_queue.in_can_transfer.testBit j <;>
      cases c.tx_queue.transferred.testBit j <;> simp
  · rw [if_neg hr] at hj
    rw [decide_eq_false hr]
    revert hj
    cases c.tx_queue.idle.testBit j <;> cases c.tx_queue.in_fill_fifo_transfer.testBit j <;>
      cases c.tx_queue.in_trigger_fifo_transfer.testBit j <;>
      cases c.tx_queue.in_can_transfer.testBit j <;>
      cases c.tx_queue.transferred.testBit j <;> simp

theorem example_allocated_is_allocated : allocated example_layout example_allocated :=
  ⟨blank_priv 0 2, by decide, rfl, rfl⟩

/-- C8, as stated, fails: in a state reached from a freshly allocated two-slot
queue by steps of the driver, idle is non-empty (it holds slot 3, whose
transmit event was released although the slot is outside the range) and the
bus accepts every submission, yet a valid frame is refused with
NETDEV_TX_BUSY, no bus transaction is issued and no echo frame is kept:
fifo2message holds no message for slot 3. -/
theorem C8_counterexample :
    reachable example_layout example_unlinked ∧
    can_dropped_invalid_skb example_frame = false ∧
    example_unlinked.tx_queue.idle = 8 ∧
    spi_ret example_unlinked.spi_replies 0 = 0 ∧
    spi_ret example_unlinked.spi_replies 1 = 0 ∧
    (mcp25xxfd_can_tx_start_xmit example_layout example_frame example_unlinked).1 =
      NETDEV_TX_BUSY ∧
    (mcp25xxfd_can_tx_start_xmit example_layout example_frame example_unlinked).2.tx_queue.idle
      = 8 ∧
    bus_events (mcp25xxfd_can_tx_start_xmit example_layout example_frame
      example_unlinked).2.trace = bus_events example_unlinked.trace ∧
    ¬ slots_linked example_unlinked.tx_queue example_unlinked.tx_queue.idle :=
  ⟨⟨example_allocated, example_unlinked_run, example_allocated_is_allocated, rfl⟩,
    by decide, by decide, by decide, by decide, by decide, by decide, by decide, by decide⟩

/-- C1, as stated, fails: on a two-slot queue, slot 0 is submitted and reaches
in_can_transfer, then a transmit event that names the idle slot 1 is released;
the state is reachable, slot 1 is in idle and in transferred, and the partition
invariant is broken. -/
theorem C1_counterexample :
    reachable example_layout (run example_layout example_mismatch_run example_allocated) ∧
    (run example_layout example_mismatch_run example_allocated).tx_queue.idle = 2 ∧
    (run example_layout example_mismatch_run example_allocated).tx_queue.in_can_transfer = 1 ∧
    (run example_layout example_mismatch_run example_allocated).tx_queue.transferred = 2 ∧
    ¬ partition_invariant (run example_layout example_mismatch_run example_allocated) :=
  ⟨⟨example_allocated, example_mismatch_run, example_allocated_is_allocated, rfl⟩,
    by decide, by decide, by decide, by decide⟩

/-- C1, amended: from the state built by mcp25xxfd_can_tx_queue_alloc, after every
step of any interleaving of submit, completion callbacks, release, abort
handling and restart in which each release and each abort is applied to a slot
that is in in_can_transfer at that moment, the five bitmasks are pairwise
disjoint and their union is the full slot set. -/
theorem C1_partition_invariant_tracked (L : Layout) (cpriv : mcp25xxfd_can_priv)
    (h : reachable_tracked L cpriv) : partition_invariant cpriv := by
  obtain ⟨c0, as, halloc, htr, hrun⟩ := h
  obtain ⟨hci, hoi⟩ := allocated_invariants L c0 halloc
  rw [← hrun]
  exact owner_invariant_partition _ (run_owner_invariant L as c0 hci hoi htr)

theorem example_tracked_run_is_tracked :
    tracked example_layout example_tracked_run example_allocated :=
  ⟨trivial, trivial, trivial,
    (by decide : (step example_layout Action.spi_complete
      (step example_layout Action.spi_complete
        (step example_layout (Action.start_xmit (example_skb 5 [1, 2, 3]))
          example_allocated))).tx_queue.in_can_transfer.testBit 0 = true),
    trivial⟩

/-- Instance of the amended C1: slot 0 of a two-slot queue is submitted, goes
through both callbacks and is released by its transmit event. -/
theorem C1_partition_invariant_tracked_witness :
    reachable_tracked example_layout
      (run example_layout example_tracked_run example_allocated) ∧
    partition_invariant (run example_layout example_tracked_run example_allocated) :=
  ⟨⟨example_allocated, example_tracked_run, example_allocated_is_allocated,
      example_tracked_run_is_tracked, rfl⟩,
    C1_partition_invariant_tracked example_layout _
      ⟨example_allocated, example_tracked_run, example_allocated_is_allocated,
        example_tracked_run_is_tracked, rfl⟩⟩

theorem get_next_fifo_fst (c : mcp25xxfd_can_priv) :
    (mcp25xxfd_can_tx_queue_get_next_fifo c).1 =
      mcp25xxfd_can_tx_queue_first_spi_message c.tx_queue c.tx_queue.idle := by
  cases h : mcp25xxfd_can_tx_queue_first_spi_message c.tx_queue c.tx_queue.idle with
  | none => rw [get_next_fifo_none c h]
  | some i => rw [get_next_fifo_some c i h]

/-- C4: in every state reachable from the allocated state by any interleaving
(releases and aborts of slots that are not in flight included), the slot of
the message returned by mcp25xxfd_can_tx_queue_get_next_fifo is in idle and in
none of in_fill_fifo_transfer, in_trigger_fifo_transfer, in_can_transfer. -/
theorem C4_no_double_submission (L : Layout) (cpriv : mcp25xxfd_can_priv) (i : Nat)
    (h : reachable L cpriv)
    (hnext : (mcp25xxfd_can_tx_queue_get_next_fifo cpriv).1 = some i) :
    cpriv.tx_queue.idle.testBit (fifo_of cpriv i) = true ∧
    cpriv.tx_queue.in_fill_fifo_transfer.testBit (fifo_of cpriv i) = false ∧
    cpriv.tx_queue.in_trigger_fifo_transfer.testBit (fifo_of cpriv i) = false ∧
    cpriv.tx_queue.in_can_transfer.testBit (fifo_of cpriv i) = false := by
  obtain ⟨c0, as, halloc, hrun⟩ := h
  have hinv : claim_invariant cpriv := by
    rw [← hrun]
    exact run_claim_invariant L as c0 (allocated_invariants L c0 halloc).1
  obtain ⟨_, hl, hcnt, _⟩ := hinv
  rw [get_next_fifo_fst] at hnext
  obtain ⟨_, hbit, _⟩ := first_some_lowest cpriv i hl hnext
  have hk := hcnt (fifo_of cpriv i)
  unfold claim_count at hk
  have h1 := (bit_eq_one_iff _ _).2 hbit
  have b2 := bit_le_one cpriv.tx_queue.in_fill_fifo_transfer (fifo_of cpriv i)
  refine ⟨hbit, ?_, ?_, ?_⟩
  · rw [← bit_eq_zero_iff]; omega
  · rw [← bit_eq_zero_iff]; omega
  · rw [← bit_eq_zero_iff]; omega

/-- Instance of C4: after the mismatched release the next claim takes slot 1. -/
theorem C4_no_double_submission_witness :
    (reachable example_layout (run example_layout example_mismatch_run example_allocated) ∧
      (mcp25xxfd_can_tx_queue_get_next_fifo
        (run example_layout example_mismatch_run example_allocated)).1 = some 1) ∧
    ((run example_layout example_mismatch_run example_allocated).tx_queue.idle.testBit
        (fifo_of (run example_layout example_mismatch_run example_allocated) 1) = true ∧
      (run example_layout example_mismatch_run
        example_allocated).tx_queue.in_fill_fifo_transfer.testBit
        (fifo_of (run example_layout example_mismatch_run example_allocated) 1) = false ∧
      (run example_layout example_mismatch_run
        example_allocated).tx_queue.in_trigger_fifo_transfer.testBit
        (fifo_of (run example_layout example_mismatch_run example_allocated) 1) = false ∧
      (run example_layout example_mismatch_run
        example_allocated).tx_queue.in_can_transfer.testBit
        (fifo_of (run example_layout example_mismatch_run example_allocated) 1) = false) :=
  ⟨⟨⟨example_allocated, example_mismatch_run, example_allocated_is_allocated, rfl⟩, by decide⟩,
    C4_no_double_submission example_layout _ 1
      ⟨example_allocated, example_mismatch_run, example_allocated_is_allocated, rfl⟩
      (by decide)⟩


/-! ## Flow-control table and restart -/

theorem netif_events_append (t u : List Event) :
    netif_events (t ++ u) = netif_events t ++ netif_events u := by
  simp [netif_events]

/-- C12: when the current state is Runnable or Stopped and Started is requested,
the upstream transport is woken exactly once and the state becomes Started;
when the current state is Started and Runnable or Stopped is requested, the
upstream transport is paused exactly once and the state becomes the requested
one.  Nothing else of the driver state changes. -/
theorem C12_flow_control_table (cpriv : mcp25xxfd_can_priv) (req : tx_queue_state)
    (h : ((cpriv.tx_queue.state = MCP25XXFD_CAN_TX_QUEUE_STATE_RUNABLE ∨
          cpriv.tx_queue.state = MCP25XXFD_CAN_TX_QUEUE_STATE_STOPPED) ∧
        req = MCP25XXFD_CAN_TX_QUEUE_STATE_STARTED) ∨
      (cpriv.tx_queue.state = MCP25XXFD_CAN_TX_QUEUE_STATE_STARTED ∧
        (req = MCP25XXFD_CAN_TX_QUEUE_STATE_RUNABLE ∨
          req = MCP25XXFD_CAN_TX_QUEUE_STATE_STOPPED))) :
    mcp25xxfd_can_tx_queue_manage_nolock cpriv req =
      { cpriv with
        tx_queue := { cpriv.tx_queue with state := req }
        trace := cpriv.trace ++
          [if req = MCP25XXFD_CAN_TX_QUEUE_STATE_STARTED then Event.netif_wake_queue
           else Event.netif_stop_queue] } := by
  rw [manage_nolock_eq]
  rcases h with ⟨h1 | h1, h2⟩ | ⟨h1, h2 | h2⟩ <;> subst h2 <;> rw [h1] <;> rfl

/-- Instance of C12: a Stopped queue is asked to start. -/
theorem C12_flow_control_table_witness :
    (((example_all_done_stopped.tx_queue.state = MCP25XXFD_CAN_TX_QUEUE_STATE_RUNABLE ∨
          example_all_done_stopped.tx_queue.state = MCP25XXFD_CAN_TX_QUEUE_STATE_STOPPED) ∧
        MCP25XXFD_CAN_TX_QUEUE_STATE_STARTED = MCP25XXFD_CAN_TX_QUEUE_STATE_STARTED) ∨
      (example_all_done_stopped.tx_queue.state = MCP25XXFD_CAN_TX_QUEUE_STATE_STARTED ∧
        (MCP25XXFD_CAN_TX_QUEUE_STATE_STARTED = MCP25XXFD_CAN_TX_QUEUE_STATE_RUNABLE ∨
          MCP25XXFD_CAN_TX_QUEUE_STATE_STARTED = MCP25XXFD_CAN_TX_QUEUE_STATE_STOPPED))) ∧
    mcp25xxfd_can_tx_queue_manage_nolock example_all_done_stopped
        MCP25XXFD_CAN_TX_QUEUE_STATE_STARTED =
      { example_all_done_stopped with
        tx_queue := { example_all_done_stopped.tx_queue with
          state := MCP25XXFD_CAN_TX_QUEUE_STATE_STARTED }
        trace := example_all_done_stopped.trace ++
          [if MCP25XXFD_CAN_TX_QUEUE_STATE_STARTED = MCP25XXFD_CAN_TX_QUEUE_STATE_STARTED
           then Event.netif_wake_queue else Event.netif_stop_queue] } :=
  ⟨by decide, C12_flow_control_table example_all_done_stopped
    MCP25XXFD_CAN_TX_QUEUE_STATE_STARTED (by decide)⟩

/-- C13, as stated, fails: a Runnable queue that is asked for Restarting is woken
and its stored state becomes Started. -/
theorem C13_counterexample :
    example_runnable.tx_queue.state = MCP25XXFD_CAN_TX_QUEUE_STATE_RUNABLE ∧
    (mcp25xxfd_can_tx_queue_manage_nolock example_runnable
      MCP25XXFD_CAN_TX_QUEUE_STATE_RESTART).tx_queue.state =
      MCP25XXFD_CAN_TX_QUEUE_STATE_STARTED ∧
    netif_events (mcp25xxfd_can_tx_queue_manage_nolock example_runnable
      MCP25XXFD_CAN_TX_QUEUE_STATE_RESTART).trace =
      netif_events example_runnable.trace ++ [Event.netif_wake_queue] := by
  decide

/-- C13, amended: every (current, requested) combination other than
Runnable to Started, Runnable to Restarting, Stopped to Started, Started to
Runnable and Started to Stopped leaves the stored state and every other field
of the driver state unchanged and neither wakes nor pauses the upstream
transport; the trace grows only by the error line of an unsupported current
state.  Runnable to Restarting wakes the transport once and stores Started. -/
theorem C13_other_requests_noop (cpriv : mcp25xxfd_can_priv) (req : tx_queue_state)
    (h1 : ¬ (cpriv.tx_queue.state = MCP25XXFD_CAN_TX_QUEUE_STATE_RUNABLE ∧
      (req = MCP25XXFD_CAN_TX_QUEUE_STATE_STARTED ∨
        req = MCP25XXFD_CAN_TX_QUEUE_STATE_RESTART)))
    (h2 : ¬ (cpriv.tx_queue.state = MCP25XXFD_CAN_TX_QUEUE_STATE_STOPPED ∧
      req = MCP25XXFD_CAN_TX_QUEUE_STATE_STARTED))
    (h3 : ¬ (cpriv.tx_queue.state = MCP25XXFD_CAN_TX_QUEUE_STATE_STARTED ∧
      (req = MCP25XXFD_CAN_TX_QUEUE_STATE_RUNABLE ∨
        req = MCP25XXFD_CAN_TX_QUEUE_STATE_STOPPED))) :
    (mcp25xxfd_can_tx_queue_manage_nolock cpriv req).tx_queue = cpriv.tx_queue ∧
    netif_events (mcp25xxfd_can_tx_queue_manage_nolock cpriv req).trace =
      netif_events cpriv.trace ∧
    { mcp25xxfd_can_tx_queue_manage_nolock cpriv req with trace := cpriv.trace } = cpriv ∧
    ((mcp25xxfd_can_tx_queue_manage_nolock cpriv req).trace = cpriv.trace ∨
      (mcp25xxfd_can_tx_queue_manage_nolock cpriv req).trace = cpriv.trace ++
        [Event.netdev_err_unsupported_state cpriv.tx_queue.state]) ∧
    mcp25xxfd_can_tx_queue_manage_nolock
        { cpriv with tx_queue :=
          { cpriv.tx_queue with state := MCP25XXFD_CAN_TX_QUEUE_STATE_RUNABLE } }
        MCP25XXFD_CAN_TX_QUEUE_STATE_RESTART =
      { cpriv with
        tx_queue := { cpriv.tx_queue with state := MCP25XXFD_CAN_TX_QUEUE_STATE_STARTED }
        trace := cpriv.trace ++ [Event.netif_wake_queue] } := by
  obtain ⟨s1, s2, s3, s4, s5, s6, ⟨q1, q2, q3, q4, q5, qs, q7, q8⟩, s8, s9, s10, s11, s12,
    s13, s14, s15, s16, s17, s18, s19, s20, s21, s22⟩ := cpriv
  rw [manage_nolock_eq, manage_nolock_eq]
  cases qs <;> cases req <;>
    simp [flow_next, flow_events, netif_events, Event.is_netif] at h1 h2 h3 ⊢

/-- Instance of the amended C13: a Runnable queue is asked for Stopped. -/
theorem C13_other_requests_noop_witness :
    (¬ (example_runnable.tx_queue.state = MCP25XXFD_CAN_TX_QUEUE_STATE_RUNABLE ∧
        (MCP25XXFD_CAN_TX_QUEUE_STATE_STOPPED = MCP25XXFD_CAN_TX_QUEUE_STATE_STARTED ∨
          MCP25XXFD_CAN_TX_QUEUE_STATE_STOPPED = MCP25XXFD_CAN_TX_QUEUE_STATE_RESTART)) ∧
      ¬ (example_runnable.tx_queue.state = MCP25XXFD_CAN_TX_QUEUE_STATE_STOPPED ∧
        MCP25XXFD_CAN_TX_QUEUE_STATE_STOPPED = MCP25XXFD_CAN_TX_QUEUE_STATE_STARTED) ∧
      ¬ (example_runnable.tx_queue.state = MCP25XXFD_CAN_TX_QUEUE_STATE_STARTED ∧
        (MCP25XXFD_CAN_TX_QUEUE_STATE_STOPPED = MCP25XXFD_CAN_TX_QUEUE_STATE_RUNABLE ∨
          MCP25XXFD_CAN_TX_QUEUE_STATE_STOPPED = MCP25XXFD_CAN_TX_QUEUE_STATE_STOPPED))) ∧
    ((mcp25xxfd_can_tx_queue_manage_nolock example_runnable
        MCP25XXFD_CAN_TX_QUEUE_STATE_STOPPED).tx_queue = example_runnable.tx_queue ∧
      netif_events (mcp25xxfd_can_tx_queue_manage_nolock example_runnable
        MCP25XXFD_CAN_TX_QUEUE_STATE_STOPPED).trace = netif_events example_runnable.trace ∧
      { mcp25xxfd_can_tx_queue_manage_nolock example_runnable
          MCP25XXFD_CAN_TX_QUEUE_STATE_STOPPED with trace := example_runnable.trace } =
        example_runnable ∧
      ((mcp25xxfd_can_tx_queue_manage_nolock example_runnable
          MCP25XXFD_CAN_TX_QUEUE_STATE_STOPPED).trace = example_runnable.trace ∨
        (mcp25xxfd_can_tx_queue_manage_nolock example_runnable
          MCP25XXFD_CAN_TX_QUEUE_STATE_STOPPED).trace = example_runnable.trace ++
          [Event.netdev_err_unsupported_state example_runnable.tx_queue.state]) ∧
      mcp25xxfd_can_tx_queue_manage_nolock
          { example_runnable with tx_queue :=
            { example_runnable.tx_queue with state := MCP25XXFD_CAN_TX_QUEUE_STATE_RUNABLE } }
          MCP25XXFD_CAN_TX_QUEUE_STATE_RESTART =
        { example_runnable with
          tx_queue := { example_runnable.tx_queue with
            state := MCP25XXFD_CAN_TX_QUEUE_STATE_STARTED }
          trace := example_runnable.trace ++ [Event.netif_wake_queue] }) :=
  ⟨by decide, C13_other_requests_noop example_runnable MCP25XXFD_CAN_TX_QUEUE_STATE_STOPPED
    (by decide) (by decide) (by decide)⟩

theorem restart_success_state (c : mcp25xxfd_can_priv)
    (h1 : c.tx_queue.idle = 0) (h2 : c.tx_queue.in_fill_fifo_transfer = 0)
    (h3 : c.tx_queue.in_trigger_fifo_transfer = 0) (h4 : c.tx_queue.in_can_transfer = 0) :
    mcp25xxfd_can_tx_queue_restart c =
      { c with
        tx_queue := { c.tx_queue with
          idle := c.tx_queue.idle ||| c.tx_queue.transferred
          transferred := 0
          state := flow_next c.tx_queue.state MCP25XXFD_CAN_TX_QUEUE_STATE_RESTART }
        trace := c.trace ++
          flow_events c.tx_queue.state MCP25XXFD_CAN_TX_QUEUE_STATE_RESTART } := by
  unfold mcp25xxfd_can_tx_queue_restart
  simp only [h1, h2, h3, h4, manage_nolock_eq]
  simp

/-- C11, as stated, fails: with every slot in transferred and the flow-control
state Stopped, restart merges the slots into idle but leaves the state Stopped
and does not wake the upstream transport. -/
theorem C11_counterexample :
    partition_invariant example_all_done_stopped ∧
    example_all_done_stopped.tx_queue.idle = 0 ∧
    example_all_done_stopped.tx_queue.in_fill_fifo_transfer = 0 ∧
    example_all_done_stopped.tx_queue.in_trigger_fifo_transfer = 0 ∧
    example_all_done_stopped.tx_queue.in_can_transfer = 0 ∧
    example_all_done_stopped.tx_queue.state = MCP25XXFD_CAN_TX_QUEUE_STATE_STOPPED ∧
    (mcp25xxfd_can_tx_queue_restart example_all_done_stopped).tx_queue.idle = 1 ∧
    (mcp25xxfd_can_tx_queue_restart example_all_done_stopped).tx_queue.state ≠
      MCP25XXFD_CAN_TX_QUEUE_STATE_STARTED ∧
    (mcp25xxfd_can_tx_queue_restart example_all_done_stopped).trace =
      example_all_done_stopped.trace := by
  decide

/-- C11, amended: in a state that satisfies the partition invariant and has idle,
in_fill_fifo_transfer, in_trigger_fifo_transfer and in_can_transfer empty,
restart makes idle the full slot set and transferred empty; the flow-control
state afterwards is Started when it was Runnable (the upstream transport is
woken once) or Started (nothing is signalled), and a Stopped state stays
Stopped without a wake. -/
theorem C11_restart_success (cpriv : mcp25xxfd_can_priv) (hpart : partition_invariant cpriv)
    (h1 : cpriv.tx_queue.idle = 0) (h2 : cpriv.tx_queue.in_fill_fifo_transfer = 0)
    (h3 : cpriv.tx_queue.in_trigger_fifo_transfer = 0)
    (h4 : cpriv.tx_queue.in_can_transfer = 0) :
    (mcp25xxfd_can_tx_queue_restart cpriv).tx_queue.idle =
      slot_set cpriv.tx_start cpriv.tx_count ∧
    (mcp25xxfd_can_tx_queue_restart cpriv).tx_queue.transferred = 0 ∧
    (cpriv.tx_queue.state = MCP25XXFD_CAN_TX_QUEUE_STATE_RUNABLE →
      (mcp25xxfd_can_tx_queue_restart cpriv).tx_queue.state =
        MCP25XXFD_CAN_TX_QUEUE_STATE_STARTED ∧
      (mcp25xxfd_can_tx_queue_restart cpriv).trace =
        cpriv.trace ++ [Event.netif_wake_queue]) ∧
    (cpriv.tx_queue.state = MCP25XXFD_CAN_TX_QUEUE_STATE_STARTED →
      (mcp25xxfd_can_tx_queue_restart cpriv).tx_queue.state =
        MCP25XXFD_CAN_TX_QUEUE_STATE_STARTED ∧
      (mcp25xxfd_can_tx_queue_restart cpriv).trace = cpriv.trace) ∧
    (cpriv.tx_queue.state = MCP25XXFD_CAN_TX_QUEUE_STATE_STOPPED →
      (mcp25xxfd_can_tx_queue_restart cpriv).tx_queue.state =
        MCP25XXFD_CAN_TX_QUEUE_STATE_STOPPED ∧
      (mcp25xxfd_can_tx_queue_restart cpriv).trace = cpriv.trace) := by
  have hunion := hpart.2
  rw [h1, h2, h3, h4] at hunion
  simp only [Nat.zero_or] at hunion
  rw [restart_success_state cpriv h1 h2 h3 h4]
  refine ⟨?_, rfl, ?_, ?_, ?_⟩
  · show cpriv.tx_queue.idle ||| cpriv.tx_queue.transferred = _
    rw [h1, Nat.zero_or]
    exact hunion
  · intro hs
    simp [hs, flow_next, flow_events]
  · intro hs
    simp [hs, flow_next, flow_events]
  · intro hs
    simp [hs, flow_next, flow_events]

/-- Instance of the amended C11 on the stopped single-slot queue. -/
theorem C11_restart_success_witness :
    (partition_invariant example_all_done_stopped ∧
      example_all_done_stopped.tx_queue.idle = 0 ∧
      example_all_done_stopped.tx_queue.in_fill_fifo_transfer = 0 ∧
      example_all_done_stopped.tx_queue.in_trigger_fifo_transfer = 0 ∧
      example_all_done_stopped.tx_queue.in_can_transfer = 0) ∧
    ((mcp25xxfd_can_tx_queue_restart example_all_done_stopped).tx_queue.idle =
        slot_set example_all_done_stopped.tx_start example_all_done_stopped.tx_count ∧
      (mcp25xxfd_can_tx_queue_restart example_all_done_stopped).tx_queue.transferred = 0 ∧
      (example_all_done_stopped.tx_queue.state = MCP25XXFD_CAN_TX_QUEUE_STATE_RUNABLE →
        (mcp25xxfd_can_tx_queue_restart example_all_done_stopped).tx_queue.state =
          MCP25XXFD_CAN_TX_QUEUE_STATE_STARTED ∧
        (mcp25xxfd_can_tx_queue_restart example_all_done_stopped).trace =
          example_all_done_stopped.trace ++ [Event.netif_wake_queue]) ∧
      (example_all_done_stopped.tx_queue.state = MCP25XXFD_CAN_TX_QUEUE_STATE_STARTED →
        (mcp25xxfd_can_tx_queue_restart example_all_done_stopped).tx_queue.state =
          MCP25XXFD_CAN_TX_QUEUE_STATE_STARTED ∧
        (mcp25xxfd_can_tx_queue_restart example_all_done_stopped).trace =
          example_all_done_stopped.trace) ∧
      (example_all_done_stopped.tx_queue.state = MCP25XXFD_CAN_TX_QUEUE_STATE_STOPPED →
        (mcp25xxfd_can_tx_queue_restart example_all_done_stopped).tx_queue.state =
          MCP25XXFD_CAN_TX_QUEUE_STATE_STOPPED ∧
        (mcp25xxfd_can_tx_queue_restart example_all_done_stopped).trace =
          example_all_done_stopped.trace)) :=
  ⟨by decide, C11_restart_success example_all_done_stopped (by decide) (by decide) (by decide)
    (by decide) (by decide)⟩

/-! ## Completion processor -/

theorem handle_int_tefif_eq (L : Layout) (fuel : Nat) (c : mcp25xxfd_can_priv) :
    mcp25xxfd_can_tx_handle_int_tefif L fuel c =
      if c.status_intf &&& L.CAN_INT_TEFIF = 0 then some (0, c)
      else if tefif_finished c ≠ 0 then
        some (mcp25xxfd_can_tx_handle_int_tefif_optimized L c (tefif_finished c))
      else mcp25xxfd_can_tx_handle_int_tefif_conservative L fuel
        (emit Event.netdev_warn_no_finished_fifo c) := rfl

theorem spi_next_reply_fst (c : mcp25xxfd_can_priv) :
    (spi_next_reply c).1 =
      { ret := spi_ret c.spi_replies 0, data := spi_data c.spi_replies 0 } := by
  unfold spi_next_reply spi_ret spi_data
  cases h : c.spi_replies <;> simp

theorem spi_data_tail (l : List spi_reply) (n : Nat) :
    spi_data l.tail n = spi_data l (n + 1) := by
  unfold spi_data
  cases l <;> simp

theorem cmd_read_regs_eq (addr len : Nat) (c : mcp25xxfd_can_priv) :
    mcp25xxfd_cmd_read_regs addr len c =
      ({ ret := spi_ret c.spi_replies 0, data := spi_data c.spi_replies 0 },
        { c with spi_replies := c.spi_replies.tail
                 trace := c.trace ++
                   [Event.cmd_read_regs addr len (spi_ret c.spi_replies 0)] }) := by
  unfold mcp25xxfd_cmd_read_regs
  simp only [emit, spi_next_reply_state, spi_next_reply_fst]

theorem cmd_write_mask_eq (reg val mask : Nat) (c : mcp25xxfd_can_priv) :
    mcp25xxfd_cmd_write_mask reg val mask c =
      (spi_ret c.spi_replies 0,
        { c with spi_replies := c.spi_replies.tail
                 trace := c.trace ++
                   [Event.cmd_write_mask reg val mask (spi_ret c.spi_replies 0)] }) := by
  unfold mcp25xxfd_cmd_write_mask
  simp only [emit, spi_next_reply_state, spi_next_reply_fst]

theorem cmd_read_mask_eq (reg mask : Nat) (c : mcp25xxfd_can_priv) :
    mcp25xxfd_cmd_read_mask reg mask c =
      ((spi_ret c.spi_replies 0, ((spi_data c.spi_replies 0).getD 0 0 % 2 ^ 32) &&& mask),
        { c with spi_replies := c.spi_replies.tail
                 trace := c.trace ++
                   [Event.cmd_read_mask reg mask (spi_ret c.spi_replies 0)] }) := by
  unfold mcp25xxfd_cmd_read_mask
  simp only [emit, spi_next_reply_state, spi_next_reply_fst]

/-- A failed record read returns the error of the bus and touches nothing but
the bus script and the trace. -/
theorem tefif_fifo_read_failed (L : Layout) (c : mcp25xxfd_can_priv)
    (h : spi_ret c.spi_replies 0 ≠ 0) :
    mcp25xxfd_can_tx_handle_int_tefif_fifo L c =
      (spi_ret c.spi_replies 0,
        { c with spi_replies := c.spi_replies.tail
                 trace := c.trace ++ [Event.cmd_read_regs (L.SRAM_ADDR (tef_offset c))
                   sizeof_can_obj_tef (spi_ret c.spi_replies 0)] }) := by
  unfold mcp25xxfd_can_tx_handle_int_tefif_fifo
  simp only [cmd_read_regs_eq]
  simp [h, tef_offset]

/-- A successful record read returns the code of the acknowledge write and
leaves the state described by tefif_fifo_done. -/
theorem tefif_fifo_ok (L : Layout) (c : mcp25xxfd_can_priv)
    (h : spi_ret c.spi_replies 0 = 0) :
    mcp25xxfd_can_tx_handle_int_tefif_fifo L c =
      (spi_ret c.spi_replies 1, tefif_fifo_done L c) := by
  unfold mcp25xxfd_can_tx_handle_int_tefif_fifo tefif_fifo_done tefif_fifo_events
  simp only [cmd_read_regs_eq, cmd_write_mask_eq, mcp25xxfd_can_queue_frame, emit]
  by_cases hm : c.tx_queue.in_can_transfer &&& BIT (tef_fifo L (spi_data c.spi_replies 0)) = 0
  · simp only [tef_fifo, tef_record] at hm
    simp only [h, ne_eq, not_true_eq_false, if_false, tef_fifo, tef_record]
    rw [if_pos hm, if_pos hm]
    by_cases hw : c.tef_count ≤ (c.tef_index + 1) % 4294967296 <;>
      simp [tef_offset, tef_advance, spi_ret_tail, hw]
  · simp only [tef_fifo, tef_record] at hm
    simp only [h, ne_eq, not_true_eq_false, if_false, tef_fifo, tef_record]
    rw [if_neg hm, if_neg hm]
    by_cases hw : c.tef_count ≤ (c.tef_index + 1) % 4294967296 <;>
      simp [tef_offset, tef_advance, spi_ret_tail, hw]

theorem tef_advance_mod {count index : Nat} (hi : index < count) (hc : count < 2 ^ 32) :
    tef_advance count index = (index + 1) % count := by
  unfold tef_advance
  have h1 : (index + 1) % 2 ^ 32 = index + 1 := Nat.mod_eq_of_lt (by omega)
  rw [h1]
  by_cases h : index + 1 ≥ count
  · have h2 : index + 1 = count := by omega
    rw [if_pos h, h2, Nat.mod_self]
  · rw [if_neg h, Nat.mod_eq_of_lt (by omega)]

theorem ffs_slot_set (shift w : Nat) (hw : 0 < w) (hfit : shift + w ≤ 32) :
    ffs (slot_set shift w) = shift + 1 := by
  have hbit : (slot_set shift w).testBit shift = true := by
    rw [testBit_slot_set]; simp; omega
  have hne : slot_set shift w % 2 ^ 32 ≠ 0 := by
    intro h0
    have := (eq_zero_iff_testBit _).1 h0 shift
    rw [Nat.testBit_mod_two_pow, hbit] at this
    have hs : shift < 32 := by omega
    simp [hs] at this
  obtain ⟨r, hr, _, hrb, hall⟩ := ffs_spec (slot_set shift w) hne
  rw [testBit_slot_set] at hrb
  have hrb2 : shift ≤ r ∧ r < shift + w := by simpa using hrb
  have : ¬ shift < r := by
    intro hlt
    have := hall shift hlt
    rw [hbit] at this
    exact absurd this (by decide)
  rw [hr]
  omega

/-- The slot index stored at the shift of a contiguous field is what FIELD_GET
reads back, when the index fits and the field was clear before. -/
theorem FIELD_GET_seq (shift w flags k : Nat) (hfit : shift + w ≤ 32) (hk : k < 2 ^ w)
    (hclear : flags &&& slot_set shift w = 0) :
    FIELD_GET (slot_set shift w) ((flags ||| (k <<< shift) % 2 ^ 32) % 2 ^ 32) = k := by
  by_cases hw : w = 0
  · subst hw
    have hk0 : k = 0 := by simpa using hk
    subst hk0
    unfold FIELD_GET slot_set
    simp
  · have hw2 : 0 < w := Nat.pos_of_ne_zero hw
    unfold FIELD_GET
    rw [ffs_slot_set shift w hw2 hfit, Nat.add_sub_cancel]
    apply Nat.eq_of_testBit_eq
    intro j
    rw [Nat.testBit_shiftRight, Nat.testBit_and, testBit_slot_set, Nat.testBit_mod_two_pow,
      Nat.testBit_or, Nat.testBit_mod_two_pow, Nat.testBit_shiftLeft]
    by_cases hj : j < w
    · have h32 : shift + j < 32 := by omega
      have hf : flags.testBit (shift + j) = false := by
        have := (eq_zero_iff_testBit _).1 hclear (shift + j)
        rw [Nat.testBit_and, testBit_slot_set] at this
        have hd : decide (shift ≤ shift + j ∧ shift + j < shift + w) = true := by
          simp; omega
        rw [hd] at this
        simpa using this
      have e : shift + j - shift = j := by omega
      simp [hj, h32, hf, e]
    · have hkj : k.testBit j = false := by
        cases hb : k.testBit j
        · rfl
        · exact absurd (testBit_lt_of_lt_two_pow hk hb) hj
      simp [hj, hkj]

/-- C19: with the read cursor at an index i below the record count c (both
32-bit values whose byte offset does not overflow), one successful event read
fetches the record at device-memory offset i * record_size and leaves the cursor
at (i + 1) mod c, which is again below c. -/
theorem C19_read_cursor_wraparound (L : Layout) (cpriv : mcp25xxfd_can_priv)
    (hi : cpriv.tef_index < cpriv.tef_count) (hc : cpriv.tef_count < 2 ^ 32)
    (hoff : cpriv.tef_index * cpriv.tef_size < 2 ^ 32)
    (hread : spi_ret cpriv.spi_replies 0 = 0) :
    (mcp25xxfd_can_tx_handle_int_tefif_fifo L cpriv).2.tef_index =
        (cpriv.tef_index + 1) % cpriv.tef_count ∧
    (mcp25xxfd_can_tx_handle_int_tefif_fifo L cpriv).2.tef_index < cpriv.tef_count ∧
    (mcp25xxfd_can_tx_handle_int_tefif_fifo L cpriv).2.tef_count = cpriv.tef_count ∧
    (∃ rest, (mcp25xxfd_can_tx_handle_int_tefif_fifo L cpriv).2.trace =
      cpriv.trace ++
        Event.cmd_read_regs (L.SRAM_ADDR (cpriv.tef_index * cpriv.tef_size))
          sizeof_can_obj_tef 0 :: rest) ∧
    (mcp25xxfd_can_tx_handle_int_tefif_fifo L cpriv).2.sram_tef =
      slot_map_put cpriv.sram_tef (cpriv.tef_index * cpriv.tef_size)
        (tef_record (spi_data cpriv.spi_replies 0)) := by
  have ho : tef_offset cpriv = cpriv.tef_index * cpriv.tef_size := Nat.mod_eq_of_lt hoff
  rw [tefif_fifo_ok L cpriv hread]
  refine ⟨tef_advance_mod hi hc, ?_, rfl, ?_, ?_⟩
  · show tef_advance cpriv.tef_count cpriv.tef_index < cpriv.tef_count
    rw [tef_advance_mod hi hc]
    exact Nat.mod_lt _ (by omega)
  · refine ⟨(tefif_fifo_events L cpriv).tail, ?_⟩
    show cpriv.trace ++ tefif_fifo_events L cpriv = _
    unfold tefif_fifo_events
    rw [ho]
    simp
  · show slot_map_put cpriv.sram_tef (tef_offset cpriv) _ = _
    rw [ho]

/-- The cursor of a two-record area wraps from index 1 to index 0. -/
theorem C19_read_cursor_wraparound_witness :
    (mcp25xxfd_can_tx_handle_int_tefif_fifo example_layout (example_event_record 1 1)).2.tef_index
        = (1 + 1) % 2 ∧
    (mcp25xxfd_can_tx_handle_int_tefif_fifo example_layout (example_event_record 1 1)).2.tef_index
        < 2 :=
  ⟨(C19_read_cursor_wraparound example_layout (example_event_record 1 1)
      (by decide) (by decide) (by decide) (by decide)).1,
    (C19_read_cursor_wraparound example_layout (example_event_record 1 1)
      (by decide) (by decide) (by decide) (by decide)).2.1⟩

/-- C18: an event record whose sequence field names a slot that is not in
in_can_transfer is treated like any other: the slot is handed to the release
path, the read cursor advances by one record, the record is acknowledged to the
device, and the return value is the result of the acknowledge write, so 0 when
the bus succeeds; the slot sets are not touched by the handler itself.  Between
the record read and the hand-over the mismatch is logged when the test of line
246, in_can_transfer & BIT(slot), finds no bit, which it does for every such
slot below 64 (BIT shifts by the slot modulo 64). -/
theorem C18_tracking_mismatch_nonfatal (L : Layout) (cpriv : mcp25xxfd_can_priv)
    (hread : spi_ret cpriv.spi_replies 0 = 0)
    (hmis : cpriv.tx_queue.in_can_transfer.testBit
      (FIELD_GET L.CAN_OBJ_FLAGS_SEQ_MASK (tef_record (spi_data cpriv.spi_replies 0)).flags)
        = false) :
    (mcp25xxfd_can_tx_handle_int_tefif_fifo L cpriv).1 = spi_ret cpriv.spi_replies 1 ∧
    (spi_ret cpriv.spi_replies 1 = 0 →
      (mcp25xxfd_can_tx_handle_int_tefif_fifo L cpriv).1 = 0) ∧
    (mcp25xxfd_can_tx_handle_int_tefif_fifo L cpriv).2.queued_frames =
      cpriv.queued_frames ++
        [(FIELD_GET L.CAN_OBJ_FLAGS_SEQ_MASK (tef_record (spi_data cpriv.spi_replies 0)).flags,
          (tef_record (spi_data cpriv.spi_replies 0)).ts, false)] ∧
    (mcp25xxfd_can_tx_handle_int_tefif_fifo L cpriv).2.tef_index =
      (if (cpriv.tef_index + 1) % 2 ^ 32 ≥ cpriv.tef_count then 0
       else (cpriv.tef_index + 1) % 2 ^ 32) ∧
    (mcp25xxfd_can_tx_handle_int_tefif_fifo L cpriv).2.trace =
      cpriv.trace ++
        ([Event.cmd_read_regs (L.SRAM_ADDR ((cpriv.tef_index * cpriv.tef_size) % 2 ^ 32))
            sizeof_can_obj_tef 0] ++
          (if cpriv.tx_queue.in_can_transfer &&&
              BIT (FIELD_GET L.CAN_OBJ_FLAGS_SEQ_MASK
                (tef_record (spi_data cpriv.spi_replies 0)).flags) = 0 then
            [Event.netdev_err_tef_not_pending
              (FIELD_GET L.CAN_OBJ_FLAGS_SEQ_MASK
                (tef_record (spi_data cpriv.spi_replies 0)).flags)
              (tef_record (spi_data cpriv.spi_replies 0)).id
              (tef_record (spi_data cpriv.spi_replies 0)).flags
              (tef_record (spi_data cpriv.spi_replies 0)).ts]
           else []) ++
          [Event.can_queue_frame
            (FIELD_GET L.CAN_OBJ_FLAGS_SEQ_MASK (tef_record (spi_data cpriv.spi_replies 0)).flags)
            (tef_record (spi_data cpriv.spi_replies 0)).ts false,
          Event.cmd_write_mask L.CAN_TEFCON L.CAN_TEFCON_UINC L.CAN_TEFCON_UINC
            (spi_ret cpriv.spi_replies 1)]) ∧
    (FIELD_GET L.CAN_OBJ_FLAGS_SEQ_MASK (tef_record (spi_data cpriv.spi_replies 0)).flags < 64 →
      cpriv.tx_queue.in_can_transfer &&&
        BIT (FIELD_GET L.CAN_OBJ_FLAGS_SEQ_MASK
          (tef_record (spi_data cpriv.spi_replies 0)).flags) = 0) ∧
    (mcp25xxfd_can_tx_handle_int_tefif_fifo L cpriv).2.tx_queue = cpriv.tx_queue := by
  rw [tefif_fifo_ok L cpriv hread]
  refine ⟨rfl, fun h => h, rfl, rfl, rfl, ?_, rfl⟩
  intro h64
  rw [eq_zero_iff_testBit]
  intro j
  rw [Nat.testBit_and, testBit_BIT, Nat.mod_eq_of_lt h64]
  by_cases hj : FIELD_GET L.CAN_OBJ_FLAGS_SEQ_MASK
      (tef_record (spi_data cpriv.spi_replies 0)).flags = j
  · rw [← hj, hmis]
    rfl
  · simp [hj]

/-- A record naming slot 3 of a two-slot queue is logged, acknowledged with
return value 0 and handed to the release path; a record naming slot 65 is
handed over as well, and is not logged because slot 1 is in in_can_transfer. -/
theorem C18_tracking_mismatch_nonfatal_witness :
    (mcp25xxfd_can_tx_handle_int_tefif_fifo example_layout (example_event_record 3 0)).1 = 0 ∧
    (mcp25xxfd_can_tx_handle_int_tefif_fifo example_layout
      (example_event_record 3 0)).2.queued_frames = [(3, 77, false)] ∧
    (mcp25xxfd_can_tx_handle_int_tefif_fifo example_layout
      (example_event_record 3 0)).2.tef_index = 1 ∧
    (example_event_record 3 0).tx_queue.in_can_transfer &&& BIT 3 = 0 ∧
    (mcp25xxfd_can_tx_handle_int_tefif_fifo example_layout
      (example_event_record 65 0)).2.queued_frames = [(65, 77, false)] ∧
    (mcp25xxfd_can_tx_handle_int_tefif_fifo example_layout
      (example_event_record 65 0)).2.trace =
      (example_event_record 65 0).trace ++
        [Event.cmd_read_regs 1024 12 0, Event.can_queue_frame 65 77 false,
          Event.cmd_write_mask 64 256 256 0] :=
  have h := C18_tracking_mismatch_nonfatal example_layout (example_event_record 3 0)
    (by decide) (by decide)
  have h2 := C18_tracking_mismatch_nonfatal example_layout (example_event_record 65 0)
    (by decide) (by decide)
  ⟨h.2.1 (by decide), h.2.2.1, h.2.2.2.1, h.2.2.2.2.2.1 (by decide),
    h2.2.2.1.trans (by decide), h2.2.2.2.2.1.trans (by decide)⟩

/-- C14: a slot index k that fits the sequence field is read back by
FIELD_GET(SEQ_MASK, flags) from the flags written by
mcp25xxfd_can_tx_fill_fifo_common when the sequence bits were clear before;
and one event record reporting sequence k, once its queued frame is delivered
to mcp25xxfd_can_tx_submit_frame, leaves slot k out of in_can_transfer and in
transferred, every other slot where it was, one more packet counted (tx_packets
is an unsigned long: the new value is the old one plus 1 modulo 2^64), and the
read cursor one record further (with wraparound), after exactly one record
read and one acknowledge. -/
theorem C14_completion_correlation (L : Layout) (w k dlc : Nat)
    (smsg : mcp25xxfd_tx_spi_message) (tx : mcp25xxfd_can_obj_tx) (data : List Nat)
    (cpriv : mcp25xxfd_can_priv)
    (hmask : L.CAN_OBJ_FLAGS_SEQ_MASK = slot_set L.CAN_OBJ_FLAGS_SEQ_SHIFT w)
    (hfit : L.CAN_OBJ_FLAGS_SEQ_SHIFT + w ≤ 32)
    (hk : k < 2 ^ w) (hk32 : k < 32)
    (hfifo : smsg.fifo = k)
    (hclear : tx.flags &&& L.CAN_OBJ_FLAGS_SEQ_MASK = 0)
    (hread : spi_ret cpriv.spi_replies 0 = 0)
    (hseq : FIELD_GET L.CAN_OBJ_FLAGS_SEQ_MASK
      (tef_record (spi_data cpriv.spi_replies 0)).flags = k)
    (hin : cpriv.tx_queue.in_can_transfer.testBit k = true)
    (hcan : cpriv.tx_queue.in_can_transfer < 2 ^ 32)
    (htr : cpriv.tx_queue.transferred < 2 ^ 32)
    (hi : cpriv.tef_index < cpriv.tef_count) (hc : cpriv.tef_count < 2 ^ 32) :
    FIELD_GET L.CAN_OBJ_FLAGS_SEQ_MASK
      (mcp25xxfd_can_tx_fill_fifo_common L smsg tx dlc data).2.flags = k ∧
    (mcp25xxfd_can_tx_handle_int_tefif_fifo L cpriv).2.queued_frames =
      cpriv.queued_frames ++ [(k, (tef_record (spi_data cpriv.spi_replies 0)).ts, false)] ∧
    (mcp25xxfd_can_tx_handle_int_tefif_fifo L cpriv).2.trace =
      cpriv.trace ++
        [Event.cmd_read_regs (L.SRAM_ADDR ((cpriv.tef_index * cpriv.tef_size) % 2 ^ 32))
            sizeof_can_obj_tef 0,
          Event.can_queue_frame k (tef_record (spi_data cpriv.spi_replies 0)).ts false,
          Event.cmd_write_mask L.CAN_TEFCON L.CAN_TEFCON_UINC L.CAN_TEFCON_UINC
            (spi_ret cpriv.spi_replies 1)] ∧
    (mcp25xxfd_can_tx_submit_frame L
      (mcp25xxfd_can_tx_handle_int_tefif_fifo L cpriv).2 k).1 = 0 ∧
    (mcp25xxfd_can_tx_submit_frame L
      (mcp25xxfd_can_tx_handle_int_tefif_fifo L cpriv).2 k).2.tx_queue.in_can_transfer.testBit k
        = false ∧
    (mcp25xxfd_can_tx_submit_frame L
      (mcp25xxfd_can_tx_handle_int_tefif_fifo L cpriv).2 k).2.tx_queue.transferred.testBit k
        = true ∧
    (∀ j, j ≠ k →
      (mcp25xxfd_can_tx_submit_frame L
        (mcp25xxfd_can_tx_handle_int_tefif_fifo L cpriv).2 k).2.tx_queue.in_can_transfer.testBit j
          = cpriv.tx_queue.in_can_transfer.testBit j ∧
      (mcp25xxfd_can_tx_submit_frame L
        (mcp25xxfd_can_tx_handle_int_tefif_fifo L cpriv).2 k).2.tx_queue.transferred.testBit j
          = cpriv.tx_queue.transferred.testBit j) ∧
    (mcp25xxfd_can_tx_submit_frame L
      (mcp25xxfd_can_tx_handle_int_tefif_fifo L cpriv).2 k).2.tx_queue.idle
        = cpriv.tx_queue.idle ∧
    (mcp25xxfd_can_tx_submit_frame L
      (mcp25xxfd_can_tx_handle_int_tefif_fifo L cpriv).2 k).2.tx_queue.in_fill_fifo_transfer
        = cpriv.tx_queue.in_fill_fifo_transfer ∧
    (mcp25xxfd_can_tx_submit_frame L
      (mcp25xxfd_can_tx_handle_int_tefif_fifo L cpriv).2 k).2.tx_queue.in_trigger_fifo_transfer
        = cpriv.tx_queue.in_trigger_fifo_transfer ∧
    (mcp25xxfd_can_tx_submit_frame L
      (mcp25xxfd_can_tx_handle_int_tefif_fifo L cpriv).2 k).2.stats_tx_packets
        = (cpriv.stats_tx_packets + 1) % 2 ^ 64 ∧
    (mcp25xxfd_can_tx_submit_frame L
      (mcp25xxfd_can_tx_handle_int_tefif_fifo L cpriv).2 k).2.tef_index
        = (cpriv.tef_index + 1) % cpriv.tef_count := by
  have hbits := move_spi_message_bits cpriv.tx_queue.in_can_transfer
    cpriv.tx_queue.transferred k hcan htr hk32
  have hnm : ¬ cpriv.tx_queue.in_can_transfer &&&
      BIT (tef_fifo L (spi_data cpriv.spi_replies 0)) = 0 := by
    intro h0
    have hb := (eq_zero_iff_testBit _).1 h0 k
    have hk64 : k < 64 := by omega
    have hs : tef_fifo L (spi_data cpriv.spi_replies 0) = k := hseq
    rw [Nat.testBit_and, testBit_BIT, hin, hs] at hb
    simp [hk64] at hb
  have hs : tef_fifo L (spi_data cpriv.spi_replies 0) = k := hseq
  rw [tefif_fifo_ok L cpriv hread]
  refine ⟨?_, ?_, ?_, rfl, hbits.1, hbits.2.1, hbits.2.2, rfl, rfl, rfl, rfl,
    tef_advance_mod hi hc⟩
  · show FIELD_GET L.CAN_OBJ_FLAGS_SEQ_MASK
      ((tx.flags ||| (smsg.fifo <<< L.CAN_OBJ_FLAGS_SEQ_SHIFT) % 2 ^ 32) % 2 ^ 32) = k
    rw [hmask] at hclear ⊢
    rw [hfifo]
    exact FIELD_GET_seq _ w tx.flags k hfit hk hclear
  · show cpriv.queued_frames ++ [(tef_fifo L (spi_data cpriv.spi_replies 0), _, false)] = _
    rw [hs]
  · show cpriv.trace ++ tefif_fifo_events L cpriv = _
    unfold tefif_fifo_events
    rw [if_neg hnm, hs]
    unfold tef_offset
    simp

/-- Slot 1 of the two-slot example: its flags carry sequence 1, and the event
record with sequence 1 releases slot 1 only. -/
theorem C14_completion_correlation_witness :
    FIELD_GET example_layout.CAN_OBJ_FLAGS_SEQ_MASK
      (mcp25xxfd_can_tx_fill_fifo_common example_layout
        (msg_at (example_event_record 1 0).tx_queue 1) { id := 6, flags := 1, data := [] }
        1 [4]).2.flags = 1 ∧
    (mcp25xxfd_can_tx_submit_frame example_layout
      (mcp25xxfd_can_tx_handle_int_tefif_fifo example_layout
        (example_event_record 1 0)).2 1).2.tx_queue.in_can_transfer.testBit 1 = false ∧
    (mcp25xxfd_can_tx_submit_frame example_layout
      (mcp25xxfd_can_tx_handle_int_tefif_fifo example_layout
        (example_event_record 1 0)).2 1).2.tx_queue.transferred.testBit 1 = true :=
  have h := C14_completion_correlation example_layout 7 1 1
    (msg_at (example_event_record 1 0).tx_queue 1) { id := 6, flags := 1, data := [] } [4]
    (example_event_record 1 0)
    (by decide) (by decide) (by decide) (by decide) (by decide) (by decide) (by decide)
    (by decide) (by decide) (by decide) (by decide) (by decide) (by decide)
  ⟨h.1, h.2.2.2.2.1, h.2.2.2.2.2.1⟩

theorem spi_ret_all_ok (l : List spi_reply) (h : ∀ r ∈ l, r.ret = 0) (n : Nat) :
    spi_ret l n = 0 := by
  unfold spi_ret
  rw [List.getD_eq_getElem?_getD]
  cases hn : l[n]? with
  | none => rfl
  | some r => exact h r (List.getElem?_mem hn)

theorem conservative_eq (L : Layout) (fuel : Nat) (c : mcp25xxfd_can_priv) :
    mcp25xxfd_can_tx_handle_int_tefif_conservative L fuel c =
      if spi_ret c.spi_replies 0 ≠ 0 then
        some (spi_ret c.spi_replies 0,
          { c with spi_replies := c.spi_replies.tail
                   trace := c.trace ++ [Event.cmd_read_mask L.CAN_TEFSTA L.CAN_TEFSTA_TEFNEIF
                     (spi_ret c.spi_replies 0)] })
      else
        tefif_conservative_loop L fuel
          (((spi_data c.spi_replies 0).getD 0 0 % 2 ^ 32) &&& L.CAN_TEFSTA_TEFNEIF)
          { c with spi_replies := c.spi_replies.tail
                   trace := c.trace ++ [Event.cmd_read_mask L.CAN_TEFSTA L.CAN_TEFSTA_TEFNEIF
                     (spi_ret c.spi_replies 0)] } := by
  unfold mcp25xxfd_can_tx_handle_int_tefif_conservative
  simp only [cmd_read_mask_eq]

theorem conservative_loop_succ (L : Layout) (fuel tefsta : Nat) (c : mcp25xxfd_can_priv) :
    tefif_conservative_loop L (fuel + 1) tefsta c =
      if tefsta &&& L.CAN_TEFSTA_TEFNEIF = 0 then some (0, c)
      else if (mcp25xxfd_can_tx_handle_int_tefif_fifo L c).1 ≠ 0 then
        some (mcp25xxfd_can_tx_handle_int_tefif_fifo L c)
      else mcp25xxfd_can_tx_handle_int_tefif_conservative L fuel
        (mcp25xxfd_can_tx_handle_int_tefif_fifo L c).2 := rfl

/-- With every bus operation succeeding and more fuel than replies left in the
script, the conservative strategy returns, and returns 0. -/
theorem conservative_terminates (L : Layout) : ∀ (fuel : Nat) (c : mcp25xxfd_can_priv),
    (∀ r ∈ c.spi_replies, r.ret = 0) → c.spi_replies.length < fuel →
    ∃ c2, mcp25xxfd_can_tx_handle_int_tefif_conservative L fuel c = some (0, c2) := by
  intro fuel
  induction fuel with
  | zero => intro c _ hlen; omega
  | succ fuel ih =>
    intro c hok hlen
    rw [conservative_eq, if_neg (not_not.mpr (spi_ret_all_ok _ hok 0)), conservative_loop_succ]
    by_cases hclear : ((spi_data c.spi_replies 0).getD 0 0 % 2 ^ 32) &&& L.CAN_TEFSTA_TEFNEIF &&&
        L.CAN_TEFSTA_TEFNEIF = 0
    · rw [if_pos hclear]
      exact ⟨_, rfl⟩
    · rw [if_neg hclear]
      have hne : c.spi_replies ≠ [] := by
        intro hnil
        apply hclear
        rw [hnil]
        simp [spi_data]
      have hoktail : ∀ r ∈ c.spi_replies.tail, r.ret = 0 :=
        fun r hr => hok r (List.mem_of_mem_tail hr)
      have hread : spi_ret c.spi_replies.tail 0 = 0 := spi_ret_all_ok _ hoktail 0
      have hack : spi_ret c.spi_replies.tail 1 = 0 := spi_ret_all_ok _ hoktail 1
      rw [tefif_fifo_ok L _ hread]
      dsimp only
      rw [if_neg (not_not.mpr hack)]
      apply ih
      · intro r hr
        exact hok r (List.mem_of_mem_tail (List.mem_of_mem_tail (List.mem_of_mem_tail hr)))
      · show c.spi_replies.tail.tail.tail.length < fuel
        have hpos : 0 < c.spi_replies.length := List.length_pos.2 hne
        simp only [List.length_tail]
        omega

theorem tefif_fifo_no_fallback (L : Layout) (c : mcp25xxfd_can_priv) :
    ∃ t, (mcp25xxfd_can_tx_handle_int_tefif_fifo L c).2.trace = c.trace ++ t ∧
      ∀ e ∈ t, Event.is_fallback e = false := by
  by_cases h : spi_ret c.spi_replies 0 = 0
  · rw [tefif_fifo_ok L c h]
    refine ⟨tefif_fifo_events L c, rfl, ?_⟩
    have hall : (tefif_fifo_events L c).all (fun e => !Event.is_fallback e) = true := by
      unfold tefif_fifo_events
      split <;> rfl
    intro e he
    have := List.all_eq_true.1 hall e he
    simpa using this
  · rw [tefif_fifo_read_failed L c h]
    refine ⟨_, rfl, ?_⟩
    intro e he
    simp at he
    subst he
    rfl

theorem tefif_fifo_trace_prefix (L : Layout) (c : mcp25xxfd_can_priv) :
    c.trace <+: (mcp25xxfd_can_tx_handle_int_tefif_fifo L c).2.trace := by
  obtain ⟨t, ht, _⟩ := tefif_fifo_no_fallback L c
  rw [ht]
  exact List.prefix_append _ _

/-- The trace only grows while the conservative loop runs. -/
theorem conservative_loop_trace (L : Layout) : ∀ (fuel tefsta : Nat) (c : mcp25xxfd_can_priv)
    (r : Int × mcp25xxfd_can_priv), tefif_conservative_loop L fuel tefsta c = some r →
    c.trace <+: r.2.trace := by
  intro fuel
  induction fuel with
  | zero =>
    intro tefsta c r h
    exact absurd h (by simp [tefif_conservative_loop])
  | succ fuel ih =>
    intro tefsta c r h
    rw [conservative_loop_succ] at h
    by_cases hc : tefsta &&& L.CAN_TEFSTA_TEFNEIF = 0
    · rw [if_pos hc] at h
      rw [← Option.some.inj h]
    · rw [if_neg hc] at h
      have h1 := tefif_fifo_trace_prefix L c
      by_cases hr : (mcp25xxfd_can_tx_handle_int_tefif_fifo L c).1 ≠ 0
      · rw [if_pos hr] at h
        rw [← Option.some.inj h]
        exact h1
      · rw [if_neg hr, conservative_eq] at h
        by_cases hp : spi_ret (mcp25xxfd_can_tx_handle_int_tefif_fifo L c).2.spi_replies 0 ≠ 0
        · rw [if_pos hp] at h
          rw [← Option.some.inj h]
          exact h1.trans (List.prefix_append _ _)
        · rw [if_neg hp] at h
          exact (h1.trans (List.prefix_append _ _)).trans (ih _ _ r h)

/-- The first actions of the fallback are the warning and the poll of the
event-available flag. -/
theorem conservative_trace_head (L : Layout) (fuel : Nat) (c : mcp25xxfd_can_priv)
    (r : Int × mcp25xxfd_can_priv)
    (h : mcp25xxfd_can_tx_handle_int_tefif_conservative L fuel
      (emit Event.netdev_warn_no_finished_fifo c) = some r) :
    ∃ t, r.2.trace = c.trace ++ Event.netdev_warn_no_finished_fifo ::
      Event.cmd_read_mask L.CAN_TEFSTA L.CAN_TEFSTA_TEFNEIF (spi_ret c.spi_replies 0) :: t := by
  have hpre : (c.trace ++ [Event.netdev_warn_no_finished_fifo]) ++
      [Event.cmd_read_mask L.CAN_TEFSTA L.CAN_TEFSTA_TEFNEIF (spi_ret c.spi_replies 0)]
        <+: r.2.trace := by
    rw [conservative_eq] at h
    by_cases hp : spi_ret (emit Event.netdev_warn_no_finished_fifo c).spi_replies 0 ≠ 0
    · rw [if_pos hp] at h
      rw [← Option.some.inj h]
      exact List.prefix_refl _
    · rw [if_neg hp] at h
      exact conservative_loop_trace L _ _ _ r h
  obtain ⟨t, ht⟩ := hpre
  refine ⟨t, ?_⟩
  rw [← ht]
  simp

theorem optimized_loop_succ (L : Layout) (finished n fifo : Nat) (c : mcp25xxfd_can_priv) :
    tefif_optimized_loop L finished (n + 1) fifo c =
      if finished &&& BIT fifo ≠ 0 then
        if (mcp25xxfd_can_tx_handle_int_tefif_fifo L c).1 ≠ 0 then
          mcp25xxfd_can_tx_handle_int_tefif_fifo L c
        else tefif_optimized_loop L finished n (fifo + 1)
          (mcp25xxfd_can_tx_handle_int_tefif_fifo L c).2
      else tefif_optimized_loop L finished n (fifo + 1) c := rfl

/-- The optimized strategy never warns and never polls the event-available flag. -/
theorem optimized_loop_no_fallback (L : Layout) (finished : Nat) :
    ∀ (n fifo : Nat) (c : mcp25xxfd_can_priv),
      ∃ t, (tefif_optimized_loop L finished n fifo c).2.trace = c.trace ++ t ∧
        ∀ e ∈ t, Event.is_fallback e = false := by
  intro n
  induction n with
  | zero =>
    intro fifo c
    exact ⟨[], (List.append_nil _).symm, fun e he => absurd he (List.not_mem_nil e)⟩
  | succ n ih =>
    intro fifo c
    rw [optimized_loop_succ]
    obtain ⟨t1, ht1, hf1⟩ := tefif_fifo_no_fallback L c
    by_cases hb : finished &&& BIT fifo ≠ 0
    · rw [if_pos hb]
      by_cases hr : (mcp25xxfd_can_tx_handle_int_tefif_fifo L c).1 ≠ 0
      · rw [if_pos hr]
        exact ⟨t1, ht1, hf1⟩
      · rw [if_neg hr]
        obtain ⟨t2, ht2, hf2⟩ := ih (fifo + 1) (mcp25xxfd_can_tx_handle_int_tefif_fifo L c).2
        refine ⟨t1 ++ t2, ?_, ?_⟩
        · rw [ht2, ht1, List.append_assoc]
        · intro e he
          rcases List.mem_append.1 he with h | h
          · exact hf1 e h
          · exact hf2 e h
    · rw [if_neg hb]
      exact ih (fifo + 1) c

/-- C16: with the transmit-event interrupt bit asserted, an empty finished set
makes mcp25xxfd_can_tx_handle_int_tefif log one warning and run the
conservative strategy, whose first action is a poll of the event-available
flag; a non-empty finished set makes it run the optimized strategy, which
neither warns nor polls.  An empty finished set is not an error by itself: when
every bus operation succeeds (and the fuel exceeds the number of scripted
replies) the handler returns 0. -/
theorem C16_strategy_selection (L : Layout) (fuel : Nat) (cpriv : mcp25xxfd_can_priv)
    (hint : cpriv.status_intf &&& L.CAN_INT_TEFIF ≠ 0) :
    (tefif_finished cpriv = 0 →
      mcp25xxfd_can_tx_handle_int_tefif L fuel cpriv =
        mcp25xxfd_can_tx_handle_int_tefif_conservative L fuel
          (emit Event.netdev_warn_no_finished_fifo cpriv)) ∧
    (tefif_finished cpriv = 0 → ∀ r, mcp25xxfd_can_tx_handle_int_tefif L fuel cpriv = some r →
      ∃ t, r.2.trace = cpriv.trace ++ Event.netdev_warn_no_finished_fifo ::
        Event.cmd_read_mask L.CAN_TEFSTA L.CAN_TEFSTA_TEFNEIF (spi_ret cpriv.spi_replies 0)
          :: t) ∧
    (tefif_finished cpriv = 0 → (∀ r ∈ cpriv.spi_replies, r.ret = 0) →
      cpriv.spi_replies.length < fuel →
      ∃ c2, mcp25xxfd_can_tx_handle_int_tefif L fuel cpriv = some (0, c2)) ∧
    (tefif_finished cpriv ≠ 0 →
      mcp25xxfd_can_tx_handle_int_tefif L fuel cpriv =
        some (mcp25xxfd_can_tx_handle_int_tefif_optimized L cpriv (tefif_finished cpriv))) ∧
    (tefif_finished cpriv ≠ 0 → ∀ r, mcp25xxfd_can_tx_handle_int_tefif L fuel cpriv = some r →
      ∃ t, r.2.trace = cpriv.trace ++ t ∧ ∀ e ∈ t, Event.is_fallback e = false) := by
  have hcons : tefif_finished cpriv = 0 →
      mcp25xxfd_can_tx_handle_int_tefif L fuel cpriv =
        mcp25xxfd_can_tx_handle_int_tefif_conservative L fuel
          (emit Event.netdev_warn_no_finished_fifo cpriv) := by
    intro h0
    rw [handle_int_tefif_eq, if_neg hint, if_neg (not_not.mpr h0)]
  have hopt : tefif_finished cpriv ≠ 0 →
      mcp25xxfd_can_tx_handle_int_tefif L fuel cpriv =
        some (mcp25xxfd_can_tx_handle_int_tefif_optimized L cpriv (tefif_finished cpriv)) := by
    intro h1
    rw [handle_int_tefif_eq, if_neg hint, if_pos h1]
  refine ⟨hcons, ?_, ?_, hopt, ?_⟩
  · intro h0 r hr
    rw [hcons h0] at hr
    exact conservative_trace_head L fuel _ r hr
  · intro h0 hok hlen
    rw [hcons h0]
    exact conservative_terminates L fuel _ hok hlen
  · intro h1 r hr
    rw [hopt h1] at hr
    have hr2 : r = mcp25xxfd_can_tx_handle_int_tefif_optimized L cpriv (tefif_finished cpriv) :=
      (Option.some.inj hr).symm
    rw [hr2]
    exact optimized_loop_no_fallback L _ _ _ _

/-- On the drifted example (nothing computed as finished) the handler falls
back, drains the device and returns 0. -/
theorem C16_strategy_selection_witness :
    ∃ c2, mcp25xxfd_can_tx_handle_int_tefif example_layout 8 example_drift = some (0, c2) :=
  (C16_strategy_selection example_layout 8 example_drift (by decide)).2.2.1
    (by decide) (by decide) (by decide)

theorem tefif_fifo_events_counts (L : Layout) (c : mcp25xxfd_can_priv) :
    (tefif_fifo_events L c).countP Event.is_record_read = 1 ∧
    (tefif_fifo_events L c).countP Event.is_release = 1 ∧
    (tefif_fifo_events L c).countP Event.is_ack = 1 ∧
    (tefif_fifo_events L c).countP Event.is_flag_read = 0 := by
  unfold tefif_fifo_events
  split <;> exact ⟨rfl, rfl, rfl, rfl⟩

/-- A poll that reads the flag as clear ends the conservative strategy. -/
theorem conservative_stop (L : Layout) (fuel last : Nat) (rest : List spi_reply)
    (c : mcp25xxfd_can_priv)
    (hs : c.spi_replies = { ret := 0, data := [last] } :: rest)
    (hclear : (last % 2 ^ 32) &&& L.CAN_TEFSTA_TEFNEIF = 0) :
    mcp25xxfd_can_tx_handle_int_tefif_conservative L (fuel + 1) c =
      some (0, { c with spi_replies := rest
                        trace := c.trace ++
                          [Event.cmd_read_mask L.CAN_TEFSTA L.CAN_TEFSTA_TEFNEIF 0] }) := by
  have hr0 : spi_ret c.spi_replies 0 = 0 := by rw [hs]; rfl
  have hd0 : (spi_data c.spi_replies 0).getD 0 0 = last := by rw [hs]; rfl
  have ht : c.spi_replies.tail = rest := by rw [hs]; rfl
  rw [conservative_eq, if_neg (not_not.mpr hr0), conservative_loop_succ, hd0, hr0, ht]
  have h2 : (last % 2 ^ 32) &&& L.CAN_TEFSTA_TEFNEIF &&& L.CAN_TEFSTA_TEFNEIF = 0 := by
    rw [hclear]; exact Nat.zero_and _
  rw [if_pos h2]

/-- A poll that reads the flag as set is followed by one record read, its
acknowledge, and the rest of the strategy with one unit of fuel less. -/
theorem conservative_step (L : Layout) (fuel flag : Nat) (record : List Nat)
    (more : List spi_reply) (c : mcp25xxfd_can_priv)
    (hs : c.spi_replies = { ret := 0, data := [flag] } :: { ret := 0, data := record } ::
      { ret := 0, data := [] } :: more)
    (hset : (flag % 2 ^ 32) &&& L.CAN_TEFSTA_TEFNEIF ≠ 0) :
    mcp25xxfd_can_tx_handle_int_tefif_conservative L (fuel + 1) c =
      mcp25xxfd_can_tx_handle_int_tefif_conservative L fuel
        (tefif_fifo_done L
          { c with spi_replies := c.spi_replies.tail
                   trace := c.trace ++
                     [Event.cmd_read_mask L.CAN_TEFSTA L.CAN_TEFSTA_TEFNEIF 0] }) := by
  have hr0 : spi_ret c.spi_replies 0 = 0 := by rw [hs]; rfl
  have hd0 : (spi_data c.spi_replies 0).getD 0 0 = flag := by rw [hs]; rfl
  have hr1 : spi_ret c.spi_replies.tail 0 = 0 := by rw [hs]; rfl
  have hr2 : spi_ret c.spi_replies.tail 1 = 0 := by rw [hs]; rfl
  rw [conservative_eq, if_neg (not_not.mpr hr0), conservative_loop_succ, hd0, hr0]
  have h2 : ¬ (flag % 2 ^ 32) &&& L.CAN_TEFSTA_TEFNEIF &&& L.CAN_TEFSTA_TEFNEIF = 0 := by
    rw [Nat.and_assoc, Nat.and_self]; exact hset
  rw [if_neg h2, tefif_fifo_ok L _ hr1]
  dsimp only
  rw [if_neg (not_not.mpr hr2)]

/-- C17: against a device whose event-available flag reads as set for the n
polls that precede its n event records and as clear at the next poll, every bus
operation succeeding, mcp25xxfd_can_tx_handle_int_tefif_conservative returns 0
for any fuel above n, after exactly n record reads, n hand-overs to the release
path, n acknowledges and n + 1 flag reads; the read cursor has advanced by n
modulo the record count, the n slots named by the records have been queued for
release in order, and nothing else of the device script was consumed.  With
n = 0 nothing is released. -/
theorem C17_conservative_loop (L : Layout) (rest : List spi_reply) (last : Nat) :
    ∀ (recs : List (Nat × List Nat)) (fuel : Nat) (cpriv : mcp25xxfd_can_priv),
    (∀ p ∈ recs, (p.1 % 2 ^ 32) &&& L.CAN_TEFSTA_TEFNEIF ≠ 0) →
    (last % 2 ^ 32) &&& L.CAN_TEFSTA_TEFNEIF = 0 →
    cpriv.spi_replies = conservative_script recs last ++ rest →
    recs.length < fuel →
    cpriv.tef_index < cpriv.tef_count → cpriv.tef_count < 2 ^ 32 →
    ∃ c2 t, mcp25xxfd_can_tx_handle_int_tefif_conservative L fuel cpriv = some (0, c2) ∧
      c2.trace = cpriv.trace ++ t ∧
      t.countP Event.is_record_read = recs.length ∧
      t.countP Event.is_release = recs.length ∧
      t.countP Event.is_ack = recs.length ∧
      t.countP Event.is_flag_read = recs.length + 1 ∧
      c2.queued_frames = cpriv.queued_frames ++
        recs.map (fun p => (tef_fifo L p.2, (tef_record p.2).ts, false)) ∧
      (recs = [] → c2.queued_frames = cpriv.queued_frames) ∧
      c2.tef_index = (cpriv.tef_index + recs.length) % cpriv.tef_count ∧
      c2.tef_count = cpriv.tef_count ∧
      c2.spi_replies = rest ∧
      c2.tx_queue = cpriv.tx_queue := by
  intro recs
  induction recs with
  | nil =>
    intro fuel c _ hclear hs hfuel hi hc
    obtain ⟨f, rfl⟩ : ∃ f, fuel = f + 1 := ⟨fuel - 1, by simp at hfuel; omega⟩
    have hs2 : c.spi_replies = { ret := 0, data := [last] } :: rest := hs
    rw [conservative_stop L f last rest c hs2 hclear]
    refine ⟨_, [Event.cmd_read_mask L.CAN_TEFSTA L.CAN_TEFSTA_TEFNEIF 0], rfl, rfl, rfl, rfl,
      rfl, rfl, ?_, ?_, ?_, rfl, rfl, rfl⟩
    · simp
    · intro _; rfl
    · show c.tef_index = (c.tef_index + 0) % c.tef_count
      rw [Nat.add_zero, Nat.mod_eq_of_lt hi]
  | cons p tl ih =>
    intro fuel c hset hclear hs hfuel hi hc
    obtain ⟨flag, record⟩ := p
    obtain ⟨f, rfl⟩ : ∃ f, fuel = f + 1 := ⟨fuel - 1, by simp at hfuel; omega⟩
    have hs2 : c.spi_replies = { ret := 0, data := [flag] } :: { ret := 0, data := record } ::
        { ret := 0, data := [] } :: (conservative_script tl last ++ rest) := hs
    have hflag : (flag % 2 ^ 32) &&& L.CAN_TEFSTA_TEFNEIF ≠ 0 :=
      hset (flag, record) (List.mem_cons_self _ _)
    rw [conservative_step L f flag record _ c hs2 hflag]
    have hrec : spi_data c.spi_replies.tail 0 = record := by rw [hs2]; rfl
    have hrep : c.spi_replies.tail.tail.tail = conservative_script tl last ++ rest := by
      rw [hs2]; rfl
    have hadv : tef_advance c.tef_count c.tef_index = (c.tef_index + 1) % c.tef_count :=
      tef_advance_mod hi hc
    obtain ⟨c3, t3, hrun, htr, h1, h2, h3, h4, hq, _, hidx, hcnt, hrest, htx⟩ :=
      ih f
        (tefif_fifo_done L
          { c with spi_replies := c.spi_replies.tail
                   trace := c.trace ++
                     [Event.cmd_read_mask L.CAN_TEFSTA L.CAN_TEFSTA_TEFNEIF 0] })
        (fun q hq => hset q (List.mem_cons_of_mem _ hq)) hclear hrep
        (by simp at hfuel; omega)
        (by
          show tef_advance c.tef_count c.tef_index < c.tef_count
          rw [hadv]
          exact Nat.mod_lt _ (by omega))
        hc
    obtain ⟨e1, e2, e3, e4⟩ := tefif_fifo_events_counts L
      { c with spi_replies := c.spi_replies.tail
               trace := c.trace ++ [Event.cmd_read_mask L.CAN_TEFSTA L.CAN_TEFSTA_TEFNEIF 0] }
    refine ⟨c3, [Event.cmd_read_mask L.CAN_TEFSTA L.CAN_TEFSTA_TEFNEIF 0] ++
      (tefif_fifo_events L
        { c with spi_replies := c.spi_replies.tail
                 trace := c.trace ++
                   [Event.cmd_read_mask L.CAN_TEFSTA L.CAN_TEFSTA_TEFNEIF 0] } ++ t3),
      hrun, ?_, ?_, ?_, ?_, ?_, ?_, ?_, ?_, hcnt, hrest, htx⟩
    · rw [htr]
      show ((c.trace ++ [_]) ++ tefif_fifo_events L _) ++ t3 = _
      simp only [List.append_assoc]
    · rw [List.countP_append, List.countP_append, e1, h1]
      simp [List.countP_cons, Event.is_record_read]
      omega
    · rw [List.countP_append, List.countP_append, e2, h2]
      simp [List.countP_cons, Event.is_release]
      omega
    · rw [List.countP_append, List.countP_append, e3, h3]
      simp [List.countP_cons, Event.is_ack]
      omega
    · rw [List.countP_append, List.countP_append, e4, h4]
      simp [List.countP_cons, Event.is_flag_read]
      omega
    · rw [hq]
      show (c.queued_frames ++ [(tef_fifo L (spi_data c.spi_replies.tail 0), _, false)]) ++ _ = _
      rw [hrec]
      simp
    · intro hnil
      exact absurd hnil (List.cons_ne_nil _ _)
    · rw [hidx]
      show (tef_advance c.tef_count c.tef_index + tl.length) % c.tef_count = _
      rw [hadv, List.length_cons, Nat.add_mod, Nat.mod_mod, ← Nat.add_mod]
      congr 1
      omega

/-- Two records on the drifted example: fuel 3 suffices, two records are read,
released and acknowledged after three flag reads, and the cursor of the
two-record area is back at 0. -/
theorem C17_conservative_loop_witness :
    ∃ c2 t, mcp25xxfd_can_tx_handle_int_tefif_conservative example_layout 3 example_drift
        = some (0, c2) ∧
      c2.trace = example_drift.trace ++ t ∧
      t.countP Event.is_record_read = example_records.length ∧
      t.countP Event.is_release = example_records.length ∧
      t.countP Event.is_ack = example_records.length ∧
      t.countP Event.is_flag_read = example_records.length + 1 ∧
      c2.queued_frames = example_drift.queued_frames ++
        example_records.map (fun p => (tef_fifo example_layout p.2, (tef_record p.2).ts, false)) ∧
      (example_records = [] → c2.queued_frames = example_drift.queued_frames) ∧
      c2.tef_index = (example_drift.tef_index + example_records.length) % example_drift.tef_count ∧
      c2.tef_count = example_drift.tef_count ∧
      c2.spi_replies = [] ∧
      c2.tx_queue = example_drift.tx_queue :=
  C17_conservative_loop example_layout [] 0 example_records 3 example_drift
    (by decide) (by decide) (by decide) (by decide) (by decide) (by decide)

/-! ## Abort processor -/

theorem and_BIT_ne_zero_iff (x f : Nat) (hf : f < 64) :
    x &&& BIT f ≠ 0 ↔ x.testBit f = true := by
  constructor
  · intro h
    by_contra hb
    apply h
    rw [eq_zero_iff_testBit]
    intro j
    rw [Nat.testBit_and, testBit_BIT, Nat.mod_eq_of_lt hf]
    by_cases hj : f = j
    · subst hj
      simp [Bool.not_eq_true] at hb
      simp [hb]
    · simp [hj]
  · intro h h0
    have := (eq_zero_iff_testBit _).1 h0 f
    rw [Nat.testBit_and, testBit_BIT, Nat.mod_eq_of_lt hf, h] at this
    simp at this

theorem echo_lookup_filter (m : List (Nat × sk_buff)) (idx j : Nat) :
    echo_lookup (m.filter (fun p => !(p.1 == idx))) j =
      if j = idx then none else echo_lookup m j := by
  unfold echo_lookup
  rw [List.find?_filter]
  by_cases hj : j = idx
  · subst hj
    have hfun : (fun a : Nat × sk_buff => decide ((!(a.1 == j)) = true ∧ (a.1 == j) = true)) =
        fun _ => false := by
      funext a
      by_cases h : a.1 = j <;> simp [h]
    rw [hfun, if_pos rfl]
    simp
  · have hfun : (fun a : Nat × sk_buff =>
        decide ((!(a.1 == idx)) = true ∧ (a.1 == j) = true)) = fun a => (a.1 == j) := by
      funext a
      by_cases h : a.1 = j
      · simp [h, hj]
      · simp [h]
    rw [hfun, if_neg hj]

theorem cmd_read_eq (reg : Nat) (c : mcp25xxfd_can_priv) :
    mcp25xxfd_cmd_read reg c =
      ((spi_ret c.spi_replies 0, (spi_data c.spi_replies 0).getD 0 0 % 2 ^ 32),
        { c with spi_replies := c.spi_replies.tail
                 trace := c.trace ++ [Event.cmd_read reg (spi_ret c.spi_replies 0)] }) := by
  unfold mcp25xxfd_cmd_read
  simp only [emit, spi_next_reply_state, spi_next_reply_fst]

/-- State after the abort of one slot has been handled with both bus
operations succeeding. -/
theorem txatif_fifo_ok (L : Layout) (c : mcp25xxfd_can_priv) (fifo : Nat)
    (h0 : spi_ret c.spi_replies 0 = 0) (h1 : spi_ret c.spi_replies 1 = 0) :
    mcp25xxfd_can_tx_handle_int_txatif_fifo L c fifo =
      (0, { c with
        spi_replies := c.spi_replies.tail.tail
        echo_skb := c.echo_skb.filter (fun p => !(p.1 == fifo))
        tx_queue := { c.tx_queue with
          in_can_transfer :=
            mcp25xxfd_can_tx_queue_remove_spi_message c.tx_queue.in_can_transfer fifo
          transferred := mcp25xxfd_can_tx_queue_add_spi_message c.tx_queue.transferred fifo }
        status_txif := (c.status_txif &&& not_ul (BIT fifo)) % 2 ^ 32
        stats_tx_aborted_errors := (c.stats_tx_aborted_errors + 1) % 2 ^ 64
        trace := c.trace ++
          [Event.cmd_read (L.CAN_FIFOSTA fifo) 0,
            Event.cmd_write_mask (L.CAN_FIFOSTA fifo) 0
              (L.CAN_FIFOSTA_TXABT ||| L.CAN_FIFOSTA_TXLARB ||| L.CAN_FIFOSTA_TXERR |||
                L.CAN_FIFOSTA_TXATIF) 0,
            Event.can_get_echo_skb fifo] }) := by
  have h1b : spi_ret c.spi_replies.tail 0 = 0 := by rw [spi_ret_tail]; exact h1
  unfold mcp25xxfd_can_tx_handle_int_txatif_fifo
  simp only [cmd_read_eq, cmd_write_mask_eq, h0, h1b, ne_eq, not_true_eq_false, if_false,
    can_get_echo_skb, emit, mcp25xxfd_can_tx_queue_move_spi_message]
  simp

theorem txatif_loop_succ (L : Layout) (n f : Nat) (c : mcp25xxfd_can_priv) :
    txatif_loop L (n + 1) f c =
      if c.status_txatif &&& BIT f ≠ 0 then
        if (mcp25xxfd_can_tx_handle_int_txatif_fifo L c f).1 ≠ 0 then
          mcp25xxfd_can_tx_handle_int_txatif_fifo L c f
        else txatif_loop L n (f + 1) (mcp25xxfd_can_tx_handle_int_txatif_fifo L c f).2
      else txatif_loop L n (f + 1) c := rfl

theorem txatif_flagged_zero (txatif : Nat) : ∀ (n f : Nat),
    (∀ j, f ≤ j → j < f + n → txatif.testBit j = false) → f + n ≤ 64 →
    txatif_flagged txatif n f = 0 := by
  intro n
  induction n with
  | zero => intro f _ _; rfl
  | succ n ih =>
    intro f h h64
    have hf : ¬ txatif &&& BIT f ≠ 0 := by
      rw [and_BIT_ne_zero_iff txatif f (by omega), h f (Nat.le_refl f) (by omega)]
      decide
    unfold txatif_flagged
    rw [if_neg hf, ih (f + 1) (fun j h1 h2 => h j (by omega) (by omega)) (by omega)]

/-- A range with a single flagged slot makes the loop call the handler once. -/
theorem txatif_flagged_single (txatif k : Nat) : ∀ (n f : Nat),
    f ≤ k → k < f + n → f + n ≤ 64 → txatif.testBit k = true →
    (∀ j, f ≤ j → j < f + n → txatif.testBit j = true → j = k) →
    txatif_flagged txatif n f = 1 := by
  intro n
  induction n with
  | zero => intro f h1 h2; omega
  | succ n ih =>
    intro f h1 h2 h64 hk hall
    unfold txatif_flagged
    by_cases hfk : f = k
    · subst hfk
      have hf : txatif &&& BIT f ≠ 0 := (and_BIT_ne_zero_iff txatif f (by omega)).2 hk
      rw [if_pos hf, txatif_flagged_zero txatif n (f + 1) _ (by omega)]
      intro j hj1 hj2
      cases hb : txatif.testBit j
      · rfl
      · have := hall j (by omega) (by omega) hb
        omega
    · have hf : ¬ txatif &&& BIT f ≠ 0 := by
        rw [and_BIT_ne_zero_iff txatif f (by omega)]
        intro hb
        exact hfk (hall f (Nat.le_refl f) (by omega) hb)
      rw [if_neg hf, ih (f + 1) (by omega) (by omega) (by omega) hk
        (fun j h3 h4 hb => hall j (by omega) (by omega) hb)]

/-- What the loop of the abort interrupt does to the n slots from f on when
every bus operation succeeds: each flagged slot leaves in_can_transfer, enters
transferred and loses its echo frame; every other slot is left alone; the
aborted-error counter rises by the number of flagged slots. -/
theorem txatif_loop_spec (L : Layout) : ∀ (n f : Nat) (c : mcp25xxfd_can_priv),
    (∀ r ∈ c.spi_replies, r.ret = 0) → f + n ≤ 32 →
    c.tx_queue.in_can_transfer < 2 ^ 32 → c.tx_queue.transferred < 2 ^ 32 →
    c.stats_tx_aborted_errors < 2 ^ 64 →
    (txatif_loop L n f c).1 = 0 ∧
    (∀ j, f ≤ j → j < f + n → c.status_txatif.testBit j = true →
      (txatif_loop L n f c).2.tx_queue.in_can_transfer.testBit j = false ∧
      (txatif_loop L n f c).2.tx_queue.transferred.testBit j = true ∧
      echo_lookup (txatif_loop L n f c).2.echo_skb j = none) ∧
    (∀ j, ¬ (f ≤ j ∧ j < f + n ∧ c.status_txatif.testBit j = true) →
      (txatif_loop L n f c).2.tx_queue.in_can_transfer.testBit j =
        c.tx_queue.in_can_transfer.testBit j ∧
      (txatif_loop L n f c).2.tx_queue.transferred.testBit j =
        c.tx_queue.transferred.testBit j ∧
      echo_lookup (txatif_loop L n f c).2.echo_skb j = echo_lookup c.echo_skb j) ∧
    (txatif_loop L n f c).2.tx_queue.idle = c.tx_queue.idle ∧
    (txatif_loop L n f c).2.tx_queue.in_fill_fifo_transfer =
      c.tx_queue.in_fill_fifo_transfer ∧
    (txatif_loop L n f c).2.tx_queue.in_trigger_fifo_transfer =
      c.tx_queue.in_trigger_fifo_transfer ∧
    (txatif_loop L n f c).2.tx_queue.state = c.tx_queue.state ∧
    (txatif_loop L n f c).2.stats_tx_aborted_errors =
      (c.stats_tx_aborted_errors + txatif_flagged c.status_txatif n f) % 2 ^ 64 ∧
    (txatif_loop L n f c).2.stats_tx_packets = c.stats_tx_packets := by
  intro n
  induction n with
  | zero =>
    intro f c _ _ _ _ hst
    refine ⟨rfl, ?_, ?_, rfl, rfl, rfl, rfl, ?_, rfl⟩
    · intro j h1 h2; omega
    · intro j _; exact ⟨rfl, rfl, rfl⟩
    · show c.stats_tx_aborted_errors = (c.stats_tx_aborted_errors + 0) % 2 ^ 64
      rw [Nat.add_zero, Nat.mod_eq_of_lt hst]
  | succ n ih =>
    intro f c hok h32 hcan htr hst
    rw [txatif_loop_succ]
    by_cases hflag : c.status_txatif &&& BIT f ≠ 0
    · have hbit : c.status_txatif.testBit f = true :=
        (and_BIT_ne_zero_iff _ f (by omega)).1 hflag
      rw [if_pos hflag, txatif_fifo_ok L c f (spi_ret_all_ok _ hok 0) (spi_ret_all_ok _ hok 1)]
      dsimp only
      rw [if_neg (by decide)]
      obtain ⟨r1, r2, r3, r4, r5, r6, r7, r8, r9⟩ := ih (f + 1)
        { c with
          spi_replies := c.spi_replies.tail.tail
          echo_skb := c.echo_skb.filter (fun p => !(p.1 == f))
          tx_queue := { c.tx_queue with
            in_can_transfer :=
              mcp25xxfd_can_tx_queue_remove_spi_message c.tx_queue.in_can_transfer f
            transferred := mcp25xxfd_can_tx_queue_add_spi_message c.tx_queue.transferred f }
          status_txif := (c.status_txif &&& not_ul (BIT f)) % 2 ^ 32
          stats_tx_aborted_errors := (c.stats_tx_aborted_errors + 1) % 2 ^ 64
          trace := c.trace ++
            [Event.cmd_read (L.CAN_FIFOSTA f) 0,
              Event.cmd_write_mask (L.CAN_FIFOSTA f) 0
                (L.CAN_FIFOSTA_TXABT ||| L.CAN_FIFOSTA_TXLARB ||| L.CAN_FIFOSTA_TXERR |||
                  L.CAN_FIFOSTA_TXATIF) 0,
              Event.can_get_echo_skb f] }
        (fun r hr => hok r (List.mem_of_mem_tail (List.mem_of_mem_tail hr)))
        (by omega) (remove_lt _ _) (add_lt _ _) (Nat.mod_lt _ (by decide))
      dsimp only at r1 r2 r3 r4 r5 r6 r7 r8 r9
      have hf32 : f < 32 := by omega
      have hkeep : ∀ j, j ≠ f →
          (mcp25xxfd_can_tx_queue_remove_spi_message c.tx_queue.in_can_transfer f).testBit j =
            c.tx_queue.in_can_transfer.testBit j ∧
          (mcp25xxfd_can_tx_queue_add_spi_message c.tx_queue.transferred f).testBit j =
            c.tx_queue.transferred.testBit j := by
        intro j hj
        have := (move_spi_message_bits _ _ f hcan htr hf32).2.2 j hj
        exact this
      have hmoved := move_spi_message_bits c.tx_queue.in_can_transfer c.tx_queue.transferred f
        hcan htr hf32
      refine ⟨r1, ?_, ?_, r4, r5, r6, r7, ?_, r9⟩
      · intro j h1 h2 hb
        by_cases hj : j = f
        · subst hj
          obtain ⟨a1, a2, a3⟩ := r3 j (fun h => by omega)
          rw [a1, a2, a3, echo_lookup_filter, if_pos rfl]
          exact ⟨hmoved.1, hmoved.2.1, rfl⟩
        · exact r2 j (by omega) (by omega) hb
      · intro j hnot
        have hj : j ≠ f := fun e => hnot ⟨by omega, by omega, e ▸ hbit⟩
        obtain ⟨a1, a2, a3⟩ := r3 j (fun h => hnot ⟨by omega, by omega, h.2.2⟩)
        rw [a1, a2, a3, echo_lookup_filter, if_neg hj]
        exact ⟨(hkeep j hj).1, (hkeep j hj).2, rfl⟩
      · rw [r8]
        show ((c.stats_tx_aborted_errors + 1) % 2 ^ 64 +
            txatif_flagged c.status_txatif n (f + 1)) % 2 ^ 64 =
          (c.stats_tx_aborted_errors + txatif_flagged c.status_txatif (n + 1) f) % 2 ^ 64
        rw [txatif_flagged, if_pos hflag]
        omega
    · have hbit : ¬ c.status_txatif.testBit f = true := fun hb =>
        hflag ((and_BIT_ne_zero_iff _ f (by omega)).2 hb)
      rw [if_neg hflag]
      obtain ⟨r1, r2, r3, r4, r5, r6, r7, r8, r9⟩ := ih (f + 1) c hok (by omega) hcan htr hst
      refine ⟨r1, ?_, ?_, r4, r5, r6, r7, ?_, r9⟩
      · intro j h1 h2 hb
        have hj : j ≠ f := fun e => hbit (e ▸ hb)
        exact r2 j (by omega) (by omega) hb
      · intro j hnot
        exact r3 j (fun h => hnot ⟨by omega, by omega, h.2.2⟩)
      · rw [r8, txatif_flagged, if_neg hflag]
        omega

/-- C20, as stated, fails when a second slot is flagged: with slots 0 and 1 in
flight and both flagged (slot 0 in range, flagged, in in_can_transfer, the bus
succeeding), mcp25xxfd_can_tx_handle_int_txatif also moves slot 1 out of
in_can_transfer and raises the aborted-error counter by two. -/
theorem C20_counterexample :
    (example_two_aborts.tx_start ≤ 0 ∧
      0 < example_two_aborts.tx_start + example_two_aborts.tx_count ∧
      example_two_aborts.status_txatif.testBit 0 = true ∧
      example_two_aborts.tx_queue.in_can_transfer.testBit 0 = true ∧
      example_two_aborts.tx_queue.in_can_transfer.testBit 1 = true) ∧
    (mcp25xxfd_can_tx_handle_int_txatif example_layout example_two_aborts).1 = 0 ∧
    (mcp25xxfd_can_tx_handle_int_txatif example_layout
      example_two_aborts).2.tx_queue.in_can_transfer.testBit 1 = false ∧
    (mcp25xxfd_can_tx_handle_int_txatif example_layout
      example_two_aborts).2.stats_tx_aborted_errors =
        example_two_aborts.stats_tx_aborted_errors + 2 := by
  decide

/-- C20 (amended): for a slot f of the transmit slot range (which lies within
the 32 slots of the masks) whose bit is set in the abort-pending word, with
every bus operation succeeding, mcp25xxfd_can_tx_handle_int_txatif returns 0,
leaves f out of in_can_transfer and in transferred and releases the echo frame
of f; every flagged slot of the range is moved likewise, and every slot that is
not a flagged slot of the range keeps its membership; idle and the two
submission sets are untouched.  The aborted-error counter, an unsigned long,
rises by the number of flagged slots of the range, modulo 2^64 (by exactly one
modulo 2^64, with every other slot unchanged, when f is the only one) and
tx_packets is not incremented.  A restart that then finds the other four sets
empty merges f into idle. -/
theorem C20_abort_processing (L : Layout) (cpriv : mcp25xxfd_can_priv) (f : Nat)
    (hlo : cpriv.tx_start ≤ f) (hhi : f < cpriv.tx_start + cpriv.tx_count)
    (h32 : cpriv.tx_start + cpriv.tx_count ≤ 32)
    (hflag : cpriv.status_txatif.testBit f = true)
    (hok : ∀ r ∈ cpriv.spi_replies, r.ret = 0)
    (hcan : cpriv.tx_queue.in_can_transfer < 2 ^ 32)
    (htr : cpriv.tx_queue.transferred < 2 ^ 32)
    (hst : cpriv.stats_tx_aborted_errors < 2 ^ 64) :
    (mcp25xxfd_can_tx_handle_int_txatif L cpriv).1 = 0 ∧
    (mcp25xxfd_can_tx_handle_int_txatif L cpriv).2.tx_queue.in_can_transfer.testBit f = false ∧
    (mcp25xxfd_can_tx_handle_int_txatif L cpriv).2.tx_queue.transferred.testBit f = true ∧
    echo_lookup (mcp25xxfd_can_tx_handle_int_txatif L cpriv).2.echo_skb f = none ∧
    (∀ j, cpriv.tx_start ≤ j → j < cpriv.tx_start + cpriv.tx_count →
      cpriv.status_txatif.testBit j = true →
      (mcp25xxfd_can_tx_handle_int_txatif L cpriv).2.tx_queue.in_can_transfer.testBit j
        = false ∧
      (mcp25xxfd_can_tx_handle_int_txatif L cpriv).2.tx_queue.transferred.testBit j = true) ∧
    (∀ j, ¬ (cpriv.tx_start ≤ j ∧ j < cpriv.tx_start + cpriv.tx_count ∧
        cpriv.status_txatif.testBit j = true) →
      (mcp25xxfd_can_tx_handle_int_txatif L cpriv).2.tx_queue.in_can_transfer.testBit j =
        cpriv.tx_queue.in_can_transfer.testBit j ∧
      (mcp25xxfd_can_tx_handle_int_txatif L cpriv).2.tx_queue.transferred.testBit j =
        cpriv.tx_queue.transferred.testBit j) ∧
    (mcp25xxfd_can_tx_handle_int_txatif L cpriv).2.tx_queue.idle = cpriv.tx_queue.idle ∧
    (mcp25xxfd_can_tx_handle_int_txatif L cpriv).2.tx_queue.in_fill_fifo_transfer =
      cpriv.tx_queue.in_fill_fifo_transfer ∧
    (mcp25xxfd_can_tx_handle_int_txatif L cpriv).2.tx_queue.in_trigger_fifo_transfer =
      cpriv.tx_queue.in_trigger_fifo_transfer ∧
    (mcp25xxfd_can_tx_handle_int_txatif L cpriv).2.stats_tx_aborted_errors =
      (cpriv.stats_tx_aborted_errors +
        txatif_flagged cpriv.status_txatif cpriv.tx_count cpriv.tx_start) % 2 ^ 64 ∧
    ((∀ j, cpriv.tx_start ≤ j → j < cpriv.tx_start + cpriv.tx_count →
        cpriv.status_txatif.testBit j = true → j = f) →
      (mcp25xxfd_can_tx_handle_int_txatif L cpriv).2.stats_tx_aborted_errors =
        (cpriv.stats_tx_aborted_errors + 1) % 2 ^ 64 ∧
      ∀ j, j ≠ f →
        (mcp25xxfd_can_tx_handle_int_txatif L cpriv).2.tx_queue.in_can_transfer.testBit j =
          cpriv.tx_queue.in_can_transfer.testBit j ∧
        (mcp25xxfd_can_tx_handle_int_txatif L cpriv).2.tx_queue.transferred.testBit j =
          cpriv.tx_queue.transferred.testBit j) ∧
    (mcp25xxfd_can_tx_handle_int_txatif L cpriv).2.stats_tx_packets =
      cpriv.stats_tx_packets ∧
    ((mcp25xxfd_can_tx_handle_int_txatif L cpriv).2.tx_queue.idle = 0 →
      (mcp25xxfd_can_tx_handle_int_txatif L cpriv).2.tx_queue.in_fill_fifo_transfer = 0 →
      (mcp25xxfd_can_tx_handle_int_txatif L cpriv).2.tx_queue.in_trigger_fifo_transfer = 0 →
      (mcp25xxfd_can_tx_handle_int_txatif L cpriv).2.tx_queue.in_can_transfer = 0 →
      (mcp25xxfd_can_tx_queue_restart
        (mcp25xxfd_can_tx_handle_int_txatif L cpriv).2).tx_queue.idle.testBit f = true ∧
      (mcp25xxfd_can_tx_queue_restart
        (mcp25xxfd_can_tx_handle_int_txatif L cpriv).2).tx_queue.transferred = 0) := by
  have hne : ¬ cpriv.status_txatif = 0 := by
    intro h0
    rw [h0, Nat.zero_testBit] at hflag
    exact absurd hflag (by decide)
  have heq : mcp25xxfd_can_tx_handle_int_txatif L cpriv =
      txatif_loop L cpriv.tx_count cpriv.tx_start cpriv := by
    unfold mcp25xxfd_can_tx_handle_int_txatif
    rw [if_neg hne]
  rw [heq]
  obtain ⟨r1, r2, r3, r4, r5, r6, _, r8, r9⟩ :=
    txatif_loop_spec L cpriv.tx_count cpriv.tx_start cpriv hok h32 hcan htr hst
  have hf := r2 f hlo hhi hflag
  refine ⟨r1, hf.1, hf.2.1, hf.2.2, ?_, ?_, r4, r5, r6, r8, ?_, r9, ?_⟩
  · intro j h1 h2 hb
    exact ⟨(r2 j h1 h2 hb).1, (r2 j h1 h2 hb).2.1⟩
  · intro j hnot
    exact ⟨(r3 j hnot).1, (r3 j hnot).2.1⟩
  · intro honly
    refine ⟨?_, ?_⟩
    · rw [r8, txatif_flagged_single cpriv.status_txatif f cpriv.tx_count cpriv.tx_start hlo hhi
        (by omega) hflag honly]
    · intro j hj
      have hnot : ¬ (cpriv.tx_start ≤ j ∧ j < cpriv.tx_start + cpriv.tx_count ∧
          cpriv.status_txatif.testBit j = true) := fun h => hj (honly j h.1 h.2.1 h.2.2)
      exact ⟨(r3 j hnot).1, (r3 j hnot).2.1⟩
  · intro h1 h2 h3 h4
    rw [restart_success_state _ h1 h2 h3 h4]
    refine ⟨?_, rfl⟩
    show ((txatif_loop L cpriv.tx_count cpriv.tx_start cpriv).2.tx_queue.idle |||
      (txatif_loop L cpriv.tx_count cpriv.tx_start cpriv).2.tx_queue.transferred).testBit f = true
    rw [Nat.testBit_or, hf.2.1, Bool.or_true]

/-- Slot 1 alone is flagged while slots 0 and 1 are in flight: slot 1 moves to
transferred, slot 0 stays in in_can_transfer, and the aborted-error counter
rises from 0 to 1. -/
theorem C20_abort_processing_witness :
    (mcp25xxfd_can_tx_handle_int_txatif example_layout example_one_abort).1 = 0 ∧
    (mcp25xxfd_can_tx_handle_int_txatif example_layout
      example_one_abort).2.tx_queue.in_can_transfer.testBit 1 = false ∧
    (mcp25xxfd_can_tx_handle_int_txatif example_layout
      example_one_abort).2.tx_queue.transferred.testBit 1 = true ∧
    (mcp25xxfd_can_tx_handle_int_txatif example_layout
      example_one_abort).2.stats_tx_aborted_errors = 1 :=
  have h := C20_abort_processing example_layout example_one_abort 1
    (by decide) (by decide) (by decide) (by decide) (by decide) (by decide) (by decide)
    (by decide)
  ⟨h.1, h.2.1, h.2.2.1, h.2.2.2.2.2.2.2.2.2.1.trans (by decide)⟩

/-! ## Guards and cached interrupt flags -/

/-- C21, as stated, fails: after the abort of flagged slot 1 has been handled
successfully, bit 1 of the cached abort-pending word status.txatif is still
set. -/
theorem C21_counterexample :
    example_one_abort.status_txatif.testBit 1 = true ∧
    (mcp25xxfd_can_tx_handle_int_txatif_fifo example_layout example_one_abort 1).1 = 0 ∧
    (mcp25xxfd_can_tx_handle_int_txatif_fifo example_layout
      example_one_abort 1).2.status_txatif.testBit 1 = true := by
  decide

/-- C21 (amended): after mcp25xxfd_can_tx_handle_int_txatif_fifo has
successfully handled slot f (both bus operations returned 0), the cached
abort-pending word status.txatif is what it was, bit f included; what the
handler clears is bit f of the cached transmit-interrupt word status.txif,
whose other bits (of a 32 bit word) are unchanged; BIT(f) shifts by f modulo
64, which is f for every slot. -/
theorem C21_abort_clears_txif (L : Layout) (cpriv : mcp25xxfd_can_priv) (f : Nat)
    (h0 : spi_ret cpriv.spi_replies 0 = 0) (h1 : spi_ret cpriv.spi_replies 1 = 0)
    (htxif : cpriv.status_txif < 2 ^ 32) :
    (mcp25xxfd_can_tx_handle_int_txatif_fifo L cpriv f).1 = 0 ∧
    (mcp25xxfd_can_tx_handle_int_txatif_fifo L cpriv f).2.status_txatif =
      cpriv.status_txatif ∧
    (mcp25xxfd_can_tx_handle_int_txatif_fifo L cpriv f).2.status_txif.testBit f = false ∧
    ∀ j, j ≠ f % 64 →
      (mcp25xxfd_can_tx_handle_int_txatif_fifo L cpriv f).2.status_txif.testBit j =
        cpriv.status_txif.testBit j := by
  rw [txatif_fifo_ok L cpriv f h0 h1]
  refine ⟨rfl, rfl, ?_, ?_⟩
  · show (mcp25xxfd_can_tx_queue_remove_spi_message cpriv.status_txif f).testBit f = false
    rw [testBit_remove]
    by_cases hf : f < 32
    · have hmod : f % 64 = f := Nat.mod_eq_of_lt (by omega)
      simp [hmod]
    · simp [hf]
  · intro j hj
    show (mcp25xxfd_can_tx_queue_remove_spi_message cpriv.status_txif f).testBit j = _
    rw [testBit_remove]
    cases hb : cpriv.status_txif.testBit j
    · simp
    · have hlt : j < 32 := testBit_lt_of_lt_two_pow htxif hb
      simp [hlt, hj]

/-- Slot 1 of the example is aborted while the cached transmit-interrupt word
has bits 0 and 1 set: bit 1 is cleared, bit 0 and the abort-pending word stay. -/
theorem C21_abort_clears_txif_witness :
    (mcp25xxfd_can_tx_handle_int_txatif_fifo example_layout
      { example_one_abort with status_txif := 3 } 1).2.status_txatif = 2 ∧
    (mcp25xxfd_can_tx_handle_int_txatif_fifo example_layout
      { example_one_abort with status_txif := 3 } 1).2.status_txif.testBit 1 = false ∧
    (mcp25xxfd_can_tx_handle_int_txatif_fifo example_layout
      { example_one_abort with status_txif := 3 } 1).2.status_txif.testBit 0 = true :=
  have h := C21_abort_clears_txif example_layout { example_one_abort with status_txif := 3 } 1
    (by decide) (by decide) (by decide)
  ⟨h.2.1, h.2.2.1, (h.2.2.2 0 (by decide)).trans (by decide)⟩

/-- C24: when the transmit-event bit is not set in the cached interrupt status,
mcp25xxfd_can_tx_handle_int_tefif returns 0 and the whole driver state, with
the bus script, the trace of bus operations, the five bitmasks, the read cursor
and the counters, is the one before the call; likewise
mcp25xxfd_can_tx_handle_int_txatif returns 0 and changes nothing when the cached
abort-pending word is zero. -/
theorem C24_interrupt_guards (L : Layout) (fuel : Nat) (cpriv cpriv2 : mcp25xxfd_can_priv)
    (htef : cpriv.status_intf &&& L.CAN_INT_TEFIF = 0)
    (hat : cpriv2.status_txatif = 0) :
    mcp25xxfd_can_tx_handle_int_tefif L fuel cpriv = some (0, cpriv) ∧
    mcp25xxfd_can_tx_handle_int_txatif L cpriv2 = (0, cpriv2) := by
  constructor
  · rw [handle_int_tefif_eq, if_pos htef]
  · unfold mcp25xxfd_can_tx_handle_int_txatif
    rw [if_pos hat]

/-- Both guards on the two-slot example with no interrupt cached, even with no
fuel at all. -/
theorem C24_interrupt_guards_witness :
    mcp25xxfd_can_tx_handle_int_tefif example_layout 0
        { example_in_flight with status_intf := 0 } =
      some (0, { example_in_flight with status_intf := 0 }) ∧
    mcp25xxfd_can_tx_handle_int_txatif example_layout example_in_flight =
      (0, example_in_flight) :=
  C24_interrupt_guards example_layout 0 { example_in_flight with status_intf := 0 }
    example_in_flight (by decide) (by decide)
/-! ## Completion callbacks -/

theorem msg_at_set_self (q : mcp25xxfd_tx_spi_message_queue) (i : Nat)
    (m : mcp25xxfd_tx_spi_message) (hi : i < q.message.length) :
    msg_at { q with message := q.message.set i m } i = m := by
  unfold msg_at
  simp [List.getD_eq_getElem?_getD, List.getElem?_set, hi]

/-- The fill callback leaves the fill transaction of its message at the length
of command and header, whatever the length was. -/
theorem fill_complete_xfer_len (L : Layout) (i : Nat) (c : mcp25xxfd_can_priv)
    (hi : i < c.tx_queue.message.length) :
    (msg_at (mcp25xxfd_can_tx_spi_message_fill_fifo_complete L i c).tx_queue
      i).fill_fifo_xfer_len = L.sizeof_cmd + sizeof_can_obj_tx := by
  unfold mcp25xxfd_can_tx_spi_message_fill_fifo_complete
  unfold msg_at
  simp [List.getD_eq_getElem?_getD, List.getElem?_set, hi]

theorem message_init_xfer_len (L : Layout) (c : mcp25xxfd_can_priv) (i fifo : Nat)
    (hi : i < c.tx_queue.message.length) :
    (msg_at (mcp25xxfd_can_tx_message_init L c i fifo).tx_queue i).fill_fifo_xfer_len =
      L.sizeof_cmd + sizeof_can_obj_tx := by
  unfold mcp25xxfd_can_tx_message_init
  unfold msg_at
  simp [List.getD_eq_getElem?_getD, List.getElem?_set, hi]

/-- C26: for a message i whose slot f is in in_fill_fifo_transfer (32 bit
masks), mcp25xxfd_can_tx_spi_message_fill_fifo_complete leaves f out of
in_fill_fifo_transfer and in in_trigger_fifo_transfer, changes no other bit of
these two sets and leaves idle, in_can_transfer and transferred alone; the fill
transfer length of the message afterwards is command size + header size, the
value mcp25xxfd_can_tx_message_init sets, also when the message had just been
filled by mcp25xxfd_can_tx_fill_fifo_common with any data-length code. -/
theorem C26_fill_complete (L : Layout) (cpriv : mcp25xxfd_can_priv) (i : Nat)
    (hi : i < cpriv.tx_queue.message.length)
    (hin : cpriv.tx_queue.in_fill_fifo_transfer.testBit (fifo_of cpriv i) = true)
    (hfill : cpriv.tx_queue.in_fill_fifo_transfer < 2 ^ 32)
    (htrig : cpriv.tx_queue.in_trigger_fifo_transfer < 2 ^ 32) :
    (mcp25xxfd_can_tx_spi_message_fill_fifo_complete L i
      cpriv).tx_queue.in_fill_fifo_transfer.testBit (fifo_of cpriv i) = false ∧
    (mcp25xxfd_can_tx_spi_message_fill_fifo_complete L i
      cpriv).tx_queue.in_trigger_fifo_transfer.testBit (fifo_of cpriv i) = true ∧
    (∀ j, j ≠ fifo_of cpriv i →
      (mcp25xxfd_can_tx_spi_message_fill_fifo_complete L i
        cpriv).tx_queue.in_fill_fifo_transfer.testBit j =
          cpriv.tx_queue.in_fill_fifo_transfer.testBit j ∧
      (mcp25xxfd_can_tx_spi_message_fill_fifo_complete L i
        cpriv).tx_queue.in_trigger_fifo_transfer.testBit j =
          cpriv.tx_queue.in_trigger_fifo_transfer.testBit j) ∧
    (mcp25xxfd_can_tx_spi_message_fill_fifo_complete L i cpriv).tx_queue.idle =
      cpriv.tx_queue.idle ∧
    (mcp25xxfd_can_tx_spi_message_fill_fifo_complete L i cpriv).tx_queue.in_can_transfer =
      cpriv.tx_queue.in_can_transfer ∧
    (mcp25xxfd_can_tx_spi_message_fill_fifo_complete L i cpriv).tx_queue.transferred =
      cpriv.tx_queue.transferred ∧
    (msg_at (mcp25xxfd_can_tx_spi_message_fill_fifo_complete L i cpriv).tx_queue
      i).fill_fifo_xfer_len = L.sizeof_cmd + sizeof_can_obj_tx ∧
    (∀ (c0 : mcp25xxfd_can_priv) (fifo : Nat), i < c0.tx_queue.message.length →
      (msg_at (mcp25xxfd_can_tx_spi_message_fill_fifo_complete L i cpriv).tx_queue
        i).fill_fifo_xfer_len =
      (msg_at (mcp25xxfd_can_tx_message_init L c0 i fifo).tx_queue i).fill_fifo_xfer_len) ∧
    (∀ (tx : mcp25xxfd_can_obj_tx) (dlc : Nat) (data : List Nat),
      (msg_at (mcp25xxfd_can_tx_spi_message_fill_fifo_complete L i
        { cpriv with tx_queue := { cpriv.tx_queue with
            message := cpriv.tx_queue.message.set i
              (mcp25xxfd_can_tx_fill_fifo_common L (msg_at cpriv.tx_queue i) tx dlc
                data).1 } }).tx_queue i).fill_fifo_xfer_len =
        L.sizeof_cmd + sizeof_can_obj_tx) := by
  have hf32 : fifo_of cpriv i < 32 := testBit_lt_of_lt_two_pow hfill hin
  have hmv := move_spi_message_bits cpriv.tx_queue.in_fill_fifo_transfer
    cpriv.tx_queue.in_trigger_fifo_transfer (fifo_of cpriv i) hfill htrig hf32
  refine ⟨hmv.1, hmv.2.1, hmv.2.2, rfl, rfl, rfl, fill_complete_xfer_len L i cpriv hi, ?_, ?_⟩
  · intro c0 fifo hi0
    rw [fill_complete_xfer_len L i cpriv hi, message_init_xfer_len L c0 i fifo hi0]
  · intro tx dlc data
    apply fill_complete_xfer_len
    show i < (cpriv.tx_queue.message.set i _).length
    rw [List.length_set]
    exact hi

/-- Slot 0 of the example after a frame with three payload bytes: the fill
transaction has length 2 + 8 + 4 before the callback and 2 + 8 after it, and
the slot has moved on. -/
theorem C26_fill_complete_witness :
    (msg_at example_submitted.tx_queue 0).fill_fifo_xfer_len = 14 ∧
    (msg_at (mcp25xxfd_can_tx_spi_message_fill_fifo_complete example_layout 0
      example_submitted).tx_queue 0).fill_fifo_xfer_len =
        example_layout.sizeof_cmd + sizeof_can_obj_tx ∧
    (mcp25xxfd_can_tx_spi_message_fill_fifo_complete example_layout 0
      example_submitted).tx_queue.in_trigger_fifo_transfer.testBit
        (fifo_of example_submitted 0) = true :=
  have h := C26_fill_complete example_layout example_submitted 0
    (by decide) (by decide) (by decide) (by decide)
  ⟨by decide, h.2.2.2.2.2.2.1, h.2.1⟩

theorem disjoint_bits (a b : Nat) (h : a &&& b = 0) (j : Nat) : bit a j + bit b j ≤ 1 := by
  have hj := (eq_zero_iff_testBit _).1 h j
  rw [Nat.testBit_and] at hj
  unfold bit
  revert hj
  cases a.testBit j <;> cases b.testBit j <;> simp

/-- The partition invariant of a slot range within the 32 slots of the masks
says that every slot of the range is in exactly one set and no other slot is
in any. -/
theorem partition_owner_invariant (c : mcp25xxfd_can_priv) (h : partition_invariant c)
    (hrange : c.tx_start + c.tx_count ≤ 32) : owner_invariant c := by
  obtain ⟨⟨d1, d2, d3, d4, d5, d6, d7, d8, d9, d10⟩, hu⟩ := h
  refine ⟨hrange, ?_⟩
  intro j
  have e1 := disjoint_bits _ _ d1 j
  have e2 := disjoint_bits _ _ d2 j
  have e3 := disjoint_bits _ _ d3 j
  have e4 := disjoint_bits _ _ d4 j
  have e5 := disjoint_bits _ _ d5 j
  have e6 := disjoint_bits _ _ d6 j
  have e7 := disjoint_bits _ _ d7 j
  have e8 := disjoint_bits _ _ d8 j
  have e9 := disjoint_bits _ _ d9 j
  have e10 := disjoint_bits _ _ d10 j
  have hb : (c.tx_queue.idle ||| c.tx_queue.in_fill_fifo_transfer |||
      c.tx_queue.in_trigger_fifo_transfer ||| c.tx_queue.in_can_transfer |||
      c.tx_queue.transferred).testBit j = (slot_set c.tx_start c.tx_count).testBit j := by
    rw [hu]
  rw [testBit_slot_set] at hb
  simp only [Nat.testBit_or] at hb
  unfold owner_count claim_count
  unfold bit at e1 e2 e3 e4 e5 e6 e7 e8 e9 e10 ⊢
  by_cases hr : c.tx_start ≤ j ∧ j < c.tx_start + c.tx_count
  · rw [if_pos hr]
    rw [decide_eq_true hr] at hb
    revert hb e1 e2 e3 e4 e5 e6 e7 e8 e9 e10
    cases c.tx_queue.idle.testBit j <;> cases c.tx_queue.in_fill_fifo_transfer.testBit j <;>
      cases c.tx_queue.in_trigger_fifo_transfer.testBit j <;>
      cases c.tx_queue.in_can_transfer.testBit j <;>
      cases c.tx_queue.transferred.testBit j <;> simp
  · rw [if_neg hr]
    rw [decide_eq_false hr] at hb
    revert hb
    cases c.tx_queue.idle.testBit j <;> cases c.tx_queue.in_fill_fifo_transfer.testBit j <;>
      cases c.tx_queue.in_trigger_fifo_transfer.testBit j <;>
      cases c.tx_queue.in_can_transfer.testBit j <;>
      cases c.tx_queue.transferred.testBit j <;> simp

/-- Under the partition invariant of a range within 32 slots the five masks are
32 bit values. -/
theorem partition_masks_u32 (c : mcp25xxfd_can_priv) (h : owner_invariant c) :
    masks_u32 c.tx_queue := by
  have hb : ∀ (m : Nat), (∀ j, bit m j ≤ owner_count c.tx_queue j) → m < 2 ^ 32 := by
    intro m hm
    apply Nat.lt_pow_two_of_testBit
    intro j hj
    have h1 := hm j
    rw [h.2 j, if_neg (by have := h.1; omega)] at h1
    exact (bit_eq_zero_iff m j).1 (by omega)
  unfold masks_u32
  refine ⟨hb _ ?_, hb _ ?_, hb _ ?_, hb _ ?_, hb _ ?_⟩ <;>
    (intro j; unfold owner_count claim_count; omega)
/-- C27: in a state that satisfies the partition invariant (slot range within
the 32 slots of the masks), for a message i whose slot f is in
in_fill_fifo_transfer, the fill completion callback followed by the trigger
completion callback leaves f in in_can_transfer and in no other set, leaves the
membership of every other slot in all five sets unchanged, and the partition
invariant holds after each of the two callbacks. -/
theorem C27_callback_lifecycle (L : Layout) (cpriv : mcp25xxfd_can_priv) (i : Nat)
    (hpart : partition_invariant cpriv) (hrange : cpriv.tx_start + cpriv.tx_count ≤ 32)
    (hin : cpriv.tx_queue.in_fill_fifo_transfer.testBit (fifo_of cpriv i) = true) :
    partition_invariant (mcp25xxfd_can_tx_spi_message_fill_fifo_complete L i cpriv) ∧
    partition_invariant (mcp25xxfd_can_tx_spi_message_trigger_fifo_complete i
      (mcp25xxfd_can_tx_spi_message_fill_fifo_complete L i cpriv)) ∧
    (mcp25xxfd_can_tx_spi_message_trigger_fifo_complete i
      (mcp25xxfd_can_tx_spi_message_fill_fifo_complete L i
        cpriv)).tx_queue.in_can_transfer.testBit (fifo_of cpriv i) = true ∧
    (mcp25xxfd_can_tx_spi_message_trigger_fifo_complete i
      (mcp25xxfd_can_tx_spi_message_fill_fifo_complete L i
        cpriv)).tx_queue.idle.testBit (fifo_of cpriv i) = false ∧
    (mcp25xxfd_can_tx_spi_message_trigger_fifo_complete i
      (mcp25xxfd_can_tx_spi_message_fill_fifo_complete L i
        cpriv)).tx_queue.in_fill_fifo_transfer.testBit (fifo_of cpriv i) = false ∧
    (mcp25xxfd_can_tx_spi_message_trigger_fifo_complete i
      (mcp25xxfd_can_tx_spi_message_fill_fifo_complete L i
        cpriv)).tx_queue.in_trigger_fifo_transfer.testBit (fifo_of cpriv i) = false ∧
    (mcp25xxfd_can_tx_spi_message_trigger_fifo_complete i
      (mcp25xxfd_can_tx_spi_message_fill_fifo_complete L i
        cpriv)).tx_queue.transferred.testBit (fifo_of cpriv i) = false ∧
    ∀ j, j ≠ fifo_of cpriv i →
      (mcp25xxfd_can_tx_spi_message_trigger_fifo_complete i
        (mcp25xxfd_can_tx_spi_message_fill_fifo_complete L i
          cpriv)).tx_queue.idle.testBit j = cpriv.tx_queue.idle.testBit j ∧
      (mcp25xxfd_can_tx_spi_message_trigger_fifo_complete i
        (mcp25xxfd_can_tx_spi_message_fill_fifo_complete L i
          cpriv)).tx_queue.in_fill_fifo_transfer.testBit j =
            cpriv.tx_queue.in_fill_fifo_transfer.testBit j ∧
      (mcp25xxfd_can_tx_spi_message_trigger_fifo_complete i
        (mcp25xxfd_can_tx_spi_message_fill_fifo_complete L i
          cpriv)).tx_queue.in_trigger_fifo_transfer.testBit j =
            cpriv.tx_queue.in_trigger_fifo_transfer.testBit j ∧
      (mcp25xxfd_can_tx_spi_message_trigger_fifo_complete i
        (mcp25xxfd_can_tx_spi_message_fill_fifo_complete L i
          cpriv)).tx_queue.in_can_transfer.testBit j =
            cpriv.tx_queue.in_can_transfer.testBit j ∧
      (mcp25xxfd_can_tx_spi_message_trigger_fifo_complete i
        (mcp25xxfd_can_tx_spi_message_fill_fifo_complete L i
          cpriv)).tx_queue.transferred.testBit j = cpriv.tx_queue.transferred.testBit j := by
  have ho := partition_owner_invariant cpriv hpart hrange
  have hu := partition_masks_u32 cpriv ho
  have hu2 := hu.2.1
  have hu3 := hu.2.2.1
  have hu4 := hu.2.2.2.1
  have hf32 : fifo_of cpriv i < 32 := testBit_lt_of_lt_two_pow hu2 hin
  obtain ⟨a1, a2, a3, a4, a5, _, _, a8, a9, a10⟩ := fill_fifo_complete_state L i cpriv
  obtain ⟨b1, b2, b3, b4, b5, _, _, b8, b9, _⟩ := trigger_fifo_complete_state i
    (mcp25xxfd_can_tx_spi_message_fill_fifo_complete L i cpriv)
  rw [a10 i] at b3 b4
  have hm1 : mask_step True cpriv.tx_queue
      (mcp25xxfd_can_tx_spi_message_fill_fifo_complete L i cpriv).tx_queue :=
    mask_step.filled (fifo_of cpriv i) ((bit_eq_one_iff _ _).2 hin) a1 a2 a3 a4 a5
  have hu1 := mask_step_u32 hu hm1
  have ho1 : owner_invariant (mcp25xxfd_can_tx_spi_message_fill_fifo_complete L i cpriv) := by
    refine ⟨by rw [a8, a9]; exact ho.1, ?_⟩
    intro j
    rw [mask_step_owner_count hu (owner_count_le_one cpriv ho) hm1 j, a8, a9]
    exact ho.2 j
  have hbit1 : bit (mcp25xxfd_can_tx_spi_message_fill_fifo_complete L i
      cpriv).tx_queue.in_trigger_fifo_transfer (fifo_of cpriv i) = 1 := by
    rw [a3, bit_add_lt _ _ _ (by omega)]
    simp [hf32]
  have hm2 : mask_step True
      (mcp25xxfd_can_tx_spi_message_fill_fifo_complete L i cpriv).tx_queue
      (mcp25xxfd_can_tx_spi_message_trigger_fifo_complete i
        (mcp25xxfd_can_tx_spi_message_fill_fifo_complete L i cpriv)).tx_queue :=
    mask_step.triggered (fifo_of cpriv i) hbit1 b1 b2 b3 b4 b5
  have ho2 : owner_invariant (mcp25xxfd_can_tx_spi_message_trigger_fifo_complete i
      (mcp25xxfd_can_tx_spi_message_fill_fifo_complete L i cpriv)) := by
    refine ⟨by rw [b8, b9]; exact ho1.1, ?_⟩
    intro j
    rw [mask_step_owner_count hu1 (owner_count_le_one _ ho1) hm2 j, b8, b9]
    exact ho1.2 j
  have hown := ho.2 (fifo_of cpriv i)
  have hone := owner_count_le_one cpriv ho (fifo_of cpriv i)
  unfold owner_count claim_count at hone
  have hfillbit := (bit_eq_one_iff _ _).2 hin
  have hidle0 : cpriv.tx_queue.idle.testBit (fifo_of cpriv i) = false :=
    (bit_eq_zero_iff _ _).1 (by omega)
  have htr0 : cpriv.tx_queue.transferred.testBit (fifo_of cpriv i) = false :=
    (bit_eq_zero_iff _ _).1 (by omega)
  have hmvA := move_spi_message_bits cpriv.tx_queue.in_fill_fifo_transfer
    cpriv.tx_queue.in_trigger_fifo_transfer (fifo_of cpriv i) hu2 hu3 hf32
  have hmvB := move_spi_message_bits
    (mcp25xxfd_can_tx_queue_add_spi_message cpriv.tx_queue.in_trigger_fifo_transfer
      (fifo_of cpriv i))
    cpriv.tx_queue.in_can_transfer (fifo_of cpriv i) (add_lt _ _) hu4 hf32
  unfold mcp25xxfd_can_tx_queue_move_spi_message at hmvA hmvB
  rw [a3] at b3
  rw [a4] at b4
  rw [a2] at b2
  rw [a1] at b1
  rw [a5] at b5
  refine ⟨owner_invariant_partition _ ho1, owner_invariant_partition _ ho2, ?_, ?_, ?_, ?_, ?_,
    ?_⟩
  · rw [b4]; exact hmvB.2.1
  · rw [b1]; exact hidle0
  · rw [b2]; exact hmvA.1
  · rw [b3]; exact hmvB.1
  · rw [b5]; exact htr0
  · intro j hj
    rw [b1, b2, b3, b4, b5]
    refine ⟨rfl, (hmvA.2.2 j hj).1, ?_, (hmvB.2.2 j hj).2, rfl⟩
    rw [(hmvB.2.2 j hj).1, (hmvA.2.2 j hj).2]

/-- The submitted slot 0 of the two-slot example goes through both callbacks
and ends in in_can_transfer with the partition invariant intact. -/
theorem C27_callback_lifecycle_witness :
    partition_invariant (mcp25xxfd_can_tx_spi_message_fill_fifo_complete example_layout 0
      example_submitted) ∧
    partition_invariant (mcp25xxfd_can_tx_spi_message_trigger_fifo_complete 0
      (mcp25xxfd_can_tx_spi_message_fill_fifo_complete example_layout 0 example_submitted)) ∧
    (mcp25xxfd_can_tx_spi_message_trigger_fifo_complete 0
      (mcp25xxfd_can_tx_spi_message_fill_fifo_complete example_layout 0
        example_submitted)).tx_queue.in_can_transfer.testBit (fifo_of example_submitted 0)
          = true :=
  have h := C27_callback_lifecycle example_layout example_submitted 0
    (by decide) (by decide) (by decide)
  ⟨h.1, h.2.1, h.2.2.1⟩

/-! ## Flow-control state along runs -/

theorem flow_trace_append (t u : List Event) :
    flow_trace (t ++ u) = flow_trace t ++ flow_trace u := by
  simp [flow_trace]

theorem flow_trace_flow_events (cur req : tx_queue_state) :
    flow_trace (flow_events cur req) = flow_events cur req := by
  cases cur <;> cases req <;> rfl

theorem netif_events_flow_trace (t : List Event) :
    netif_events (flow_trace t) = netif_events t := by
  unfold netif_events flow_trace
  rw [List.filter_filter]
  congr 1
  funext e
  cases e <;> rfl

theorem unsupported_events_flow_trace (t : List Event) :
    unsupported_events (flow_trace t) = unsupported_events t := by
  unfold unsupported_events flow_trace
  rw [List.filter_filter]
  congr 1
  funext e
  cases e <;> rfl

theorem unsupported_events_append (t u : List Event) :
    unsupported_events (t ++ u) = unsupported_events t ++ unsupported_events u := by
  simp [unsupported_events]

theorem flow_run_append (cur : tx_queue_state) (r1 r2 : List tx_queue_state) :
    flow_run cur (r1 ++ r2) =
      ((flow_run (flow_run cur r1).1 r2).1,
        (flow_run cur r1).2 ++ (flow_run (flow_run cur r1).1 r2).2) := by
  induction r1 generalizing cur with
  | nil => simp [flow_run]
  | cons req rest ih =>
    rw [List.cons_append]
    simp only [flow_run]
    rw [ih]
    simp only [List.append_assoc]

theorem flow_trace_flow_run (cur : tx_queue_state) (reqs : List tx_queue_state) :
    flow_trace (flow_run cur reqs).2 = (flow_run cur reqs).2 := by
  induction reqs generalizing cur with
  | nil => rfl
  | cons req rest ih =>
    simp only [flow_run, flow_trace_append, flow_trace_flow_events, ih]

/-- A sequence of calls of manage_nolock follows the tables. -/
theorem manage_seq_eq (reqs : List tx_queue_state) : ∀ c : mcp25xxfd_can_priv,
    manage_seq reqs c =
      { c with tx_queue := { c.tx_queue with state := (flow_run c.tx_queue.state reqs).1 }
               trace := c.trace ++ (flow_run c.tx_queue.state reqs).2 } := by
  induction reqs with
  | nil => intro c; simp [manage_seq, flow_run]
  | cons req rest ih =>
    intro c
    rw [manage_seq, ih, manage_nolock_eq]
    simp [flow_run]
theorem flow_run_nil (cur : tx_queue_state) : flow_run cur [] = (cur, []) := rfl

theorem flow_run_single (cur req : tx_queue_state) :
    flow_run cur [req] = (flow_next cur req, flow_events cur req) := by
  simp [flow_run]

theorem claimed_flow (c : mcp25xxfd_can_priv) (i : Nat) :
    ∃ reqs, (claimed c i).tx_queue.state = (flow_run c.tx_queue.state reqs).1 ∧
      (claimed c i).trace = c.trace ++ (flow_run c.tx_queue.state reqs).2 := by
  by_cases hz : mcp25xxfd_can_tx_queue_remove_spi_message c.tx_queue.idle (fifo_of c i) = 0
  · refine ⟨[MCP25XXFD_CAN_TX_QUEUE_STATE_RUNABLE], ?_, ?_⟩
    · rw [flow_run_single]
      unfold claimed
      dsimp only
      rw [if_pos hz]
    · rw [flow_run_single]
      unfold claimed
      dsimp only
      rw [if_pos hz]
  · refine ⟨[], ?_, ?_⟩
    · rw [flow_run_nil]
      unfold claimed
      dsimp only
      rw [if_neg hz]
    · rw [flow_run_nil]
      unfold claimed
      dsimp only
      rw [if_neg hz]

theorem start_xmit_submit_flow (skb : sk_buff) (i : Nat) (c : mcp25xxfd_can_priv) :
    ∃ reqs, (start_xmit_submit skb i c).2.tx_queue.state = (flow_run c.tx_queue.state reqs).1 ∧
      flow_trace (start_xmit_submit skb i c).2.trace =
        flow_trace c.trace ++ (flow_run c.tx_queue.state reqs).2 := by
  by_cases h0 : spi_ret c.spi_replies 0 = 0
  · by_cases h1 : spi_ret c.spi_replies 1 = 0
    · rw [start_xmit_submit_accepted skb i c h0 h1]
      refine ⟨[], rfl, ?_⟩
      show flow_trace (c.trace ++ _) = _
      rw [flow_trace_append, flow_run_nil]
      rfl
    · rw [start_xmit_submit_trigger_rejected skb i c h0 h1]
      refine ⟨[MCP25XXFD_CAN_TX_QUEUE_STATE_STOPPED], ?_, ?_⟩
      · rw [flow_run_single]
      · show flow_trace ((c.trace ++ _) ++ _) = _
        rw [flow_trace_append, flow_trace_append, flow_trace_flow_events, flow_run_single]
        simp [flow_trace, Event.is_flow, Event.is_netif, Event.is_unsupported]
  · rw [start_xmit_submit_fill_rejected skb i c h0]
    refine ⟨[MCP25XXFD_CAN_TX_QUEUE_STATE_STOPPED], ?_, ?_⟩
    · rw [flow_run_single]
    · show flow_trace ((c.trace ++ _) ++ _) = _
      rw [flow_trace_append, flow_trace_append, flow_trace_flow_events, flow_run_single]
      simp [flow_trace, Event.is_flow, Event.is_netif, Event.is_unsupported]

theorem start_xmit_flow (L : Layout) (skb : sk_buff) (c : mcp25xxfd_can_priv) :
    ∃ reqs, (mcp25xxfd_can_tx_start_xmit L skb c).2.tx_queue.state =
        (flow_run c.tx_queue.state reqs).1 ∧
      flow_trace (mcp25xxfd_can_tx_start_xmit L skb c).2.trace =
        flow_trace c.trace ++ (flow_run c.tx_queue.state reqs).2 := by
  by_cases hv : can_dropped_invalid_skb skb = true
  · have heq : mcp25xxfd_can_tx_start_xmit L skb c =
        (NETDEV_TX_OK, { c with stats_tx_dropped := (c.stats_tx_dropped + 1) % 2 ^ 64 }) := by
      unfold mcp25xxfd_can_tx_start_xmit
      simp only [hv, if_true]
    rw [heq]
    exact ⟨[], rfl, (List.append_nil _).symm⟩
  · have hv2 : can_dropped_invalid_skb skb = false := by simpa using hv
    cases hfirst : mcp25xxfd_can_tx_queue_first_spi_message c.tx_queue c.tx_queue.idle with
    | none =>
      rw [start_xmit_busy L skb c hv2 hfirst, manage_nolock_eq]
      refine ⟨[MCP25XXFD_CAN_TX_QUEUE_STATE_STOPPED], ?_, ?_⟩
      · rw [flow_run_single]
      · show flow_trace (c.trace ++ _) = _
        rw [flow_trace_append, flow_trace_flow_events, flow_run_single]
    | some i =>
      rw [start_xmit_claim L skb c i hv2 hfirst]
      obtain ⟨r1, hs1, ht1⟩ := claimed_flow c i
      obtain ⟨r2, hs2, ht2⟩ := start_xmit_submit_flow (start_xmit_fill L skb i (claimed c i)).1 i
        (start_xmit_fill L skb i (claimed c i)).2
      have e1 : (start_xmit_fill L skb i (claimed c i)).2.tx_queue.state =
          (claimed c i).tx_queue.state := rfl
      have e2 : (start_xmit_fill L skb i (claimed c i)).2.trace = (claimed c i).trace := rfl
      rw [e1, hs1] at hs2
      rw [e2, ht1, e1, hs1] at ht2
      refine ⟨r1 ++ r2, ?_, ?_⟩
      · rw [flow_run_append]
        exact hs2
      · rw [flow_run_append, ht2, flow_trace_append, flow_trace_flow_run, List.append_assoc]

theorem txatif_fifo_flow (L : Layout) (c : mcp25xxfd_can_priv) (fifo : Nat) :
    (mcp25xxfd_can_tx_handle_int_txatif_fifo L c fifo).2.tx_queue.state = c.tx_queue.state ∧
    flow_trace (mcp25xxfd_can_tx_handle_int_txatif_fifo L c fifo).2.trace =
      flow_trace c.trace := by
  unfold mcp25xxfd_can_tx_handle_int_txatif_fifo
  simp only [cmd_read_eq, cmd_write_mask_eq]
  split
  · refine ⟨rfl, ?_⟩
    show flow_trace (c.trace ++ _) = _
    rw [flow_trace_append]
    simp [flow_trace, Event.is_flow, Event.is_netif, Event.is_unsupported]
  · split
    · refine ⟨rfl, ?_⟩
      show flow_trace ((c.trace ++ _) ++ _) = _
      rw [flow_trace_append, flow_trace_append]
      simp [flow_trace, Event.is_flow, Event.is_netif, Event.is_unsupported]
    · refine ⟨rfl, ?_⟩
      show flow_trace (((c.trace ++ _) ++ _) ++ _) = _
      rw [flow_trace_append, flow_trace_append, flow_trace_append]
      simp [flow_trace, Event.is_flow, Event.is_netif, Event.is_unsupported]

/-- Every step of the driver acts on the stored flow-control state and on the
wake, stop and unsupported-state events as a sequence of requests to the
flow-control tables does. -/
theorem step_flow (L : Layout) (a : Action) (c : mcp25xxfd_can_priv) :
    ∃ reqs, (step L a c).tx_queue.state = (flow_run c.tx_queue.state reqs).1 ∧
      flow_trace (step L a c).trace =
        flow_trace c.trace ++ (flow_run c.tx_queue.state reqs).2 := by
  cases a with
  | start_xmit skb => exact start_xmit_flow L skb c
  | spi_complete =>
    refine ⟨[], ?_, ?_⟩
    · show (spi_complete_next L c).tx_queue.state = _
      cases h : c.spi_pending with
      | nil => rw [spi_complete_next_nil L c h]; rfl
      | cons m rest =>
        cases m with
        | fill_fifo k => rw [spi_complete_next_fill L c k rest h]; rfl
        | trigger_fifo k => rw [spi_complete_next_trigger L c k rest h]; rfl
    · show flow_trace (spi_complete_next L c).trace = _
      rw [flow_run_nil, List.append_nil]
      cases h : c.spi_pending with
      | nil => rw [spi_complete_next_nil L c h]
      | cons m rest =>
        cases m with
        | fill_fifo k => rw [spi_complete_next_fill L c k rest h]; rfl
        | trigger_fifo k => rw [spi_complete_next_trigger L c k rest h]; rfl
  | submit_frame fifo =>
    refine ⟨[], rfl, ?_⟩
    show flow_trace (c.trace ++ [Event.can_get_echo_skb fifo]) = _
    rw [flow_trace_append, flow_run_nil]
    rfl
  | handle_int_txatif_fifo fifo =>
    refine ⟨[], (txatif_fifo_flow L c fifo).1, ?_⟩
    show flow_trace (mcp25xxfd_can_tx_handle_int_txatif_fifo L c fifo).2.trace = _
    rw [(txatif_fifo_flow L c fifo).2, flow_run_nil, List.append_nil]
  | queue_restart =>
    show ∃ reqs, (mcp25xxfd_can_tx_queue_restart c).tx_queue.state = _ ∧
      flow_trace (mcp25xxfd_can_tx_queue_restart c).trace = _
    rcases restart_state c with h | ⟨_, _, _, _, h⟩
    · rw [h]
      exact ⟨[], rfl, (List.append_nil _).symm⟩
    · rw [h]
      refine ⟨[MCP25XXFD_CAN_TX_QUEUE_STATE_RESTART], ?_, ?_⟩
      · rw [flow_run_single]
      · show flow_trace (c.trace ++ _) = _
        rw [flow_trace_append, flow_trace_flow_events, flow_run_single]
  | bus replies => exact ⟨[], rfl, (List.append_nil _).symm⟩

theorem run_flow (L : Layout) : ∀ (as : List Action) (c : mcp25xxfd_can_priv),
    ∃ reqs, (run L as c).tx_queue.state = (flow_run c.tx_queue.state reqs).1 ∧
      flow_trace (run L as c).trace =
        flow_trace c.trace ++ (flow_run c.tx_queue.state reqs).2 := by
  intro as
  induction as with
  | nil => intro c; exact ⟨[], rfl, (List.append_nil _).symm⟩
  | cons a rest ih =>
    intro c
    obtain ⟨r1, hs1, ht1⟩ := step_flow L a c
    obtain ⟨r2, hs2, ht2⟩ := ih (step L a c)
    rw [hs1] at hs2
    rw [ht1, hs1] at ht2
    refine ⟨r1 ++ r2, ?_, ?_⟩
    · rw [flow_run_append]; exact hs2
    · rw [flow_run_append]
      show flow_trace (run L rest (step L a c)).trace = _
      rw [ht2, List.append_assoc]

theorem flow_next_supported (cur req : tx_queue_state)
    (h : cur ≠ MCP25XXFD_CAN_TX_QUEUE_STATE_RESTART) :
    flow_next cur req ≠ MCP25XXFD_CAN_TX_QUEUE_STATE_RESTART ∧
      unsupported_events (flow_events cur req) = [] := by
  cases cur <;> cases req <;> first | exact absurd rfl h | exact ⟨by decide, rfl⟩

theorem flow_run_supported (reqs : List tx_queue_state) : ∀ cur : tx_queue_state,
    cur ≠ MCP25XXFD_CAN_TX_QUEUE_STATE_RESTART →
    (flow_run cur reqs).1 ≠ MCP25XXFD_CAN_TX_QUEUE_STATE_RESTART ∧
      unsupported_events (flow_run cur reqs).2 = [] := by
  induction reqs with
  | nil => intro cur h; exact ⟨h, rfl⟩
  | cons req rest ih =>
    intro cur h
    obtain ⟨h1, h2⟩ := flow_next_supported cur req h
    obtain ⟨h3, h4⟩ := ih (flow_next cur req) h1
    refine ⟨h3, ?_⟩
    show unsupported_events (flow_events cur req ++ _) = []
    rw [unsupported_events_append, h2, h4]
    rfl

theorem supported_of_flow (s : tx_queue_state) (t t2 : List Event) (s2 : tx_queue_state)
    (reqs : List tx_queue_state) (hs : s ≠ MCP25XXFD_CAN_TX_QUEUE_STATE_RESTART)
    (h1 : s2 = (flow_run s reqs).1) (h2 : flow_trace t2 = flow_trace t ++ (flow_run s reqs).2) :
    s2 ≠ MCP25XXFD_CAN_TX_QUEUE_STATE_RESTART ∧
      unsupported_events t2 = unsupported_events t := by
  obtain ⟨a, b⟩ := flow_run_supported reqs s hs
  refine ⟨by rw [h1]; exact a, ?_⟩
  rw [← unsupported_events_flow_trace t2, h2, unsupported_events_append,
    unsupported_events_flow_trace, b, List.append_nil]

theorem restart_flow (c : mcp25xxfd_can_priv) :
    ∃ reqs, (mcp25xxfd_can_tx_queue_restart c).tx_queue.state =
        (flow_run c.tx_queue.state reqs).1 ∧
      flow_trace (mcp25xxfd_can_tx_queue_restart c).trace =
        flow_trace c.trace ++ (flow_run c.tx_queue.state reqs).2 := by
  rcases restart_state c with h | ⟨_, _, _, _, h⟩
  · rw [h]
    exact ⟨[], rfl, (List.append_nil _).symm⟩
  · rw [h]
    refine ⟨[MCP25XXFD_CAN_TX_QUEUE_STATE_RESTART], ?_, ?_⟩
    · rw [flow_run_single]
    · show flow_trace (c.trace ++ _) = _
      rw [flow_trace_append, flow_trace_flow_events, flow_run_single]

/-- C29: when the stored flow-control state is Runnable, Started or Stopped, it
is again one of these three after mcp25xxfd_can_tx_queue_manage_nolock with any
requested state (Restarting included), after restart, after a submission, and
after any sequence of steps of the driver; and none of them takes the
unsupported-state branch: no error line of that branch is added to the trace. -/
theorem C29_never_restarting (cpriv : mcp25xxfd_can_priv)
    (h : cpriv.tx_queue.state ≠ MCP25XXFD_CAN_TX_QUEUE_STATE_RESTART) :
    (∀ req, (mcp25xxfd_can_tx_queue_manage_nolock cpriv req).tx_queue.state ≠
        MCP25XXFD_CAN_TX_QUEUE_STATE_RESTART ∧
      unsupported_events (mcp25xxfd_can_tx_queue_manage_nolock cpriv req).trace =
        unsupported_events cpriv.trace) ∧
    ((mcp25xxfd_can_tx_queue_restart cpriv).tx_queue.state ≠
        MCP25XXFD_CAN_TX_QUEUE_STATE_RESTART ∧
      unsupported_events (mcp25xxfd_can_tx_queue_restart cpriv).trace =
        unsupported_events cpriv.trace) ∧
    (∀ (L : Layout) (skb : sk_buff),
      (mcp25xxfd_can_tx_start_xmit L skb cpriv).2.tx_queue.state ≠
        MCP25XXFD_CAN_TX_QUEUE_STATE_RESTART ∧
      unsupported_events (mcp25xxfd_can_tx_start_xmit L skb cpriv).2.trace =
        unsupported_events cpriv.trace) ∧
    (∀ (L : Layout) (as : List Action),
      (run L as cpriv).tx_queue.state ≠ MCP25XXFD_CAN_TX_QUEUE_STATE_RESTART ∧
      unsupported_events (run L as cpriv).trace = unsupported_events cpriv.trace) := by
  refine ⟨?_, ?_, ?_, ?_⟩
  · intro req
    rw [manage_nolock_eq]
    obtain ⟨a, b⟩ := flow_next_supported cpriv.tx_queue.state req h
    refine ⟨a, ?_⟩
    show unsupported_events (cpriv.trace ++ _) = _
    rw [unsupported_events_append, b, List.append_nil]
  · obtain ⟨reqs, hs, ht⟩ := restart_flow cpriv
    exact supported_of_flow _ _ _ _ reqs h hs ht
  · intro L skb
    obtain ⟨reqs, hs, ht⟩ := start_xmit_flow L skb cpriv
    exact supported_of_flow _ _ _ _ reqs h hs ht
  · intro L as
    obtain ⟨reqs, hs, ht⟩ := run_flow L as cpriv
    exact supported_of_flow _ _ _ _ reqs h hs ht

/-- A Runnable queue asked for Restarting, and the run that fills and releases
the single slot and restarts, never store Restarting. -/
theorem C29_never_restarting_witness :
    (mcp25xxfd_can_tx_queue_manage_nolock example_runnable
      MCP25XXFD_CAN_TX_QUEUE_STATE_RESTART).tx_queue.state ≠
        MCP25XXFD_CAN_TX_QUEUE_STATE_RESTART ∧
    (run example_layout [Action.spi_complete, Action.spi_complete, Action.submit_frame 0,
      Action.queue_restart] example_runnable).tx_queue.state ≠
        MCP25XXFD_CAN_TX_QUEUE_STATE_RESTART :=
  have h := C29_never_restarting example_runnable (by decide)
  ⟨(h.1 MCP25XXFD_CAN_TX_QUEUE_STATE_RESTART).1,
    (h.2.2.2 example_layout [Action.spi_complete, Action.spi_complete, Action.submit_frame 0,
      Action.queue_restart]).1⟩
theorem netif_flow_events (cur req : tx_queue_state) :
    netif_events (flow_events cur req) =
      if cur ≠ MCP25XXFD_CAN_TX_QUEUE_STATE_STARTED ∧
          flow_next cur req = MCP25XXFD_CAN_TX_QUEUE_STATE_STARTED then
        [Event.netif_wake_queue]
      else if cur = MCP25XXFD_CAN_TX_QUEUE_STATE_STARTED ∧
          flow_next cur req ≠ MCP25XXFD_CAN_TX_QUEUE_STATE_STARTED then
        [Event.netif_stop_queue]
      else [] := by
  cases cur <;> cases req <;> rfl

theorem alternating_concat (s : List Event) (a : Event) (h : alternating s)
    (hl : s.getLast? ≠ some a) : alternating (s ++ [a]) := by
  unfold alternating at h ⊢
  rw [List.chain'_append]
  refine ⟨h, List.chain'_singleton a, ?_⟩
  intro x hx y hy
  have hy2 : a = y := by simpa using hy
  subst hy2
  intro hxy
  subst hxy
  exact hl hx

/-- One request keeps the agreement between the signals sent and the stored
state. -/
theorem flow_step_agrees (cur req : tx_queue_state) (s : List Event)
    (halt : alternating s)
    (hlast : s.getLast? = some Event.netif_wake_queue ↔
      cur = MCP25XXFD_CAN_TX_QUEUE_STATE_STARTED) :
    alternating (s ++ netif_events (flow_events cur req)) ∧
    ((s ++ netif_events (flow_events cur req)).getLast? = some Event.netif_wake_queue ↔
      flow_next cur req = MCP25XXFD_CAN_TX_QUEUE_STATE_STARTED) := by
  rw [netif_flow_events]
  by_cases h1 : cur ≠ MCP25XXFD_CAN_TX_QUEUE_STATE_STARTED ∧
      flow_next cur req = MCP25XXFD_CAN_TX_QUEUE_STATE_STARTED
  · rw [if_pos h1]
    refine ⟨alternating_concat s _ halt (fun hw => h1.1 (hlast.1 hw)), ?_⟩
    rw [List.getLast?_append]
    simp [h1.2]
  · rw [if_neg h1]
    by_cases h2 : cur = MCP25XXFD_CAN_TX_QUEUE_STATE_STARTED ∧
        flow_next cur req ≠ MCP25XXFD_CAN_TX_QUEUE_STATE_STARTED
    · rw [if_pos h2]
      have hw := hlast.2 h2.1
      refine ⟨alternating_concat s _ halt (by rw [hw]; decide), ?_⟩
      rw [List.getLast?_append]
      simp [h2.2]
    · rw [if_neg h2, List.append_nil]
      refine ⟨halt, ?_⟩
      rw [hlast]
      by_cases hc : cur = MCP25XXFD_CAN_TX_QUEUE_STATE_STARTED
      · have : flow_next cur req = MCP25XXFD_CAN_TX_QUEUE_STATE_STARTED := by
          by_contra hn; exact h2 ⟨hc, hn⟩
        exact ⟨fun _ => this, fun _ => hc⟩
      · have : ¬ flow_next cur req = MCP25XXFD_CAN_TX_QUEUE_STATE_STARTED :=
          fun hn => h1 ⟨hc, hn⟩
        exact ⟨fun e => absurd e hc, fun e => absurd e this⟩

theorem flow_run_agrees (reqs : List tx_queue_state) : ∀ (cur : tx_queue_state) (s : List Event),
    alternating s →
    (s.getLast? = some Event.netif_wake_queue ↔ cur = MCP25XXFD_CAN_TX_QUEUE_STATE_STARTED) →
    alternating (s ++ netif_events (flow_run cur reqs).2) ∧
    ((s ++ netif_events (flow_run cur reqs).2).getLast? = some Event.netif_wake_queue ↔
      (flow_run cur reqs).1 = MCP25XXFD_CAN_TX_QUEUE_STATE_STARTED) := by
  induction reqs with
  | nil =>
    intro cur s halt hlast
    have e : s ++ netif_events (flow_run cur []).2 = s := List.append_nil s
    rw [e]
    exact ⟨halt, hlast⟩
  | cons req rest ih =>
    intro cur s halt hlast
    obtain ⟨a, b⟩ := flow_step_agrees cur req s halt hlast
    obtain ⟨c, d⟩ := ih (flow_next cur req) _ a b
    show alternating (s ++ netif_events (flow_events cur req ++ _)) ∧
      ((s ++ netif_events (flow_events cur req ++ _)).getLast? = _ ↔ _)
    rw [netif_events_append, ← List.append_assoc]
    exact ⟨c, d⟩

theorem agrees_of_flow (c c2 : mcp25xxfd_can_priv) (reqs : List tx_queue_state)
    (h : flow_agrees c) (hs : c2.tx_queue.state = (flow_run c.tx_queue.state reqs).1)
    (ht : flow_trace c2.trace = flow_trace c.trace ++ (flow_run c.tx_queue.state reqs).2) :
    flow_agrees c2 := by
  obtain ⟨a, b⟩ := flow_run_agrees reqs c.tx_queue.state (netif_events c.trace) h.1 h.2
  have e : netif_events c2.trace =
      netif_events c.trace ++ netif_events (flow_run c.tx_queue.state reqs).2 := by
    rw [← netif_events_flow_trace c2.trace, ht, netif_events_append, netif_events_flow_trace]
  unfold flow_agrees wake_last
  rw [e, hs]
  exact ⟨a, b⟩

/-- C30: a call of mcp25xxfd_can_tx_queue_manage_nolock sends a wake exactly
when it changes the stored state from a state other than Started to Started, a
stop exactly when it changes the stored state from Started to another state,
and no signal otherwise.  Hence, from a state in which the signals sent so far
alternate and the last one was a wake exactly when the stored state is
Started, the same holds after every sequence of such calls, and after every
sequence of steps of the driver. -/
theorem C30_wake_pause_agree (cpriv : mcp25xxfd_can_priv) (h : flow_agrees cpriv) :
    (∀ (c : mcp25xxfd_can_priv) (req : tx_queue_state),
      netif_events (mcp25xxfd_can_tx_queue_manage_nolock c req).trace =
        netif_events c.trace ++
          (if c.tx_queue.state ≠ MCP25XXFD_CAN_TX_QUEUE_STATE_STARTED ∧
              (mcp25xxfd_can_tx_queue_manage_nolock c req).tx_queue.state =
                MCP25XXFD_CAN_TX_QUEUE_STATE_STARTED then
            [Event.netif_wake_queue]
          else if c.tx_queue.state = MCP25XXFD_CAN_TX_QUEUE_STATE_STARTED ∧
              (mcp25xxfd_can_tx_queue_manage_nolock c req).tx_queue.state ≠
                MCP25XXFD_CAN_TX_QUEUE_STATE_STARTED then
            [Event.netif_stop_queue]
          else [])) ∧
    (∀ reqs : List tx_queue_state, flow_agrees (manage_seq reqs cpriv)) ∧
    (∀ (L : Layout) (as : List Action), flow_agrees (run L as cpriv)) := by
  refine ⟨?_, ?_, ?_⟩
  · intro c req
    rw [manage_nolock_eq]
    show netif_events (c.trace ++ flow_events c.tx_queue.state req) = _
    rw [netif_events_append, netif_flow_events]
  · intro reqs
    apply agrees_of_flow cpriv _ reqs h
    · rw [manage_seq_eq]
    · rw [manage_seq_eq]
      show flow_trace (cpriv.trace ++ _) = _
      rw [flow_trace_append, flow_trace_flow_run]
  · intro L as
    obtain ⟨reqs, hs, ht⟩ := run_flow L as cpriv
    exact agrees_of_flow cpriv _ reqs h hs ht

/-- From a stopped queue: the requests Started, Runnable, Restarting give the
signals wake, stop, wake, and the state is Started. -/
theorem C30_wake_pause_agree_witness :
    flow_agrees (manage_seq [MCP25XXFD_CAN_TX_QUEUE_STATE_STARTED,
      MCP25XXFD_CAN_TX_QUEUE_STATE_RUNABLE, MCP25XXFD_CAN_TX_QUEUE_STATE_RESTART]
      (example_priv 0 1 MCP25XXFD_CAN_TX_QUEUE_STATE_STOPPED)) :=
  (C30_wake_pause_agree (example_priv 0 1 MCP25XXFD_CAN_TX_QUEUE_STATE_STOPPED)
    (by decide)).2.1 _

/-! ## Serialisation of the frame -/

theorem and_three_eq_mod (len : Nat) : len &&& 3 = len % 4 :=
  Nat.and_pow_two_sub_one_eq_mod len 2

theorem getD_set_ne (l : List Nat) (k i v : Nat) (h : i ≠ k) :
    (l.set k v).getD i 0 = l.getD i 0 := by
  rw [List.getD_eq_getElem?_getD, List.getD_eq_getElem?_getD,
    List.getElem?_set_ne (fun e => h e.symm)]

theorem getD_set_self (l : List Nat) (k v : Nat) (h : k < l.length) :
    (l.set k v).getD k 0 = v := by
  rw [List.getD_eq_getElem?_getD]
  simp [List.getElem?_set, h]

/-- The padding loop, given as many rounds as the length is short of a multiple
of 4, stops at the next multiple of 4, keeps header and payload, and has
written a zero at every position it passed. -/
theorem zero_pad_spec : ∀ (n : Nat) (header : List Nat) (len : Nat),
    (4 - len % 4) % 4 ≤ n →
    (fill_fifo_zero_pad n header len).2 = len + (4 - len % 4) % 4 ∧
    (fill_fifo_zero_pad n header len).1.length = header.length ∧
    (∀ i, i < sizeof_can_obj_tx + len →
      (fill_fifo_zero_pad n header len).1.getD i 0 = header.getD i 0) ∧
    (∀ i, len ≤ i → i < len + (4 - len % 4) % 4 → sizeof_can_obj_tx + i < header.length →
      (fill_fifo_zero_pad n header len).1.getD (sizeof_can_obj_tx + i) 0 = 0) := by
  intro n
  induction n with
  | zero =>
    intro header len h
    refine ⟨?_, rfl, fun _ _ => rfl, ?_⟩
    · show len = _
      omega
    · intro i h1 h2
      omega
  | succ n ih =>
    intro header len h
    unfold fill_fifo_zero_pad
    by_cases hp : len &&& 3 ≠ 0
    · rw [if_pos hp]
      rw [and_three_eq_mod] at hp
      obtain ⟨r1, r2, r3, r4⟩ := ih (header.set (sizeof_can_obj_tx + len) 0) (len + 1)
        (by omega)
      refine ⟨?_, ?_, ?_, ?_⟩
      · rw [r1]; omega
      · rw [r2, List.length_set]
      · intro i hi
        rw [r3 i (by omega), getD_set_ne _ _ _ _ (by omega)]
      · intro i h1 h2 h3
        by_cases hi : i = len
        · subst hi
          rw [r3 _ (by omega), getD_set_self _ _ _ h3]
        · exact r4 i (by omega) (by omega) (by rw [List.length_set]; exact h3)
    · rw [if_neg hp]
      rw [and_three_eq_mod] at hp
      have hp2 : len % 4 = 0 := by omega
      refine ⟨?_, rfl, fun _ _ => rfl, ?_⟩
      · show len = _
        omega
      · intro i h1 h2
        omega

theorem memcpy_getD_lt (dst src : List Nat) (n i : Nat) (h : i < n) :
    (memcpy dst src n).getD i 0 = src.getD i 0 := by
  unfold memcpy
  rw [List.getD_eq_getElem?_getD, List.getElem?_append_left (by simp [h])]
  simp [h, List.getD_eq_getElem?_getD]

theorem memcpy_length (dst src : List Nat) (n : Nat) :
    (memcpy dst src n).length = n + (dst.length - n) := by
  unfold memcpy
  simp

theorem can_dlc2len_le (dlc : Nat) : can_dlc2len dlc ≤ 64 := by
  unfold can_dlc2len
  have h : dlc % 16 < 16 := Nat.mod_lt _ (by decide)
  generalize dlc % 16 = k at h
  interval_cases k <;> decide

theorem image_getD (a b c d e f g h : Nat) (rest : List Nat) (i : Nat) :
    ([a, b, c, d] ++ [e, f, g, h] ++ rest).getD (sizeof_can_obj_tx + i) 0 = rest.getD i 0 := by
  show ([a, b, c, d] ++ [e, f, g, h] ++ rest).getD (8 + i) 0 = rest.getD i 0
  rw [List.getD_eq_getElem?_getD, List.getD_eq_getElem?_getD]
  have e8 : 8 + i = i + 1 + 1 + 1 + 1 + 1 + 1 + 1 + 1 := by omega
  rw [e8]
  simp only [List.cons_append, List.nil_append, List.getElem?_cons_succ]

/-- C28: for every data-length code, with len = can_dlc2len(dlc) (at most 64) and
a fill buffer that holds the header and 64 payload bytes,
mcp25xxfd_can_tx_fill_fifo_common sets the transfer length to command size +
header size + padded, where padded is the smallest multiple of 4 that is at
least len; the first len payload bytes of the fill buffer are the data bytes
of the frame and the bytes at the payload positions len .. padded - 1 are
zero. -/
theorem C28_zero_padding (L : Layout) (smsg : mcp25xxfd_tx_spi_message)
    (tx : mcp25xxfd_can_obj_tx) (dlc : Nat) (data : List Nat)
    (hbuf : sizeof_can_obj_tx + 64 ≤ smsg.fill_fifo_header.length) :
    can_dlc2len dlc ≤ 64 ∧
    ∃ padded, padded % 4 = 0 ∧ can_dlc2len dlc ≤ padded ∧ padded < can_dlc2len dlc + 4 ∧
      (mcp25xxfd_can_tx_fill_fifo_common L smsg tx dlc data).1.fill_fifo_xfer_len =
        L.sizeof_cmd + sizeof_can_obj_tx + padded ∧
      (∀ i, i < can_dlc2len dlc →
        (mcp25xxfd_can_tx_fill_fifo_common L smsg tx dlc data).1.fill_fifo_header.getD
          (sizeof_can_obj_tx + i) 0 = data.getD i 0) ∧
      (∀ i, can_dlc2len dlc ≤ i → i < padded →
        (mcp25xxfd_can_tx_fill_fifo_common L smsg tx dlc data).1.fill_fifo_header.getD
          (sizeof_can_obj_tx + i) 0 = 0) := by
  have hlen := can_dlc2len_le dlc
  refine ⟨hlen, can_dlc2len dlc + (4 - can_dlc2len dlc % 4) % 4, by omega, by omega, by omega,
    ?_⟩
  unfold mcp25xxfd_can_tx_fill_fifo_common
  dsimp only
  obtain ⟨r1, _, r3, r4⟩ := zero_pad_spec 3
    (memcpy smsg.fill_fifo_header
      (le32_bytes tx.id ++
        le32_bytes ((tx.flags ||| smsg.fifo <<< L.CAN_OBJ_FLAGS_SEQ_SHIFT % 2 ^ 32) % 2 ^ 32) ++
        memcpy tx.data data (can_dlc2len dlc))
      (sizeof_can_obj_tx + can_dlc2len dlc))
    (can_dlc2len dlc) (by omega)
  refine ⟨?_, ?_, ?_⟩
  · rw [r1]
  · intro i hi
    rw [r3 _ (by omega), memcpy_getD_lt _ _ _ _ (by omega)]
    unfold le32_bytes
    rw [image_getD, memcpy_getD_lt _ _ _ _ hi]
  · intro i h1 h2
    apply r4 i h1 h2
    rw [memcpy_length]
    unfold sizeof_can_obj_tx at hbuf ⊢
    omega

/-- A frame with three payload bytes in a message whose fill buffer still holds
the bytes 255 of an earlier frame: the transfer carries four payload bytes,
the three data bytes and one zero. -/
theorem C28_zero_padding_witness :
    can_dlc2len 3 ≤ 64 ∧
    ∃ padded, padded % 4 = 0 ∧ can_dlc2len 3 ≤ padded ∧ padded < can_dlc2len 3 + 4 ∧
      (mcp25xxfd_can_tx_fill_fifo_common example_layout example_stale_message
        { id := 5, flags := 3, data := List.replicate 64 255 } 3
        [17, 18, 19, 20]).1.fill_fifo_xfer_len =
        example_layout.sizeof_cmd + sizeof_can_obj_tx + padded ∧
      (∀ i, i < can_dlc2len 3 →
        (mcp25xxfd_can_tx_fill_fifo_common example_layout example_stale_message
          { id := 5, flags := 3, data := List.replicate 64 255 } 3
          [17, 18, 19, 20]).1.fill_fifo_header.getD (sizeof_can_obj_tx + i) 0 =
            [17, 18, 19, 20].getD i 0) ∧
      (∀ i, can_dlc2len 3 ≤ i → i < padded →
        (mcp25xxfd_can_tx_fill_fifo_common example_layout example_stale_message
          { id := 5, flags := 3, data := List.replicate 64 255 } 3
          [17, 18, 19, 20]).1.fill_fifo_header.getD (sizeof_can_obj_tx + i) 0 = 0) :=
  C28_zero_padding example_layout example_stale_message
    { id := 5, flags := 3, data := List.replicate 64 255 } 3 [17, 18, 19, 20] (by decide)

/-! ## Bus failures in the abort processor -/

theorem txatif_fifo_read_failed (L : Layout) (c : mcp25xxfd_can_priv) (fifo : Nat)
    (h0 : spi_ret c.spi_replies 0 ≠ 0) :
    mcp25xxfd_can_tx_handle_int_txatif_fifo L c fifo =
      (spi_ret c.spi_replies 0,
        { c with spi_replies := c.spi_replies.tail
                 trace := c.trace ++
                   [Event.cmd_read (L.CAN_FIFOSTA fifo) (spi_ret c.spi_replies 0)] }) := by
  unfold mcp25xxfd_can_tx_handle_int_txatif_fifo
  simp only [cmd_read_eq]
  rw [if_pos h0]

theorem txatif_fifo_write_failed (L : Layout) (c : mcp25xxfd_can_priv) (fifo : Nat)
    (h0 : spi_ret c.spi_replies 0 = 0) (h1 : spi_ret c.spi_replies 1 ≠ 0) :
    mcp25xxfd_can_tx_handle_int_txatif_fifo L c fifo =
      (spi_ret c.spi_replies 1,
        { c with spi_replies := c.spi_replies.tail.tail
                 trace := c.trace ++
                   [Event.cmd_read (L.CAN_FIFOSTA fifo) 0,
                    Event.cmd_write_mask (L.CAN_FIFOSTA fifo) 0
                      (L.CAN_FIFOSTA_TXABT ||| L.CAN_FIFOSTA_TXLARB ||| L.CAN_FIFOSTA_TXERR |||
                        L.CAN_FIFOSTA_TXATIF) (spi_ret c.spi_replies 1)] }) := by
  have h1b : spi_ret c.spi_replies.tail 0 ≠ 0 := by rw [spi_ret_tail]; exact h1
  unfold mcp25xxfd_can_tx_handle_int_txatif_fifo
  simp only [cmd_read_eq, cmd_write_mask_eq]
  rw [if_neg (not_not.mpr h0), if_pos h1b, h0, spi_ret_tail]
  simp

theorem spi_ret_drop (l : List spi_reply) (m i : Nat) :
    spi_ret (l.drop m) i = spi_ret l (m + i) := by
  unfold spi_ret
  rw [List.getD_eq_getElem?_getD, List.getD_eq_getElem?_getD, List.getElem?_drop]

theorem txatif_loop_split (L : Layout) : ∀ (n1 n2 f : Nat) (c : mcp25xxfd_can_priv),
    txatif_loop L (n1 + n2) f c =
      if (txatif_loop L n1 f c).1 ≠ 0 then txatif_loop L n1 f c
      else txatif_loop L n2 (f + n1) (txatif_loop L n1 f c).2 := by
  intro n1
  induction n1 with
  | zero =>
    intro n2 f c
    rw [Nat.zero_add]
    show _ = if (0 : Int) ≠ 0 then _ else txatif_loop L n2 (f + 0) c
    rw [if_neg (by decide), Nat.add_zero]
  | succ n1 ih =>
    intro n2 f c
    have e : n1 + 1 + n2 = (n1 + n2) + 1 := by omega
    rw [e, txatif_loop_succ, txatif_loop_succ]
    have e2 : f + (n1 + 1) = f + 1 + n1 := by omega
    rw [e2]
    by_cases hflag : c.status_txatif &&& BIT f ≠ 0
    · rw [if_pos hflag, if_pos hflag]
      by_cases hr : (mcp25xxfd_can_tx_handle_int_txatif_fifo L c f).1 ≠ 0
      · rw [if_pos hr, if_pos hr, if_pos hr]
      · rw [if_neg hr, if_neg hr]
        exact ih n2 (f + 1) _
    · rw [if_neg hflag, if_neg hflag]
      exact ih n2 (f + 1) c
/-- What the loop of the abort interrupt does to the n slots from f on when the
bus operations of the flagged slots among them succeed: each flagged slot
leaves in_can_transfer, enters transferred and loses its echo frame; every
other slot is left alone; the aborted-error counter rises by the number of
flagged slots, and two replies of the bus script are used per flagged slot. -/
theorem txatif_loop_prefix (L : Layout) : ∀ (n f : Nat) (c : mcp25xxfd_can_priv),
    (∀ i, i < 2 * txatif_flagged c.status_txatif n f → spi_ret c.spi_replies i = 0) →
    f + n ≤ 32 →
    c.tx_queue.in_can_transfer < 2 ^ 32 → c.tx_queue.transferred < 2 ^ 32 →
    c.stats_tx_aborted_errors < 2 ^ 64 →
    (txatif_loop L n f c).1 = 0 ∧
    (∀ j, f ≤ j → j < f + n → c.status_txatif.testBit j = true →
      (txatif_loop L n f c).2.tx_queue.in_can_transfer.testBit j = false ∧
      (txatif_loop L n f c).2.tx_queue.transferred.testBit j = true ∧
      echo_lookup (txatif_loop L n f c).2.echo_skb j = none) ∧
    (∀ j, ¬ (f ≤ j ∧ j < f + n ∧ c.status_txatif.testBit j = true) →
      (txatif_loop L n f c).2.tx_queue.in_can_transfer.testBit j =
        c.tx_queue.in_can_transfer.testBit j ∧
      (txatif_loop L n f c).2.tx_queue.transferred.testBit j =
        c.tx_queue.transferred.testBit j ∧
      echo_lookup (txatif_loop L n f c).2.echo_skb j = echo_lookup c.echo_skb j) ∧
    (txatif_loop L n f c).2.tx_queue.idle = c.tx_queue.idle ∧
    (txatif_loop L n f c).2.tx_queue.in_fill_fifo_transfer =
      c.tx_queue.in_fill_fifo_transfer ∧
    (txatif_loop L n f c).2.tx_queue.in_trigger_fifo_transfer =
      c.tx_queue.in_trigger_fifo_transfer ∧
    (txatif_loop L n f c).2.stats_tx_aborted_errors =
      (c.stats_tx_aborted_errors + txatif_flagged c.status_txatif n f) % 2 ^ 64 ∧
    (txatif_loop L n f c).2.stats_tx_packets = c.stats_tx_packets ∧
    (txatif_loop L n f c).2.spi_replies =
      c.spi_replies.drop (2 * txatif_flagged c.status_txatif n f) ∧
    (txatif_loop L n f c).2.status_txatif = c.status_txatif ∧
    c.trace <+: (txatif_loop L n f c).2.trace := by
  intro n
  induction n with
  | zero =>
    intro f c _ _ _ _ hst
    refine ⟨rfl, ?_, ?_, rfl, rfl, rfl, ?_, rfl, rfl, rfl, List.prefix_refl _⟩
    · intro j h1 h2; omega
    · intro j _; exact ⟨rfl, rfl, rfl⟩
    · show c.stats_tx_aborted_errors = (c.stats_tx_aborted_errors + 0) % 2 ^ 64
      rw [Nat.add_zero, Nat.mod_eq_of_lt hst]
  | succ n ih =>
    intro f c hok h32 hcan htr hst
    rw [txatif_loop_succ]
    by_cases hflag : c.status_txatif &&& BIT f ≠ 0
    · have hbit : c.status_txatif.testBit f = true :=
        (and_BIT_ne_zero_iff _ f (by omega)).1 hflag
      have hcount : txatif_flagged c.status_txatif (n + 1) f =
          1 + txatif_flagged c.status_txatif n (f + 1) := by
        rw [txatif_flagged, if_pos hflag]
      rw [hcount] at hok
      rw [if_pos hflag, txatif_fifo_ok L c f (hok 0 (by omega)) (hok 1 (by omega))]
      dsimp only
      rw [if_neg (by decide)]
      obtain ⟨r1, r2, r3, r4, r5, r6, r8, r9, r10, r11, r12⟩ := ih (f + 1)
        { c with
          spi_replies := c.spi_replies.tail.tail
          echo_skb := c.echo_skb.filter (fun p => !(p.1 == f))
          tx_queue := { c.tx_queue with
            in_can_transfer :=
              mcp25xxfd_can_tx_queue_remove_spi_message c.tx_queue.in_can_transfer f
            transferred := mcp25xxfd_can_tx_queue_add_spi_message c.tx_queue.transferred f }
          status_txif := (c.status_txif &&& not_ul (BIT f)) % 2 ^ 32
          stats_tx_aborted_errors := (c.stats_tx_aborted_errors + 1) % 2 ^ 64
          trace := c.trace ++
            [Event.cmd_read (L.CAN_FIFOSTA f) 0,
              Event.cmd_write_mask (L.CAN_FIFOSTA f) 0
                (L.CAN_FIFOSTA_TXABT ||| L.CAN_FIFOSTA_TXLARB ||| L.CAN_FIFOSTA_TXERR |||
                  L.CAN_FIFOSTA_TXATIF) 0,
              Event.can_get_echo_skb f] }
        (by
          intro i hi
          show spi_ret c.spi_replies.tail.tail i = 0
          rw [spi_ret_tail, spi_ret_tail]
          exact hok (i + 1 + 1) (by
            have : (i : Nat) < 2 * txatif_flagged c.status_txatif n (f + 1) := hi
            omega))
        (by omega) (remove_lt _ _) (add_lt _ _) (Nat.mod_lt _ (by decide))
      dsimp only at r1 r2 r3 r4 r5 r6 r8 r9 r10 r11 r12
      have hf32 : f < 32 := by omega
      have hmoved := move_spi_message_bits c.tx_queue.in_can_transfer c.tx_queue.transferred f
        hcan htr hf32
      refine ⟨r1, ?_, ?_, r4, r5, r6, ?_, r9, ?_, r11, ?_⟩
      · intro j h1 h2 hb
        by_cases hj : j = f
        · subst hj
          obtain ⟨a1, a2, a3⟩ := r3 j (fun h => by omega)
          rw [a1, a2, a3, echo_lookup_filter, if_pos rfl]
          exact ⟨hmoved.1, hmoved.2.1, rfl⟩
        · exact r2 j (by omega) (by omega) hb
      · intro j hnot
        have hj : j ≠ f := fun e => hnot ⟨by omega, by omega, e ▸ hbit⟩
        obtain ⟨a1, a2, a3⟩ := r3 j (fun h => hnot ⟨by omega, by omega, h.2.2⟩)
        rw [a1, a2, a3, echo_lookup_filter, if_neg hj]
        exact ⟨(hmoved.2.2 j hj).1, (hmoved.2.2 j hj).2, rfl⟩
      · rw [r8, hcount]
        show ((c.stats_tx_aborted_errors + 1) % 2 ^ 64 +
            txatif_flagged c.status_txatif n (f + 1)) % 2 ^ 64 =
          (c.stats_tx_aborted_errors + (1 + txatif_flagged c.status_txatif n (f + 1))) % 2 ^ 64
        omega
      · rw [r10, hcount]
        show (c.spi_replies.tail.tail).drop _ = _
        rw [← List.drop_one, ← List.drop_one, List.drop_drop, List.drop_drop]
        congr 1
        omega
      · exact (List.prefix_append _ _).trans r12
    · have hbit : ¬ c.status_txatif.testBit f = true := fun hb =>
        hflag ((and_BIT_ne_zero_iff _ f (by omega)).2 hb)
      have hcount : txatif_flagged c.status_txatif (n + 1) f =
          txatif_flagged c.status_txatif n (f + 1) := by
        rw [txatif_flagged, if_neg hflag, Nat.zero_add]
      rw [hcount] at hok
      rw [if_neg hflag]
      obtain ⟨r1, r2, r3, r4, r5, r6, r8, r9, r10, r11, r12⟩ :=
        ih (f + 1) c hok (by omega) hcan htr hst
      refine ⟨r1, ?_, ?_, r4, r5, r6, ?_, r9, ?_, r11, r12⟩
      · intro j h1 h2 hb
        have hj : j ≠ f := fun e => hbit (e ▸ hb)
        exact r2 j (by omega) (by omega) hb
      · intro j hnot
        exact r3 j (fun h => hnot ⟨by omega, by omega, h.2.2⟩)
      · rw [r8, hcount]
      · rw [r10, hcount]

/-- The per-slot abort handler fails with the code of the first failing bus
operation and then has touched only the bus script and the trace, whose last
entry is the failed operation. -/
theorem txatif_fifo_failed (L : Layout) (c : mcp25xxfd_can_priv) (f : Nat) (e : Int)
    (he : e ≠ 0)
    (hfail : spi_ret c.spi_replies 0 = e ∨
      (spi_ret c.spi_replies 0 = 0 ∧ spi_ret c.spi_replies 1 = e)) :
    ∃ c2, mcp25xxfd_can_tx_handle_int_txatif_fifo L c f = (e, c2) ∧
      c2.tx_queue = c.tx_queue ∧ c2.echo_skb = c.echo_skb ∧
      c2.stats_tx_aborted_errors = c.stats_tx_aborted_errors ∧
      c2.stats_tx_packets = c.stats_tx_packets ∧
      (c2.spi_replies = c.spi_replies.drop 1 ∨ c2.spi_replies = c.spi_replies.drop 2) ∧
      (c2.trace.getLast? = some (Event.cmd_read (L.CAN_FIFOSTA f) e) ∨
        c2.trace.getLast? = some (Event.cmd_write_mask (L.CAN_FIFOSTA f) 0
          (L.CAN_FIFOSTA_TXABT ||| L.CAN_FIFOSTA_TXLARB ||| L.CAN_FIFOSTA_TXERR |||
            L.CAN_FIFOSTA_TXATIF) e)) := by
  rcases hfail with h0 | ⟨h0, h1⟩
  · have h0n : spi_ret c.spi_replies 0 ≠ 0 := by rw [h0]; exact he
    rw [txatif_fifo_read_failed L c f h0n, h0]
    refine ⟨_, rfl, rfl, rfl, rfl, rfl, Or.inl ?_, Or.inl ?_⟩
    · show c.spi_replies.tail = _
      rw [List.drop_one]
    · show (c.trace ++ [_]).getLast? = _
      rw [List.getLast?_append]
      rfl
  · have h1n : spi_ret c.spi_replies 1 ≠ 0 := by rw [h1]; exact he
    rw [txatif_fifo_write_failed L c f h0 h1n, h1]
    refine ⟨_, rfl, rfl, rfl, rfl, rfl, Or.inr ?_, Or.inr ?_⟩
    · show c.spi_replies.tail.tail = _
      rw [← List.drop_one, ← List.drop_one, List.drop_drop]
    · show (c.trace ++ [_, _]).getLast? = _
      rw [List.getLast?_append]
      rfl

/-- C22: let f be a flagged slot of the slot range (within the 32 slots of the
masks) and let the bus operations of the k flagged slots below f succeed.  If
the status read of f returns the error e, or the read succeeds and the
clearing write returns e, then mcp25xxfd_can_tx_handle_int_txatif returns e;
the slots from f upwards keep their membership and their echo frames, so
neither f nor any higher flagged slot has been handled; the flagged slots below
f have been moved to transferred; the aborted-error counter (an unsigned long)
has risen by k only, modulo 2^64, and by nothing for f; and the failed
operation is the last bus operation issued. -/
theorem C22_abort_bus_failure (L : Layout) (cpriv : mcp25xxfd_can_priv) (f : Nat) (e : Int)
    (hlo : cpriv.tx_start ≤ f) (hhi : f < cpriv.tx_start + cpriv.tx_count)
    (h32 : cpriv.tx_start + cpriv.tx_count ≤ 32)
    (hflag : cpriv.status_txatif.testBit f = true)
    (hcan : cpriv.tx_queue.in_can_transfer < 2 ^ 32)
    (htr : cpriv.tx_queue.transferred < 2 ^ 32)
    (hst : cpriv.stats_tx_aborted_errors < 2 ^ 64)
    (he : e ≠ 0)
    (hprev : ∀ i, i < 2 * txatif_flagged cpriv.status_txatif (f - cpriv.tx_start)
      cpriv.tx_start → spi_ret cpriv.spi_replies i = 0)
    (hfail : spi_ret cpriv.spi_replies
        (2 * txatif_flagged cpriv.status_txatif (f - cpriv.tx_start) cpriv.tx_start) = e ∨
      (spi_ret cpriv.spi_replies
        (2 * txatif_flagged cpriv.status_txatif (f - cpriv.tx_start) cpriv.tx_start) = 0 ∧
       spi_ret cpriv.spi_replies
        (2 * txatif_flagged cpriv.status_txatif (f - cpriv.tx_start) cpriv.tx_start + 1)
          = e)) :
    (mcp25xxfd_can_tx_handle_int_txatif L cpriv).1 = e ∧
    (∀ j, f ≤ j →
      (mcp25xxfd_can_tx_handle_int_txatif L cpriv).2.tx_queue.in_can_transfer.testBit j =
        cpriv.tx_queue.in_can_transfer.testBit j ∧
      (mcp25xxfd_can_tx_handle_int_txatif L cpriv).2.tx_queue.transferred.testBit j =
        cpriv.tx_queue.transferred.testBit j ∧
      echo_lookup (mcp25xxfd_can_tx_handle_int_txatif L cpriv).2.echo_skb j =
        echo_lookup cpriv.echo_skb j) ∧
    (∀ j, cpriv.tx_start ≤ j → j < f → cpriv.status_txatif.testBit j = true →
      (mcp25xxfd_can_tx_handle_int_txatif L cpriv).2.tx_queue.in_can_transfer.testBit j
        = false ∧
      (mcp25xxfd_can_tx_handle_int_txatif L cpriv).2.tx_queue.transferred.testBit j = true) ∧
    (mcp25xxfd_can_tx_handle_int_txatif L cpriv).2.tx_queue.idle = cpriv.tx_queue.idle ∧
    (mcp25xxfd_can_tx_handle_int_txatif L cpriv).2.tx_queue.in_fill_fifo_transfer =
      cpriv.tx_queue.in_fill_fifo_transfer ∧
    (mcp25xxfd_can_tx_handle_int_txatif L cpriv).2.tx_queue.in_trigger_fifo_transfer =
      cpriv.tx_queue.in_trigger_fifo_transfer ∧
    (mcp25xxfd_can_tx_handle_int_txatif L cpriv).2.stats_tx_aborted_errors =
      (cpriv.stats_tx_aborted_errors +
        txatif_flagged cpriv.status_txatif (f - cpriv.tx_start) cpriv.tx_start) % 2 ^ 64 ∧
    (mcp25xxfd_can_tx_handle_int_txatif L cpriv).2.stats_tx_packets =
      cpriv.stats_tx_packets ∧
    ((mcp25xxfd_can_tx_handle_int_txatif L cpriv).2.spi_replies =
        cpriv.spi_replies.drop
          (2 * txatif_flagged cpriv.status_txatif (f - cpriv.tx_start) cpriv.tx_start + 1) ∨
      (mcp25xxfd_can_tx_handle_int_txatif L cpriv).2.spi_replies =
        cpriv.spi_replies.drop
          (2 * txatif_flagged cpriv.status_txatif (f - cpriv.tx_start) cpriv.tx_start + 2)) ∧
    ((mcp25xxfd_can_tx_handle_int_txatif L cpriv).2.trace.getLast? =
        some (Event.cmd_read (L.CAN_FIFOSTA f) e) ∨
      (mcp25xxfd_can_tx_handle_int_txatif L cpriv).2.trace.getLast? =
        some (Event.cmd_write_mask (L.CAN_FIFOSTA f) 0
          (L.CAN_FIFOSTA_TXABT ||| L.CAN_FIFOSTA_TXLARB ||| L.CAN_FIFOSTA_TXERR |||
            L.CAN_FIFOSTA_TXATIF) e)) := by
  have hne : ¬ cpriv.status_txatif = 0 := by
    intro h0
    rw [h0, Nat.zero_testBit] at hflag
    exact absurd hflag (by decide)
  obtain ⟨m, hm⟩ : ∃ m, cpriv.tx_count = (f - cpriv.tx_start) + (m + 1) :=
    ⟨cpriv.tx_count - (f - cpriv.tx_start) - 1, by omega⟩
  obtain ⟨p1, p2, p3, p4, p5, p6, p7, p8, p9, p10, _⟩ :=
    txatif_loop_prefix L (f - cpriv.tx_start) cpriv.tx_start cpriv hprev (by omega) hcan htr
      hst
  have hfl : (txatif_loop L (f - cpriv.tx_start) cpriv.tx_start cpriv).2.status_txatif &&&
      BIT f ≠ 0 := by
    rw [p10]
    exact (and_BIT_ne_zero_iff _ f (by omega)).2 hflag
  have hfail2 : spi_ret (txatif_loop L (f - cpriv.tx_start) cpriv.tx_start cpriv).2.spi_replies
        0 = e ∨
      (spi_ret (txatif_loop L (f - cpriv.tx_start) cpriv.tx_start cpriv).2.spi_replies 0 = 0 ∧
        spi_ret (txatif_loop L (f - cpriv.tx_start) cpriv.tx_start cpriv).2.spi_replies 1
          = e) := by
    rw [p9, spi_ret_drop, spi_ret_drop]
    exact hfail
  obtain ⟨c2, hc2, q1, q2, q3, q4, q5, q6⟩ := txatif_fifo_failed L
    (txatif_loop L (f - cpriv.tx_start) cpriv.tx_start cpriv).2 f e he hfail2
  have heq : mcp25xxfd_can_tx_handle_int_txatif L cpriv = (e, c2) := by
    unfold mcp25xxfd_can_tx_handle_int_txatif
    rw [if_neg hne]
    have hsplit := txatif_loop_split L (f - cpriv.tx_start) (m + 1) cpriv.tx_start cpriv
    rw [← hm] at hsplit
    rw [hsplit, if_neg (not_not.mpr p1)]
    have hf : cpriv.tx_start + (f - cpriv.tx_start) = f := by omega
    rw [hf, txatif_loop_succ, if_pos hfl, hc2]
    exact if_pos he
  rw [heq]
  refine ⟨rfl, ?_, ?_, ?_, ?_, ?_, ?_, ?_, ?_, q6⟩
  · intro j hj
    show c2.tx_queue.in_can_transfer.testBit j = _ ∧ c2.tx_queue.transferred.testBit j = _ ∧
      echo_lookup c2.echo_skb j = _
    rw [q1, q2]
    exact p3 j (fun h => by omega)
  · intro j h1 h2 hb
    show c2.tx_queue.in_can_transfer.testBit j = _ ∧ c2.tx_queue.transferred.testBit j = _
    rw [q1]
    have := p2 j h1 (by omega) hb
    exact ⟨this.1, this.2.1⟩
  · show c2.tx_queue.idle = _
    rw [q1]; exact p4
  · show c2.tx_queue.in_fill_fifo_transfer = _
    rw [q1]; exact p5
  · show c2.tx_queue.in_trigger_fifo_transfer = _
    rw [q1]; exact p6
  · show c2.stats_tx_aborted_errors = _
    rw [q3]; exact p7
  · show c2.stats_tx_packets = _
    rw [q4]; exact p8
  · show c2.spi_replies = _ ∨ c2.spi_replies = _
    rcases q5 with h | h
    · left; rw [h, p9, List.drop_drop]
    · right; rw [h, p9, List.drop_drop]

/-- Slot 0 is aborted and released, then the status read of slot 1 fails with
-EIO: the handler returns -5, slot 1 is still in in_can_transfer, and one abort
has been counted. -/
theorem C22_abort_bus_failure_witness :
    (mcp25xxfd_can_tx_handle_int_txatif example_layout example_abort_bus_down).1 = -5 ∧
    (mcp25xxfd_can_tx_handle_int_txatif example_layout
      example_abort_bus_down).2.tx_queue.in_can_transfer.testBit 1 = true ∧
    (mcp25xxfd_can_tx_handle_int_txatif example_layout
      example_abort_bus_down).2.tx_queue.transferred.testBit 0 = true ∧
    (mcp25xxfd_can_tx_handle_int_txatif example_layout
      example_abort_bus_down).2.stats_tx_aborted_errors = 1 :=
  have h := C22_abort_bus_failure example_layout example_abort_bus_down 1 (-5)
    (by decide) (by decide) (by decide) (by decide) (by decide) (by decide) (by decide)
    (by decide) (by decide) (by decide)
  ⟨h.1, ((h.2.1 1 (Nat.le_refl 1)).1).trans (by decide),
    (h.2.2.1 0 (by decide) (by decide) (by decide)).2,
    h.2.2.2.2.2.2.1.trans (by decide)⟩

/-! ## The four-slot scenario -/

theorem run_append (L : Layout) (xs ys : List Action) (c : mcp25xxfd_can_priv) :
    run L (xs ++ ys) c = run L ys (run L xs c) := by
  induction xs generalizing c with
  | nil => rfl
  | cons a rest ih => exact ih (step L a c)

/-- The message of the lowest slot of idle is the one its pointer names. -/
theorem first_of_idle (c : mcp25xxfd_can_priv) (k i : Nat)
    (h32 : c.tx_queue.idle < 2 ^ 32) (hbit : c.tx_queue.idle.testBit k = true)
    (hlow : ∀ j, j < k → c.tx_queue.idle.testBit j = false)
    (hmap : c.tx_queue.fifo2message.getD k none = some i) :
    mcp25xxfd_can_tx_queue_first_spi_message c.tx_queue c.tx_queue.idle = some i := by
  have hne : c.tx_queue.idle % 2 ^ 32 ≠ 0 := by
    rw [Nat.mod_eq_of_lt h32]
    intro h0
    rw [h0, Nat.zero_testBit] at hbit
    exact absurd hbit (by decide)
  obtain ⟨r, _, hr, hrlow, heq⟩ := first_spi_message_of_ne_zero c.tx_queue _ hne
  have hrk : r = k := by
    rcases Nat.lt_trichotomy r k with h | h | h
    · rw [hlow r h] at hr; exact absurd hr (by decide)
    · exact h
    · rw [hrlow k h] at hbit; exact absurd hbit (by decide)
  rw [heq, hrk, hmap]

theorem scenario_submit (L : Layout) (c0 c : mcp25xxfd_can_priv) (skb : sk_buff)
    (k i idle fill trig can tr idle2 fill2 : Nat) (st st2 : tx_queue_state)
    (pend : List spi_message_ref)
    (h : scenario_state c0 c (idle, fill, trig, can, tr) st pend)
    (hvalid : can_dropped_invalid_skb skb = false)
    (hmap : c0.tx_queue.fifo2message.getD k none = some i) (hfifo : fifo_of c0 i = k)
    (h32 : idle < 2 ^ 32) (hbit : idle.testBit k = true)
    (hlow : ∀ j, j < k → idle.testBit j = false)
    (e1 : mcp25xxfd_can_tx_queue_remove_spi_message idle k = idle2)
    (e2 : mcp25xxfd_can_tx_queue_add_spi_message fill k = fill2)
    (e3 : (if idle2 = 0 then flow_next st MCP25XXFD_CAN_TX_QUEUE_STATE_RUNABLE else st) = st2) :
    (mcp25xxfd_can_tx_start_xmit L skb c).1 = NETDEV_TX_OK ∧
    scenario_state c0 (mcp25xxfd_can_tx_start_xmit L skb c).2 (idle2, fill2, trig, can, tr) st2
      (pend ++ [spi_message_ref.fill_fifo i, spi_message_ref.trigger_fifo i]) := by
  obtain ⟨hm, hs, hp, hf2m, hfo, hbus⟩ := h
  unfold queue_masks at hm
  simp only [Prod.mk.injEq] at hm
  obtain ⟨m1, m2, m3, m4, m5⟩ := hm
  have hfirst : mcp25xxfd_can_tx_queue_first_spi_message c.tx_queue c.tx_queue.idle = some i :=
    first_of_idle c k i (by rw [m1]; exact h32) (by rw [m1]; exact hbit)
      (by rw [m1]; exact hlow) (by rw [hf2m]; exact hmap)
  have hk : fifo_of c i = k := by rw [hfo i, hfifo]
  have hf : ∀ j, fifo_of (start_xmit_fill L skb i (claimed c i)).2 j = fifo_of c j := by
    intro j
    rw [start_xmit_fill_fifo_of, claimed_fifo_of]
  have hb0 : spi_ret (start_xmit_fill L skb i (claimed c i)).2.spi_replies 0 = 0 :=
    spi_ret_all_ok _ hbus 0
  have hb1 : spi_ret (start_xmit_fill L skb i (claimed c i)).2.spi_replies 1 = 0 :=
    spi_ret_all_ok _ hbus 1
  rw [start_xmit_claim L skb c i hvalid hfirst, start_xmit_submit_accepted _ i _ hb0 hb1]
  refine ⟨rfl, ?_, ?_, ?_, hf2m, ?_, ?_⟩
  · show (mcp25xxfd_can_tx_queue_remove_spi_message c.tx_queue.idle (fifo_of c i),
      mcp25xxfd_can_tx_queue_add_spi_message c.tx_queue.in_fill_fifo_transfer (fifo_of c i),
      c.tx_queue.in_trigger_fifo_transfer, c.tx_queue.in_can_transfer,
      c.tx_queue.transferred) = _
    rw [hk, m1, m2, m3, m4, m5, e1, e2]
  · show (if mcp25xxfd_can_tx_queue_remove_spi_message c.tx_queue.idle (fifo_of c i) = 0
      then flow_next c.tx_queue.state MCP25XXFD_CAN_TX_QUEUE_STATE_RUNABLE
      else c.tx_queue.state) = _
    rw [hk, m1, e1, hs, e3]
  · show c.spi_pending ++ _ = _
    rw [hp]
  · intro j
    show fifo_of (start_xmit_fill L skb i (claimed c i)).2 j = _
    rw [hf j, hfo j]
  · intro r hr
    exact hbus r (List.mem_of_mem_tail (List.mem_of_mem_tail hr))

theorem scenario_busy (L : Layout) (c0 c : mcp25xxfd_can_priv) (skb : sk_buff)
    (fill trig can tr : Nat) (st st2 : tx_queue_state) (pend : List spi_message_ref)
    (h : scenario_state c0 c (0, fill, trig, can, tr) st pend)
    (hvalid : can_dropped_invalid_skb skb = false)
    (e3 : flow_next st MCP25XXFD_CAN_TX_QUEUE_STATE_STOPPED = st2) :
    (mcp25xxfd_can_tx_start_xmit L skb c).1 = NETDEV_TX_BUSY ∧
    scenario_state c0 (mcp25xxfd_can_tx_start_xmit L skb c).2 (0, fill, trig, can, tr) st2
      pend := by
  obtain ⟨hm, hs, hp, hf2m, hfo, hbus⟩ := h
  have hidle : c.tx_queue.idle = 0 := congrArg Prod.fst hm
  rw [start_xmit_idle_empty L skb c hvalid hidle, manage_nolock_eq]
  refine ⟨rfl, hm, ?_, hp, hf2m, hfo, hbus⟩
  show flow_next c.tx_queue.state _ = _
  rw [hs, e3]

theorem scenario_callback_fill (L : Layout) (c0 c : mcp25xxfd_can_priv)
    (k i idle fill trig can tr fill2 trig2 : Nat) (st : tx_queue_state)
    (rest : List spi_message_ref)
    (h : scenario_state c0 c (idle, fill, trig, can, tr) st
      (spi_message_ref.fill_fifo i :: rest))
    (hfifo : fifo_of c0 i = k)
    (e1 : mcp25xxfd_can_tx_queue_remove_spi_message fill k = fill2)
    (e2 : mcp25xxfd_can_tx_queue_add_spi_message trig k = trig2) :
    scenario_state c0 (step L Action.spi_complete c) (idle, fill2, trig2, can, tr) st rest := by
  obtain ⟨hm, hs, hp, hf2m, hfo, hbus⟩ := h
  unfold queue_masks at hm
  simp only [Prod.mk.injEq] at hm
  obtain ⟨m1, m2, m3, m4, m5⟩ := hm
  have hk : fifo_of c i = k := by rw [hfo i, hfifo]
  show scenario_state c0 (spi_complete_next L c) _ _ _
  rw [spi_complete_next_fill L c i rest hp]
  obtain ⟨a1, a2, a3, a4, a5, a6, a7, _, _, a10⟩ :=
    fill_fifo_complete_state L i { c with spi_pending := rest }
  refine ⟨?_, hs, a7, a6.trans hf2m, ?_, hbus⟩
  · unfold queue_masks
    rw [a1, a2, a3, a4, a5]
    show (c.tx_queue.idle,
      mcp25xxfd_can_tx_queue_remove_spi_message c.tx_queue.in_fill_fifo_transfer (fifo_of c i),
      mcp25xxfd_can_tx_queue_add_spi_message c.tx_queue.in_trigger_fifo_transfer (fifo_of c i),
      c.tx_queue.in_can_transfer, c.tx_queue.transferred) = _
    rw [hk, m1, m2, m3, m4, m5, e1, e2]
  · intro j
    rw [a10 j]
    exact hfo j

theorem scenario_callback_trigger (L : Layout) (c0 c : mcp25xxfd_can_priv)
    (k i idle fill trig can tr trig2 can2 : Nat) (st : tx_queue_state)
    (rest : List spi_message_ref)
    (h : scenario_state c0 c (idle, fill, trig, can, tr) st
      (spi_message_ref.trigger_fifo i :: rest))
    (hfifo : fifo_of c0 i = k)
    (e1 : mcp25xxfd_can_tx_queue_remove_spi_message trig k = trig2)
    (e2 : mcp25xxfd_can_tx_queue_add_spi_message can k = can2) :
    scenario_state c0 (step L Action.spi_complete c) (idle, fill, trig2, can2, tr) st rest := by
  obtain ⟨hm, hs, hp, hf2m, hfo, hbus⟩ := h
  unfold queue_masks at hm
  simp only [Prod.mk.injEq] at hm
  obtain ⟨m1, m2, m3, m4, m5⟩ := hm
  have hk : fifo_of c i = k := by rw [hfo i, hfifo]
  show scenario_state c0 (spi_complete_next L c) _ _ _
  rw [spi_complete_next_trigger L c i rest hp]
  refine ⟨?_, hs, rfl, hf2m, hfo, hbus⟩
  show (c.tx_queue.idle, c.tx_queue.in_fill_fifo_transfer,
    mcp25xxfd_can_tx_queue_remove_spi_message c.tx_queue.in_trigger_fifo_transfer (fifo_of c i),
    mcp25xxfd_can_tx_queue_add_spi_message c.tx_queue.in_can_transfer (fifo_of c i),
    c.tx_queue.transferred) = _
  rw [hk, m1, m2, m3, m4, m5, e1, e2]

theorem scenario_release (L : Layout) (c0 c : mcp25xxfd_can_priv)
    (k idle fill trig can tr can2 tr2 : Nat) (st : tx_queue_state)
    (pend : List spi_message_ref)
    (h : scenario_state c0 c (idle, fill, trig, can, tr) st pend)
    (e1 : mcp25xxfd_can_tx_queue_remove_spi_message can k = can2)
    (e2 : mcp25xxfd_can_tx_queue_add_spi_message tr k = tr2) :
    (mcp25xxfd_can_tx_submit_frame L c k).1 = 0 ∧
    scenario_state c0 (step L (Action.submit_frame k) c) (idle, fill, trig, can2, tr2) st
      pend := by
  obtain ⟨hm, hs, hp, hf2m, hfo, hbus⟩ := h
  unfold queue_masks at hm
  simp only [Prod.mk.injEq] at hm
  obtain ⟨m1, m2, m3, m4, m5⟩ := hm
  refine ⟨rfl, ?_, hs, hp, hf2m, hfo, hbus⟩
  show (c.tx_queue.idle, c.tx_queue.in_fill_fifo_transfer, c.tx_queue.in_trigger_fifo_transfer,
    mcp25xxfd_can_tx_queue_remove_spi_message c.tx_queue.in_can_transfer k,
    mcp25xxfd_can_tx_queue_add_spi_message c.tx_queue.transferred k) = _
  rw [m1, m2, m3, m4, m5, e1, e2]

theorem scenario_restart (c0 c : mcp25xxfd_can_priv) (tr : Nat) (st st2 : tx_queue_state)
    (pend : List spi_message_ref)
    (h : scenario_state c0 c (0, 0, 0, 0, tr) st pend)
    (e3 : flow_next st MCP25XXFD_CAN_TX_QUEUE_STATE_RESTART = st2) :
    scenario_state c0 (mcp25xxfd_can_tx_queue_restart c) (tr, 0, 0, 0, 0) st2 pend := by
  obtain ⟨hm, hs, hp, hf2m, hfo, hbus⟩ := h
  unfold queue_masks at hm
  simp only [Prod.mk.injEq] at hm
  obtain ⟨m1, m2, m3, m4, m5⟩ := hm
  rw [restart_success_state c m1 m2 m3 m4]
  refine ⟨?_, ?_, hp, hf2m, hfo, hbus⟩
  · show (c.tx_queue.idle ||| c.tx_queue.transferred, c.tx_queue.in_fill_fifo_transfer,
      c.tx_queue.in_trigger_fifo_transfer, c.tx_queue.in_can_transfer, 0) = _
    rw [m1, m2, m3, m4, m5, Nat.zero_or]
  · show flow_next c.tx_queue.state _ = _
    rw [hs, e3]

theorem restart_noop (c : mcp25xxfd_can_priv)
    (h : c.tx_queue.idle ||| c.tx_queue.in_fill_fifo_transfer |||
      c.tx_queue.in_trigger_fifo_transfer ||| c.tx_queue.in_can_transfer ≠ 0) :
    mcp25xxfd_can_tx_queue_restart c = c := by
  unfold mcp25xxfd_can_tx_queue_restart
  simp [h]

/-- C23: on a queue of the four slots 0, 1, 2, 3, all idle, flow control Started,
no callback pending, slot pointers as allocation sets them up and a bus that
accepts everything, with valid frames: the four submissions return OK and
claim the slots 0, 1, 2, 3 in this order; after the eight completion callbacks
all four slots are in in_can_transfer; the fifth submission returns Busy; the
release of slot 2 leaves exactly slot 2 in transferred and idle empty, a
submission still returns Busy and a restart changes nothing; after the
releases of slots 0, 1 and 3 all four slots are in transferred, and the restart
makes idle the four slots, transferred empty and the flow-control state
Started.  (States are written as the bitmasks idle, in_fill_fifo_transfer,
in_trigger_fifo_transfer, in_can_transfer, transferred after the first n steps
of the scenario.) -/
theorem C23_four_slot_scenario (L : Layout) (c0 : mcp25xxfd_can_priv)
    (a b c d e g : sk_buff) (i0 i1 i2 i3 : Nat)
    (hmasks : queue_masks c0 = (15, 0, 0, 0, 0))
    (hstate : c0.tx_queue.state = MCP25XXFD_CAN_TX_QUEUE_STATE_STARTED)
    (hpend : c0.spi_pending = [])
    (hbus : ∀ r ∈ c0.spi_replies, r.ret = 0)
    (h0 : c0.tx_queue.fifo2message.getD 0 none = some i0 ∧ fifo_of c0 i0 = 0)
    (h1 : c0.tx_queue.fifo2message.getD 1 none = some i1 ∧ fifo_of c0 i1 = 1)
    (h2 : c0.tx_queue.fifo2message.getD 2 none = some i2 ∧ fifo_of c0 i2 = 2)
    (h3 : c0.tx_queue.fifo2message.getD 3 none = some i3 ∧ fifo_of c0 i3 = 3)
    (hva : can_dropped_invalid_skb a = false) (hvb : can_dropped_invalid_skb b = false)
    (hvc : can_dropped_invalid_skb c = false) (hvd : can_dropped_invalid_skb d = false)
    (hve : can_dropped_invalid_skb e = false) (hvg : can_dropped_invalid_skb g = false) :
    (mcp25xxfd_can_tx_start_xmit L a c0).1 = NETDEV_TX_OK ∧
    queue_masks (run L ((scenario a b c d e g).take 1) c0) = (14, 1, 0, 0, 0) ∧
    (mcp25xxfd_can_tx_start_xmit L b (run L ((scenario a b c d e g).take 1) c0)).1 =
      NETDEV_TX_OK ∧
    queue_masks (run L ((scenario a b c d e g).take 2) c0) = (12, 3, 0, 0, 0) ∧
    (mcp25xxfd_can_tx_start_xmit L c (run L ((scenario a b c d e g).take 2) c0)).1 =
      NETDEV_TX_OK ∧
    queue_masks (run L ((scenario a b c d e g).take 3) c0) = (8, 7, 0, 0, 0) ∧
    (mcp25xxfd_can_tx_start_xmit L d (run L ((scenario a b c d e g).take 3) c0)).1 =
      NETDEV_TX_OK ∧
    queue_masks (run L ((scenario a b c d e g).take 4) c0) = (0, 15, 0, 0, 0) ∧
    queue_masks (run L ((scenario a b c d e g).take 12) c0) = (0, 0, 0, 15, 0) ∧
    (mcp25xxfd_can_tx_start_xmit L e (run L ((scenario a b c d e g).take 12) c0)).1 =
      NETDEV_TX_BUSY ∧
    queue_masks (run L ((scenario a b c d e g).take 13) c0) = (0, 0, 0, 15, 0) ∧
    queue_masks (run L ((scenario a b c d e g).take 14) c0) = (0, 0, 0, 11, 4) ∧
    (mcp25xxfd_can_tx_start_xmit L g (run L ((scenario a b c d e g).take 14) c0)).1 =
      NETDEV_TX_BUSY ∧
    queue_masks (run L ((scenario a b c d e g).take 15) c0) = (0, 0, 0, 11, 4) ∧
    run L ((scenario a b c d e g).take 16) c0 = run L ((scenario a b c d e g).take 15) c0 ∧
    queue_masks (run L ((scenario a b c d e g).take 19) c0) = (0, 0, 0, 0, 15) ∧
    queue_masks (run L (scenario a b c d e g) c0) = (15, 0, 0, 0, 0) ∧
    (run L (scenario a b c d e g) c0).tx_queue.state =
      MCP25XXFD_CAN_TX_QUEUE_STATE_STARTED := by
  have s0 : scenario_state c0 c0 (15, 0, 0, 0, 0) MCP25XXFD_CAN_TX_QUEUE_STATE_STARTED [] :=
    ⟨hmasks, hstate, hpend, rfl, fun _ => rfl, hbus⟩
  obtain ⟨r1, s1⟩ := scenario_submit L c0 c0 a 0 i0 15 0 0 0 0 14 1
    MCP25XXFD_CAN_TX_QUEUE_STATE_STARTED MCP25XXFD_CAN_TX_QUEUE_STATE_STARTED [] s0 hva h0.1 h0.2
    (by decide) (by decide) (by decide) (by decide) (by decide) (by decide)
  obtain ⟨r2, s2⟩ := scenario_submit L c0 _ b 1 i1 14 1 0 0 0 12 3
    MCP25XXFD_CAN_TX_QUEUE_STATE_STARTED MCP25XXFD_CAN_TX_QUEUE_STATE_STARTED _ s1 hvb h1.1 h1.2
    (by decide) (by decide) (by decide) (by decide) (by decide) (by decide)
  obtain ⟨r3, s3⟩ := scenario_submit L c0 _ c 2 i2 12 3 0 0 0 8 7
    MCP25XXFD_CAN_TX_QUEUE_STATE_STARTED MCP25XXFD_CAN_TX_QUEUE_STATE_STARTED _ s2 hvc h2.1 h2.2
    (by decide) (by decide) (by decide) (by decide) (by decide) (by decide)
  obtain ⟨r4, s4⟩ := scenario_submit L c0 _ d 3 i3 8 7 0 0 0 0 15
    MCP25XXFD_CAN_TX_QUEUE_STATE_STARTED MCP25XXFD_CAN_TX_QUEUE_STATE_RUNABLE _ s3 hvd h3.1 h3.2
    (by decide) (by decide) (by decide) (by decide) (by decide) (by decide)
  have s5 := scenario_callback_fill L c0 _ 0 i0 0 15 0 0 0 14 1 _ _ s4 h0.2
    (by decide) (by decide)
  have s6 := scenario_callback_trigger L c0 _ 0 i0 0 14 1 0 0 0 1 _ _ s5 h0.2
    (by decide) (by decide)
  have s7 := scenario_callback_fill L c0 _ 1 i1 0 14 0 1 0 12 2 _ _ s6 h1.2
    (by decide) (by decide)
  have s8 := scenario_callback_trigger L c0 _ 1 i1 0 12 2 1 0 0 3 _ _ s7 h1.2
    (by decide) (by decide)
  have s9 := scenario_callback_fill L c0 _ 2 i2 0 12 0 3 0 8 4 _ _ s8 h2.2
    (by decide) (by decide)
  have s10 := scenario_callback_trigger L c0 _ 2 i2 0 8 4 3 0 0 7 _ _ s9 h2.2
    (by decide) (by decide)
  have s11 := scenario_callback_fill L c0 _ 3 i3 0 8 0 7 0 0 8 _ _ s10 h3.2
    (by decide) (by decide)
  have s12 := scenario_callback_trigger L c0 _ 3 i3 0 0 8 7 0 0 15 _ _ s11 h3.2
    (by decide) (by decide)
  obtain ⟨r13, s13⟩ := scenario_busy L c0 _ e 0 0 15 0 _ MCP25XXFD_CAN_TX_QUEUE_STATE_RUNABLE
    _ s12 hve (by decide)
  obtain ⟨_, s14⟩ := scenario_release L c0 _ 2 0 0 0 15 0 11 4 _ _ s13 (by decide) (by decide)
  obtain ⟨r15, s15⟩ := scenario_busy L c0 _ g 0 0 11 4 _ MCP25XXFD_CAN_TX_QUEUE_STATE_RUNABLE
    _ s14 hvg (by decide)
  have e16 := restart_noop _ (by
    have hm := s15.1
    unfold queue_masks at hm
    simp only [Prod.mk.injEq] at hm
    rw [hm.1, hm.2.1, hm.2.2.1, hm.2.2.2.1]
    decide)
  obtain ⟨_, s17⟩ := scenario_release L c0 _ 0 0 0 0 11 4 10 5 _ _ s15 (by decide) (by decide)
  obtain ⟨_, s18⟩ := scenario_release L c0 _ 1 0 0 0 10 5 8 7 _ _ s17 (by decide) (by decide)
  obtain ⟨_, s19⟩ := scenario_release L c0 _ 3 0 0 0 8 7 0 15 _ _ s18 (by decide) (by decide)
  have s20 := scenario_restart c0 _ 15 _ MCP25XXFD_CAN_TX_QUEUE_STATE_STARTED _ s19 (by decide)
  refine ⟨r1, s1.1, r2, s2.1, r3, s3.1, r4, s4.1, s12.1, r13, s13.1, s14.1, r15, s15.1, ?_,
    ?_, ?_, ?_⟩
  · exact e16
  · exact (congrArg (fun z => queue_masks (run L [Action.submit_frame 0, Action.submit_frame 1,
      Action.submit_frame 3] z)) e16).trans s19.1
  · exact (congrArg (fun z => queue_masks (run L [Action.submit_frame 0, Action.submit_frame 1,
      Action.submit_frame 3, Action.queue_restart] z)) e16).trans s20.1
  · exact (congrArg (fun z => (run L [Action.submit_frame 0, Action.submit_frame 1,
      Action.submit_frame 3, Action.queue_restart] z).tx_queue.state) e16).trans s20.2.1

/-- The scenario on the four-slot queue of the example layout with six classic
frames: all slots are idle again at the end and the flow control is Started. -/
theorem C23_four_slot_scenario_witness :
    queue_masks (run example_layout
      (scenario (example_skb 1 [1]) (example_skb 2 [2]) (example_skb 3 [3]) (example_skb 4 [4])
        (example_skb 5 [5]) (example_skb 6 [6]))
      (example_priv 0 4 MCP25XXFD_CAN_TX_QUEUE_STATE_STARTED)) = (15, 0, 0, 0, 0) ∧
    (run example_layout
      (scenario (example_skb 1 [1]) (example_skb 2 [2]) (example_skb 3 [3]) (example_skb 4 [4])
        (example_skb 5 [5]) (example_skb 6 [6]))
      (example_priv 0 4 MCP25XXFD_CAN_TX_QUEUE_STATE_STARTED)).tx_queue.state =
        MCP25XXFD_CAN_TX_QUEUE_STATE_STARTED :=
  (C23_four_slot_scenario example_layout (example_priv 0 4 MCP25XXFD_CAN_TX_QUEUE_STATE_STARTED)
    (example_skb 1 [1]) (example_skb 2 [2]) (example_skb 3 [3]) (example_skb 4 [4])
    (example_skb 5 [5]) (example_skb 6 [6]) 0 1 2 3
    (by decide) (by decide) (by decide) (by decide) (by decide) (by decide) (by decide)
    (by decide) (by decide) (by decide) (by decide) (by decide) (by decide)
    (by decide)).2.2.2.2.2.2.2.2.2.2.2.2.2.2.2.2

/-! ## Lock discipline -/

theorem driver_paths_discipline :
    ∀ p ∈ driver_paths, lock_discipline queue_lock p ∧ lock_discipline spi_lock p := by
  decide

theorem phase_fold_none (l : lock_id) (ops : List LockOp) :
    ops.foldl (phase_step l) none = none := by
  induction ops with
  | nil => rfl
  | cons op rest ih =>
    rw [List.foldl_cons]
    have e : phase_step l none op = none := by
      unfold phase_step
      cases op_role l op <;> rfl
    rw [e, ih]

theorem phase_fold_outside (l : lock_id) (p q : List LockOp)
    (hp : phase_of l p = some lock_phase.outside) :
    (p ++ q).foldl (phase_step l) (some lock_phase.outside) = phase_of l q := by
  unfold phase_of at hp ⊢
  rw [List.foldl_append, hp]

theorem discipline_join (l : lock_id) (ps : List (List LockOp))
    (h : ∀ p ∈ ps, lock_discipline l p) : lock_discipline l ps.flatten := by
  induction ps with
  | nil => rfl
  | cons p rest ih =>
    unfold lock_discipline
    rw [List.flatten_cons]
    unfold phase_of
    rw [phase_fold_outside l p _ (h p (List.mem_cons_self _ _))]
    exact ih (fun q hq => h q (List.mem_cons_of_mem _ hq))

theorem phase_acquire (l : lock_id) (ph : Option lock_phase) (op : LockOp)
    (hr : op_role l op = lock_role.acquire) (hne : phase_step l ph op ≠ none) :
    ph = some lock_phase.outside ∧ phase_step l ph op = some lock_phase.inside := by
  unfold phase_step at hne ⊢
  rw [hr] at hne ⊢
  rcases ph with _ | p
  · exact absurd rfl hne
  · cases p
    · exact ⟨rfl, rfl⟩
    · exact absurd rfl hne
    · exact absurd rfl hne

theorem phase_release (l : lock_id) (ph : Option lock_phase) (op : LockOp)
    (hr : op_role l op = lock_role.release) (hne : phase_step l ph op ≠ none) :
    (ph = some lock_phase.inside ∨ ph = some lock_phase.half) ∧
      phase_step l ph op = some lock_phase.outside := by
  unfold phase_step at hne ⊢
  rw [hr] at hne ⊢
  rcases ph with _ | p
  · exact absurd rfl hne
  · cases p
    · exact absurd rfl hne
    · exact ⟨Or.inl rfl, rfl⟩
    · exact ⟨Or.inr rfl, rfl⟩

theorem phase_first (l : lock_id) (ph : Option lock_phase) (op : LockOp)
    (hr : op_role l op = lock_role.first) (hne : phase_step l ph op ≠ none) :
    ph = some lock_phase.inside ∧ phase_step l ph op = some lock_phase.half := by
  unfold phase_step at hne ⊢
  rw [hr] at hne ⊢
  rcases ph with _ | p
  · exact absurd rfl hne
  · cases p
    · exact absurd rfl hne
    · exact ⟨rfl, rfl⟩
    · exact absurd rfl hne

theorem phase_second (l : lock_id) (ph : Option lock_phase) (op : LockOp)
    (hr : op_role l op = lock_role.second) (hne : phase_step l ph op ≠ none) :
    ph = some lock_phase.half ∧ phase_step l ph op = some lock_phase.inside := by
  unfold phase_step at hne ⊢
  rw [hr] at hne ⊢
  rcases ph with _ | p
  · exact absurd rfl hne
  · cases p
    · exact absurd rfl hne
    · exact absurd rfl hne
    · exact ⟨rfl, rfl⟩

theorem phase_neutral (l : lock_id) (ph : Option lock_phase) (op : LockOp)
    (hr : op_role l op = lock_role.neutral) : phase_step l ph op = ph := by
  unfold phase_step
  rw [hr]
  rcases ph with _ | p
  · rfl
  · cases p <;> rfl

theorem concat_split {α : Type} (log before after : List α) (x y : α)
    (h : log ++ [x] = before ++ y :: after) :
    (after = [] ∧ log = before ∧ x = y) ∨
      ∃ rest, after = rest ++ [x] ∧ log = before ++ y :: rest := by
  rcases List.eq_nil_or_concat after with e | ⟨rest, z, e⟩
  · subst e
    have := List.append_inj' h rfl
    exact Or.inl ⟨rfl, this.1, by simpa using this.2⟩
  · subst e
    rw [List.concat_eq_append] at h
    have h2 : log ++ [x] = (before ++ y :: rest) ++ [z] := by
      rw [h]; simp
    have := List.append_inj' h2 rfl
    have e3 : x = z := by simpa using this.2
    subst e3
    exact Or.inr ⟨rest, by rw [List.concat_eq_append], this.1⟩

theorem pairs_adjacent_first (log : List (Nat × Bool)) (t : Nat) (h : pairs_adjacent log) :
    pairs_adjacent (log ++ [(t, false)]) := by
  intro before u after e
  rcases concat_split log before after _ _ e with ⟨_, _, e3⟩ | ⟨rest, _, e2⟩
  · cases e3
  · exact h before u rest e2

theorem pairs_adjacent_second (log : List (Nat × Bool)) (t : Nat) (h : pairs_adjacent log)
    (hlast : log.getLast? = some (t, false)) : pairs_adjacent (log ++ [(t, true)]) := by
  intro before u after e
  rcases concat_split log before after _ _ e with ⟨_, e2, e3⟩ | ⟨rest, _, e2⟩
  · cases e3
    rw [← e2]
    exact hlast
  · exact h before u rest e2

theorem step_effect (l : lock_id) (s : lock_system) (t : Nat) :
    s.step t = s ∨ ∃ op rest, s.todo t = op :: rest ∧
      (s.step t).todo = Function.update s.todo t rest ∧
      (s.step t).executed = Function.update s.executed t (s.executed t ++ [op]) ∧
      ((op_role l op = lock_role.acquire ∧ s.holder l = none ∧
          (s.step t).holder l = some t ∧ (s.step t).log l = s.log l) ∨
       (op_role l op = lock_role.release ∧
          (s.step t).holder l = none ∧ (s.step t).log l = s.log l) ∨
       (op_role l op = lock_role.first ∧
          (s.step t).holder l = s.holder l ∧ (s.step t).log l = s.log l ++ [(t, false)]) ∨
       (op_role l op = lock_role.second ∧
          (s.step t).holder l = s.holder l ∧ (s.step t).log l = s.log l ++ [(t, true)]) ∨
       (op_role l op = lock_role.neutral ∧
          (s.step t).holder l = s.holder l ∧ (s.step t).log l = s.log l)) := by
  cases h : s.todo t with
  | nil =>
    left
    unfold lock_system.step
    rw [h]
  | cons op rest =>
    cases op with
    | spin_lock l2 =>
      by_cases hh : s.holder l2 = none
      · right
        refine ⟨_, _, rfl, ?_, ?_, ?_⟩
        · unfold lock_system.step; rw [h]; dsimp only; rw [if_pos hh]; rfl
        · unfold lock_system.step; rw [h]; dsimp only; rw [if_pos hh]; rfl
        · by_cases e : l2 = l
          · subst e
            left
            refine ⟨by simp [op_role], hh, ?_, ?_⟩
            · unfold lock_system.step; rw [h]; dsimp only; rw [if_pos hh]; simp
            · unfold lock_system.step; rw [h]; dsimp only; rw [if_pos hh]; rfl
          · right; right; right; right
            refine ⟨by simp [op_role, e], ?_, ?_⟩
            · unfold lock_system.step; rw [h]; dsimp only; rw [if_pos hh]
              simp [Function.update, Ne.symm e]
            · unfold lock_system.step; rw [h]; dsimp only; rw [if_pos hh]; rfl
      · left
        unfold lock_system.step; rw [h]; dsimp only; rw [if_neg hh]
    | spin_unlock l2 =>
      right
      refine ⟨_, _, rfl, ?_, ?_, ?_⟩
      · unfold lock_system.step; rw [h]; rfl
      · unfold lock_system.step; rw [h]; rfl
      · by_cases e : l2 = l
        · subst e
          right; left
          refine ⟨by simp [op_role], ?_, ?_⟩
          · unfold lock_system.step; rw [h]; simp
          · unfold lock_system.step; rw [h]; rfl
        · right; right; right; right
          refine ⟨by simp [op_role, e], ?_, ?_⟩
          · unfold lock_system.step; rw [h]
            simp [Function.update, Ne.symm e]
          · unfold lock_system.step; rw [h]; rfl
    | store_first =>
      right
      refine ⟨_, _, rfl, ?_, ?_, ?_⟩
      · unfold lock_system.step; rw [h]; rfl
      · unfold lock_system.step; rw [h]; rfl
      · cases l
        · right; right; left
          refine ⟨rfl, ?_, ?_⟩
          · unfold lock_system.step; rw [h]; rfl
          · unfold lock_system.step; rw [h]; simp
        · right; right; right; right
          refine ⟨rfl, ?_, ?_⟩
          · unfold lock_system.step; rw [h]; rfl
          · unfold lock_system.step; rw [h]; simp [Function.update]
    | store_second =>
      right
      refine ⟨_, _, rfl, ?_, ?_, ?_⟩
      · unfold lock_system.step; rw [h]; rfl
      · unfold lock_system.step; rw [h]; rfl
      · cases l
        · right; right; right; left
          refine ⟨rfl, ?_, ?_⟩
          · unfold lock_system.step; rw [h]; rfl
          · unfold lock_system.step; rw [h]; simp
        · right; right; right; right
          refine ⟨rfl, ?_, ?_⟩
          · unfold lock_system.step; rw [h]; rfl
          · unfold lock_system.step; rw [h]; simp [Function.update]
    | async_fill =>
      right
      refine ⟨_, _, rfl, ?_, ?_, ?_⟩
      · unfold lock_system.step; rw [h]; rfl
      · unfold lock_system.step; rw [h]; rfl
      · cases l
        · right; right; right; right
          refine ⟨rfl, ?_, ?_⟩
          · unfold lock_system.step; rw [h]; rfl
          · unfold lock_system.step; rw [h]; simp [Function.update]
        · right; right; left
          refine ⟨rfl, ?_, ?_⟩
          · unfold lock_system.step; rw [h]; rfl
          · unfold lock_system.step; rw [h]; simp
    | async_trigger =>
      right
      refine ⟨_, _, rfl, ?_, ?_, ?_⟩
      · unfold lock_system.step; rw [h]; rfl
      · unfold lock_system.step; rw [h]; rfl
      · cases l
        · right; right; right; right
          refine ⟨rfl, ?_, ?_⟩
          · unfold lock_system.step; rw [h]; rfl
          · unfold lock_system.step; rw [h]; simp [Function.update]
        · right; right; right; left
          refine ⟨rfl, ?_, ?_⟩
          · unfold lock_system.step; rw [h]; rfl
          · unfold lock_system.step; rw [h]; simp
    | other =>
      right
      refine ⟨_, _, rfl, ?_, ?_, ?_⟩
      · unfold lock_system.step; rw [h]; rfl
      · unfold lock_system.step; rw [h]; rfl
      · right; right; right; right
        refine ⟨rfl, ?_, ?_⟩
        · unfold lock_system.step; rw [h]; rfl
        · unfold lock_system.step; rw [h]; rfl

theorem lock_invariant_step (l : lock_id) (s : lock_system) (t : Nat)
    (h : lock_invariant l s) : lock_invariant l (s.step t) := by
  rcases step_effect l s t with e | ⟨op, rest, htodo, hT, hE, hcase⟩
  · rw [e]; exact h
  obtain ⟨hA, hB, hC, hD⟩ := h
  have hAt := hA t
  rw [htodo, List.foldl_cons] at hAt
  have hne : phase_step l (phase_of l (s.executed t)) op ≠ none := by
    intro e
    rw [e, phase_fold_none] at hAt
    cases hAt
  have hEt : phase_of l ((s.step t).executed t) =
      phase_step l (phase_of l (s.executed t)) op := by
    rw [hE, Function.update_same]
    unfold phase_of
    rw [List.foldl_append]
    rfl
  have hEo : ∀ u, u ≠ t → (s.step t).executed u = s.executed u := by
    intro u hu
    rw [hE, Function.update_noteq hu]
  have hA2 : ∀ u, ((s.step t).todo u).foldl (phase_step l)
      (phase_of l ((s.step t).executed u)) = some lock_phase.outside := by
    intro u
    by_cases hu : u = t
    · subst hu
      rw [hEt, hT, Function.update_same]
      exact hAt
    · rw [hEo u hu, hT, Function.update_noteq hu]
      exact hA u
  rcases hcase with ⟨hr, hnone, hh, hl⟩ | ⟨hr, hh, hl⟩ | ⟨hr, hh, hl⟩ | ⟨hr, hh, hl⟩ |
    ⟨hr, hh, hl⟩
  · -- the lock is taken
    obtain ⟨_, p2⟩ := phase_acquire l _ op hr hne
    rw [p2] at hEt
    refine ⟨hA2, ?_, ?_, by rw [hl]; exact hD⟩
    · intro u
      by_cases hu : u = t
      · subst hu
        rw [hh, hEt]
        exact ⟨fun _ => Or.inl rfl, fun _ => rfl⟩
      · rw [hh, hEo u hu]
        constructor
        · intro e
          exact absurd (Option.some.inj e).symm hu
        · intro e
          have := (hB u).mpr e
          rw [hnone] at this
          cases this
    · intro u
      by_cases hu : u = t
      · subst hu
        rw [hEt]
        intro e
        cases e
      · rw [hEo u hu, hl]
        exact hC u
  · -- the lock is released
    obtain ⟨p1, p2⟩ := phase_release l _ op hr hne
    have hold : s.holder l = some t := (hB t).mpr p1
    rw [p2] at hEt
    refine ⟨hA2, ?_, ?_, by rw [hl]; exact hD⟩
    · intro u
      by_cases hu : u = t
      · subst hu
        rw [hh, hEt]
        constructor
        · intro e; cases e
        · intro e
          rcases e with e | e <;> cases e
      · rw [hh, hEo u hu]
        constructor
        · intro e; cases e
        · intro e
          have := (hB u).mpr e
          rw [hold] at this
          exact absurd (Option.some.inj this).symm hu
    · intro u
      by_cases hu : u = t
      · subst hu
        rw [hEt]
        intro e
        cases e
      · rw [hEo u hu, hl]
        exact hC u
  · -- the first statement of a pair
    obtain ⟨p1, p2⟩ := phase_first l _ op hr hne
    have hold : s.holder l = some t := (hB t).mpr (Or.inl p1)
    rw [p2] at hEt
    refine ⟨hA2, ?_, ?_, by rw [hl]; exact pairs_adjacent_first _ t hD⟩
    · intro u
      by_cases hu : u = t
      · subst hu
        rw [hh, hEt]
        exact ⟨fun _ => Or.inr rfl, fun _ => hold⟩
      · rw [hh, hEo u hu]
        exact hB u
    · intro u
      by_cases hu : u = t
      · subst hu
        intro _
        rw [hl]
        simp
      · rw [hEo u hu]
        intro e
        have := (hB u).mpr (Or.inr e)
        rw [hold] at this
        exact absurd (Option.some.inj this).symm hu
  · -- the second statement of a pair
    obtain ⟨p1, p2⟩ := phase_second l _ op hr hne
    have hold : s.holder l = some t := (hB t).mpr (Or.inr p1)
    rw [p2] at hEt
    refine ⟨hA2, ?_, ?_, by rw [hl]; exact pairs_adjacent_second _ t hD (hC t p1)⟩
    · intro u
      by_cases hu : u = t
      · subst hu
        rw [hh, hEt]
        exact ⟨fun _ => Or.inl rfl, fun _ => hold⟩
      · rw [hh, hEo u hu]
        exact hB u
    · intro u
      by_cases hu : u = t
      · subst hu
        rw [hEt]
        intro e
        cases e
      · rw [hEo u hu]
        intro e
        have := (hB u).mpr (Or.inr e)
        rw [hold] at this
        exact absurd (Option.some.inj this).symm hu
  · -- a statement that does not concern the lock
    rw [phase_neutral l _ op hr] at hEt
    have hP : ∀ u, phase_of l ((s.step t).executed u) = phase_of l (s.executed u) := by
      intro u
      by_cases hu : u = t
      · subst hu
        exact hEt
      · rw [hEo u hu]
    refine ⟨hA2, ?_, ?_, by rw [hl]; exact hD⟩
    · intro u
      rw [hP, hh]
      exact hB u
    · intro u
      rw [hP, hl]
      exact hC u

theorem lock_invariant_run (l : lock_id) (schedule : List Nat) (s : lock_system)
    (h : lock_invariant l s) : lock_invariant l (s.run schedule) := by
  induction schedule generalizing s with
  | nil => exact h
  | cons t rest ih => exact ih _ (lock_invariant_step l s t h)

theorem lock_invariant_start (l : lock_id) (programs : Nat → List LockOp)
    (h : ∀ t, lock_discipline l (programs t)) :
    lock_invariant l (lock_system_start programs) := by
  refine ⟨fun t => h t, ?_, ?_, ?_⟩
  · intro t
    constructor
    · intro e; cases e
    · intro e
      rcases e with e | e <;> cases e
  · intro t e
    cases e
  · intro before t after e
    cases before <;> cases e

theorem guarded_holds (l : lock_id) (s : lock_system) (h : lock_invariant l s) (t : Nat)
    (op : LockOp) (rest : List LockOp) (htodo : s.todo t = op :: rest)
    (hr : op_role l op = lock_role.first ∨ op_role l op = lock_role.second) :
    s.holder l = some t := by
  obtain ⟨hA, hB, _, _⟩ := h
  have hAt := hA t
  rw [htodo, List.foldl_cons] at hAt
  have hne : phase_step l (phase_of l (s.executed t)) op ≠ none := by
    intro e
    rw [e, phase_fold_none] at hAt
    cases hAt
  rcases hr with hr | hr
  · exact (hB t).mpr (Or.inl (phase_first l _ op hr hne).1)
  · exact (hB t).mpr (Or.inr (phase_second l _ op hr hne).1)

/-- C25: every path of the driver that stores to an ownership bitmask after
initialisation does so between taking and releasing the queue lock, and the
fill and the trigger submission of a frame are made between taking and
releasing spi_lock. Hence, whatever sequences of driver functions the threads
run and however they are scheduled, a thread about to store to a bitmask holds
the queue lock, a thread about to submit holds spi_lock, the two stores of a
move are never separated by a store of another thread, and every trigger
submission comes directly after the fill submission of the same thread. -/
theorem C25_lock_discipline (programs : Nat → List LockOp) (schedule : List Nat)
    (h : ∀ t, ∃ calls : List (List LockOp),
      (∀ p ∈ calls, p ∈ driver_paths) ∧ programs t = calls.flatten) :
    (∀ p ∈ driver_paths, lock_discipline queue_lock p ∧ lock_discipline spi_lock p) ∧
    (∀ t op rest, ((lock_system_start programs).run schedule).todo t = op :: rest →
      ((op = LockOp.store_first ∨ op = LockOp.store_second) →
        ((lock_system_start programs).run schedule).holder queue_lock = some t) ∧
      ((op = LockOp.async_fill ∨ op = LockOp.async_trigger) →
        ((lock_system_start programs).run schedule).holder spi_lock = some t)) ∧
    pairs_adjacent (((lock_system_start programs).run schedule).log queue_lock) ∧
    pairs_adjacent (((lock_system_start programs).run schedule).log spi_lock) := by
  have hd : ∀ l t, lock_discipline l (programs t) := by
    intro l t
    obtain ⟨calls, hc, e⟩ := h t
    rw [e]
    apply discipline_join
    intro p hp
    have := driver_paths_discipline p (hc p hp)
    cases l
    · exact this.1
    · exact this.2
  have hinv : ∀ l, lock_invariant l ((lock_system_start programs).run schedule) :=
    fun l => lock_invariant_run l schedule _ (lock_invariant_start l programs (hd l))
  refine ⟨driver_paths_discipline, ?_, (hinv queue_lock).2.2.2, (hinv spi_lock).2.2.2⟩
  intro t op rest htodo
  constructor
  · intro hop
    apply guarded_holds queue_lock _ (hinv queue_lock) t op rest htodo
    rcases hop with e | e
    · subst e; exact Or.inl rfl
    · subst e; exact Or.inr rfl
  · intro hop
    apply guarded_holds spi_lock _ (hinv spi_lock) t op rest htodo
    rcases hop with e | e
    · subst e; exact Or.inl rfl
    · subst e; exact Or.inr rfl

/-- C25 witness: two submissions and a trigger completion callback under a
round-robin schedule; the second submission spins on spi_lock until the first
has issued both transactions. -/
theorem C25_lock_discipline_witness :
    (∀ t, ∃ calls : List (List LockOp),
      (∀ p ∈ calls, p ∈ driver_paths) ∧ example_programs t = calls.flatten) ∧
    ((lock_system_start example_programs).run example_schedule).log spi_lock =
      [(0, false), (0, true), (1, false), (1, true)] ∧
    pairs_adjacent (((lock_system_start example_programs).run example_schedule).log spi_lock) ∧
    pairs_adjacent
      (((lock_system_start example_programs).run example_schedule).log queue_lock) :=
  have hyp : ∀ t, ∃ calls : List (List LockOp),
      (∀ p ∈ calls, p ∈ driver_paths) ∧ example_programs t = calls.flatten := fun t =>
    if h0 : t = 0 then
      ⟨[start_xmit_ops false false true false false], by decide, by
        subst h0; rfl⟩
    else if h1 : t = 1 then
      ⟨[start_xmit_ops false false false false false], by decide, by
        subst h1; rfl⟩
    else
      ⟨[trigger_fifo_complete_ops], by decide, by
        unfold example_programs
        rw [if_neg h0, if_neg h1]
        rfl⟩
  ⟨hyp, by rfl,
    (C25_lock_discipline example_programs example_schedule hyp).2.2.2,
    (C25_lock_discipline example_programs example_schedule hyp).2.2.1⟩

/-! ## Idempotence of flow-control requests -/

theorem flow_next_idem (cur req : tx_queue_state) :
    flow_next (flow_next cur req) req = flow_next cur req := by
  cases cur <;> cases req <;> rfl

theorem flow_events_again_netif (cur req : tx_queue_state) :
    netif_events (flow_events (flow_next cur req) req) = [] := by
  cases cur <;> cases req <;> rfl

theorem flow_events_again (cur req : tx_queue_state)
    (h : cur ≠ MCP25XXFD_CAN_TX_QUEUE_STATE_RESTART) :
    flow_events (flow_next cur req) req = [] := by
  cases cur <;> cases req <;> first | rfl | exact absurd rfl h

theorem manage_nolock_same (c : mcp25xxfd_can_priv) :
    mcp25xxfd_can_tx_queue_manage_nolock c c.tx_queue.state = c := by
  unfold mcp25xxfd_can_tx_queue_manage_nolock
  rw [if_pos rfl]

/-- C31: for every current state and every requested state s, a second
mcp25xxfd_can_tx_queue_manage_nolock with s leaves the stored state as the
first one left it and adds no wake or pause signal; unless the stored state was
Restarting (where each call logs the unsupported state), the second call
changes nothing at all; and a request for the current state returns the driver
state unchanged. -/
theorem C31_manage_idempotent (cpriv : mcp25xxfd_can_priv) (s : tx_queue_state) :
    (mcp25xxfd_can_tx_queue_manage_nolock
      (mcp25xxfd_can_tx_queue_manage_nolock cpriv s) s).tx_queue.state =
      (mcp25xxfd_can_tx_queue_manage_nolock cpriv s).tx_queue.state ∧
    netif_events (mcp25xxfd_can_tx_queue_manage_nolock
      (mcp25xxfd_can_tx_queue_manage_nolock cpriv s) s).trace =
      netif_events (mcp25xxfd_can_tx_queue_manage_nolock cpriv s).trace ∧
    (cpriv.tx_queue.state ≠ MCP25XXFD_CAN_TX_QUEUE_STATE_RESTART →
      mcp25xxfd_can_tx_queue_manage_nolock
        (mcp25xxfd_can_tx_queue_manage_nolock cpriv s) s =
        mcp25xxfd_can_tx_queue_manage_nolock cpriv s) ∧
    mcp25xxfd_can_tx_queue_manage_nolock cpriv cpriv.tx_queue.state = cpriv := by
  refine ⟨?_, ?_, ?_, manage_nolock_same cpriv⟩
  · rw [manage_nolock_eq (mcp25xxfd_can_tx_queue_manage_nolock cpriv s), manage_nolock_eq cpriv]
    exact flow_next_idem _ _
  · rw [manage_nolock_eq (mcp25xxfd_can_tx_queue_manage_nolock cpriv s), manage_nolock_eq cpriv]
    show netif_events ((cpriv.trace ++ flow_events cpriv.tx_queue.state s) ++
      flow_events (flow_next cpriv.tx_queue.state s) s) = _
    rw [netif_events_append, flow_events_again_netif, List.append_nil]
  · intro h
    rw [manage_nolock_eq (mcp25xxfd_can_tx_queue_manage_nolock cpriv s), manage_nolock_eq cpriv]
    show ({ cpriv with
        tx_queue := { cpriv.tx_queue with
          state := flow_next (flow_next cpriv.tx_queue.state s) s }
        trace := (cpriv.trace ++ flow_events cpriv.tx_queue.state s) ++
          flow_events (flow_next cpriv.tx_queue.state s) s } : mcp25xxfd_can_priv) = _
    rw [flow_next_idem, flow_events_again _ _ h, List.append_nil]

/-- Instance of C31: a Started queue is asked twice for Runnable; the first
request pauses the transport, the second changes nothing. -/
theorem C31_manage_idempotent_witness :
    (example_priv 0 1 MCP25XXFD_CAN_TX_QUEUE_STATE_STARTED).tx_queue.state ≠
      MCP25XXFD_CAN_TX_QUEUE_STATE_RESTART ∧
    netif_events (mcp25xxfd_can_tx_queue_manage_nolock
      (example_priv 0 1 MCP25XXFD_CAN_TX_QUEUE_STATE_STARTED)
      MCP25XXFD_CAN_TX_QUEUE_STATE_RUNABLE).trace = [Event.netif_stop_queue] ∧
    mcp25xxfd_can_tx_queue_manage_nolock
      (mcp25xxfd_can_tx_queue_manage_nolock
        (example_priv 0 1 MCP25XXFD_CAN_TX_QUEUE_STATE_STARTED)
        MCP25XXFD_CAN_TX_QUEUE_STATE_RUNABLE) MCP25XXFD_CAN_TX_QUEUE_STATE_RUNABLE =
      mcp25xxfd_can_tx_queue_manage_nolock
        (example_priv 0 1 MCP25XXFD_CAN_TX_QUEUE_STATE_STARTED)
        MCP25XXFD_CAN_TX_QUEUE_STATE_RUNABLE :=
  ⟨by decide, by decide,
    (C31_manage_idempotent (example_priv 0 1 MCP25XXFD_CAN_TX_QUEUE_STATE_STARTED)
      MCP25XXFD_CAN_TX_QUEUE_STATE_RUNABLE).2.2.1 (by decide)⟩

/-! ## Initial state after allocation -/

theorem alloc_loop_messages (L : Layout) :
    ∀ (n i f : Nat) (c : mcp25xxfd_can_priv),
      i + n ≤ c.tx_queue.message.length → f + n ≤ c.tx_queue.fifo2message.length →
      (tx_queue_alloc_loop L n i f c).tx_queue.message.length = c.tx_queue.message.length ∧
      (tx_queue_alloc_loop L n i f c).tx_queue.fifo2message.length =
        c.tx_queue.fifo2message.length ∧
      (∀ j, j < i → msg_at (tx_queue_alloc_loop L n i f c).tx_queue j = msg_at c.tx_queue j) ∧
      (∀ g, g < f → (tx_queue_alloc_loop L n i f c).tx_queue.fifo2message.getD g none =
        c.tx_queue.fifo2message.getD g none) ∧
      (∀ k, k < n →
        (tx_queue_alloc_loop L n i f c).tx_queue.fifo2message.getD (f + k) none =
          some (i + k) ∧
        (msg_at (tx_queue_alloc_loop L n i f c).tx_queue (i + k)).fifo = f + k ∧
        (msg_at (tx_queue_alloc_loop L n i f c).tx_queue (i + k)).fill_fifo_xfer_len =
          L.sizeof_cmd + sizeof_can_obj_tx) := by
  intro n
  induction n with
  | zero =>
    intro i f c _ _
    exact ⟨rfl, rfl, fun _ _ => rfl, fun _ _ => rfl, fun k hk => absurd hk (Nat.not_lt_zero k)⟩
  | succ n ih =>
    intro i f c hlen hmap
    have hstep : tx_queue_alloc_loop L (n + 1) i f c =
        tx_queue_alloc_loop L n (i + 1) (f + 1)
          (mcp25xxfd_can_tx_message_init L
            { c with tx_queue :=
              { c.tx_queue with fifo2message := c.tx_queue.fifo2message.set f (some i) } }
            i f) := rfl
    have a1 : (mcp25xxfd_can_tx_message_init L
        { c with tx_queue :=
          { c.tx_queue with fifo2message := c.tx_queue.fifo2message.set f (some i) } }
        i f).tx_queue.fifo2message = c.tx_queue.fifo2message.set f (some i) := rfl
    have a2 : (mcp25xxfd_can_tx_message_init L
        { c with tx_queue :=
          { c.tx_queue with fifo2message := c.tx_queue.fifo2message.set f (some i) } }
        i f).tx_queue.message.length = c.tx_queue.message.length := by
      simp [mcp25xxfd_can_tx_message_init]
    have hi : i < c.tx_queue.message.length := by omega
    have a3 : (msg_at (mcp25xxfd_can_tx_message_init L
        { c with tx_queue :=
          { c.tx_queue with fifo2message := c.tx_queue.fifo2message.set f (some i) } }
        i f).tx_queue i).fifo = f := by
      unfold mcp25xxfd_can_tx_message_init msg_at
      simp [List.getD_eq_getElem?_getD, List.getElem?_set, hi]
    have a4 : (msg_at (mcp25xxfd_can_tx_message_init L
        { c with tx_queue :=
          { c.tx_queue with fifo2message := c.tx_queue.fifo2message.set f (some i) } }
        i f).tx_queue i).fill_fifo_xfer_len = L.sizeof_cmd + sizeof_can_obj_tx := by
      unfold mcp25xxfd_can_tx_message_init msg_at
      simp [List.getD_eq_getElem?_getD, List.getElem?_set, hi]
    have a5 : ∀ j, j ≠ i → msg_at (mcp25xxfd_can_tx_message_init L
        { c with tx_queue :=
          { c.tx_queue with fifo2message := c.tx_queue.fifo2message.set f (some i) } }
        i f).tx_queue j = msg_at c.tx_queue j := by
      intro j hj
      have hij : ¬ i = j := fun e => hj e.symm
      unfold mcp25xxfd_can_tx_message_init msg_at
      simp [List.getD_eq_getElem?_getD, List.getElem?_set_ne hij]
    obtain ⟨r1, r2, r3, r4, r5⟩ := ih (i + 1) (f + 1) _
      (by rw [a2]; omega) (by rw [a1, List.length_set]; omega)
    rw [hstep]
    refine ⟨r1.trans a2, by rw [r2, a1, List.length_set], ?_, ?_, ?_⟩
    · intro j hj
      rw [r3 j (by omega), a5 j (by omega)]
    · intro g hg
      rw [r4 g (by omega), a1, List.getD_eq_getElem?_getD, List.getD_eq_getElem?_getD,
        List.getElem?_set_ne (by omega)]
    · intro k hk
      cases k with
      | zero =>
        have ef : f + 0 = f := rfl
        have ei : i + 0 = i := rfl
        rw [ef, ei]
        refine ⟨?_, ?_, ?_⟩
        · rw [r4 f (by omega), a1, List.getD_eq_getElem?_getD]
          have hf : f < c.tx_queue.fifo2message.length := by omega
          simp [List.getElem?_set, hf]
        · rw [r3 i (by omega)]
          exact a3
        · rw [r3 i (by omega)]
          exact a4
      | succ k =>
        have e1 : f + (k + 1) = f + 1 + k := by omega
        have e2 : i + (k + 1) = i + 1 + k := by omega
        rw [e1, e2]
        exact r5 k (by omega)

/-- C32: after a successful mcp25xxfd_can_tx_queue_alloc for the slot range
s .. s+n-1 inside the 32 bit masks, idle is exactly that range, the other four
bitmasks are empty, fifo2message sends every slot f of the range to message
f - s, whose fifo field is f, the fill transfer length of each of the n
messages is command size + header size, and the partition invariant holds. -/
theorem C32_initial_state (L : Layout) (cpriv : mcp25xxfd_can_priv)
    (h : cpriv.tx_start + cpriv.tx_count ≤ 32) :
    (mcp25xxfd_can_tx_queue_alloc L true cpriv).1 = 0 ∧
    ∃ c, (mcp25xxfd_can_tx_queue_alloc L true cpriv).2 = some c ∧
      c.tx_start = cpriv.tx_start ∧ c.tx_count = cpriv.tx_count ∧
      c.tx_queue.idle = slot_set cpriv.tx_start cpriv.tx_count ∧
      c.tx_queue.in_fill_fifo_transfer = 0 ∧
      c.tx_queue.in_trigger_fifo_transfer = 0 ∧
      c.tx_queue.in_can_transfer = 0 ∧
      c.tx_queue.transferred = 0 ∧
      c.tx_queue.message.length = cpriv.tx_count ∧
      (∀ f, cpriv.tx_start ≤ f → f < cpriv.tx_start + cpriv.tx_count →
        c.tx_queue.fifo2message.getD f none = some (f - cpriv.tx_start) ∧
        (msg_at c.tx_queue (f - cpriv.tx_start)).fifo = f) ∧
      (∀ i, i < cpriv.tx_count →
        (msg_at c.tx_queue i).fill_fifo_xfer_len = L.sizeof_cmd + sizeof_can_obj_tx) ∧
      partition_invariant c := by
  refine ⟨rfl, _, rfl, ?_⟩
  obtain ⟨r1, r2, r3, r4, r5, r6, _, r8, r9, _⟩ :=
    alloc_loop_spec L cpriv.tx_count 0 cpriv.tx_start
      { cpriv with tx_queue := zeroed_queue L cpriv.tx_count }
      (by omega)
      (by show (0 : Nat) < 2 ^ 32; decide)
      (by show 0 + cpriv.tx_count ≤ (List.replicate cpriv.tx_count (zeroed_message L)).length
          simp)
      (by
        intro g j hg hh
        have hnone : (List.replicate 32 (none : Option Nat)).getD g none = none := by
          rw [List.getD_eq_getElem?_getD]
          exact List.getElem?_getD_replicate_default_eq (none : Option Nat) 32 g
        have hh2 : (List.replicate 32 (none : Option Nat)).getD g none = some j := hh
        rw [hnone] at hh2
        exact absurd hh2 (by simp))
  obtain ⟨m1, _, _, _, m5⟩ :=
    alloc_loop_messages L cpriv.tx_count 0 cpriv.tx_start
      { cpriv with tx_queue := zeroed_queue L cpriv.tx_count }
      (by show 0 + cpriv.tx_count ≤ (List.replicate cpriv.tx_count (zeroed_message L)).length
          simp)
      (by show cpriv.tx_start + cpriv.tx_count ≤ (List.replicate 32 (none : Option Nat)).length
          simpa using h)
  have hidle : (tx_queue_alloc_loop L cpriv.tx_count 0 cpriv.tx_start
      { cpriv with tx_queue := zeroed_queue L cpriv.tx_count }).tx_queue.idle =
      slot_set cpriv.tx_start cpriv.tx_count := by
    apply Nat.eq_of_testBit_eq
    intro j
    have hj := r9 j
    rw [testBit_slot_set]
    have hz : bit ({ cpriv with tx_queue := zeroed_queue L cpriv.tx_count } :
        mcp25xxfd_can_priv).tx_queue.idle j = 0 := bit_zero_left j
    rw [hz] at hj
    unfold bit at hj
    by_cases hr : cpriv.tx_start ≤ j ∧ j < cpriv.tx_start + cpriv.tx_count
    · have h1 : j < 32 ∧ cpriv.tx_start ≤ j ∧ j < cpriv.tx_start + cpriv.tx_count := by omega
      rw [if_pos h1] at hj
      rw [decide_eq_true hr]
      revert hj
      cases (tx_queue_alloc_loop L cpriv.tx_count 0 cpriv.tx_start
        { cpriv with tx_queue := zeroed_queue L cpriv.tx_count }).tx_queue.idle.testBit j <;>
        simp
    · have h1 : ¬ (j < 32 ∧ cpriv.tx_start ≤ j ∧ j < cpriv.tx_start + cpriv.tx_count) :=
        fun h => hr h.2
      rw [if_neg h1] at hj
      rw [decide_eq_false hr]
      revert hj
      cases (tx_queue_alloc_loop L cpriv.tx_count 0 cpriv.tx_start
        { cpriv with tx_queue := zeroed_queue L cpriv.tx_count }).tx_queue.idle.testBit j <;>
        simp
  have z2 : (tx_queue_alloc_loop L cpriv.tx_count 0 cpriv.tx_start
      { cpriv with tx_queue := zeroed_queue L cpriv.tx_count }).tx_queue.in_fill_fifo_transfer
      = 0 := r1
  have z3 : (tx_queue_alloc_loop L cpriv.tx_count 0 cpriv.tx_start
      { cpriv with tx_queue := zeroed_queue L cpriv.tx_count }).tx_queue.in_trigger_fifo_transfer
      = 0 := r2
  have z4 : (tx_queue_alloc_loop L cpriv.tx_count 0 cpriv.tx_start
      { cpriv with tx_queue := zeroed_queue L cpriv.tx_count }).tx_queue.in_can_transfer
      = 0 := r3
  have z5 : (tx_queue_alloc_loop L cpriv.tx_count 0 cpriv.tx_start
      { cpriv with tx_queue := zeroed_queue L cpriv.tx_count }).tx_queue.transferred
      = 0 := r4
  refine ⟨r5, r6, hidle, z2, z3, z4, z5, ?_, ?_, ?_, ?_⟩
  · rw [m1]
    show (List.replicate cpriv.tx_count (zeroed_message L)).length = cpriv.tx_count
    simp
  · intro f h1 h2
    have := m5 (f - cpriv.tx_start) (by omega)
    have e : cpriv.tx_start + (f - cpriv.tx_start) = f := by omega
    rw [e, Nat.zero_add] at this
    exact ⟨this.1, this.2.1⟩
  · intro i hi
    have := m5 i hi
    rw [Nat.zero_add] at this
    exact this.2.2
  · unfold partition_invariant pairwise_disjoint
    rw [z2, z3, z4, z5, hidle, r5, r6]
    simp

/-- Instance of C32: allocation for the slot range 2 .. 4 of the example. -/
theorem C32_initial_state_witness :
    (blank_priv 2 3).tx_start + (blank_priv 2 3).tx_count ≤ 32 ∧
    (mcp25xxfd_can_tx_queue_alloc example_layout true (blank_priv 2 3)).1 = 0 ∧
    ∃ c, (mcp25xxfd_can_tx_queue_alloc example_layout true (blank_priv 2 3)).2 = some c ∧
      c.tx_queue.idle = 28 ∧
      c.tx_queue.fifo2message.getD 3 none = some 1 ∧
      (msg_at c.tx_queue 1).fifo = 3 ∧
      (msg_at c.tx_queue 1).fill_fifo_xfer_len = 10 ∧
      partition_invariant c :=
  have h := C32_initial_state example_layout (blank_priv 2 3) (by decide)
  ⟨by decide, h.1, h.2.imp (fun c hc =>
    ⟨hc.1, hc.2.2.2.1,
      (hc.2.2.2.2.2.2.2.2.2.1 3 (by decide) (by decide)).1,
      (hc.2.2.2.2.2.2.2.2.2.1 3 (by decide) (by decide)).2,
      hc.2.2.2.2.2.2.2.2.2.2.1 1 (by decide),
      hc.2.2.2.2.2.2.2.2.2.2.2⟩)⟩

/-! ## Bus failures while an event record is processed -/

/-- C34: when the read of the event record fails with error e,
mcp25xxfd_can_tx_handle_int_tefif_fifo returns e and the driver state is the
one before the call except for the consumed bus reply and the logged read: the
read cursor, the five bitmasks, the counters, the echo frames and the list of
slots handed to the release path are unchanged.  When the read succeeds and the
acknowledge write fails with error e, the function returns e although the slot
named by the record has been handed to the release path and the read cursor
has been advanced by one (with wraparound); the bitmasks and the counters are
unchanged in this case too. -/
theorem C34_event_error_atomicity (L : Layout) (cpriv cpriv2 : mcp25xxfd_can_priv) (e : Int)
    (he : e ≠ 0) (hread : spi_ret cpriv.spi_replies 0 = e)
    (hok : spi_ret cpriv2.spi_replies 0 = 0) (hack : spi_ret cpriv2.spi_replies 1 = e) :
    mcp25xxfd_can_tx_handle_int_tefif_fifo L cpriv =
      (e, { cpriv with
        spi_replies := cpriv.spi_replies.tail
        trace := cpriv.trace ++
          [Event.cmd_read_regs (L.SRAM_ADDR (tef_offset cpriv)) sizeof_can_obj_tef e] }) ∧
    (mcp25xxfd_can_tx_handle_int_tefif_fifo L cpriv2).1 = e ∧
    (mcp25xxfd_can_tx_handle_int_tefif_fifo L cpriv2).2.queued_frames =
      cpriv2.queued_frames ++
        [(tef_fifo L (spi_data cpriv2.spi_replies 0),
          (tef_record (spi_data cpriv2.spi_replies 0)).ts, false)] ∧
    (mcp25xxfd_can_tx_handle_int_tefif_fifo L cpriv2).2.tef_index =
      tef_advance cpriv2.tef_count cpriv2.tef_index ∧
    (cpriv2.tef_index < cpriv2.tef_count → cpriv2.tef_count < 2 ^ 32 →
      (mcp25xxfd_can_tx_handle_int_tefif_fifo L cpriv2).2.tef_index =
        (cpriv2.tef_index + 1) % cpriv2.tef_count) ∧
    (mcp25xxfd_can_tx_handle_int_tefif_fifo L cpriv2).2.tx_queue = cpriv2.tx_queue ∧
    (mcp25xxfd_can_tx_handle_int_tefif_fifo L cpriv2).2.stats_tx_packets =
      cpriv2.stats_tx_packets ∧
    (mcp25xxfd_can_tx_handle_int_tefif_fifo L cpriv2).2.stats_tx_bytes =
      cpriv2.stats_tx_bytes ∧
    (mcp25xxfd_can_tx_handle_int_tefif_fifo L cpriv2).2.stats_tx_aborted_errors =
      cpriv2.stats_tx_aborted_errors ∧
    (mcp25xxfd_can_tx_handle_int_tefif_fifo L cpriv2).2.echo_skb = cpriv2.echo_skb := by
  have hne : spi_ret cpriv.spi_replies 0 ≠ 0 := by rw [hread]; exact he
  refine ⟨?_, ?_⟩
  · rw [tefif_fifo_read_failed L cpriv hne, hread]
  · rw [tefif_fifo_ok L cpriv2 hok]
    refine ⟨hack, rfl, rfl, ?_, rfl, rfl, rfl, rfl, rfl⟩
    intro hi hc
    exact tef_advance_mod hi hc

/-- Instances of C34: a failed record read on example_record_read_down leaves
cursor, in_can_transfer and the release list alone; a failed acknowledge on
example_ack_down has handed slot 1 to the release path and moved the cursor
from 0 to 1. -/
theorem C34_event_error_atomicity_witness :
    (mcp25xxfd_can_tx_handle_int_tefif_fifo example_layout example_record_read_down).1 = -5 ∧
    (mcp25xxfd_can_tx_handle_int_tefif_fifo example_layout
      example_record_read_down).2.queued_frames = [] ∧
    (mcp25xxfd_can_tx_handle_int_tefif_fifo example_layout
      example_record_read_down).2.tef_index = 0 ∧
    (mcp25xxfd_can_tx_handle_int_tefif_fifo example_layout example_ack_down).1 = -5 ∧
    (mcp25xxfd_can_tx_handle_int_tefif_fifo example_layout example_ack_down).2.queued_frames =
      [(1, 77, false)] ∧
    (mcp25xxfd_can_tx_handle_int_tefif_fifo example_layout example_ack_down).2.tef_index = 1 ∧
    (mcp25xxfd_can_tx_handle_int_tefif_fifo example_layout example_ack_down).2.tx_queue =
      example_ack_down.tx_queue :=
  have h := C34_event_error_atomicity example_layout example_record_read_down example_ack_down
    (-5) (by decide) (by decide) (by decide) (by decide)
  ⟨(congrArg Prod.fst h.1).trans rfl,
    (congrArg (fun r => r.2.queued_frames) h.1).trans (by decide),
    (congrArg (fun r => r.2.tef_index) h.1).trans (by decide),
    h.2.1, h.2.2.1.trans (by decide), h.2.2.2.1.trans (by decide), h.2.2.2.2.2.1⟩

/-! ## Event count of the optimized strategy -/

theorem and_BIT_ne_zero_iff_mod (x f : Nat) :
    x &&& BIT f ≠ 0 ↔ x.testBit (f % 64) = true := by
  rw [← BIT_mod]
  exact and_BIT_ne_zero_iff x (f % 64) (Nat.mod_lt _ (by decide))

theorem finished_count_range (finished : Nat) : ∀ (n f : Nat), f + n ≤ 64 →
    finished_count finished n f = (List.range n).countP (fun i => finished.testBit (f + i)) := by
  intro n
  induction n with
  | zero =>
    intro f _
    rfl
  | succ n ih =>
    intro f h
    have hcount : finished_count finished (n + 1) f =
        (if finished.testBit (f % 64) then 1 else 0) + finished_count finished n (f + 1) := rfl
    have hmod : f % 64 = f := Nat.mod_eq_of_lt (by omega)
    have hfun : ((fun i => finished.testBit (f + i)) ∘ Nat.succ) =
        (fun i => finished.testBit (f + 1 + i)) := by
      funext i
      show finished.testBit (f + (i + 1)) = finished.testBit (f + 1 + i)
      rw [Nat.add_assoc, Nat.add_comm 1 i]
    rw [hcount, hmod, ih (f + 1) (by omega), List.range_succ_eq_map, List.countP_cons,
      List.countP_map, hfun, Nat.add_comm]
    rfl

theorem tefif_fifo_times_succ (L : Layout) (k : Nat) (c : mcp25xxfd_can_priv) :
    tefif_fifo_times L (k + 1) c =
      if (mcp25xxfd_can_tx_handle_int_tefif_fifo L c).1 ≠ 0 then
        mcp25xxfd_can_tx_handle_int_tefif_fifo L c
      else tefif_fifo_times L k (mcp25xxfd_can_tx_handle_int_tefif_fifo L c).2 := rfl

theorem optimized_loop_times (L : Layout) (finished : Nat) (_hfin : finished < 2 ^ 32) :
    ∀ (n f : Nat) (c : mcp25xxfd_can_priv),
      tefif_optimized_loop L finished n f c =
        tefif_fifo_times L (finished_count finished n f) c := by
  intro n
  induction n with
  | zero =>
    intro f c
    rfl
  | succ n ih =>
    intro f c
    rw [optimized_loop_succ]
    have hcount : finished_count finished (n + 1) f =
        (if finished.testBit (f % 64) then 1 else 0) + finished_count finished n (f + 1) := rfl
    by_cases hb : finished.testBit (f % 64) = true
    · have e : (if finished.testBit (f % 64) = true then 1 else 0) +
          finished_count finished n (f + 1) = finished_count finished n (f + 1) + 1 := by
        rw [if_pos hb, Nat.add_comm]
      rw [if_pos ((and_BIT_ne_zero_iff_mod finished f).2 hb), hcount, e,
        tefif_fifo_times_succ, ih]
    · have e : (if finished.testBit (f % 64) = true then 1 else 0) +
          finished_count finished n (f + 1) = finished_count finished n (f + 1) := by
        rw [if_neg hb, Nat.zero_add]
      rw [if_neg (fun h => hb ((and_BIT_ne_zero_iff_mod finished f).1 h)), hcount, e, ih]

theorem tef_release_tail (L : Layout) (replies : List spi_reply) (j : Nat) :
    tef_release L replies.tail.tail j = tef_release L replies (j + 1) := by
  unfold tef_release
  rw [spi_data_tail, spi_data_tail]
  have e : 2 * j + 1 + 1 = 2 * (j + 1) := by omega
  rw [e]

theorem tefif_fifo_times_ok (L : Layout) : ∀ (k : Nat) (c : mcp25xxfd_can_priv),
    (∀ i, i < 2 * k → spi_ret c.spi_replies i = 0) →
    (tefif_fifo_times L k c).1 = 0 ∧
    (tefif_fifo_times L k c).2.tx_queue = c.tx_queue ∧
    (tefif_fifo_times L k c).2.spi_replies = c.spi_replies.drop (2 * k) ∧
    (tefif_fifo_times L k c).2.queued_frames =
      c.queued_frames ++ (List.range k).map (tef_release L c.spi_replies) ∧
    ∃ t, (tefif_fifo_times L k c).2.trace = c.trace ++ t ∧
      t.countP Event.is_record_read = k ∧ t.countP Event.is_release = k ∧
      t.countP Event.is_ack = k := by
  intro k
  induction k with
  | zero =>
    intro c _
    refine ⟨rfl, rfl, rfl, ?_, [], ?_, rfl, rfl, rfl⟩
    · show c.queued_frames = c.queued_frames ++ []
      rw [List.append_nil]
    · show c.trace = c.trace ++ []
      rw [List.append_nil]
  | succ k ih =>
    intro c h
    have h0 : spi_ret c.spi_replies 0 = 0 := h 0 (by omega)
    have h1 : spi_ret c.spi_replies 1 = 0 := h 1 (by omega)
    have hrest : ∀ i, i < 2 * k → spi_ret (tefif_fifo_done L c).spi_replies i = 0 := by
      intro i hi
      show spi_ret c.spi_replies.tail.tail i = 0
      rw [spi_ret_tail, spi_ret_tail]
      exact h (i + 1 + 1) (by omega)
    obtain ⟨r1, r2, r3, r4, t, r5, r6, r7, r8⟩ := ih (tefif_fifo_done L c) hrest
    have hstep : tefif_fifo_times L (k + 1) c = tefif_fifo_times L k (tefif_fifo_done L c) := by
      rw [tefif_fifo_times_succ, tefif_fifo_ok L c h0]
      show (if spi_ret c.spi_replies 1 ≠ 0 then _ else _) = _
      rw [if_neg (not_not.mpr h1)]
    rw [hstep]
    obtain ⟨e1, e2, e3, _⟩ := tefif_fifo_events_counts L c
    refine ⟨r1, r2, ?_, ?_, tefif_fifo_events L c ++ t, ?_, ?_, ?_, ?_⟩
    · rw [r3]
      show c.spi_replies.tail.tail.drop (2 * k) = _
      rw [← List.drop_one, ← List.drop_one, List.drop_drop, List.drop_drop]
      congr 1
      omega
    · have hmap : (List.range (k + 1)).map (tef_release L c.spi_replies) =
          tef_release L c.spi_replies 0 ::
            (List.range k).map (tef_release L c.spi_replies.tail.tail) := by
        rw [List.range_succ_eq_map, List.map_cons, List.map_map]
        congr 1
        apply List.map_congr_left
        intro j _
        exact (tef_release_tail L c.spi_replies j).symm
      rw [r4, hmap]
      show (c.queued_frames ++ [tef_release L c.spi_replies 0]) ++
        (List.range k).map (tef_release L c.spi_replies.tail.tail) = _
      rw [List.append_assoc]
      rfl
    · rw [r5]
      show (c.trace ++ tefif_fifo_events L c) ++ t = _
      rw [List.append_assoc]
    · rw [List.countP_append, e1, r6, Nat.add_comm]
    · rw [List.countP_append, e2, r7, Nat.add_comm]
    · rw [List.countP_append, e3, r8, Nat.add_comm]

theorem tefif_fifo_times_split (L : Layout) : ∀ (j m : Nat) (c : mcp25xxfd_can_priv),
    tefif_fifo_times L (j + m) c =
      if (tefif_fifo_times L j c).1 ≠ 0 then tefif_fifo_times L j c
      else tefif_fifo_times L m (tefif_fifo_times L j c).2 := by
  intro j
  induction j with
  | zero =>
    intro m c
    rw [Nat.zero_add]
    show _ = if (0 : Int) ≠ 0 then _ else _
    rw [if_neg (by decide)]
    rfl
  | succ j ih =>
    intro m c
    have e : j + 1 + m = (j + m) + 1 := by omega
    rw [e, tefif_fifo_times_succ, tefif_fifo_times_succ]
    by_cases hr : (mcp25xxfd_can_tx_handle_int_tefif_fifo L c).1 ≠ 0
    · rw [if_pos hr, if_pos hr, if_pos hr]
    · rw [if_neg hr, if_neg hr]
      exact ih m _

theorem spi_data_drop (l : List spi_reply) (m i : Nat) :
    spi_data (l.drop m) i = spi_data l (m + i) := by
  unfold spi_data
  rw [List.getD_eq_getElem?_getD, List.getD_eq_getElem?_getD, List.getElem?_drop]

theorem tefif_fifo_times_failed (L : Layout) (k j : Nat) (c : mcp25xxfd_can_priv) (e : Int)
    (hj : j < k) (he : e ≠ 0)
    (hprev : ∀ i, i < 2 * j → spi_ret c.spi_replies i = 0)
    (hfail : spi_ret c.spi_replies (2 * j) = e ∨
      (spi_ret c.spi_replies (2 * j) = 0 ∧ spi_ret c.spi_replies (2 * j + 1) = e)) :
    (tefif_fifo_times L k c).1 = e ∧
    (tefif_fifo_times L k c).2.tx_queue = c.tx_queue ∧
    (tefif_fifo_times L k c).2.queued_frames =
      c.queued_frames ++
        (List.range (if spi_ret c.spi_replies (2 * j) = 0 then j + 1 else j)).map
          (tef_release L c.spi_replies) ∧
    (tefif_fifo_times L k c).2.spi_replies =
      c.spi_replies.drop (if spi_ret c.spi_replies (2 * j) = 0 then 2 * j + 2 else 2 * j + 1) ∧
    ∃ t, (tefif_fifo_times L k c).2.trace = c.trace ++ t ∧
      t.countP Event.is_record_read = j + 1 ∧
      t.countP Event.is_release = (if spi_ret c.spi_replies (2 * j) = 0 then j + 1 else j) := by
  obtain ⟨r1, r2, r3, r4, t, r5, r6, r7, _⟩ := tefif_fifo_times_ok L j c hprev
  have hk : k = j + ((k - j - 1) + 1) := by omega
  have hsplit : tefif_fifo_times L k c =
      if (mcp25xxfd_can_tx_handle_int_tefif_fifo L (tefif_fifo_times L j c).2).1 ≠ 0 then
        mcp25xxfd_can_tx_handle_int_tefif_fifo L (tefif_fifo_times L j c).2
      else tefif_fifo_times L (k - j - 1)
        (mcp25xxfd_can_tx_handle_int_tefif_fifo L (tefif_fifo_times L j c).2).2 := by
    rw [hk, tefif_fifo_times_split, if_neg (not_not.mpr r1), tefif_fifo_times_succ]
    have hk2 : j + (k - j - 1 + 1) - j - 1 = k - j - 1 := by omega
    rw [hk2]
  have hs0 : spi_ret (tefif_fifo_times L j c).2.spi_replies 0 = spi_ret c.spi_replies (2 * j) := by
    rw [r3, spi_ret_drop]
    rfl
  have hs1 : spi_ret (tefif_fifo_times L j c).2.spi_replies 1 =
      spi_ret c.spi_replies (2 * j + 1) := by
    rw [r3, spi_ret_drop]
  have hd0 : spi_data (tefif_fifo_times L j c).2.spi_replies 0 =
      spi_data c.spi_replies (2 * j) := by
    rw [r3, spi_data_drop]
    rfl
  rcases hfail with hf | ⟨hf0, hf1⟩
  · have hne : spi_ret c.spi_replies (2 * j) ≠ 0 := by rw [hf]; exact he
    have hne2 : spi_ret (tefif_fifo_times L j c).2.spi_replies 0 ≠ 0 := by rw [hs0]; exact hne
    rw [hsplit, tefif_fifo_read_failed L _ hne2]
    have hret : spi_ret (tefif_fifo_times L j c).2.spi_replies 0 ≠ 0 := hne2
    rw [if_pos hret, if_neg hne, if_neg hne]
    refine ⟨by rw [hs0, hf], r2, r4, ?_, t ++ [Event.cmd_read_regs
      (L.SRAM_ADDR (tef_offset (tefif_fifo_times L j c).2)) sizeof_can_obj_tef
      (spi_ret (tefif_fifo_times L j c).2.spi_replies 0)], ?_, ?_, ?_⟩
    · show (tefif_fifo_times L j c).2.spi_replies.tail = _
      rw [r3, ← List.drop_one, List.drop_drop]
    · show (tefif_fifo_times L j c).2.trace ++ _ = _
      rw [r5, List.append_assoc]
    · rw [List.countP_append, r6]
      rfl
    · rw [List.countP_append, r7]
      rfl
  · have h0 : spi_ret (tefif_fifo_times L j c).2.spi_replies 0 = 0 := by rw [hs0]; exact hf0
    have hne1 : spi_ret (tefif_fifo_times L j c).2.spi_replies 1 ≠ 0 := by
      rw [hs1, hf1]; exact he
    rw [hsplit, tefif_fifo_ok L _ h0]
    have hret : spi_ret (tefif_fifo_times L j c).2.spi_replies 1 ≠ 0 := hne1
    rw [if_pos hret, if_pos hf0, if_pos hf0]
    obtain ⟨e1, e2, _, _⟩ := tefif_fifo_events_counts L (tefif_fifo_times L j c).2
    refine ⟨by rw [hs1, hf1], r2, ?_, ?_,
      t ++ tefif_fifo_events L (tefif_fifo_times L j c).2, ?_, ?_, ?_⟩
    · show (tefif_fifo_times L j c).2.queued_frames ++
        [(tef_fifo L (spi_data (tefif_fifo_times L j c).2.spi_replies 0),
          (tef_record (spi_data (tefif_fifo_times L j c).2.spi_replies 0)).ts, false)] = _
      rw [r4, hd0, List.range_succ, List.map_append, List.append_assoc]
      rfl
    · show (tefif_fifo_times L j c).2.spi_replies.tail.tail = _
      rw [r3, ← List.drop_one, ← List.drop_one, List.drop_drop, List.drop_drop]
    · show (tefif_fifo_times L j c).2.trace ++ _ = _
      rw [r5, List.append_assoc]
    · rw [List.countP_append, r6, e1]
    · rw [List.countP_append, r7, e2]

/-- C33: for every finished mask (a 32 bit word), with K the number of bits of
finished inside the slot range tx.start .. tx.start + tx.count - 1 (the bit of
slot f being the one BIT(f) tests, which is bit f for every slot below 64, as
the last part states): when the
first 2 K bus operations succeed, mcp25xxfd_can_tx_handle_int_tefif_optimized
returns 0 after exactly K record reads, K hand-overs to the release path and K
acknowledge writes, and the slot handed over for the j-th record is the one
named by the sequence field of that record, whatever mask bit the loop was at;
the five bitmasks are not touched.  When the first j < K events succeed and the
next one fails with error e, in its record read or in its acknowledge write,
the function returns e and exactly j + 1 records were read: no further event is
processed. -/
theorem C33_optimized_event_count (L : Layout) (cpriv : mcp25xxfd_can_priv) (finished : Nat)
    (hfin : finished < 2 ^ 32) :
    ((∀ i, i < 2 * finished_count finished cpriv.tx_count cpriv.tx_start →
        spi_ret cpriv.spi_replies i = 0) →
      (mcp25xxfd_can_tx_handle_int_tefif_optimized L cpriv finished).1 = 0 ∧
      (mcp25xxfd_can_tx_handle_int_tefif_optimized L cpriv finished).2.tx_queue =
        cpriv.tx_queue ∧
      (mcp25xxfd_can_tx_handle_int_tefif_optimized L cpriv finished).2.spi_replies =
        cpriv.spi_replies.drop (2 * finished_count finished cpriv.tx_count cpriv.tx_start) ∧
      (mcp25xxfd_can_tx_handle_int_tefif_optimized L cpriv finished).2.queued_frames =
        cpriv.queued_frames ++
          (List.range (finished_count finished cpriv.tx_count cpriv.tx_start)).map
            (tef_release L cpriv.spi_replies) ∧
      ∃ t, (mcp25xxfd_can_tx_handle_int_tefif_optimized L cpriv finished).2.trace =
          cpriv.trace ++ t ∧
        t.countP Event.is_record_read =
          finished_count finished cpriv.tx_count cpriv.tx_start ∧
        t.countP Event.is_release = finished_count finished cpriv.tx_count cpriv.tx_start ∧
        t.countP Event.is_ack = finished_count finished cpriv.tx_count cpriv.tx_start) ∧
    (∀ (j : Nat) (e : Int), j < finished_count finished cpriv.tx_count cpriv.tx_start →
      e ≠ 0 → (∀ i, i < 2 * j → spi_ret cpriv.spi_replies i = 0) →
      (spi_ret cpriv.spi_replies (2 * j) = e ∨
        (spi_ret cpriv.spi_replies (2 * j) = 0 ∧ spi_ret cpriv.spi_replies (2 * j + 1) = e)) →
      (mcp25xxfd_can_tx_handle_int_tefif_optimized L cpriv finished).1 = e ∧
      (mcp25xxfd_can_tx_handle_int_tefif_optimized L cpriv finished).2.tx_queue =
        cpriv.tx_queue ∧
      (mcp25xxfd_can_tx_handle_int_tefif_optimized L cpriv finished).2.queued_frames =
        cpriv.queued_frames ++
          (List.range (if spi_ret cpriv.spi_replies (2 * j) = 0 then j + 1 else j)).map
            (tef_release L cpriv.spi_replies) ∧
      (mcp25xxfd_can_tx_handle_int_tefif_optimized L cpriv finished).2.spi_replies =
        cpriv.spi_replies.drop
          (if spi_ret cpriv.spi_replies (2 * j) = 0 then 2 * j + 2 else 2 * j + 1) ∧
      ∃ t, (mcp25xxfd_can_tx_handle_int_tefif_optimized L cpriv finished).2.trace =
          cpriv.trace ++ t ∧
        t.countP Event.is_record_read = j + 1 ∧
        t.countP Event.is_release =
          (if spi_ret cpriv.spi_replies (2 * j) = 0 then j + 1 else j)) ∧
    (cpriv.tx_start + cpriv.tx_count ≤ 64 →
      finished_count finished cpriv.tx_count cpriv.tx_start =
        (List.range cpriv.tx_count).countP
          (fun i => finished.testBit (cpriv.tx_start + i))) := by
  have heq : mcp25xxfd_can_tx_handle_int_tefif_optimized L cpriv finished =
      tefif_fifo_times L (finished_count finished cpriv.tx_count cpriv.tx_start) cpriv :=
    optimized_loop_times L finished hfin cpriv.tx_count cpriv.tx_start cpriv
  rw [heq]
  refine ⟨fun hok => tefif_fifo_times_ok L _ cpriv hok, ?_,
    finished_count_range finished cpriv.tx_count cpriv.tx_start⟩
  intro j e hj he hprev hfail
  exact tefif_fifo_times_failed L _ j cpriv e hj he hprev hfail

/-- Instance of C33: both slots of the example are finished and the device
holds the record of slot 1 before the record of slot 0; the loop, at mask bit 0
and then at mask bit 1, hands over slot 1 and then slot 0.  With bit 7, outside
the slot range, set as well, the same two events are processed. -/
theorem C33_optimized_event_count_witness :
    (131 : Nat) < 2 ^ 32 ∧
    finished_count 131 example_two_events.tx_count example_two_events.tx_start = 2 ∧
    (mcp25xxfd_can_tx_handle_int_tefif_optimized example_layout example_two_events 131).1 = 0 ∧
    (mcp25xxfd_can_tx_handle_int_tefif_optimized example_layout
      example_two_events 131).2.queued_frames = [(1, 40, false), (0, 41, false)] :=
  have h := (C33_optimized_event_count example_layout example_two_events 131 (by decide)).1
    (by decide)
  ⟨by decide, by decide, h.1, h.2.2.2.1.trans (by decide)⟩

/-! ## Flag word of a classic frame -/

theorem example_flags_layout : flags_layout example_layout := by
  refine ⟨by decide, by decide, by decide, by decide, by decide, by decide, by decide,
    by decide, by decide, ?_, ?_⟩
  · decide
  · intro can_id
    refine ⟨Nat.zero_and _, fun h => absurd (Nat.zero_and _) h, fun h => absurd (Nat.zero_and _) h⟩

theorem fill_fifo_flags (L : Layout) (frame : canfd_frame) (smsg : mcp25xxfd_tx_spi_message)
    (tx : mcp25xxfd_can_obj_tx) :
    (mcp25xxfd_can_tx_fill_fifo L frame smsg tx).2.2.flags =
      classic_flags L frame.can_id (min frame.len 8) smsg.fifo := by
  unfold mcp25xxfd_can_tx_fill_fifo mcp25xxfd_can_tx_fill_fifo_common classic_flags
  by_cases h : frame.len > 8
  · have e : min frame.len 8 = 8 := by omega
    simp only [h, if_true, e]
  · have e : min frame.len 8 = frame.len := by omega
    simp only [h, if_false, e]

theorem fill_fifo_frame (L : Layout) (frame : canfd_frame) (smsg : mcp25xxfd_tx_spi_message)
    (tx : mcp25xxfd_can_obj_tx) :
    (mcp25xxfd_can_tx_fill_fifo L frame smsg tx).1 = { frame with len := min frame.len 8 } := by
  unfold mcp25xxfd_can_tx_fill_fifo
  by_cases h : frame.len > 8
  · have e : min frame.len 8 = 8 := by omega
    simp only [h, if_true, e]
  · have e : min frame.len 8 = frame.len := by omega
    simp only [h, if_false, e]

theorem can_dlc2len_small (d : Nat) (h : d ≤ 8) : can_dlc2len d = d := by
  interval_cases d <;> rfl

theorem fill_fifo_data (L : Layout) (frame : canfd_frame) (smsg : mcp25xxfd_tx_spi_message)
    (tx : mcp25xxfd_can_obj_tx) :
    (mcp25xxfd_can_tx_fill_fifo L frame smsg tx).2.2.data =
      memcpy tx.data frame.data (min frame.len 8) := by
  unfold mcp25xxfd_can_tx_fill_fifo mcp25xxfd_can_tx_fill_fifo_common
  by_cases h : frame.len > 8
  · have e : min frame.len 8 = 8 := by omega
    simp only [h, if_true, e]
    rfl
  · have e : min frame.len 8 = frame.len := by omega
    simp only [h, if_false, e]
    rw [can_dlc2len_small _ (by omega)]

theorem and_zero_testBit (a m : Nat) (h : a &&& m = 0) (i : Nat) (hm : m.testBit i = true) :
    a.testBit i = false := by
  have := (eq_zero_iff_testBit _).1 h i
  rw [Nat.testBit_and, hm, Bool.and_true] at this
  exact this

theorem and_ne_zero_of_testBit (a m i : Nat) (ha : a.testBit i = true)
    (hm : m.testBit i = true) : a &&& m ≠ 0 := by
  intro h
  have := and_zero_testBit a m h i hm
  rw [ha] at this
  cases this

theorem exists_testBit_of_ne_zero (a : Nat) (h : a ≠ 0) : ∃ i, a.testBit i = true := by
  by_contra hn
  apply h
  rw [eq_zero_iff_testBit]
  intro j
  by_contra hj
  exact hn ⟨j, by simpa using hj⟩

theorem exists_testBit_of_and_ne_zero (a m : Nat) (h : a &&& m ≠ 0) :
    ∃ i, a.testBit i = true ∧ m.testBit i = true := by
  obtain ⟨i, hi⟩ := exists_testBit_of_ne_zero _ h
  rw [Nat.testBit_and] at hi
  exact ⟨i, by simpa using hi⟩

theorem testBit_fifteen (i : Nat) : (15 : Nat).testBit i = decide (i < 4) :=
  Nat.testBit_two_pow_sub_one 4 i

theorem testBit_dlc_mask (sh i : Nat) :
    ((15 : Nat) <<< sh).testBit i = (decide (sh ≤ i) && decide (i - sh < 4)) := by
  rw [Nat.testBit_shiftLeft, testBit_fifteen]

theorem testBit_dlc_shifted (dlc sh i : Nat) (hd : dlc < 16)
    (h : (dlc <<< sh).testBit i = true) : ((15 : Nat) <<< sh).testBit i = true := by
  rw [Nat.testBit_shiftLeft] at h
  rw [testBit_dlc_mask]
  have h1 : sh ≤ i := by
    by_contra hc
    have : decide (i ≥ sh) = false := by simpa using hc
    rw [this] at h
    simp at h
  have h2 : dlc.testBit (i - sh) = true := by
    have : decide (i ≥ sh) = true := by simpa using h1
    rw [this] at h
    simpa using h
  have h3 : i - sh < 4 := testBit_lt_of_lt_two_pow (by simpa using hd : dlc < 2 ^ 4) h2
  simp [h1, h3]

theorem classic_flags_testBit (L : Layout) (can_id dlc fifo i : Nat) :
    (classic_flags L can_id dlc fifo).testBit i =
      (decide (i < 32) &&
        ((L.can_id_to_mcp25xxfd can_id).2.testBit i ||
          (dlc <<< L.CAN_OBJ_FLAGS_DLC_SHIFT).testBit i ||
          (if can_id &&& CAN_EFF_FLAG ≠ 0 then L.CAN_OBJ_FLAGS_IDE else 0).testBit i ||
          (if can_id &&& CAN_RTR_FLAG ≠ 0 then L.CAN_OBJ_FLAGS_RTR else 0).testBit i ||
          (fifo <<< L.CAN_OBJ_FLAGS_SEQ_SHIFT).testBit i)) := by
  unfold classic_flags
  simp only [Nat.testBit_mod_two_pow, Nat.testBit_or]
  by_cases h : i < 32
  · simp [h]
  · simp [h]

theorem classic_flags_dlc (L : Layout) (can_id dlc fifo : Nat) (hL : flags_layout L)
    (hf : fifo < 32) (hd : dlc < 16) :
    (classic_flags L can_id dlc fifo &&& L.CAN_OBJ_FLAGS_DLC_MASK) >>>
      L.CAN_OBJ_FLAGS_DLC_SHIFT = dlc := by
  obtain ⟨hmask, hfit, _, _, _, _, hide, hrtr, _, hseq, hid⟩ := hL
  apply Nat.eq_of_testBit_eq
  intro i
  rw [Nat.testBit_shiftRight, Nat.testBit_and]
  by_cases hi : i < 4
  · have hm : L.CAN_OBJ_FLAGS_DLC_MASK.testBit (L.CAN_OBJ_FLAGS_DLC_SHIFT + i) = true := by
      rw [hmask, testBit_dlc_mask]
      have e : L.CAN_OBJ_FLAGS_DLC_SHIFT + i - L.CAN_OBJ_FLAGS_DLC_SHIFT = i := by omega
      simp [e, hi]
    have b1 := and_zero_testBit _ _ (hid can_id).1 _ hm
    have b3 : (if can_id &&& CAN_EFF_FLAG ≠ 0 then L.CAN_OBJ_FLAGS_IDE else 0).testBit
        (L.CAN_OBJ_FLAGS_DLC_SHIFT + i) = false := by
      split
      · exact and_zero_testBit _ _ hide _ hm
      · exact Nat.zero_testBit _
    have b4 : (if can_id &&& CAN_RTR_FLAG ≠ 0 then L.CAN_OBJ_FLAGS_RTR else 0).testBit
        (L.CAN_OBJ_FLAGS_DLC_SHIFT + i) = false := by
      split
      · exact and_zero_testBit _ _ hrtr _ hm
      · exact Nat.zero_testBit _
    have b5 := and_zero_testBit _ _ (hseq fifo hf).1 _ hm
    have b2 : (dlc <<< L.CAN_OBJ_FLAGS_DLC_SHIFT).testBit (L.CAN_OBJ_FLAGS_DLC_SHIFT + i) =
        dlc.testBit i := by
      rw [Nat.testBit_shiftLeft]
      have e : L.CAN_OBJ_FLAGS_DLC_SHIFT + i - L.CAN_OBJ_FLAGS_DLC_SHIFT = i := by omega
      simp [e]
    have h32 : L.CAN_OBJ_FLAGS_DLC_SHIFT + i < 32 := by omega
    rw [classic_flags_testBit, hm, b1, b2, b3, b4, b5]
    simp [h32]
  · have hm : L.CAN_OBJ_FLAGS_DLC_MASK.testBit (L.CAN_OBJ_FLAGS_DLC_SHIFT + i) = false := by
      rw [hmask, testBit_dlc_mask]
      have e : L.CAN_OBJ_FLAGS_DLC_SHIFT + i - L.CAN_OBJ_FLAGS_DLC_SHIFT = i := by omega
      simp [e, hi]
    rw [hm, Bool.and_false]
    by_contra hc
    have hb : dlc.testBit i = true := by
      cases hx : dlc.testBit i
      · rw [hx] at hc
        exact absurd rfl hc
      · rfl
    exact hi (testBit_lt_of_lt_two_pow (by simpa using hd : dlc < 2 ^ 4) hb)

theorem classic_flags_flag (L : Layout) (can_id dlc fifo flag other can_flag : Nat)
    (hmask : L.CAN_OBJ_FLAGS_DLC_MASK = 15 <<< L.CAN_OBJ_FLAGS_DLC_SHIFT)
    (hd : dlc < 16) (hne : flag ≠ 0) (hlt : flag < 2 ^ 32)
    (hdlc : flag &&& L.CAN_OBJ_FLAGS_DLC_MASK = 0)
    (hseq : (fifo <<< L.CAN_OBJ_FLAGS_SEQ_SHIFT) &&& flag = 0)
    (hid : (L.can_id_to_mcp25xxfd can_id).2 &&& flag ≠ 0 → can_id &&& can_flag ≠ 0)
    (hother : ∀ i, other.testBit i = true → flag.testBit i = false)
    (hbits : ∀ i, (classic_flags L can_id dlc fifo).testBit i =
      (decide (i < 32) &&
        ((L.can_id_to_mcp25xxfd can_id).2.testBit i ||
          (dlc <<< L.CAN_OBJ_FLAGS_DLC_SHIFT).testBit i ||
          (if can_id &&& can_flag ≠ 0 then flag else 0).testBit i ||
          other.testBit i ||
          (fifo <<< L.CAN_OBJ_FLAGS_SEQ_SHIFT).testBit i))) :
    classic_flags L can_id dlc fifo &&& flag ≠ 0 ↔ can_id &&& can_flag ≠ 0 := by
  constructor
  · intro h
    by_contra hn
    obtain ⟨i, hi, hfl⟩ := exists_testBit_of_and_ne_zero _ _ h
    rw [hbits i, if_neg (not_not.mpr hn), Nat.zero_testBit] at hi
    have c1 : (L.can_id_to_mcp25xxfd can_id).2.testBit i = false := by
      cases hx : (L.can_id_to_mcp25xxfd can_id).2.testBit i
      · rfl
      · exact absurd hn (hid (and_ne_zero_of_testBit _ _ i hx hfl))
    have c2 : (dlc <<< L.CAN_OBJ_FLAGS_DLC_SHIFT).testBit i = false := by
      cases hx : (dlc <<< L.CAN_OBJ_FLAGS_DLC_SHIFT).testBit i
      · rfl
      · have hm := testBit_dlc_shifted dlc _ i hd hx
        rw [← hmask] at hm
        have := and_zero_testBit _ _ hdlc i hm
        rw [hfl] at this
        cases this
    have c4 : other.testBit i = false := by
      cases hx : other.testBit i
      · rfl
      · have := hother i hx
        rw [hfl] at this
        cases this
    have c5 : (fifo <<< L.CAN_OBJ_FLAGS_SEQ_SHIFT).testBit i = false :=
      and_zero_testBit _ _ hseq i hfl
    rw [c1, c2, c4, c5] at hi
    simp at hi
  · intro h
    obtain ⟨i, hi⟩ := exists_testBit_of_ne_zero flag hne
    have h32 : i < 32 := testBit_lt_of_lt_two_pow hlt hi
    apply and_ne_zero_of_testBit _ _ i _ hi
    rw [hbits i, if_pos h, hi]
    simp [h32]

theorem classic_flags_ide (L : Layout) (can_id dlc fifo : Nat) (hL : flags_layout L)
    (hf : fifo < 32) (hd : dlc < 16) :
    classic_flags L can_id dlc fifo &&& L.CAN_OBJ_FLAGS_IDE ≠ 0 ↔
      can_id &&& CAN_EFF_FLAG ≠ 0 := by
  obtain ⟨hmask, _, hne, hlt, _, _, hide, _, hir, hseq, hid⟩ := hL
  apply classic_flags_flag L can_id dlc fifo L.CAN_OBJ_FLAGS_IDE
    (if can_id &&& CAN_RTR_FLAG ≠ 0 then L.CAN_OBJ_FLAGS_RTR else 0) CAN_EFF_FLAG hmask hd hne
    hlt hide (hseq fifo hf).2.1 (hid can_id).2.1
  · intro i hi
    split at hi
    · exact and_zero_testBit _ _ hir i hi
    · rw [Nat.zero_testBit] at hi
      cases hi
  · intro i
    exact classic_flags_testBit L can_id dlc fifo i

theorem classic_flags_rtr (L : Layout) (can_id dlc fifo : Nat) (hL : flags_layout L)
    (hf : fifo < 32) (hd : dlc < 16) :
    classic_flags L can_id dlc fifo &&& L.CAN_OBJ_FLAGS_RTR ≠ 0 ↔
      can_id &&& CAN_RTR_FLAG ≠ 0 := by
  obtain ⟨hmask, _, _, _, hne, hlt, _, hrtr, hir, hseq, hid⟩ := hL
  apply classic_flags_flag L can_id dlc fifo L.CAN_OBJ_FLAGS_RTR
    (if can_id &&& CAN_EFF_FLAG ≠ 0 then L.CAN_OBJ_FLAGS_IDE else 0) CAN_RTR_FLAG hmask hd hne
    hlt hrtr (hseq fifo hf).2.2 (hid can_id).2.2
  · intro i hi
    split at hi
    · cases hx : L.CAN_OBJ_FLAGS_RTR.testBit i
      · rfl
      · have := and_zero_testBit _ _ hir i hx
        rw [hi] at this
        cases this
    · rw [Nat.zero_testBit] at hi
      cases hi
  · intro i
    rw [classic_flags_testBit]
    cases (L.can_id_to_mcp25xxfd can_id).2.testBit i <;>
      cases (dlc <<< L.CAN_OBJ_FLAGS_DLC_SHIFT).testBit i <;>
      cases (if can_id &&& CAN_EFF_FLAG ≠ 0 then L.CAN_OBJ_FLAGS_IDE else 0).testBit i <;>
      cases (if can_id &&& CAN_RTR_FLAG ≠ 0 then L.CAN_OBJ_FLAGS_RTR else 0).testBit i <;>
      rfl

theorem memcpy_getD_ge (dst src : List Nat) (n i : Nat) (h : n ≤ i) :
    (memcpy dst src n).getD i 0 = dst.getD i 0 := by
  unfold memcpy
  rw [List.getD_eq_getElem?_getD, List.getD_eq_getElem?_getD,
    List.getElem?_append_right (by simp [h])]
  simp only [List.length_map, List.length_range, List.getElem?_drop]
  have e : n + (i - n) = i := by omega
  rw [e]

theorem zero_pad_untouched : ∀ (n : Nat) (header : List Nat) (len i : Nat),
    sizeof_can_obj_tx + len + (4 - len % 4) % 4 ≤ i →
    (fill_fifo_zero_pad n header len).1.getD i 0 = header.getD i 0 := by
  intro n
  induction n with
  | zero =>
    intro header len i _
    rfl
  | succ n ih =>
    intro header len i h
    unfold fill_fifo_zero_pad
    by_cases hp : len &&& 3 ≠ 0
    · rw [if_pos hp]
      rw [and_three_eq_mod] at hp
      rw [ih (header.set (sizeof_can_obj_tx + len) 0) (len + 1) i (by omega),
        getD_set_ne _ _ _ _ (by omega)]
    · rw [if_neg hp]

theorem fill_fifo_common_untouched (L : Layout) (smsg : mcp25xxfd_tx_spi_message)
    (tx : mcp25xxfd_can_obj_tx) (dlc : Nat) (data : List Nat) (i : Nat)
    (h : sizeof_can_obj_tx + can_dlc2len dlc + (4 - can_dlc2len dlc % 4) % 4 ≤ i) :
    (mcp25xxfd_can_tx_fill_fifo_common L smsg tx dlc data).1.fill_fifo_header.getD i 0 =
      smsg.fill_fifo_header.getD i 0 := by
  unfold mcp25xxfd_can_tx_fill_fifo_common
  dsimp only
  rw [zero_pad_untouched 3 _ _ i h, memcpy_getD_ge _ _ _ _ (by omega)]

theorem fill_fifo_common_xfer_len (L : Layout) (smsg : mcp25xxfd_tx_spi_message)
    (tx : mcp25xxfd_can_obj_tx) (dlc : Nat) (data : List Nat) :
    (mcp25xxfd_can_tx_fill_fifo_common L smsg tx dlc data).1.fill_fifo_xfer_len =
      L.sizeof_cmd + sizeof_can_obj_tx +
        (can_dlc2len dlc + (4 - can_dlc2len dlc % 4) % 4) := by
  unfold mcp25xxfd_can_tx_fill_fifo_common
  dsimp only
  rw [(zero_pad_spec 3 _ (can_dlc2len dlc) (by omega)).1]

theorem fill_fifo_message (L : Layout) (frame : canfd_frame) (smsg : mcp25xxfd_tx_spi_message)
    (tx : mcp25xxfd_can_obj_tx) :
    ∃ tx2, (mcp25xxfd_can_tx_fill_fifo L frame smsg tx).2.1 =
      (mcp25xxfd_can_tx_fill_fifo_common L smsg tx2 (min frame.len 8) frame.data).1 := by
  unfold mcp25xxfd_can_tx_fill_fifo
  by_cases h : frame.len > 8
  · have e : min frame.len 8 = 8 := by omega
    simp only [h, if_true, e]
    exact ⟨_, rfl⟩
  · have e : min frame.len 8 = frame.len := by omega
    simp only [h, if_false, e]
    exact ⟨_, rfl⟩

/-- C36: for every classic frame, serialised by mcp25xxfd_can_tx_fill_fifo into
a message of a slot below 32 under the flag layout of the device, the frame
comes back with can_dlc = min(can_dlc, 8) and is otherwise unchanged; the DLC
field of the slot flags holds min(can_dlc, 8); the payload kept in the slot
image is min(can_dlc, 8) bytes of the frame, the bytes behind them stay as they
were, the fill transfer carries at most 8 payload bytes and the fill buffer is
not written behind them; IDE is set in the slot flags exactly when the
extended flag is set in can_id, and RTR exactly when the remote flag is. -/
theorem C36_classic_length_clamp (L : Layout) (frame : canfd_frame)
    (smsg : mcp25xxfd_tx_spi_message) (tx : mcp25xxfd_can_obj_tx)
    (hL : flags_layout L) (hf : smsg.fifo < 32) :
    (mcp25xxfd_can_tx_fill_fifo L frame smsg tx).1 = { frame with len := min frame.len 8 } ∧
    ((mcp25xxfd_can_tx_fill_fifo L frame smsg tx).2.2.flags &&& L.CAN_OBJ_FLAGS_DLC_MASK) >>>
      L.CAN_OBJ_FLAGS_DLC_SHIFT = min frame.len 8 ∧
    (mcp25xxfd_can_tx_fill_fifo L frame smsg tx).2.2.data =
      memcpy tx.data frame.data (min frame.len 8) ∧
    (∀ i, i < min frame.len 8 →
      (mcp25xxfd_can_tx_fill_fifo L frame smsg tx).2.2.data.getD i 0 = frame.data.getD i 0) ∧
    (∀ i, min frame.len 8 ≤ i →
      (mcp25xxfd_can_tx_fill_fifo L frame smsg tx).2.2.data.getD i 0 = tx.data.getD i 0) ∧
    (mcp25xxfd_can_tx_fill_fifo L frame smsg tx).2.1.fill_fifo_xfer_len ≤
      L.sizeof_cmd + sizeof_can_obj_tx + 8 ∧
    (∀ i, sizeof_can_obj_tx + 8 ≤ i →
      (mcp25xxfd_can_tx_fill_fifo L frame smsg tx).2.1.fill_fifo_header.getD i 0 =
        smsg.fill_fifo_header.getD i 0) ∧
    ((mcp25xxfd_can_tx_fill_fifo L frame smsg tx).2.2.flags &&& L.CAN_OBJ_FLAGS_IDE ≠ 0 ↔
      frame.can_id &&& CAN_EFF_FLAG ≠ 0) ∧
    ((mcp25xxfd_can_tx_fill_fifo L frame smsg tx).2.2.flags &&& L.CAN_OBJ_FLAGS_RTR ≠ 0 ↔
      frame.can_id &&& CAN_RTR_FLAG ≠ 0) := by
  have hmin : min frame.len 8 ≤ 8 := by omega
  have hd : min frame.len 8 < 16 := by omega
  have hlen : can_dlc2len (min frame.len 8) = min frame.len 8 := can_dlc2len_small _ hmin
  obtain ⟨tx2, hmsg⟩ := fill_fifo_message L frame smsg tx
  rw [fill_fifo_flags, fill_fifo_data, hmsg]
  refine ⟨fill_fifo_frame L frame smsg tx, classic_flags_dlc L _ _ _ hL hf hd, rfl, ?_, ?_,
    ?_, ?_, classic_flags_ide L _ _ _ hL hf hd, classic_flags_rtr L _ _ _ hL hf hd⟩
  · intro i hi
    exact memcpy_getD_lt _ _ _ _ hi
  · intro i hi
    exact memcpy_getD_ge _ _ _ _ hi
  · rw [fill_fifo_common_xfer_len, hlen]
    omega
  · intro i hi
    apply fill_fifo_common_untouched
    rw [hlen]
    omega

/-- Instance of C36: a classic frame with an extended identifier and the
length code 11 is serialised for slot 1: the frame comes back with length code
8, the DLC field holds 8, eight bytes are copied over the stale payload, and
IDE is set while RTR is not. -/
theorem C36_classic_length_clamp_witness :
    (mcp25xxfd_can_tx_fill_fifo example_layout example_long_frame example_message
      example_stale_image).1.len = 8 ∧
    ((mcp25xxfd_can_tx_fill_fifo example_layout example_long_frame example_message
      example_stale_image).2.2.flags &&& example_layout.CAN_OBJ_FLAGS_DLC_MASK) >>>
      example_layout.CAN_OBJ_FLAGS_DLC_SHIFT = 8 ∧
    (mcp25xxfd_can_tx_fill_fifo example_layout example_long_frame example_message
      example_stale_image).2.2.data =
      [1, 2, 3, 4, 5, 6, 7, 8, 255, 255, 255, 255, 255, 255, 255, 255] ∧
    (mcp25xxfd_can_tx_fill_fifo example_layout example_long_frame example_message
      example_stale_image).2.2.flags &&& example_layout.CAN_OBJ_FLAGS_IDE ≠ 0 ∧
    ¬ ((mcp25xxfd_can_tx_fill_fifo example_layout example_long_frame example_message
      example_stale_image).2.2.flags &&& example_layout.CAN_OBJ_FLAGS_RTR ≠ 0) :=
  have h := C36_classic_length_clamp example_layout example_long_frame example_message
    example_stale_image example_flags_layout (by decide)
  ⟨(congrArg canfd_frame.len h.1).trans (by decide), h.2.1.trans (by decide),
    h.2.2.1.trans (by decide), h.2.2.2.2.2.2.2.1.2 (by decide),
    fun hr => absurd (h.2.2.2.2.2.2.2.2.1 hr) (by decide)⟩

/-! ## Release accounting -/

/-- C35: for every slot f below 32 (with in_can_transfer and transferred 32 bit
words), mcp25xxfd_can_tx_submit_frame returns 0, adds 1 to tx_packets, adds to
tx_bytes the can_dlc2len of the DLC field of the flags kept in the slot image
of f, leaves f clear in in_can_transfer and set in transferred and leaves every
other bit of the five bitmasks as it was.  When the slot image of f is what
mcp25xxfd_can_tx_fill_fifo made of a classic frame with can_dlc at most 8
(under the flag layout of the device), tx_bytes grows by the can_dlc of that
frame.  Both counters are unsigned long: the additions are modulo 2^64, and
exact when the sum stays below 2^64. -/
theorem C35_release_accounting (L : Layout) (cpriv : mcp25xxfd_can_priv) (f : Nat)
    (hf : f < 32) (hcan : cpriv.tx_queue.in_can_transfer < 2 ^ 32)
    (htr : cpriv.tx_queue.transferred < 2 ^ 32) :
    (mcp25xxfd_can_tx_submit_frame L cpriv f).1 = 0 ∧
    (mcp25xxfd_can_tx_submit_frame L cpriv f).2.stats_tx_packets =
      (cpriv.stats_tx_packets + 1) % 2 ^ 64 ∧
    (cpriv.stats_tx_packets + 1 < 2 ^ 64 →
      (mcp25xxfd_can_tx_submit_frame L cpriv f).2.stats_tx_packets =
        cpriv.stats_tx_packets + 1) ∧
    (mcp25xxfd_can_tx_submit_frame L cpriv f).2.stats_tx_bytes =
      (cpriv.stats_tx_bytes +
        can_dlc2len (((slot_map_get cpriv.sram_tx (cpriv.info_offset.getD f 0)).flags &&&
          L.CAN_OBJ_FLAGS_DLC_MASK) >>> L.CAN_OBJ_FLAGS_DLC_SHIFT)) % 2 ^ 64 ∧
    (mcp25xxfd_can_tx_submit_frame L cpriv f).2.tx_queue.in_can_transfer.testBit f = false ∧
    (mcp25xxfd_can_tx_submit_frame L cpriv f).2.tx_queue.transferred.testBit f = true ∧
    (∀ j, j ≠ f →
      (mcp25xxfd_can_tx_submit_frame L cpriv f).2.tx_queue.in_can_transfer.testBit j =
        cpriv.tx_queue.in_can_transfer.testBit j ∧
      (mcp25xxfd_can_tx_submit_frame L cpriv f).2.tx_queue.transferred.testBit j =
        cpriv.tx_queue.transferred.testBit j) ∧
    (mcp25xxfd_can_tx_submit_frame L cpriv f).2.tx_queue.idle = cpriv.tx_queue.idle ∧
    (mcp25xxfd_can_tx_submit_frame L cpriv f).2.tx_queue.in_fill_fifo_transfer =
      cpriv.tx_queue.in_fill_fifo_transfer ∧
    (mcp25xxfd_can_tx_submit_frame L cpriv f).2.tx_queue.in_trigger_fifo_transfer =
      cpriv.tx_queue.in_trigger_fifo_transfer ∧
    (∀ (frame : canfd_frame) (smsg : mcp25xxfd_tx_spi_message) (tx : mcp25xxfd_can_obj_tx),
      flags_layout L → smsg.fifo = f → frame.len ≤ 8 →
      slot_map_get cpriv.sram_tx (cpriv.info_offset.getD f 0) =
        (mcp25xxfd_can_tx_fill_fifo L frame smsg tx).2.2 →
      (mcp25xxfd_can_tx_submit_frame L cpriv f).2.stats_tx_bytes =
        (cpriv.stats_tx_bytes + frame.len) % 2 ^ 64 ∧
      (cpriv.stats_tx_bytes + frame.len < 2 ^ 64 →
        (mcp25xxfd_can_tx_submit_frame L cpriv f).2.stats_tx_bytes =
          cpriv.stats_tx_bytes + frame.len)) := by
  obtain ⟨m1, m2, m3⟩ := move_spi_message_bits cpriv.tx_queue.in_can_transfer
    cpriv.tx_queue.transferred f hcan htr hf
  refine ⟨rfl, rfl, fun h => Nat.mod_eq_of_lt h, rfl, m1, m2, m3, rfl, rfl, rfl, ?_⟩
  intro frame smsg tx hL hs hlen himg
  have hmin : min frame.len 8 = frame.len := by omega
  have hbytes : (mcp25xxfd_can_tx_submit_frame L cpriv f).2.stats_tx_bytes =
      (cpriv.stats_tx_bytes + frame.len) % 2 ^ 64 := by
    show (cpriv.stats_tx_bytes +
      can_dlc2len (((slot_map_get cpriv.sram_tx (cpriv.info_offset.getD f 0)).flags &&&
        L.CAN_OBJ_FLAGS_DLC_MASK) >>> L.CAN_OBJ_FLAGS_DLC_SHIFT)) % 2 ^ 64 = _
    rw [himg, fill_fifo_flags, classic_flags_dlc L _ _ _ hL (by rw [hs]; exact hf) (by omega),
      hmin, can_dlc2len_small _ hlen]
  exact ⟨hbytes, fun h => hbytes.trans (Nat.mod_eq_of_lt h)⟩

/-- Instance of C35: slot 0 of the example carries the frame with three payload
bytes that was submitted first; its release counts one packet and three
bytes and moves slot 0, and only slot 0, to transferred. -/
theorem C35_release_accounting_witness :
    (mcp25xxfd_can_tx_submit_frame example_layout example_in_flight 0).1 = 0 ∧
    (mcp25xxfd_can_tx_submit_frame example_layout example_in_flight 0).2.stats_tx_packets =
      example_in_flight.stats_tx_packets + 1 ∧
    (mcp25xxfd_can_tx_submit_frame example_layout example_in_flight 0).2.stats_tx_bytes =
      example_in_flight.stats_tx_bytes + 3 ∧
    (mcp25xxfd_can_tx_submit_frame example_layout
      example_in_flight 0).2.tx_queue.in_can_transfer.testBit 0 = false ∧
    (mcp25xxfd_can_tx_submit_frame example_layout
      example_in_flight 0).2.tx_queue.transferred.testBit 0 = true ∧
    (mcp25xxfd_can_tx_submit_frame example_layout
      example_in_flight 0).2.tx_queue.in_can_transfer.testBit 1 = true :=
  have h := C35_release_accounting example_layout example_in_flight 0
    (by decide) (by decide) (by decide)
  ⟨h.1, h.2.2.1 (by decide),
    (h.2.2.2.2.2.2.2.2.2.2 (example_skb 5 [1, 2, 3]).data (msg_at example_two_idle.tx_queue 0)
      default example_flags_layout (by decide) (by decide) (by decide)).2 (by decide),
    h.2.2.2.2.1, h.2.2.2.2.2.1, ((h.2.2.2.2.2.2.1 1 (by decide)).1).trans (by decide)⟩

end Mcp25xxfd
